import Mathlib

/-!
# The JavaScript generator of the Thrift compiler

A shallow embedding of `compiler/cpp/src/thrift/generate/t_js_generator.cc`.

* The type graph handed over by the parser (`t_type`, `t_field`, `t_struct`,
  `t_const_value`) is a family of inductive types.  A struct type is a reference
  (defining program, name, exception flag); its member list is looked up in the
  generator's type graph, as the C++ pointer would be followed.
* The generator object is the structure `t_js_generator`; its mutable part
  (indentation level, counter of temporaries) is `GenState`.
* Every member function that writes to an `ostream& out` is a computation
  `Gen α`: it returns the lines appended to the stream, the new state and
  either a value or the message of the exception thrown.
* The emitted JavaScript is kept line by line as values of `Js`, one
  constructor per output statement of the source; `Js.text` gives the text.
-/

namespace ThriftJs

set_option linter.unusedVariables false
set_option linter.unusedTactic false
set_option linter.unreachableTactic false

/-! ## The type graph -/

/-- Modelled from the spec: the tags of `t_base_type::t_base` (declared in
`t_base_type.h`), restricted to the base types of the data model: void, string
(binary is a flag on it), bool, the four integer widths and double. -/
inductive t_base
  | TYPE_VOID
  | TYPE_STRING
  | TYPE_BOOL
  | TYPE_I8
  | TYPE_I16
  | TYPE_I32
  | TYPE_I64
  | TYPE_DOUBLE
  deriving DecidableEq, Repr

/-- Modelled from the spec: `t_base_type::t_base_name`, the IDL spelling of a
base type, used in error messages only. -/
def t_base.t_base_name : t_base → String
  | .TYPE_VOID => "void"
  | .TYPE_STRING => "string"
  | .TYPE_BOOL => "bool"
  | .TYPE_I8 => "i8"
  | .TYPE_I16 => "i16"
  | .TYPE_I32 => "i32"
  | .TYPE_I64 => "i64"
  | .TYPE_DOUBLE => "double"

/-- A compilation unit, as far as the generator reads it: its name and the
namespace it declares for `js` (the empty string when it declares none). -/
structure t_program where
  name : String
  namespace_js : String
  deriving DecidableEq, Repr

/-- A type node.  `base` carries the binary flag of a string type; `struct`
covers structs and exceptions (`xception`), named within their program. -/
inductive t_type
  | base (tbase : t_base) (binary : Bool)
  | enum (program : t_program) (name : String)
  | struct (program : t_program) (name : String) (xception : Bool)
  | typedef (name : String) (type : t_type)
  | list (elem : t_type)
  | set (elem : t_type)
  | map (key : t_type) (val : t_type)
  deriving DecidableEq, Repr

namespace t_type

/-- Resolution of typedef chains (`t_type::get_true_type`). -/
def get_true_type : t_type → t_type
  | typedef _ t => get_true_type t
  | t => t

def is_typedef : t_type → Bool
  | typedef _ _ => true
  | _ => false

def is_base_type : t_type → Bool
  | base _ _ => true
  | _ => false

/-- The tag of a base type (`t_base_type::get_base`). -/
def get_base : t_type → Option t_base
  | base b _ => some b
  | _ => none

def is_void : t_type → Bool
  | base .TYPE_VOID _ => true
  | _ => false

def is_binary : t_type → Bool
  | base .TYPE_STRING b => b
  | _ => false

def is_enum : t_type → Bool
  | enum _ _ => true
  | _ => false

def is_struct : t_type → Bool
  | struct _ _ x => !x
  | _ => false

def is_xception : t_type → Bool
  | struct _ _ x => x
  | _ => false

def is_map : t_type → Bool
  | map _ _ => true
  | _ => false

def is_set : t_type → Bool
  | set _ => true
  | _ => false

def is_list : t_type → Bool
  | list _ => true
  | _ => false

def is_container (t : t_type) : Bool :=
  t.is_map || t.is_set || t.is_list

/-- The name a type answers to `get_name()`. -/
def get_name : t_type → String
  | base b _ => b.t_base_name
  | enum _ n => n
  | struct _ n _ => n
  | typedef n _ => n
  | list _ => "list"
  | set _ => "set"
  | map _ _ => "map"

end t_type

/-- The global `g_type_string`. -/
def g_type_string : t_type := .base .TYPE_STRING false

/-- The global `g_type_i32`. -/
def g_type_i32 : t_type := .base .TYPE_I32 false

/-- Modelled from the spec: a constant value as the parser leaves it
(`t_const_value`, declared in `t_const_value.h`): an integer, a floating-point
literal (kept as the text `emit_double_as_string` prints for it), a string, a
list, or a mapping in iteration order. -/
inductive t_const_value
  | CV_INTEGER (i : Int)
  | CV_DOUBLE (text : String)
  | CV_STRING (s : String)
  | CV_MAP (m : List (t_const_value × t_const_value))
  | CV_LIST (l : List t_const_value)
  deriving Repr

namespace t_const_value

/-- Modelled from the spec: `get_integer()`; a value of another shape holds the
integer 0. -/
def get_integer : t_const_value → Int
  | CV_INTEGER i => i
  | _ => 0

/-- Modelled from the spec: `get_string()`; a value of another shape holds the
empty string. -/
def get_string : t_const_value → String
  | CV_STRING s => s
  | _ => ""

/-- The test `get_type() == CV_INTEGER`. -/
def is_integer : t_const_value → Bool
  | CV_INTEGER _ => true
  | _ => false

/-- Modelled from the spec: `emit_double_as_string(get_double())`, the printed
form of the floating-point value; a value of another shape holds 0. -/
def emit_double_as_string : t_const_value → String
  | CV_DOUBLE text => text
  | _ => "0"

end t_const_value

/-- Requiredness of a field (`t_field::e_req`); `T_REQUIRED` is the value 0. -/
inductive e_req
  | T_REQUIRED
  | T_OPTIONAL
  | T_OPT_IN_REQ_OUT
  deriving DecidableEq, Repr

/-- A field: type, name, numeric id (`get_key`), requiredness and the optional
default value. -/
structure t_field where
  type : t_type
  name : String
  key : Int := 0
  req : e_req := .T_OPT_IN_REQ_OUT
  value : Option t_const_value := none
  deriving Repr

/-- A struct or exception definition; `doc` is the documentation text of the
`t_doc` base, when there is one. -/
structure t_struct where
  program : t_program
  name : String
  members : List t_field
  is_xception : Bool := false
  doc : Option String := none
  deriving Repr

/-- Modelled from the spec: `t_struct::append` (declared in `t_struct.h`), which
adds a field at the end of the member list. -/
def t_struct.append (tstruct : t_struct) (elem : t_field) : t_struct :=
  { tstruct with members := tstruct.members ++ [elem] }

/-- A service function, as far as the generator reads it: return type, name,
argument list, throws list, the oneway flag and the documentation text. -/
structure t_function where
  returntype : t_type
  name : String
  arglist : t_struct
  xceptions : t_struct
  oneway : Bool := false
  doc : Option String := none
  deriving Repr

/-- A service: program, name, functions and documentation text; `extends_`
holds the program and the name of the parent service, which is all the
generator reads of it. -/
structure t_service where
  program : t_program
  name : String
  functions : List t_function
  extends_ : Option (t_program × String) := none
  doc : Option String := none
  deriving Repr

/-- A constant definition: type, name, value and documentation text. -/
structure t_const where
  type : t_type
  name : String
  value : t_const_value
  doc : Option String := none
  deriving Repr

/-- An enumeration: program, name, the constants in declaration order, each
with its name and value, and documentation text. -/
structure t_enum where
  program : t_program
  name : String
  constants : List (String × Int)
  doc : Option String := none
  deriving Repr

/-! ## Emitted JavaScript -/

/-- The suffix X of the protocol primitives `readX` and `writeX`. -/
inductive Prim
  | binary
  | string
  | bool
  | byte
  | i16
  | i32
  | i64
  | double
  deriving DecidableEq, Repr

def Prim.name : Prim → String
  | .binary => "Binary"
  | .string => "String"
  | .bool => "Bool"
  | .byte => "Byte"
  | .i16 => "I16"
  | .i32 => "I32"
  | .i64 => "I64"
  | .double => "Double"

/-- The container kind K of the markers `readKBegin`, `writeKEnd` and so on. -/
inductive Kind
  | map
  | set
  | list
  deriving DecidableEq, Repr

def Kind.name : Kind → String
  | .map => "Map"
  | .set => "Set"
  | .list => "List"

/-- Largest consecutive integer representable by a double (2 ^ 53 - 1). -/
def max_safe_integer : Int := 0x1fffffffffffff

/-- Smallest consecutive number representable by a double (-2 ^ 53 + 1). -/
def min_safe_integer : Int := -max_safe_integer

/-- Decimal rendering of a signed integer, as `ostream << int64_t` prints it. -/
def decimal (i : Int) : String :=
  if i < 0 then "-" ++ Nat.repr i.natAbs else Nat.repr i.toNat

/-- Hexadecimal rendering of a 64-bit signed integer under `std::hex`: the
digits of its two-complement bit pattern, lower case, no sign and no base mark. -/
def hex64 (i : Int) : String :=
  String.mk (Nat.toDigits 16 (i % 2 ^ 64).toNat)

/-- The content of a statement of the service code laid out by kind: the number
of its constructor and its fields, sorted by type. -/
structure StmtCode where
  tag : Nat
  strs : List String
  ints : List Int
  bools : List Bool
  deriving DecidableEq, Repr

/-- One output statement of `generate_service_processor` and
`generate_process_function`, apart from the braces shared with `Js`. -/
inductive ProcessorJs
  -- generate_service_processor
  | head (lhs : String) (rhs : String)
  | constructor_handler
  | super_handler
  | set_handler
  | processor_inherits (child : String) (parent : String)
  | process_head (es6 : Bool) (qname : String)
  | process_dispatch (decl : String)
  | export_as (esm : Bool) (var : String)
  -- generate_process_function
  | process_function_head (es6 : Bool) (qname : String) (fname : String)
  | process_read_args (decl : String) (argsname : String)
  | handler_call_oneway (fname : String) (args : String)
  | if_handler_length (fname : String) (size : Nat)
  | promise_call_head (es6 : Bool) (fname : String) (maybeComma : String)
  | promise_call_arg (name : String) (maybeComma : String)
  | promise_then (es6 : Bool)
  | reply_success (decl : String) (resultname : String) (fname : String)
  | promise_catch (es6 : Bool)
  | decl_result (decl : String)
  | if_err_instanceof (cond : String)
  | reply_exception (resultname : String) (fname : String)
  | reply_unknown (fname : String)
  | write_result
  | close_call
  | handler_call_callback (es6 : Bool) (fname : String) (args : String)
  | decl_result_obj (decl : String)
  | if_no_err (cond : String)
  | callback_reply (resultname : String) (fname : String)
  | callback_unknown (fname : String)
  | callback_write
  deriving Repr

/-- The text of a statement written at indentation `ind`, line ends included. -/
def ProcessorJs.text (ind : String) : ProcessorJs → String
  | .head lhs rhs => lhs ++ rhs ++ "\n"
  | .constructor_handler => ind ++ "constructor(handler) \x7b\n"
  | .super_handler => ind ++ "super(handler);\n"
  | .set_handler => ind ++ "this._handler = handler;\n"
  | .processor_inherits child parent =>
      ind ++ "Thrift.inherits(" ++ child ++ "Processor, " ++ parent ++ "Processor);\n"
  | .process_head es6 qname =>
      if es6 then ind ++ "process (input, output) \x7b\n"
      else ind ++ qname ++ "Processor.prototype.process = function(input, output) \x7b\n"
  | .process_dispatch decl =>
      ind ++ decl ++ "r = input.readMessageBegin();\n"
        ++ ind ++ "if (this['process_' + r.fname]) \x7b\n"
        ++ ind ++ "  return this['process_' + r.fname].call(this, r.rseqid, input, output);\n"
        ++ ind ++ "\x7d else \x7b\n"
        ++ ind ++ "  input.skip(Thrift.Type.STRUCT);\n"
        ++ ind ++ "  input.readMessageEnd();\n"
        ++ ind ++ "  " ++ decl ++ "x = new Thrift.TApplicationException("
        ++ "Thrift.TApplicationExceptionType.UNKNOWN_METHOD, 'Unknown function ' + r.fname);\n"
        ++ ind ++ "  output.writeMessageBegin(r.fname, Thrift.MessageType.EXCEPTION, r.rseqid);\n"
        ++ ind ++ "  x[Symbol.for(\"write\")](output);\n"
        ++ ind ++ "  output.writeMessageEnd();\n"
        ++ ind ++ "  output.flush();\n"
        ++ ind ++ "\x7d\n"
  | .export_as esm var =>
      if esm then "export \x7b " ++ var ++ " as Processor \x7d;\n"
      else "exports.Processor = " ++ var ++ ";\n"
  | .process_function_head es6 qname fname =>
      if es6 then ind ++ "process_" ++ fname ++ " (seqid, input, output) \x7b\n"
      else ind ++ qname ++ "Processor.prototype.process_" ++ fname
        ++ " = function(seqid, input, output) \x7b\n"
  | .process_read_args decl argsname =>
      ind ++ decl ++ "args = new " ++ argsname ++ "();\n"
        ++ ind ++ "args[Symbol.for(\"read\")](input);\n"
        ++ ind ++ "input.readMessageEnd();\n"
  | .handler_call_oneway fname args => ind ++ "this._handler." ++ fname ++ "(" ++ args ++ ");\n"
  | .if_handler_length fname size =>
      ind ++ "if (this._handler." ++ fname ++ ".length === " ++ Nat.repr size ++ ") \x7b\n"
  | .promise_call_head es6 fname maybeComma =>
      if es6 then
        ind ++ "new Promise((resolve) => resolve(this._handler." ++ fname ++ ".bind(this._handler)(\n"
      else ind ++ "Q.fcall(this._handler." ++ fname ++ ".bind(this._handler)" ++ maybeComma ++ "\n"
  | .promise_call_arg name maybeComma => ind ++ "args." ++ name ++ maybeComma ++ "\n"
  | .promise_then es6 =>
      if es6 then ind ++ "))).then(result => \x7b\n" else ind ++ ").then(function(result) \x7b\n"
  | .reply_success decl resultname fname =>
      ind ++ decl ++ "result_obj = new " ++ resultname ++ "(\x7bsuccess: result\x7d);\n"
        ++ ind ++ "output.writeMessageBegin(\"" ++ fname ++ "\", Thrift.MessageType.REPLY, seqid);\n"
        ++ ind ++ "result_obj[Symbol.for(\"write\")](output);\n"
        ++ ind ++ "output.writeMessageEnd();\n"
        ++ ind ++ "output.flush();\n"
  | .promise_catch es6 =>
      if es6 then ind ++ "\x7d).catch(err => \x7b\n" else ind ++ "\x7d).catch(function (err) \x7b\n"
  | .decl_result decl => ind ++ decl ++ "result;\n"
  | .if_err_instanceof cond => ind ++ cond ++ ") \x7b\n"
  | .reply_exception resultname fname =>
      ind ++ "result = new " ++ resultname ++ "(err);\n"
        ++ ind ++ "output.writeMessageBegin(\"" ++ fname ++ "\", Thrift.MessageType.REPLY, seqid);\n"
  | .reply_unknown fname =>
      ind ++ "result = new Thrift.TApplicationException("
        ++ "Thrift.TApplicationExceptionType.UNKNOWN, err.message);\n"
        ++ ind ++ "output.writeMessageBegin(\"" ++ fname
        ++ "\", Thrift.MessageType.EXCEPTION, seqid);\n"
  | .write_result =>
      ind ++ "result[Symbol.for(\"write\")](output);\n"
        ++ ind ++ "output.writeMessageEnd();\n"
        ++ ind ++ "output.flush();\n"
  | .close_call => ind ++ "\x7d);\n"
  | .handler_call_callback es6 fname args =>
      ind ++ "this._handler." ++ fname ++ "(" ++ args
        ++ (if es6 then "(err, result) => \x7b\n" else "function (err, result) \x7b\n")
  | .decl_result_obj decl => ind ++ decl ++ "result_obj;\n"
  | .if_no_err cond =>
      ind ++ "if ((err === null || typeof err === 'undefined')" ++ cond ++ ") \x7b\n"
  | .callback_reply resultname fname =>
      ind ++ "result_obj = new " ++ resultname
        ++ "((err !== null || typeof err === 'undefined') ? err : \x7bsuccess: result\x7d);\n"
        ++ ind ++ "output.writeMessageBegin(\"" ++ fname ++ "\", Thrift.MessageType.REPLY, seqid);\n"
  | .callback_unknown fname =>
      ind ++ "result_obj = new Thrift.TApplicationException("
        ++ "Thrift.TApplicationExceptionType.UNKNOWN, err.message);\n"
        ++ ind ++ "output.writeMessageBegin(\"" ++ fname
        ++ "\", Thrift.MessageType.EXCEPTION, seqid);\n"
  | .callback_write =>
      ind ++ "\x7d\n"
        ++ ind ++ "result_obj[Symbol.for(\"write\")](output);\n"
        ++ ind ++ "output.writeMessageEnd();\n"
        ++ ind ++ "output.flush();\n"

/-- The layout of a statement. -/
def ProcessorJs.encode : ProcessorJs → StmtCode
  | .head lhs rhs => ⟨0, [lhs, rhs], [], []⟩
  | .constructor_handler => ⟨1, [], [], []⟩
  | .super_handler => ⟨2, [], [], []⟩
  | .set_handler => ⟨3, [], [], []⟩
  | .processor_inherits child parent => ⟨4, [child, parent], [], []⟩
  | .process_head es6 qname => ⟨5, [qname], [], [es6]⟩
  | .process_dispatch decl => ⟨6, [decl], [], []⟩
  | .export_as esm var => ⟨7, [var], [], [esm]⟩
  | .process_function_head es6 qname fname => ⟨8, [qname, fname], [], [es6]⟩
  | .process_read_args decl argsname => ⟨9, [decl, argsname], [], []⟩
  | .handler_call_oneway fname args => ⟨10, [fname, args], [], []⟩
  | .if_handler_length fname size => ⟨11, [fname], [Int.ofNat size], []⟩
  | .promise_call_head es6 fname maybeComma => ⟨12, [fname, maybeComma], [], [es6]⟩
  | .promise_call_arg name maybeComma => ⟨13, [name, maybeComma], [], []⟩
  | .promise_then es6 => ⟨14, [], [], [es6]⟩
  | .reply_success decl resultname fname => ⟨15, [decl, resultname, fname], [], []⟩
  | .promise_catch es6 => ⟨16, [], [], [es6]⟩
  | .decl_result decl => ⟨17, [decl], [], []⟩
  | .if_err_instanceof cond => ⟨18, [cond], [], []⟩
  | .reply_exception resultname fname => ⟨19, [resultname, fname], [], []⟩
  | .reply_unknown fname => ⟨20, [fname], [], []⟩
  | .write_result => ⟨21, [], [], []⟩
  | .close_call => ⟨22, [], [], []⟩
  | .handler_call_callback es6 fname args => ⟨23, [fname, args], [], [es6]⟩
  | .decl_result_obj decl => ⟨24, [decl], [], []⟩
  | .if_no_err cond => ⟨25, [cond], [], []⟩
  | .callback_reply resultname fname => ⟨26, [resultname, fname], [], []⟩
  | .callback_unknown fname => ⟨27, [fname], [], []⟩
  | .callback_write => ⟨28, [], [], []⟩

/-- The statement with a given layout, if there is one. -/
def ProcessorJs.decode (c : StmtCode) : Option ProcessorJs :=
  match c.tag, c.strs, c.ints, c.bools with
  | 0, [lhs, rhs], [], [] => some (.head lhs rhs)
  | 1, [], [], [] => some (.constructor_handler)
  | 2, [], [], [] => some (.super_handler)
  | 3, [], [], [] => some (.set_handler)
  | 4, [child, parent], [], [] => some (.processor_inherits child parent)
  | 5, [qname], [], [es6] => some (.process_head es6 qname)
  | 6, [decl], [], [] => some (.process_dispatch decl)
  | 7, [var], [], [esm] => some (.export_as esm var)
  | 8, [qname, fname], [], [es6] => some (.process_function_head es6 qname fname)
  | 9, [decl, argsname], [], [] => some (.process_read_args decl argsname)
  | 10, [fname, args], [], [] => some (.handler_call_oneway fname args)
  | 11, [fname], [size], [] => some (.if_handler_length fname size.toNat)
  | 12, [fname, maybeComma], [], [es6] => some (.promise_call_head es6 fname maybeComma)
  | 13, [name, maybeComma], [], [] => some (.promise_call_arg name maybeComma)
  | 14, [], [], [es6] => some (.promise_then es6)
  | 15, [decl, resultname, fname], [], [] => some (.reply_success decl resultname fname)
  | 16, [], [], [es6] => some (.promise_catch es6)
  | 17, [decl], [], [] => some (.decl_result decl)
  | 18, [cond], [], [] => some (.if_err_instanceof cond)
  | 19, [resultname, fname], [], [] => some (.reply_exception resultname fname)
  | 20, [fname], [], [] => some (.reply_unknown fname)
  | 21, [], [], [] => some (.write_result)
  | 22, [], [], [] => some (.close_call)
  | 23, [fname, args], [], [es6] => some (.handler_call_callback es6 fname args)
  | 24, [decl], [], [] => some (.decl_result_obj decl)
  | 25, [cond], [], [] => some (.if_no_err cond)
  | 26, [resultname, fname], [], [] => some (.callback_reply resultname fname)
  | 27, [fname], [], [] => some (.callback_unknown fname)
  | 28, [], [], [] => some (.callback_write)
  | _, _, _, _ => none

/-- Equality of statements, decided on their layouts. -/
instance : DecidableEq ProcessorJs := fun a b =>
  decidable_of_iff (a.encode = b.encode)
    ⟨fun h => by
        have ha : ProcessorJs.decode a.encode = some a := by cases a <;> rfl
        have hb : ProcessorJs.decode b.encode = some b := by cases b <;> rfl
        rw [h, hb] at ha
        exact (Option.some.inj ha).symm,
      fun h => by rw [h]⟩

/-- One output statement of `generate_service_client` outside the send and
receive functions: the head, the constructor, the call method of a function
and the end of the class. -/
inductive ClientJs
  -- the head and the constructor
  | head (lhs : String) (rhs : String)
  | constructor_client (node : Bool)
  | super_client
  | set_output
  | set_pclass
  | init_seqid (node : Bool)
  | init_reqs
  | set_input
  | set_output_default
  | client_inherits (child : String) (parent : String)
  | client_prototype_init (qname : String)
  | seqid_getter
  | seqid_advancer
  | seqid_utils (qname : String)
  -- the call method
  | blank
  | call_head_es6 (funname : String) (arglist : String)
  | call_head_proto (qname : String) (signature : String)
  | advance_seqid
  | self_promise (decl : String)
  | reqs_resolver
  | return_settle
  | self_send (funname : String) (arglist : String)
  | advance_seqid_if_no_callback
  | defer_reqs (decl : String)
  | if_error
  | defer_reject
  | defer_resolve
  | send_return_promise (funname : String) (arglist : String)
  | reqs_callback_send (funname : String) (arglist : String)
  | self_send_callback (funname : String) (arglist : String) (sep : String)
  | if_no_callback
  | this_send (funname : String) (arglist : String)
  | call_recv (ret : String) (funname : String)
  | post_data (decl : String) (funname : String) (arglist : String) (sep : String)
  | return_transport
  | jq_request (funname : String)
  | this_send_callback (funname : String) (arglist : String) (sep : String)
  | if_not_callback
  -- the end of the class
  | client_end
  | export_as (esm : Bool) (var : String)
  | close_call
  deriving Repr

/-- The text of a statement written at indentation `ind`, line ends included. -/
def ClientJs.text (ind : String) : ClientJs → String
  | .head lhs rhs => lhs ++ rhs ++ "\n"
  | .constructor_client node =>
      ind ++ (if node then "constructor(output, pClass) \x7b\n" else "constructor(input, output) \x7b\n")
  | .super_client => ind ++ "super(output, pClass);\n"
  | .set_output => ind ++ "this.output = output;\n"
  | .set_pclass => ind ++ "this.pClass = pClass;\n"
  | .init_seqid node => ind ++ (if node then "this._seqid = 0;\n" else "this.seqid = 0;\n")
  | .init_reqs => ind ++ "this._reqs = \x7b\x7d;\n"
  | .set_input => ind ++ "this.input = input;\n"
  | .set_output_default => ind ++ "this.output = (!output) ? input : output;\n"
  | .client_inherits child parent =>
      ind ++ "Thrift.inherits(" ++ child ++ "Client, " ++ parent ++ "Client);\n"
  | .client_prototype_init qname => ind ++ qname ++ "Client.prototype = \x7b\x7d;\n"
  | .seqid_getter => ind ++ "seqid () \x7b return this._seqid; \x7d\n"
  | .seqid_advancer => ind ++ "new_seqid () \x7b return this._seqid += 1; \x7d\n"
  | .seqid_utils qname =>
      ind ++ qname ++ "Client.prototype.seqid = function() \x7b return this._seqid; \x7d;\n"
        ++ qname ++ "Client.prototype.new_seqid = function() \x7b return this._seqid += 1; \x7d;\n"
  | .blank => "\n"
  | .call_head_es6 funname arglist => ind ++ funname ++ " (" ++ arglist ++ ") \x7b\n"
  | .call_head_proto qname signature =>
      ind ++ qname ++ "Client.prototype." ++ signature ++ " \x7b\n"
  | .advance_seqid => ind ++ "this._seqid = this.new_seqid();\n"
  | .self_promise decl =>
      ind ++ decl ++ "self = this;\n" ++ ind ++ "return new Promise((resolve, reject) => \x7b\n"
  | .reqs_resolver => ind ++ "self._reqs[self.seqid()] = (error, result) => \x7b\n"
  | .return_settle => ind ++ "return error ? reject(error) : resolve(result);\n"
  | .self_send funname arglist => ind ++ "self.send_" ++ funname ++ "(" ++ arglist ++ ");\n"
  | .advance_seqid_if_no_callback =>
      ind ++ "this._seqid = this.new_seqid();\n" ++ ind ++ "if (callback === undefined) \x7b\n"
  | .defer_reqs decl =>
      ind ++ decl ++ "_defer = Q.defer();\n"
        ++ ind ++ "this._reqs[this.seqid()] = function(error, result) \x7b\n"
  | .if_error => ind ++ "if (error) \x7b\n"
  | .defer_reject => ind ++ "_defer.reject(error);\n"
  | .defer_resolve => ind ++ "_defer.resolve(result);\n"
  | .send_return_promise funname arglist =>
      ind ++ "this.send_" ++ funname ++ "(" ++ arglist ++ ");\n" ++ ind ++ "return _defer.promise;\n"
  | .reqs_callback_send funname arglist =>
      ind ++ "this._reqs[this.seqid()] = callback;\n"
        ++ ind ++ "this.send_" ++ funname ++ "(" ++ arglist ++ ");\n"
  | .self_send_callback funname arglist sep =>
      ind ++ "self.send_" ++ funname ++ "(" ++ arglist ++ sep ++ "(error, result) => \x7b\n"
  | .if_no_callback => ind ++ "if (callback === undefined) \x7b\n"
  | .this_send funname arglist => ind ++ "this.send_" ++ funname ++ "(" ++ arglist ++ ");\n"
  | .call_recv ret funname => ind ++ ret ++ "this.recv_" ++ funname ++ "();\n"
  | .post_data decl funname arglist sep =>
      ind ++ decl ++ "postData = this.send_" ++ funname ++ "(" ++ arglist ++ sep ++ "true);\n"
  | .return_transport => ind ++ "return this.output.getTransport()\n"
  | .jq_request funname =>
      ind ++ ".jqRequest(this, postData, arguments, this.recv_" ++ funname ++ ");\n"
  | .this_send_callback funname arglist sep =>
      ind ++ "this.send_" ++ funname ++ "(" ++ arglist ++ sep ++ "callback); \n"
  | .if_not_callback => ind ++ "if (!callback) \x7b\n"
  | .client_end => "\x7d;\n"
  | .export_as esm var =>
      if esm then "export \x7b " ++ var ++ " as Client \x7d;\n"
      else "exports.Client = " ++ var ++ ";\n"
  | .close_call => ind ++ "\x7d);\n"

/-- The layout of a statement. -/
def ClientJs.encode : ClientJs → StmtCode
  | .head lhs rhs => ⟨0, [lhs, rhs], [], []⟩
  | .constructor_client node => ⟨1, [], [], [node]⟩
  | .super_client => ⟨2, [], [], []⟩
  | .set_output => ⟨3, [], [], []⟩
  | .set_pclass => ⟨4, [], [], []⟩
  | .init_seqid node => ⟨5, [], [], [node]⟩
  | .init_reqs => ⟨6, [], [], []⟩
  | .set_input => ⟨7, [], [], []⟩
  | .set_output_default => ⟨8, [], [], []⟩
  | .client_inherits child parent => ⟨9, [child, parent], [], []⟩
  | .client_prototype_init qname => ⟨10, [qname], [], []⟩
  | .seqid_getter => ⟨11, [], [], []⟩
  | .seqid_advancer => ⟨12, [], [], []⟩
  | .seqid_utils qname => ⟨13, [qname], [], []⟩
  | .blank => ⟨14, [], [], []⟩
  | .call_head_es6 funname arglist => ⟨15, [funname, arglist], [], []⟩
  | .call_head_proto qname signature => ⟨16, [qname, signature], [], []⟩
  | .advance_seqid => ⟨17, [], [], []⟩
  | .self_promise decl => ⟨18, [decl], [], []⟩
  | .reqs_resolver => ⟨19, [], [], []⟩
  | .return_settle => ⟨20, [], [], []⟩
  | .self_send funname arglist => ⟨21, [funname, arglist], [], []⟩
  | .advance_seqid_if_no_callback => ⟨22, [], [], []⟩
  | .defer_reqs decl => ⟨23, [decl], [], []⟩
  | .if_error => ⟨24, [], [], []⟩
  | .defer_reject => ⟨25, [], [], []⟩
  | .defer_resolve => ⟨26, [], [], []⟩
  | .send_return_promise funname arglist => ⟨27, [funname, arglist], [], []⟩
  | .reqs_callback_send funname arglist => ⟨28, [funname, arglist], [], []⟩
  | .self_send_callback funname arglist sep => ⟨29, [funname, arglist, sep], [], []⟩
  | .if_no_callback => ⟨30, [], [], []⟩
  | .this_send funname arglist => ⟨31, [funname, arglist], [], []⟩
  | .call_recv ret funname => ⟨32, [ret, funname], [], []⟩
  | .post_data decl funname arglist sep => ⟨33, [decl, funname, arglist, sep], [], []⟩
  | .return_transport => ⟨34, [], [], []⟩
  | .jq_request funname => ⟨35, [funname], [], []⟩
  | .this_send_callback funname arglist sep => ⟨36, [funname, arglist, sep], [], []⟩
  | .if_not_callback => ⟨37, [], [], []⟩
  | .client_end => ⟨38, [], [], []⟩
  | .export_as esm var => ⟨39, [var], [], [esm]⟩
  | .close_call => ⟨40, [], [], []⟩

/-- The statement with a given layout, if there is one. -/
def ClientJs.decode (c : StmtCode) : Option ClientJs :=
  match c.tag, c.strs, c.ints, c.bools with
  | 0, [lhs, rhs], [], [] => some (.head lhs rhs)
  | 1, [], [], [node] => some (.constructor_client node)
  | 2, [], [], [] => some (.super_client)
  | 3, [], [], [] => some (.set_output)
  | 4, [], [], [] => some (.set_pclass)
  | 5, [], [], [node] => some (.init_seqid node)
  | 6, [], [], [] => some (.init_reqs)
  | 7, [], [], [] => some (.set_input)
  | 8, [], [], [] => some (.set_output_default)
  | 9, [child, parent], [], [] => some (.client_inherits child parent)
  | 10, [qname], [], [] => some (.client_prototype_init qname)
  | 11, [], [], [] => some (.seqid_getter)
  | 12, [], [], [] => some (.seqid_advancer)
  | 13, [qname], [], [] => some (.seqid_utils qname)
  | 14, [], [], [] => some (.blank)
  | 15, [funname, arglist], [], [] => some (.call_head_es6 funname arglist)
  | 16, [qname, signature], [], [] => some (.call_head_proto qname signature)
  | 17, [], [], [] => some (.advance_seqid)
  | 18, [decl], [], [] => some (.self_promise decl)
  | 19, [], [], [] => some (.reqs_resolver)
  | 20, [], [], [] => some (.return_settle)
  | 21, [funname, arglist], [], [] => some (.self_send funname arglist)
  | 22, [], [], [] => some (.advance_seqid_if_no_callback)
  | 23, [decl], [], [] => some (.defer_reqs decl)
  | 24, [], [], [] => some (.if_error)
  | 25, [], [], [] => some (.defer_reject)
  | 26, [], [], [] => some (.defer_resolve)
  | 27, [funname, arglist], [], [] => some (.send_return_promise funname arglist)
  | 28, [funname, arglist], [], [] => some (.reqs_callback_send funname arglist)
  | 29, [funname, arglist, sep], [], [] => some (.self_send_callback funname arglist sep)
  | 30, [], [], [] => some (.if_no_callback)
  | 31, [funname, arglist], [], [] => some (.this_send funname arglist)
  | 32, [ret, funname], [], [] => some (.call_recv ret funname)
  | 33, [decl, funname, arglist, sep], [], [] => some (.post_data decl funname arglist sep)
  | 34, [], [], [] => some (.return_transport)
  | 35, [funname], [], [] => some (.jq_request funname)
  | 36, [funname, arglist, sep], [], [] => some (.this_send_callback funname arglist sep)
  | 37, [], [], [] => some (.if_not_callback)
  | 38, [], [], [] => some (.client_end)
  | 39, [var], [], [esm] => some (.export_as esm var)
  | 40, [], [], [] => some (.close_call)
  | _, _, _, _ => none

/-- Equality of statements, decided on their layouts. -/
instance : DecidableEq ClientJs := fun a b =>
  decidable_of_iff (a.encode = b.encode)
    ⟨fun h => by
        have ha : ClientJs.decode a.encode = some a := by cases a <;> rfl
        have hb : ClientJs.decode b.encode = some b := by cases b <;> rfl
        rw [h, hb] at ha
        exact (Option.some.inj ha).symm,
      fun h => by rw [h]⟩

/-- One output statement of the send function that `generate_service_client`
writes for a function. -/
inductive SendJs
  -- the send function
  | send_head_es6 (funname : String) (arglist : String)
  | send_head_proto (qname : String) (signature : String)
  | decl_output (decl : String)
  | params_open (decl : String) (identifier : String)
  | param_entry (name : String) (last : Bool)
  | new_args (decl : String) (argsname : String) (params : String)
  | try_
  | write_message_begin (outputVar : String) (fname : String) (messageType : String) (node : Bool)
  | write_args (outputVar : String)
  | flush_output
  | decl_callback_seqid (decl : String)
  | delete_reqs_seqid
  | callback_null
  | return_flush_output
  | return_flush_callback
  | decl_self (decl : String)
  | flush_null
  | callback_call
  | flush_arrow
  | decl_error_result (decl : String)
  | recv_into_result (funname : String)
  | catch_e
  | error_is_e
  | callback_error_result
  | if_callback
  | flush_function
  | decl_result_null (decl : String)
  | result_is_e
  | callback_result
  | return_flush
  | catch_open
  | if_reset (target : String)
  | do_reset (target : String)
  | throw_e
  | close_call
  deriving Repr

/-- The text of a statement written at indentation `ind`, line ends included. -/
def SendJs.text (ind : String) : SendJs → String
  | .send_head_es6 funname arglist => ind ++ "send_" ++ funname ++ " (" ++ arglist ++ ") \x7b\n"
  | .send_head_proto qname signature =>
      ind ++ qname ++ "Client.prototype.send_" ++ signature ++ " \x7b\n"
  | .decl_output decl => ind ++ decl ++ "output = new this.pClass(this.output);\n"
  | .params_open decl identifier => ind ++ decl ++ identifier ++ " = \x7b\n"
  | .param_entry name last => ind ++ name ++ ": " ++ name ++ (if last then "\n" else "," ++ "\n")
  | .new_args decl argsname params =>
      ind ++ decl ++ "args = new " ++ argsname ++ "(" ++ params ++ ");\n"
  | .try_ => ind ++ "try \x7b\n"
  | .write_message_begin outputVar fname messageType node =>
      ind ++ outputVar ++ ".writeMessageBegin('" ++ fname ++ "', " ++ messageType
        ++ (if node then ", this.seqid());\n" else ", this.seqid);\n")
  | .write_args outputVar =>
      ind ++ "args[Symbol.for(\"write\")](" ++ outputVar ++ ");\n"
        ++ ind ++ outputVar ++ ".writeMessageEnd();\n"
  | .flush_output => ind ++ "this.output.flush();\n"
  | .decl_callback_seqid decl =>
      ind ++ decl ++ "callback = this._reqs[this.seqid()] || function() \x7b\x7d;\n"
  | .delete_reqs_seqid => ind ++ "delete this._reqs[this.seqid()];\n"
  | .callback_null => ind ++ "callback(null);\n"
  | .return_flush_output => ind ++ "return this.output.flush();\n"
  | .return_flush_callback => ind ++ "return this.output.getTransport().flush(callback);\n"
  | .decl_self decl => ind ++ decl ++ "self = this;\n"
  | .flush_null => ind ++ "this.output.getTransport().flush(true, null);\n"
  | .callback_call => ind ++ "callback();\n"
  | .flush_arrow => ind ++ "this.output.getTransport().flush(true, () => \x7b\n"
  | .decl_error_result decl => ind ++ decl ++ "error = null, result = null;\n"
  | .recv_into_result funname => ind ++ "  result = self.recv_" ++ funname ++ "();\n"
  | .catch_e => ind ++ "\x7d catch (e) \x7b\n"
  | .error_is_e => ind ++ "  error = e;\n"
  | .callback_error_result => ind ++ "callback(error, result);\n"
  | .if_callback => ind ++ "if (callback) \x7b\n"
  | .flush_function => ind ++ "this.output.getTransport().flush(true, function() \x7b\n"
  | .decl_result_null decl => ind ++ decl ++ "result = null;\n"
  | .result_is_e => ind ++ "  result = e;\n"
  | .callback_result => ind ++ "callback(result);\n"
  | .return_flush => ind ++ "  return this.output.getTransport().flush();\n"
  | .catch_open => ind ++ "catch (e) \x7b\n"
  | .if_reset target => ind ++ "if (typeof " ++ target ++ ".reset === 'function') \x7b\n"
  | .do_reset target => ind ++ "  " ++ target ++ ".reset();\n"
  | .throw_e => ind ++ "throw e;\n"
  | .close_call => ind ++ "\x7d);\n"

/-- The layout of a statement. -/
def SendJs.encode : SendJs → StmtCode
  | .send_head_es6 funname arglist => ⟨0, [funname, arglist], [], []⟩
  | .send_head_proto qname signature => ⟨1, [qname, signature], [], []⟩
  | .decl_output decl => ⟨2, [decl], [], []⟩
  | .params_open decl identifier => ⟨3, [decl, identifier], [], []⟩
  | .param_entry name last => ⟨4, [name], [], [last]⟩
  | .new_args decl argsname params => ⟨5, [decl, argsname, params], [], []⟩
  | .try_ => ⟨6, [], [], []⟩
  | .write_message_begin outputVar fname messageType node => ⟨7, [outputVar, fname, messageType], [], [node]⟩
  | .write_args outputVar => ⟨8, [outputVar], [], []⟩
  | .flush_output => ⟨9, [], [], []⟩
  | .decl_callback_seqid decl => ⟨10, [decl], [], []⟩
  | .delete_reqs_seqid => ⟨11, [], [], []⟩
  | .callback_null => ⟨12, [], [], []⟩
  | .return_flush_output => ⟨13, [], [], []⟩
  | .return_flush_callback => ⟨14, [], [], []⟩
  | .decl_self decl => ⟨15, [decl], [], []⟩
  | .flush_null => ⟨16, [], [], []⟩
  | .callback_call => ⟨17, [], [], []⟩
  | .flush_arrow => ⟨18, [], [], []⟩
  | .decl_error_result decl => ⟨19, [decl], [], []⟩
  | .recv_into_result funname => ⟨20, [funname], [], []⟩
  | .catch_e => ⟨21, [], [], []⟩
  | .error_is_e => ⟨22, [], [], []⟩
  | .callback_error_result => ⟨23, [], [], []⟩
  | .if_callback => ⟨24, [], [], []⟩
  | .flush_function => ⟨25, [], [], []⟩
  | .decl_result_null decl => ⟨26, [decl], [], []⟩
  | .result_is_e => ⟨27, [], [], []⟩
  | .callback_result => ⟨28, [], [], []⟩
  | .return_flush => ⟨29, [], [], []⟩
  | .catch_open => ⟨30, [], [], []⟩
  | .if_reset target => ⟨31, [target], [], []⟩
  | .do_reset target => ⟨32, [target], [], []⟩
  | .throw_e => ⟨33, [], [], []⟩
  | .close_call => ⟨34, [], [], []⟩

/-- The statement with a given layout, if there is one. -/
def SendJs.decode (c : StmtCode) : Option SendJs :=
  match c.tag, c.strs, c.ints, c.bools with
  | 0, [funname, arglist], [], [] => some (.send_head_es6 funname arglist)
  | 1, [qname, signature], [], [] => some (.send_head_proto qname signature)
  | 2, [decl], [], [] => some (.decl_output decl)
  | 3, [decl, identifier], [], [] => some (.params_open decl identifier)
  | 4, [name], [], [last] => some (.param_entry name last)
  | 5, [decl, argsname, params], [], [] => some (.new_args decl argsname params)
  | 6, [], [], [] => some (.try_)
  | 7, [outputVar, fname, messageType], [], [node] => some (.write_message_begin outputVar fname messageType node)
  | 8, [outputVar], [], [] => some (.write_args outputVar)
  | 9, [], [], [] => some (.flush_output)
  | 10, [decl], [], [] => some (.decl_callback_seqid decl)
  | 11, [], [], [] => some (.delete_reqs_seqid)
  | 12, [], [], [] => some (.callback_null)
  | 13, [], [], [] => some (.return_flush_output)
  | 14, [], [], [] => some (.return_flush_callback)
  | 15, [decl], [], [] => some (.decl_self decl)
  | 16, [], [], [] => some (.flush_null)
  | 17, [], [], [] => some (.callback_call)
  | 18, [], [], [] => some (.flush_arrow)
  | 19, [decl], [], [] => some (.decl_error_result decl)
  | 20, [funname], [], [] => some (.recv_into_result funname)
  | 21, [], [], [] => some (.catch_e)
  | 22, [], [], [] => some (.error_is_e)
  | 23, [], [], [] => some (.callback_error_result)
  | 24, [], [], [] => some (.if_callback)
  | 25, [], [], [] => some (.flush_function)
  | 26, [decl], [], [] => some (.decl_result_null decl)
  | 27, [], [], [] => some (.result_is_e)
  | 28, [], [], [] => some (.callback_result)
  | 29, [], [], [] => some (.return_flush)
  | 30, [], [], [] => some (.catch_open)
  | 31, [target], [], [] => some (.if_reset target)
  | 32, [target], [], [] => some (.do_reset target)
  | 33, [], [], [] => some (.throw_e)
  | 34, [], [], [] => some (.close_call)
  | _, _, _, _ => none

/-- Equality of statements, decided on their layouts. -/
instance : DecidableEq SendJs := fun a b =>
  decidable_of_iff (a.encode = b.encode)
    ⟨fun h => by
        have ha : SendJs.decode a.encode = some a := by cases a <;> rfl
        have hb : SendJs.decode b.encode = some b := by cases b <;> rfl
        rw [h, hb] at ha
        exact (Option.some.inj ha).symm,
      fun h => by rw [h]⟩

/-- One output statement of the receive function that
`generate_service_client` writes for a function. -/
inductive RecvJs
  -- the receive function
  | blank
  | callback_null
  | recv_head_es6 (fname : String) (params : String)
  | recv_head_node (qname : String) (fname : String)
  | recv_head_proto (qname : String) (signature : String)
  | recv_callback (decl : String)
  | recv_read_begin (decl : String)
  | if_mtype_exception
  | recv_exception (decl : String) (inputVar : String) (throw_ : String)
  | recv_result (decl : String) (resultname : String) (inputVar : String)
  | recv_message_end (inputVar : String)
  | recv_if_exception (name : String) (throw_ : String)
  | recv_if_success (ret : String)
  | recv_unknown (throw_ : String)
  deriving Repr

/-- The text of a statement written at indentation `ind`, line ends included. -/
def RecvJs.text (ind : String) : RecvJs → String
  | .blank => "\n"
  | .callback_null => ind ++ "callback(null);\n"
  | .recv_head_es6 fname params => ind ++ "recv_" ++ fname ++ " (" ++ params ++ ") \x7b\n"
  | .recv_head_node qname fname =>
      ind ++ qname ++ "Client.prototype.recv_" ++ fname ++ " = function(input,mtype,rseqid) \x7b\n"
  | .recv_head_proto qname signature =>
      ind ++ qname ++ "Client.prototype." ++ signature ++ " \x7b\n"
  | .recv_callback decl =>
      ind ++ decl ++ "callback = this._reqs[rseqid] || function() \x7b\x7d;\n"
        ++ ind ++ "delete this._reqs[rseqid];\n"
  | .recv_read_begin decl =>
      ind ++ decl ++ "ret = this.input.readMessageBegin();\n" ++ ind ++ decl ++ "mtype = ret.mtype;\n"
  | .if_mtype_exception => ind ++ "if (mtype == Thrift.MessageType.EXCEPTION) \x7b\n"
  | .recv_exception decl inputVar throw_ =>
      ind ++ decl ++ "x = new Thrift.TApplicationException();\n"
        ++ ind ++ "x[Symbol.for(\"read\")](" ++ inputVar ++ ");\n"
        ++ ind ++ inputVar ++ ".readMessageEnd();\n"
        ++ ind ++ throw_ ++ "\n"
  | .recv_result decl resultname inputVar =>
      ind ++ decl ++ "result = new " ++ resultname ++ "();\n"
        ++ ind ++ "result[Symbol.for(\"read\")](" ++ inputVar ++ ");\n"
  | .recv_message_end inputVar => ind ++ inputVar ++ ".readMessageEnd();\n\n"
  | .recv_if_exception name throw_ =>
      ind ++ "if (null !== result." ++ name ++ ") \x7b\n"
        ++ ind ++ "  " ++ throw_ ++ "\n"
        ++ ind ++ "\x7d\n"
  | .recv_if_success ret =>
      ind ++ "if (null !== result.success) \x7b\n"
        ++ ind ++ "  " ++ ret ++ "\n"
        ++ ind ++ "\x7d\n"
  | .recv_unknown throw_ => ind ++ throw_ ++ "\n"

/-- The layout of a statement. -/
def RecvJs.encode : RecvJs → StmtCode
  | .blank => ⟨0, [], [], []⟩
  | .callback_null => ⟨1, [], [], []⟩
  | .recv_head_es6 fname params => ⟨2, [fname, params], [], []⟩
  | .recv_head_node qname fname => ⟨3, [qname, fname], [], []⟩
  | .recv_head_proto qname signature => ⟨4, [qname, signature], [], []⟩
  | .recv_callback decl => ⟨5, [decl], [], []⟩
  | .recv_read_begin decl => ⟨6, [decl], [], []⟩
  | .if_mtype_exception => ⟨7, [], [], []⟩
  | .recv_exception decl inputVar throw_ => ⟨8, [decl, inputVar, throw_], [], []⟩
  | .recv_result decl resultname inputVar => ⟨9, [decl, resultname, inputVar], [], []⟩
  | .recv_message_end inputVar => ⟨10, [inputVar], [], []⟩
  | .recv_if_exception name throw_ => ⟨11, [name, throw_], [], []⟩
  | .recv_if_success ret => ⟨12, [ret], [], []⟩
  | .recv_unknown throw_ => ⟨13, [throw_], [], []⟩

/-- The statement with a given layout, if there is one. -/
def RecvJs.decode (c : StmtCode) : Option RecvJs :=
  match c.tag, c.strs, c.ints, c.bools with
  | 0, [], [], [] => some (.blank)
  | 1, [], [], [] => some (.callback_null)
  | 2, [fname, params], [], [] => some (.recv_head_es6 fname params)
  | 3, [qname, fname], [], [] => some (.recv_head_node qname fname)
  | 4, [qname, signature], [], [] => some (.recv_head_proto qname signature)
  | 5, [decl], [], [] => some (.recv_callback decl)
  | 6, [decl], [], [] => some (.recv_read_begin decl)
  | 7, [], [], [] => some (.if_mtype_exception)
  | 8, [decl, inputVar, throw_], [], [] => some (.recv_exception decl inputVar throw_)
  | 9, [decl, resultname, inputVar], [], [] => some (.recv_result decl resultname inputVar)
  | 10, [inputVar], [], [] => some (.recv_message_end inputVar)
  | 11, [name, throw_], [], [] => some (.recv_if_exception name throw_)
  | 12, [ret], [], [] => some (.recv_if_success ret)
  | 13, [throw_], [], [] => some (.recv_unknown throw_)
  | _, _, _, _ => none

/-- Equality of statements, decided on their layouts. -/
instance : DecidableEq RecvJs := fun a b =>
  decidable_of_iff (a.encode = b.encode)
    ⟨fun h => by
        have ha : RecvJs.decode a.encode = some a := by cases a <;> rfl
        have hb : RecvJs.decode b.encode = some b := by cases b <;> rfl
        rw [h, hb] at ha
        exact (Option.some.inj ha).symm,
      fun h => by rw [h]⟩

/-- The statements of `generate_enum` on the stream `f_types_`. -/
inductive EnumJs
  | enum_head (lhs : String)
  | enum_reverse (value : Int) (name : String)
  | enum_value (name : String) (value : Int) (comma : Bool)
  | enum_end
  deriving Repr

/-- The text of a statement written at indentation `ind`, line ends included. -/
def EnumJs.text (ind : String) : EnumJs → String
  | .enum_head lhs => lhs ++ " = \x7b" ++ "\n"
  | .enum_reverse value name =>
      ind ++ "'" ++ decimal value ++ "' : '" ++ name ++ "'," ++ "\n"
  | .enum_value name value comma =>
      ind ++ "'" ++ name ++ "' : " ++ decimal value ++ (if comma then "," else "") ++ "\n"
  | .enum_end => "\x7d;" ++ "\n"

/-- The layout of a statement. -/
def EnumJs.encode : EnumJs → StmtCode
  | .enum_head lhs => ⟨0, [lhs], [], []⟩
  | .enum_reverse value name => ⟨1, [name], [value], []⟩
  | .enum_value name value comma => ⟨2, [name], [value], [comma]⟩
  | .enum_end => ⟨3, [], [], []⟩

/-- The statement with a given layout, if there is one. -/
def EnumJs.decode (c : StmtCode) : Option EnumJs :=
  match c.tag, c.strs, c.ints, c.bools with
  | 0, [lhs], [], [] => some (.enum_head lhs)
  | 1, [name], [value], [] => some (.enum_reverse value name)
  | 2, [name], [value], [comma] => some (.enum_value name value comma)
  | 3, [], [], [] => some (.enum_end)
  | _, _, _, _ => none

/-- Equality of statements, decided on their layouts. -/
instance : DecidableEq EnumJs := fun a b =>
  decidable_of_iff (a.encode = b.encode)
    ⟨fun h => by
        have ha : EnumJs.decode a.encode = some a := by cases a <;> rfl
        have hb : EnumJs.decode b.encode = some b := by cases b <;> rfl
        rw [h, hb] at ha
        exact (Option.some.inj ha).symm,
      fun h => by rw [h]⟩

/-- The statements of `generate_service` itself: the head of the service file
on the stream `f_service_`, and the entry of the service in the episode file
(`episode`, on the stream `f_episode_`). -/
inductive ServiceJs
  | episode (service_name : String) (directory : String)
  | autogen_comment (text : String)
  | use_strict
  | includes (js_includes : String) (render_includes : String)
  | require_extends (decl : String) (name : String)
  | import_ttypes (program_name : String)
  | require_ttypes (decl : String) (program_name : String)
  deriving Repr

/-- The text of a statement, line ends included; none is indented. -/
def ServiceJs.text : ServiceJs → String
  | .episode service_name directory =>
      service_name ++ ":" ++ directory ++ "/" ++ service_name ++ "\n"
  | .autogen_comment text => text
  | .use_strict => "\"use strict\";" ++ "\n" ++ "\n"
  | .includes js_includes render_includes => js_includes ++ "\n" ++ render_includes ++ "\n"
  | .require_extends decl name =>
      decl ++ name ++ " = require('./" ++ name ++ "');" ++ "\n"
        ++ decl ++ name ++ "Client = " ++ name ++ ".Client;" ++ "\n"
        ++ decl ++ name ++ "Processor = " ++ name ++ ".Processor;" ++ "\n"
  | .import_ttypes program_name =>
      "import * as ttypes from './" ++ program_name ++ "_types.mjs';" ++ "\n"
  | .require_ttypes decl program_name =>
      decl ++ "ttypes = require('./" ++ program_name ++ "_types');" ++ "\n"

/-- The layout of a statement. -/
def ServiceJs.encode : ServiceJs → StmtCode
  | .episode service_name directory => ⟨0, [service_name, directory], [], []⟩
  | .autogen_comment text => ⟨1, [text], [], []⟩
  | .use_strict => ⟨2, [], [], []⟩
  | .includes js_includes render_includes => ⟨3, [js_includes, render_includes], [], []⟩
  | .require_extends decl name => ⟨4, [decl, name], [], []⟩
  | .import_ttypes program_name => ⟨5, [program_name], [], []⟩
  | .require_ttypes decl program_name => ⟨6, [decl, program_name], [], []⟩

/-- The statement with a given layout, if there is one. -/
def ServiceJs.decode (c : StmtCode) : Option ServiceJs :=
  match c.tag, c.strs, c.ints, c.bools with
  | 0, [service_name, directory], [], [] => some (.episode service_name directory)
  | 1, [text], [], [] => some (.autogen_comment text)
  | 2, [], [], [] => some (.use_strict)
  | 3, [js_includes, render_includes], [], [] => some (.includes js_includes render_includes)
  | 4, [decl, name], [], [] => some (.require_extends decl name)
  | 5, [program_name], [], [] => some (.import_ttypes program_name)
  | 6, [decl, program_name], [], [] => some (.require_ttypes decl program_name)
  | _, _, _, _ => none

/-- Equality of statements, decided on their layouts. -/
instance : DecidableEq ServiceJs := fun a b =>
  decidable_of_iff (a.encode = b.encode)
    ⟨fun h => by
        have ha : ServiceJs.decode a.encode = some a := by cases a <;> rfl
        have hb : ServiceJs.decode b.encode = some b := by cases b <;> rfl
        rw [h, hb] at ha
        exact (Option.some.inj ha).symm,
      fun h => by rw [h]⟩

/-- One output statement of the generator.  The comment on each constructor
group names the member function that writes it; `Js.text` is its text. -/
inductive Js
  -- generate_deserialize_field, generate_deserialize_struct
  | read_prim (name : String) (p : Prim) (value : Bool)
  | new_struct (pfx : String) (qname : String)
  | read_struct (pfx : String)
  -- generate_deserialize_container and its element functions
  | init_container (pfx : String) (k : Kind)
  | read_begin (decl : String) (rtmp3 : String) (k : Kind)
  | decl_size (decl : String) (size : String) (rtmp3 : String)
  | for_count (decl : String) (i : String) (size : String)
  | rstack_pop (i : String)
  | decl_field (declaration : String)
  | let_null (decl : String) (elem : String)
  | map_store (pfx : String) (key : String) (val : String)
  | push (pfx : String) (elem : String)
  | read_end (k : Kind)
  -- scope_down
  | close
  -- generate_serialize_field, generate_serialize_struct
  | write_prim (p : Prim) (name : String)
  | write_struct (pfx : String)
  -- generate_serialize_container
  | write_begin (k : Kind) (tags : List String) (size : String)
  | for_in (decl : String) (iter : String) (pfx : String)
  | if_own (pfx : String) (iter : String)
  | let_index (decl : String) (viter : String) (pfx : String) (kiter : String)
  | write_end (k : Kind)
  -- generate_js_struct_reader
  | reader_head (es6 : Bool) (qname : String)
  | read_struct_begin
  | while_true
  | decl_ret (decl : String)
  | decl_ftype (decl : String)
  | decl_fid (decl : String)
  | if_stop
  | break_ (pad : Bool)
  | switch_fid
  | case (key : Int)
  | if_ftype (tag : String)
  | else_
  | skip (pad : Bool)
  | default_
  | read_field_end
  | read_struct_end
  | return_
  | method_end (es6 : Bool)
  -- generate_js_struct_writer
  | writer_head (es6 : Bool) (qname : String)
  | write_struct_begin (name : String)
  | if_set (name : String)
  | write_field_begin (name : String) (tag : String) (key : Int)
  | write_field_end
  | write_field_stop
  | write_struct_end
  -- generate_js_struct_definition
  | struct_head (lhs : String) (rhs : String)
  | constructor_head
  | super_call
  | texception_call (qname : String)
  | this_name (qname : String)
  | member_default (name : String) (dval : String)
  | instanceof_guard (qname : String) (member : String)
  | if_args
  | if_arg (name : String)
  | copy_struct (name : String) (qname : String)
  | copy_container (name : String) (copyFunc : String) (type_list : String)
  | copy_plain (name : String)
  | throw_required (name : String)
  | constructor_end (es6 : Bool)
  | inherits (qname : String)
  | prototype_name (qname : String) (name : String)
  | prototype_init (qname : String)
  | class_end
  -- generate_service_helpers
  | helpers_comment
  -- generate_const
  | const_lhs (lhs : String)
  | const_value (rendered : String)
  -- generate_service_processor, generate_process_function, generate_service_client
  | processor (statement : ProcessorJs)
  | client (statement : ClientJs)
  | send (statement : SendJs)
  | recv (statement : RecvJs)
  -- generate_enum
  | enum_ (statement : EnumJs)
  -- generate_service
  | service (statement : ServiceJs)
  -- a write to a TypeScript declaration stream (`f_types_ts_`, `f_service_ts_`)
  | ts (text : String)
  deriving Repr

/-- The content of a statement laid out by kind: the number of its
constructor and its fields, sorted by type.  Equality of statements is decided
on this layout. -/
structure Js.Code where
  tag : Nat
  strs : List String
  ints : List Int
  bools : List Bool
  prims : List Prim
  kinds : List Kind
  strss : List (List String)
  subs : List StmtCode
  deriving DecidableEq

/-- The layout of a statement. -/
def Js.encode : Js → Js.Code
  | .read_prim name p value => ⟨0, [name], [], [value], [p], [], [], []⟩
  | .new_struct pfx qname => ⟨1, [pfx, qname], [], [], [], [], [], []⟩
  | .read_struct pfx => ⟨2, [pfx], [], [], [], [], [], []⟩
  | .init_container pfx k => ⟨3, [pfx], [], [], [], [k], [], []⟩
  | .read_begin decl rtmp3 k => ⟨4, [decl, rtmp3], [], [], [], [k], [], []⟩
  | .decl_size decl size rtmp3 => ⟨5, [decl, size, rtmp3], [], [], [], [], [], []⟩
  | .for_count decl i size => ⟨6, [decl, i, size], [], [], [], [], [], []⟩
  | .rstack_pop i => ⟨7, [i], [], [], [], [], [], []⟩
  | .decl_field declaration => ⟨8, [declaration], [], [], [], [], [], []⟩
  | .let_null decl elem => ⟨9, [decl, elem], [], [], [], [], [], []⟩
  | .map_store pfx key val => ⟨10, [pfx, key, val], [], [], [], [], [], []⟩
  | .push pfx elem => ⟨11, [pfx, elem], [], [], [], [], [], []⟩
  | .read_end k => ⟨12, [], [], [], [], [k], [], []⟩
  | .close => ⟨13, [], [], [], [], [], [], []⟩
  | .write_prim p name => ⟨14, [name], [], [], [p], [], [], []⟩
  | .write_struct pfx => ⟨15, [pfx], [], [], [], [], [], []⟩
  | .write_begin k tags size => ⟨16, [size], [], [], [], [k], [tags], []⟩
  | .for_in decl iter pfx => ⟨17, [decl, iter, pfx], [], [], [], [], [], []⟩
  | .if_own pfx iter => ⟨18, [pfx, iter], [], [], [], [], [], []⟩
  | .let_index decl viter pfx kiter => ⟨19, [decl, viter, pfx, kiter], [], [], [], [], [], []⟩
  | .write_end k => ⟨20, [], [], [], [], [k], [], []⟩
  | .reader_head es6 qname => ⟨21, [qname], [], [es6], [], [], [], []⟩
  | .read_struct_begin => ⟨22, [], [], [], [], [], [], []⟩
  | .while_true => ⟨23, [], [], [], [], [], [], []⟩
  | .decl_ret decl => ⟨24, [decl], [], [], [], [], [], []⟩
  | .decl_ftype decl => ⟨25, [decl], [], [], [], [], [], []⟩
  | .decl_fid decl => ⟨26, [decl], [], [], [], [], [], []⟩
  | .if_stop => ⟨27, [], [], [], [], [], [], []⟩
  | .break_ pad => ⟨28, [], [], [pad], [], [], [], []⟩
  | .switch_fid => ⟨29, [], [], [], [], [], [], []⟩
  | .case key => ⟨30, [], [key], [], [], [], [], []⟩
  | .if_ftype tag => ⟨31, [tag], [], [], [], [], [], []⟩
  | .else_ => ⟨32, [], [], [], [], [], [], []⟩
  | .skip pad => ⟨33, [], [], [pad], [], [], [], []⟩
  | .default_ => ⟨34, [], [], [], [], [], [], []⟩
  | .read_field_end => ⟨35, [], [], [], [], [], [], []⟩
  | .read_struct_end => ⟨36, [], [], [], [], [], [], []⟩
  | .return_ => ⟨37, [], [], [], [], [], [], []⟩
  | .method_end es6 => ⟨38, [], [], [es6], [], [], [], []⟩
  | .writer_head es6 qname => ⟨39, [qname], [], [es6], [], [], [], []⟩
  | .write_struct_begin name => ⟨40, [name], [], [], [], [], [], []⟩
  | .if_set name => ⟨41, [name], [], [], [], [], [], []⟩
  | .write_field_begin name tag key => ⟨42, [name, tag], [key], [], [], [], [], []⟩
  | .write_field_end => ⟨43, [], [], [], [], [], [], []⟩
  | .write_field_stop => ⟨44, [], [], [], [], [], [], []⟩
  | .write_struct_end => ⟨45, [], [], [], [], [], [], []⟩
  | .struct_head lhs rhs => ⟨46, [lhs, rhs], [], [], [], [], [], []⟩
  | .constructor_head => ⟨47, [], [], [], [], [], [], []⟩
  | .super_call => ⟨48, [], [], [], [], [], [], []⟩
  | .texception_call qname => ⟨49, [qname], [], [], [], [], [], []⟩
  | .this_name qname => ⟨50, [qname], [], [], [], [], [], []⟩
  | .member_default name dval => ⟨51, [name, dval], [], [], [], [], [], []⟩
  | .instanceof_guard qname member => ⟨52, [qname, member], [], [], [], [], [], []⟩
  | .if_args => ⟨53, [], [], [], [], [], [], []⟩
  | .if_arg name => ⟨54, [name], [], [], [], [], [], []⟩
  | .copy_struct name qname => ⟨55, [name, qname], [], [], [], [], [], []⟩
  | .copy_container name copyFunc type_list => ⟨56, [name, copyFunc, type_list], [], [], [], [], [], []⟩
  | .copy_plain name => ⟨57, [name], [], [], [], [], [], []⟩
  | .throw_required name => ⟨58, [name], [], [], [], [], [], []⟩
  | .constructor_end es6 => ⟨59, [], [], [es6], [], [], [], []⟩
  | .inherits qname => ⟨60, [qname], [], [], [], [], [], []⟩
  | .prototype_name qname name => ⟨61, [qname, name], [], [], [], [], [], []⟩
  | .prototype_init qname => ⟨62, [qname], [], [], [], [], [], []⟩
  | .class_end => ⟨63, [], [], [], [], [], [], []⟩
  | .helpers_comment => ⟨64, [], [], [], [], [], [], []⟩
  | .const_lhs lhs => ⟨65, [lhs], [], [], [], [], [], []⟩
  | .const_value rendered => ⟨66, [rendered], [], [], [], [], [], []⟩
  | .processor statement => ⟨67, [], [], [], [], [], [], [statement.encode]⟩
  | .client statement => ⟨68, [], [], [], [], [], [], [statement.encode]⟩
  | .send statement => ⟨69, [], [], [], [], [], [], [statement.encode]⟩
  | .recv statement => ⟨70, [], [], [], [], [], [], [statement.encode]⟩
  | .enum_ statement => ⟨72, [], [], [], [], [], [], [statement.encode]⟩
  | .service statement => ⟨73, [], [], [], [], [], [], [statement.encode]⟩
  | .ts text => ⟨71, [text], [], [], [], [], [], []⟩

/-- The statement with a given layout, if there is one. -/
def Js.decode (c : Js.Code) : Option Js :=
  match c.tag, c.strs, c.ints, c.bools, c.prims, c.kinds, c.strss, c.subs with
  | 0, [name], [], [value], [p], [], [], [] => some (.read_prim name p value)
  | 1, [pfx, qname], [], [], [], [], [], [] => some (.new_struct pfx qname)
  | 2, [pfx], [], [], [], [], [], [] => some (.read_struct pfx)
  | 3, [pfx], [], [], [], [k], [], [] => some (.init_container pfx k)
  | 4, [decl, rtmp3], [], [], [], [k], [], [] => some (.read_begin decl rtmp3 k)
  | 5, [decl, size, rtmp3], [], [], [], [], [], [] => some (.decl_size decl size rtmp3)
  | 6, [decl, i, size], [], [], [], [], [], [] => some (.for_count decl i size)
  | 7, [i], [], [], [], [], [], [] => some (.rstack_pop i)
  | 8, [declaration], [], [], [], [], [], [] => some (.decl_field declaration)
  | 9, [decl, elem], [], [], [], [], [], [] => some (.let_null decl elem)
  | 10, [pfx, key, val], [], [], [], [], [], [] => some (.map_store pfx key val)
  | 11, [pfx, elem], [], [], [], [], [], [] => some (.push pfx elem)
  | 12, [], [], [], [], [k], [], [] => some (.read_end k)
  | 13, [], [], [], [], [], [], [] => some (.close)
  | 14, [name], [], [], [p], [], [], [] => some (.write_prim p name)
  | 15, [pfx], [], [], [], [], [], [] => some (.write_struct pfx)
  | 16, [size], [], [], [], [k], [tags], [] => some (.write_begin k tags size)
  | 17, [decl, iter, pfx], [], [], [], [], [], [] => some (.for_in decl iter pfx)
  | 18, [pfx, iter], [], [], [], [], [], [] => some (.if_own pfx iter)
  | 19, [decl, viter, pfx, kiter], [], [], [], [], [], [] => some (.let_index decl viter pfx kiter)
  | 20, [], [], [], [], [k], [], [] => some (.write_end k)
  | 21, [qname], [], [es6], [], [], [], [] => some (.reader_head es6 qname)
  | 22, [], [], [], [], [], [], [] => some (.read_struct_begin)
  | 23, [], [], [], [], [], [], [] => some (.while_true)
  | 24, [decl], [], [], [], [], [], [] => some (.decl_ret decl)
  | 25, [decl], [], [], [], [], [], [] => some (.decl_ftype decl)
  | 26, [decl], [], [], [], [], [], [] => some (.decl_fid decl)
  | 27, [], [], [], [], [], [], [] => some (.if_stop)
  | 28, [], [], [pad], [], [], [], [] => some (.break_ pad)
  | 29, [], [], [], [], [], [], [] => some (.switch_fid)
  | 30, [], [key], [], [], [], [], [] => some (.case key)
  | 31, [tag], [], [], [], [], [], [] => some (.if_ftype tag)
  | 32, [], [], [], [], [], [], [] => some (.else_)
  | 33, [], [], [pad], [], [], [], [] => some (.skip pad)
  | 34, [], [], [], [], [], [], [] => some (.default_)
  | 35, [], [], [], [], [], [], [] => some (.read_field_end)
  | 36, [], [], [], [], [], [], [] => some (.read_struct_end)
  | 37, [], [], [], [], [], [], [] => some (.return_)
  | 38, [], [], [es6], [], [], [], [] => some (.method_end es6)
  | 39, [qname], [], [es6], [], [], [], [] => some (.writer_head es6 qname)
  | 40, [name], [], [], [], [], [], [] => some (.write_struct_begin name)
  | 41, [name], [], [], [], [], [], [] => some (.if_set name)
  | 42, [name, tag], [key], [], [], [], [], [] => some (.write_field_begin name tag key)
  | 43, [], [], [], [], [], [], [] => some (.write_field_end)
  | 44, [], [], [], [], [], [], [] => some (.write_field_stop)
  | 45, [], [], [], [], [], [], [] => some (.write_struct_end)
  | 46, [lhs, rhs], [], [], [], [], [], [] => some (.struct_head lhs rhs)
  | 47, [], [], [], [], [], [], [] => some (.constructor_head)
  | 48, [], [], [], [], [], [], [] => some (.super_call)
  | 49, [qname], [], [], [], [], [], [] => some (.texception_call qname)
  | 50, [qname], [], [], [], [], [], [] => some (.this_name qname)
  | 51, [name, dval], [], [], [], [], [], [] => some (.member_default name dval)
  | 52, [qname, member], [], [], [], [], [], [] => some (.instanceof_guard qname member)
  | 53, [], [], [], [], [], [], [] => some (.if_args)
  | 54, [name], [], [], [], [], [], [] => some (.if_arg name)
  | 55, [name, qname], [], [], [], [], [], [] => some (.copy_struct name qname)
  | 56, [name, copyFunc, type_list], [], [], [], [], [], [] => some (.copy_container name copyFunc type_list)
  | 57, [name], [], [], [], [], [], [] => some (.copy_plain name)
  | 58, [name], [], [], [], [], [], [] => some (.throw_required name)
  | 59, [], [], [es6], [], [], [], [] => some (.constructor_end es6)
  | 60, [qname], [], [], [], [], [], [] => some (.inherits qname)
  | 61, [qname, name], [], [], [], [], [], [] => some (.prototype_name qname name)
  | 62, [qname], [], [], [], [], [], [] => some (.prototype_init qname)
  | 63, [], [], [], [], [], [], [] => some (.class_end)
  | 64, [], [], [], [], [], [], [] => some (.helpers_comment)
  | 65, [lhs], [], [], [], [], [], [] => some (.const_lhs lhs)
  | 66, [rendered], [], [], [], [], [], [] => some (.const_value rendered)
  | 67, [], [], [], [], [], [], [statement] => (ProcessorJs.decode statement).map .processor
  | 68, [], [], [], [], [], [], [statement] => (ClientJs.decode statement).map .client
  | 69, [], [], [], [], [], [], [statement] => (SendJs.decode statement).map .send
  | 70, [], [], [], [], [], [], [statement] => (RecvJs.decode statement).map .recv
  | 72, [], [], [], [], [], [], [statement] => (EnumJs.decode statement).map .enum_
  | 73, [], [], [], [], [], [], [statement] => (ServiceJs.decode statement).map .service
  | 71, [text], [], [], [], [], [], [] => some (.ts text)
  | _, _, _, _, _, _, _, _ => none

/-- Equality of statements, decided on their layouts: a statement is read
back from its layout, so statements with the same layout are the same. -/
instance : DecidableEq Js := fun a b =>
  decidable_of_iff (a.encode = b.encode)
    ⟨fun h => by
        have hd : ∀ j : Js, Js.decode j.encode = some j := by
          intro j
          cases j <;> first | rfl | (rename_i statement; cases statement <;> rfl)
        have ha := hd a
        have hb := hd b
        rw [h, hb] at ha
        exact (Option.some.inj ha).symm,
      fun h => by rw [h]⟩

/-- One line of a stream: the indentation level at which it was written and
the statement. -/
structure Line where
  indent : Int
  js : Js
  deriving DecidableEq, Repr

/-- The text of `t_generator::indent()` at a level: the indentation unit, once
per level (none below zero). -/
def indent_text (indent_str : String) (level : Int) : String :=
  String.join (List.replicate level.toNat indent_str)

/-- The text of a statement written at indentation `ind`, line ends included. -/
def Js.text (ind : String) : Js → String
  | .read_prim name p value =>
      ind ++ name ++ " = input.read" ++ p.name ++ "()" ++ (if value then ".value" else "") ++ ";\n"
  | .new_struct pfx qname => ind ++ pfx ++ " = new " ++ qname ++ "();\n"
  | .read_struct pfx => ind ++ pfx ++ "[Symbol.for(\"read\")](input);\n"
  | .init_container pfx k =>
      ind ++ pfx ++ (if k = .map then " = \x7b\x7d;\n" else " = [];\n")
  | .read_begin decl rtmp3 k => ind ++ decl ++ rtmp3 ++ " = input.read" ++ k.name ++ "Begin();\n"
  | .decl_size decl size rtmp3 => ind ++ decl ++ size ++ " = " ++ rtmp3 ++ ".size || 0;\n"
  | .for_count decl i size =>
      ind ++ "for (" ++ decl ++ i ++ " = 0; " ++ i ++ " < " ++ size ++ "; ++" ++ i ++ ") \x7b\n"
  | .rstack_pop i =>
      ind ++ "if (" ++ i ++ " > 0 ) \x7b\n"
        ++ ind ++ "  if (input.rstack.length > input.rpos[input.rpos.length -1] + 1) \x7b\n"
        ++ ind ++ "    input.rstack.pop();\n"
        ++ ind ++ "  \x7d\n"
        ++ ind ++ "\x7d\n"
  | .decl_field declaration => ind ++ declaration ++ ";\n"
  | .let_null decl elem => ind ++ decl ++ elem ++ " = null;\n"
  | .map_store pfx key val => ind ++ pfx ++ "[" ++ key ++ "] = " ++ val ++ ";\n"
  | .push pfx elem => ind ++ pfx ++ ".push(" ++ elem ++ ");\n"
  | .read_end k => ind ++ "input.read" ++ k.name ++ "End();\n"
  | .close => ind ++ "\x7d\n"
  | .write_prim p name => ind ++ "output.write" ++ p.name ++ "(" ++ name ++ ");\n"
  | .write_struct pfx => ind ++ pfx ++ "[Symbol.for(\"write\")](output);\n"
  | .write_begin k tags size =>
      ind ++ "output.write" ++ k.name ++ "Begin(" ++ ", ".intercalate (tags ++ [size]) ++ ");\n"
  | .for_in decl iter pfx => ind ++ "for (" ++ decl ++ iter ++ " in " ++ pfx ++ ") \x7b\n"
  | .if_own pfx iter => ind ++ "if (" ++ pfx ++ ".hasOwnProperty(" ++ iter ++ ")) \x7b\n"
  | .let_index decl viter pfx kiter =>
      ind ++ decl ++ viter ++ " = " ++ pfx ++ "[" ++ kiter ++ "];\n"
  | .write_end k => ind ++ "output.write" ++ k.name ++ "End();\n"
  | .reader_head es6 qname =>
      if es6 then ind ++ "[Symbol.for(\"read\")] (input) \x7b\n"
      else ind ++ qname ++ ".prototype[Symbol.for(\"read\")] = function(input) \x7b\n"
  | .read_struct_begin => ind ++ "input.readStructBegin();\n"
  | .while_true => ind ++ "while (true) \x7b\n"
  | .decl_ret decl => ind ++ decl ++ "ret = input.readFieldBegin();\n"
  | .decl_ftype decl => ind ++ decl ++ "ftype = ret.ftype;\n"
  | .decl_fid decl => ind ++ decl ++ "fid = ret.fid;\n"
  | .if_stop => ind ++ "if (ftype == Thrift.Type.STOP) \x7b\n"
  | .break_ pad => ind ++ (if pad then "  " else "") ++ "break;\n"
  | .switch_fid => ind ++ "switch (fid) \x7b\n"
  | .case key => ind ++ "case " ++ decimal key ++ ":\n"
  | .if_ftype tag => ind ++ "if (ftype == " ++ tag ++ ") \x7b\n"
  | .else_ => ind ++ "\x7d else \x7b\n"
  | .skip pad => ind ++ (if pad then "  " else "") ++ "input.skip(ftype);\n"
  | .default_ => ind ++ "default:\n"
  | .read_field_end => ind ++ "input.readFieldEnd();\n"
  | .read_struct_end => ind ++ "input.readStructEnd();\n"
  | .return_ => ind ++ "return;\n"
  | .method_end es6 => ind ++ (if es6 then "\x7d\n\n" else "\x7d;\n\n")
  | .writer_head es6 qname =>
      if es6 then ind ++ "[Symbol.for(\"write\")] (output) \x7b\n"
      else ind ++ qname ++ ".prototype[Symbol.for(\"write\")] = function(output) \x7b\n"
  | .write_struct_begin name => ind ++ "output.writeStructBegin('" ++ name ++ "');\n"
  | .if_set name =>
      ind ++ "if (this." ++ name ++ " !== null && this." ++ name ++ " !== undefined) \x7b\n"
  | .write_field_begin name tag key =>
      ind ++ "output.writeFieldBegin('" ++ name ++ "', " ++ tag ++ ", " ++ decimal key ++ ");\n"
  | .write_field_end => ind ++ "output.writeFieldEnd();\n"
  | .write_field_stop => ind ++ "output.writeFieldStop();\n"
  | .write_struct_end => ind ++ "output.writeStructEnd();\n"
  | .struct_head lhs rhs => lhs ++ rhs ++ "\n"
  | .constructor_head => ind ++ "constructor(args) \x7b\n"
  | .super_call => ind ++ "super(args);\n"
  | .texception_call qname => ind ++ "Thrift.TException.call(this, \"" ++ qname ++ "\");\n"
  | .this_name qname => ind ++ "this.name = \"" ++ qname ++ "\";\n"
  | .member_default name dval => ind ++ "this." ++ name ++ " = " ++ dval ++ ";\n"
  | .instanceof_guard qname member =>
      ind ++ "if (args instanceof " ++ qname ++ ") \x7b\n"
        ++ ind ++ ind ++ "this." ++ member ++ " = args;\n"
        ++ ind ++ ind ++ "return;\n"
        ++ ind ++ "\x7d\n"
  | .if_args => ind ++ "if (args) \x7b\n"
  | .if_arg name =>
      ind ++ "if (args." ++ name ++ " !== undefined && args." ++ name ++ " !== null) \x7b\n"
  | .copy_struct name qname =>
      ind ++ "this." ++ name ++ (" = new " ++ qname ++ "(args." ++ name ++ ");") ++ "\n"
  | .copy_container name copyFunc type_list =>
      ind ++ "this." ++ name
        ++ (" = " ++ copyFunc ++ "(args." ++ name ++ ", [" ++ type_list ++ "]);") ++ "\n"
  | .copy_plain name => ind ++ "this." ++ name ++ " = args." ++ name ++ ";\n"
  | .throw_required name =>
      ind ++ "  throw new Thrift.TProtocolException(Thrift.TProtocolExceptionType.UNKNOWN, "
        ++ "'Required field " ++ name ++ " is unset!');\n"
  | .constructor_end es6 => ind ++ (if es6 then "\x7d\n\n" else "\x7d;\n")
  | .inherits qname => "Thrift.inherits(" ++ qname ++ ", Thrift.TException);\n"
  | .prototype_name qname name => qname ++ ".prototype.name = '" ++ name ++ "';\n"
  | .prototype_init qname => qname ++ ".prototype = \x7b\x7d;\n"
  | .class_end => ind ++ "\x7d;\n"
  | .helpers_comment => "//HELPER FUNCTIONS AND STRUCTURES\n\n"
  | .const_lhs lhs => lhs ++ " = "
  | .const_value rendered => rendered ++ ";" ++ "\n"
  | .processor statement => statement.text ind
  | .client statement => statement.text ind
  | .send statement => statement.text ind
  | .recv statement => statement.text ind
  | .enum_ statement => statement.text ind
  | .service statement => statement.text
  | .ts text => text

/-- The text of a line, for a given indentation unit. -/
def Line.text (indent_str : String) (l : Line) : String :=
  l.js.text (indent_text indent_str l.indent)

/-- The text of a stream, for a given indentation unit. -/
def stream_text (indent_str : String) (out : List Line) : String :=
  String.join (out.map (Line.text indent_str))

/-! ## The generator and its state -/

/-- The generator object: the dialect switches set by the constructor and the
program being generated.  The four fields from `indent_str` on are what the
generator takes from outside `t_js_generator.cc` and are left open: the
indentation unit and the naming of temporaries of the base class
`t_generator`, its string escaping, and the member lists behind struct
references.  After them come the TypeScript module name, the name of the
service being generated (`service_name_` of the base class) and the import
aliases of the included programs. -/
structure t_js_generator where
  gen_node_ : Bool := false
  gen_jquery_ : Bool := false
  gen_ts_ : Bool := false
  gen_es6_ : Bool := false
  gen_esm_ : Bool := false
  no_ns_ : Bool := false
  js_const_type_ : String := "var "
  js_let_type_ : String := "var "
  js_var_type_ : String := "var "
  program_ : t_program
  indent_str : String := "  "
  tmp_name : String → Nat → String := fun name n => name ++ Nat.repr n
  get_escaped_string : String → String := id
  get_members : t_program → String → List t_field := fun _ _ => []
  ts_module_ : String := ""
  service_name_ : String := ""
  include_2_import_name : t_program → Option String := fun _ => none

/-- The mutable part of the generator: indentation level and the counter
behind `tmp`. -/
structure GenState where
  indent_ : Int := 0
  tmp_ : Nat := 0
  deriving DecidableEq, Repr

/-- What a generator step leaves behind: the lines it appended, the state, and
its value or the message of the exception it threw. -/
structure Outcome (α : Type) where
  out : List Line
  state : GenState
  result : Except String α

/-- A member function of the generator writing to a stream. -/
def Gen (α : Type) : Type := GenState → Outcome α

namespace Gen

def pure {α : Type} (a : α) : Gen α :=
  fun s => ⟨[], s, .ok a⟩

def bind {α β : Type} (g : Gen α) (f : α → Gen β) : Gen β :=
  fun s =>
    let r := g s
    match r.result with
    | .error e => ⟨r.out, r.state, .error e⟩
    | .ok a =>
      let r2 := f a r.state
      ⟨r.out ++ r2.out, r2.state, r2.result⟩

instance : Monad Gen where
  pure := Gen.pure
  bind := Gen.bind

/-- A thrown exception: nothing more is written. -/
def throw {α : Type} (msg : String) : Gen α :=
  fun s => ⟨[], s, .error msg⟩

/-- Lifting of a function that may throw but neither writes nor changes state. -/
def lift {α : Type} (e : Except String α) : Gen α :=
  fun s => ⟨[], s, e⟩

/-- Modelled from the spec: `t_generator::indent_up` (declared in `t_generator.h`). -/
def indent_up : Gen Unit :=
  fun s => ⟨[], { s with indent_ := s.indent_ + 1 }, .ok ()⟩

/-- Modelled from the spec: `t_generator::indent_down` (declared in `t_generator.h`). -/
def indent_down : Gen Unit :=
  fun s => ⟨[], { s with indent_ := s.indent_ - 1 }, .ok ()⟩

/-- The statement `indent(out) << ... << '\n'`: one line at the current level. -/
def emit (js : Js) : Gen Unit :=
  fun s => ⟨[⟨s.indent_, js⟩], s, .ok ()⟩

/-- Modelled from the spec: `t_generator::scope_down` (declared in
`t_generator.h`): one level out, then the closing brace. -/
def scope_down : Gen Unit :=
  fun s => ⟨[⟨s.indent_ - 1, .close⟩], { s with indent_ := s.indent_ - 1 }, .ok ()⟩

/-- A `for` loop over a vector, running the body on each element in order. -/
def for_each {α : Type} : List α → (α → Gen Unit) → Gen Unit
  | [], _ => Gen.pure ()
  | a :: rest, body => Gen.bind (body a) (fun _ => for_each rest body)

/-- A `for` loop over a vector whose body hands back the element it worked on;
the elements handed back are collected in order. -/
def map_each {α β : Type} : List α → (α → Gen β) → Gen (List β)
  | [], _ => Gen.pure []
  | a :: rest, body =>
    Gen.bind (body a) (fun b => Gen.bind (map_each rest body) (fun bs => Gen.pure (b :: bs)))

end Gen

/-- Whether the step returned normally. -/
def Outcome.ok {α : Type} (r : Outcome α) : Bool :=
  match r.result with
  | .ok _ => true
  | .error _ => false

/-- The value of a step that returned normally. -/
def Outcome.value? {α : Type} (r : Outcome α) : Option α :=
  match r.result with
  | .ok a => some a
  | .error _ => none

/-- The message of the exception a step threw. -/
def Outcome.error? {α : Type} (r : Outcome α) : Option String :=
  match r.result with
  | .ok _ => none
  | .error e => some e

namespace t_js_generator

/-- Modelled from the spec: `t_generator::indent()` (declared in
`t_generator.h`), the indentation text of the current level. -/
def indent (g : t_js_generator) : Gen String :=
  fun s => ⟨[], s, .ok (indent_text g.indent_str s.indent_)⟩

/-- Modelled from the spec: `t_generator::tmp` (declared in `t_generator.h`), a
fresh name made from the given one and the running counter, which it advances. -/
def tmp (g : t_js_generator) (name : String) : Gen String :=
  fun s => ⟨[], { s with tmp_ := s.tmp_ + 1 }, .ok (g.tmp_name name s.tmp_)⟩

/-- Takes a name and produces a valid NodeJS identifier from it.  A name is
read character by character, each standing for one `char` of the source. -/
def make_valid_nodeJs_identifier (name : String) : String :=
  match name.data with
  | [] => name
  | c :: _ =>
    let str := if '0' ≤ c ∧ c ≤ '9' then '_' :: name.data else name.data
    String.mk (str.map fun c =>
      if (('A' > c) ∨ (c > 'Z')) ∧ (('a' > c) ∨ (c > 'z')) ∧ (('0' > c) ∨ (c > '9'))
          ∧ ('_' ≠ c) ∧ ('$' ≠ c) then '_' else c)

def js_namespace (g : t_js_generator) (p : t_program) : String :=
  if g.no_ns_ then ""
  else
    let ns := p.namespace_js
    if ns.length > 0 then ns ++ "." else ns

/-- The qualifier in front of a type name.  A struct or enum always has a
defining program, so the null test of the source holds throughout. -/
def js_type_namespace (g : t_js_generator) (p : t_program) : String :=
  if g.gen_node_ then
    if p ≠ g.program_ then make_valid_nodeJs_identifier p.name ++ "_ttypes."
    else "ttypes."
  else g.js_namespace p

/-- Converts the parse type to the name of its wire tag. -/
def type_to_enum (type : t_type) : Except String String :=
  match type.get_true_type with
  | .base tbase _ =>
    match tbase with
    | .TYPE_VOID => .error "NO T_VOID CONSTRUCT"
    | .TYPE_STRING => .ok "Thrift.Type.STRING"
    | .TYPE_BOOL => .ok "Thrift.Type.BOOL"
    | .TYPE_I8 => .ok "Thrift.Type.BYTE"
    | .TYPE_I16 => .ok "Thrift.Type.I16"
    | .TYPE_I32 => .ok "Thrift.Type.I32"
    | .TYPE_I64 => .ok "Thrift.Type.I64"
    | .TYPE_DOUBLE => .ok "Thrift.Type.DOUBLE"
  | .enum _ _ => .ok "Thrift.Type.I32"
  | .struct _ _ _ => .ok "Thrift.Type.STRUCT"
  | .map _ _ => .ok "Thrift.Type.MAP"
  | .set _ => .ok "Thrift.Type.SET"
  | .list _ => .ok "Thrift.Type.LIST"
  | .typedef name _ => .error ("INVALID TYPE IN type_to_enum: " ++ name)

/-- The type of the declared field named `name`: the scan of the source keeps
the last field of that name. -/
def find_field_type (fields : List t_field) (name : String) : Option t_type :=
  fields.foldl (fun field_type f => if f.name = name then some f.type else field_type) none

mutual

/-- Prints the value of a constant with the given type.  It writes to a string
of its own and returns it; only the indentation level of the generator moves. -/
def render_const_value (g : t_js_generator) (type : t_type) (value : t_const_value) :
    Gen String :=
  match type.get_true_type with
  | .base tbase _ =>
    match tbase with
    | .TYPE_STRING => pure ("'" ++ g.get_escaped_string value.get_string ++ "'")
    | .TYPE_BOOL => pure (if value.get_integer > 0 then "true" else "false")
    | .TYPE_I8 => pure (decimal value.get_integer)
    | .TYPE_I16 => pure (decimal value.get_integer)
    | .TYPE_I32 => pure (decimal value.get_integer)
    | .TYPE_I64 =>
      let integer_value := value.get_integer
      if integer_value ≤ max_safe_integer ∧ integer_value ≥ min_safe_integer then
        pure ("new Int64(" ++ decimal integer_value ++ ")")
      else
        pure ("new Int64('" ++ hex64 integer_value ++ "')")
    | .TYPE_DOUBLE =>
      if value.is_integer then pure (decimal value.get_integer)
      else pure value.emit_double_as_string
    | .TYPE_VOID =>
      Gen.throw ("compiler error: no const of base type " ++ tbase.t_base_name)
  | .enum _ _ => pure (decimal value.get_integer)
  | .struct program name _ => do
    let head := "new " ++ g.js_type_namespace program ++ name ++ "(\x7b"
    Gen.indent_up
    let body ←
      match value with
      | .CV_MAP val => render_struct_entries g name (g.get_members program name) val true
      | _ => pure ""
    Gen.indent_down
    let ind ← g.indent
    pure (head ++ body ++ "\n" ++ ind ++ "\x7d)")
  | .map ktype vtype => do
    Gen.indent_up
    let body ←
      match value with
      | .CV_MAP val => render_map_entries g ktype vtype val true
      | _ => pure ""
    Gen.indent_down
    let ind ← g.indent
    pure ("\x7b\n" ++ body ++ "\n" ++ ind ++ "\x7d")
  | .list etype => do
    let body ←
      match value with
      | .CV_LIST val => render_list_entries g etype val true
      | _ => pure ""
    pure ("[" ++ body ++ "]")
  | .set etype => do
    let body ←
      match value with
      | .CV_LIST val => render_list_entries g etype val true
      | _ => pure ""
    pure ("[" ++ body ++ "]")
  | .typedef _ _ => pure ""

/-- The loop of `render_const_value` over the entries of a struct constant;
`first` says that the iterator stands at `val.begin()`. -/
def render_struct_entries (g : t_js_generator) (type_name : String) (fields : List t_field) :
    List (t_const_value × t_const_value) → Bool → Gen String
  | [], _ => pure ""
  | (k, v) :: rest, first =>
    match find_field_type fields k.get_string with
    | none => Gen.throw ("type error: " ++ type_name ++ " has no field " ++ k.get_string)
    | some field_type => do
      let ind ← g.indent
      let key ← render_const_value g g_type_string k
      let val ← render_const_value g field_type v
      let more ← render_struct_entries g type_name fields rest false
      pure ((if first then "" else ",") ++ "\n" ++ ind ++ key ++ " : " ++ val ++ more)

/-- The loop of `render_const_value` over the entries of a map constant. -/
def render_map_entries (g : t_js_generator) (ktype vtype : t_type) :
    List (t_const_value × t_const_value) → Bool → Gen String
  | [], _ => pure ""
  | (k, v) :: rest, first => do
    let ind ← g.indent
    let key ←
      if ktype.is_base_type ∧ ktype.get_true_type.get_base = some .TYPE_I64 then
        pure (ind ++ "\"" ++ decimal k.get_integer ++ "\"")
      else do
        let r ← render_const_value g ktype k
        pure (ind ++ r)
    let val ← render_const_value g vtype v
    let more ← render_map_entries g ktype vtype rest false
    pure ((if first then "" else ",\n") ++ key ++ " : " ++ val ++ more)

/-- The loop of `render_const_value` over the elements of a list or set constant. -/
def render_list_entries (g : t_js_generator) (etype : t_type) :
    List t_const_value → Bool → Gen String
  | [], _ => pure ""
  | v :: rest, first => do
    let r ← render_const_value g etype v
    let more ← render_list_entries g etype rest false
    pure ((if first then "" else ",") ++ r ++ more)

end

/-- Declares a field, which may include initialization as necessary. -/
def declare_field (g : t_js_generator) (tfield : t_field) (init : Bool) (obj : Bool) : String :=
  let result := if !obj then g.js_let_type_ ++ tfield.name else "this." ++ tfield.name
  if init then
    match tfield.type.get_true_type with
    | .base .TYPE_VOID _ => result
    | .base _ _ => result ++ " = null"
    | .enum _ _ => result ++ " = null"
    | .map _ _ => result ++ " = null"
    | .set _ => result ++ " = null"
    | .list _ => result ++ " = null"
    | .struct program name _ =>
      if obj then result ++ " = new " ++ g.js_type_namespace program ++ name ++ "()"
      else result ++ " = null"
    | .typedef _ _ => result
  else result ++ " = null"

/-- The primitive accessor suffix chosen by the switch on the base type in the
field codecs; void has none. -/
def base_prim (tbase : t_base) (binary : Bool) : Option Prim :=
  match tbase with
  | .TYPE_VOID => none
  | .TYPE_STRING => some (if binary then .binary else .string)
  | .TYPE_BOOL => some .bool
  | .TYPE_I8 => some .byte
  | .TYPE_I16 => some .i16
  | .TYPE_I32 => some .i32
  | .TYPE_I64 => some .i64
  | .TYPE_DOUBLE => some .double

/-- Emits the allocation of a struct and the call of its reader. -/
def generate_deserialize_struct (g : t_js_generator) (program : t_program) (name : String)
    (pfx : String) : Gen Unit := do
  Gen.emit (.new_struct pfx (g.js_type_namespace program ++ name))
  Gen.emit (.read_struct pfx)

mutual

/-- Deserializes a field of any type.  Here and below `pfx` is the parameter
`prefix` of the source. -/
def generate_deserialize_field (g : t_js_generator) (tfield : t_field) (pfx : String) :
    Gen Unit :=
  if tfield.type.get_true_type.is_void then
    Gen.throw ("CANNOT GENERATE DESERIALIZE CODE FOR void TYPE: " ++ pfx ++ tfield.name)
  else
    let name := pfx ++ tfield.name
    match h : tfield.type.get_true_type with
    | .struct program sname _ => generate_deserialize_struct g program sname name
    | .map key val => generate_deserialize_container g (.map key val) name
    | .set elem => generate_deserialize_container g (.set elem) name
    | .list elem => generate_deserialize_container g (.list elem) name
    | .base tbase binary =>
      match base_prim tbase binary with
      | none => Gen.throw ("compiler error: cannot serialize void field in a struct: " ++ name)
      | some p => Gen.emit (.read_prim name p (!g.gen_node_))
    | .enum _ _ => Gen.emit (.read_prim name .i32 (!g.gen_node_))
    | .typedef _ _ => pure ()
termination_by (sizeOf tfield.type, 2)
decreasing_by
  all_goals
    have hs : ∀ u : t_type, sizeOf u.get_true_type ≤ sizeOf u := by
      intro u
      induction u <;> simp [t_type.get_true_type]
      omega
    have h1 := hs tfield.type
    rw [h] at h1
    simp only [t_type.map.sizeOf_spec, t_type.set.sizeOf_spec, t_type.list.sizeOf_spec] at h1
    simp_wf
    rw [Prod.lex_def]
    simp only
    omega

/-- Reads a container: header, counted loop over the elements, footer. -/
def generate_deserialize_container (g : t_js_generator) (ttype : t_type) (pfx : String) :
    Gen Unit := do
  let size ← g.tmp "_size"
  let rtmp3 ← g.tmp "_rtmp3"
  match ttype with
  | .map _ _ =>
    Gen.emit (.init_container pfx .map)
    Gen.emit (.read_begin g.js_const_type_ rtmp3 .map)
    Gen.emit (.decl_size g.js_const_type_ size rtmp3)
  | .set _ =>
    Gen.emit (.init_container pfx .set)
    Gen.emit (.read_begin g.js_const_type_ rtmp3 .set)
    Gen.emit (.decl_size g.js_const_type_ size rtmp3)
  | .list _ =>
    Gen.emit (.init_container pfx .list)
    Gen.emit (.read_begin g.js_const_type_ rtmp3 .list)
    Gen.emit (.decl_size g.js_const_type_ size rtmp3)
  | _ => pure ()
  let i ← g.tmp "_i"
  Gen.emit (.for_count g.js_let_type_ i size)
  Gen.indent_up
  match ttype with
  | .map key val =>
    if !g.gen_node_ then Gen.emit (.rstack_pop i) else pure ()
    generate_deserialize_map_element g key val pfx
  | .set elem => generate_deserialize_set_element g elem pfx
  | .list elem => generate_deserialize_list_element g elem pfx
  | _ => pure ()
  Gen.scope_down
  match ttype with
  | .map _ _ => Gen.emit (.read_end .map)
  | .set _ => Gen.emit (.read_end .set)
  | .list _ => Gen.emit (.read_end .list)
  | _ => pure ()
termination_by (sizeOf ttype, 1)
decreasing_by
  all_goals simp_wf
  all_goals exact Prod.Lex.right _ (by decide)

/-- Generates code to deserialize a map entry: key, then value. -/
def generate_deserialize_map_element (g : t_js_generator) (key_type val_type : t_type)
    (pfx : String) : Gen Unit := do
  let key ← g.tmp "key"
  let val ← g.tmp "val"
  let fkey : t_field := { type := key_type, name := key }
  let fval : t_field := { type := val_type, name := val }
  Gen.emit (.decl_field (g.declare_field fkey false false))
  Gen.emit (.decl_field (g.declare_field fval false false))
  generate_deserialize_field g fkey ""
  generate_deserialize_field g fval ""
  Gen.emit (.map_store pfx key val)
termination_by (sizeOf (t_type.map key_type val_type), 0)
decreasing_by
  all_goals simp_wf
  all_goals apply Prod.Lex.left
  all_goals omega

def generate_deserialize_set_element (g : t_js_generator) (elem_type : t_type) (pfx : String) :
    Gen Unit := do
  let elem ← g.tmp "elem"
  let felem : t_field := { type := elem_type, name := elem }
  Gen.emit (.let_null g.js_let_type_ elem)
  generate_deserialize_field g felem ""
  Gen.emit (.push pfx elem)
termination_by (sizeOf (t_type.set elem_type), 0)
decreasing_by
  all_goals simp_wf
  all_goals apply Prod.Lex.left
  all_goals omega

def generate_deserialize_list_element (g : t_js_generator) (elem_type : t_type) (pfx : String) :
    Gen Unit := do
  let elem ← g.tmp "elem"
  let felem : t_field := { type := elem_type, name := elem }
  Gen.emit (.let_null g.js_let_type_ elem)
  generate_deserialize_field g felem ""
  Gen.emit (.push pfx elem)
termination_by (sizeOf (t_type.list elem_type), 0)
decreasing_by
  all_goals simp_wf
  all_goals apply Prod.Lex.left
  all_goals omega

end

/-- Serializes all the members of a struct: the call of its writer. -/
def generate_serialize_struct (pfx : String) : Gen Unit :=
  Gen.emit (.write_struct pfx)

mutual

/-- Serializes a field of any type. -/
def generate_serialize_field (g : t_js_generator) (tfield : t_field) (pfx : String) :
    Gen Unit :=
  if tfield.type.get_true_type.is_void then
    Gen.throw ("CANNOT GENERATE SERIALIZE CODE FOR void TYPE: " ++ pfx ++ tfield.name)
  else
    match h : tfield.type.get_true_type with
    | .struct _ _ _ => generate_serialize_struct (pfx ++ tfield.name)
    | .map key val => generate_serialize_container g (.map key val) (pfx ++ tfield.name)
    | .set elem => generate_serialize_container g (.set elem) (pfx ++ tfield.name)
    | .list elem => generate_serialize_container g (.list elem) (pfx ++ tfield.name)
    | .base tbase binary =>
      let name := if !pfx.isEmpty then pfx ++ tfield.name else tfield.name
      match base_prim tbase binary with
      | none => Gen.throw ("compiler error: cannot serialize void field in a struct: " ++ name)
      | some p => Gen.emit (.write_prim p name)
    | .enum _ _ =>
      let name := if !pfx.isEmpty then pfx ++ tfield.name else tfield.name
      Gen.emit (.write_prim .i32 name)
    | .typedef _ _ => pure ()
termination_by (sizeOf tfield.type, 2)
decreasing_by
  all_goals
    have hs : ∀ u : t_type, sizeOf u.get_true_type ≤ sizeOf u := by
      intro u
      induction u <;> simp [t_type.get_true_type]
      omega
    have h1 := hs tfield.type
    rw [h] at h1
    simp only [t_type.map.sizeOf_spec, t_type.set.sizeOf_spec, t_type.list.sizeOf_spec] at h1
    simp_wf
    rw [Prod.lex_def]
    simp only
    omega

/-- Writes out a container: header with the element tags and the size, loop
over the entries, footer. -/
def generate_serialize_container (g : t_js_generator) (ttype : t_type) (pfx : String) :
    Gen Unit := do
  match ttype with
  | .map key val =>
    let ktag ← Gen.lift (type_to_enum key)
    let vtag ← Gen.lift (type_to_enum val)
    Gen.emit (.write_begin .map [ktag, vtag] ("Thrift.objectLength(" ++ pfx ++ ")"))
  | .set elem =>
    let etag ← Gen.lift (type_to_enum elem)
    Gen.emit (.write_begin .set [etag] (pfx ++ ".length"))
  | .list elem =>
    let etag ← Gen.lift (type_to_enum elem)
    Gen.emit (.write_begin .list [etag] (pfx ++ ".length"))
  | _ => pure ()
  match ttype with
  | .map key val =>
    let kiter ← g.tmp "kiter"
    let viter ← g.tmp "viter"
    Gen.emit (.for_in g.js_let_type_ kiter pfx)
    Gen.indent_up
    Gen.emit (.if_own pfx kiter)
    Gen.indent_up
    Gen.emit (.let_index g.js_let_type_ viter pfx kiter)
    generate_serialize_map_element g key val kiter viter
    Gen.scope_down
    Gen.scope_down
  | .set elem =>
    let iter ← g.tmp "iter"
    Gen.emit (.for_in g.js_let_type_ iter pfx)
    Gen.indent_up
    Gen.emit (.if_own pfx iter)
    Gen.indent_up
    Gen.emit (.let_index "" iter pfx iter)
    generate_serialize_set_element g elem iter
    Gen.scope_down
    Gen.scope_down
  | .list elem =>
    let iter ← g.tmp "iter"
    Gen.emit (.for_in g.js_let_type_ iter pfx)
    Gen.indent_up
    Gen.emit (.if_own pfx iter)
    Gen.indent_up
    Gen.emit (.let_index "" iter pfx iter)
    generate_serialize_list_element g elem iter
    Gen.scope_down
    Gen.scope_down
  | _ => pure ()
  match ttype with
  | .map _ _ => Gen.emit (.write_end .map)
  | .set _ => Gen.emit (.write_end .set)
  | .list _ => Gen.emit (.write_end .list)
  | _ => pure ()
termination_by (sizeOf ttype, 1)
decreasing_by
  all_goals simp_wf
  all_goals exact Prod.Lex.right _ (by decide)

/-- Serializes the members of a map: key, then value. -/
def generate_serialize_map_element (g : t_js_generator) (key_type val_type : t_type)
    (kiter viter : String) : Gen Unit := do
  let kfield : t_field := { type := key_type, name := kiter }
  generate_serialize_field g kfield ""
  let vfield : t_field := { type := val_type, name := viter }
  generate_serialize_field g vfield ""
termination_by (sizeOf (t_type.map key_type val_type), 0)
decreasing_by
  all_goals simp_wf
  all_goals apply Prod.Lex.left
  all_goals omega

/-- Serializes the members of a set. -/
def generate_serialize_set_element (g : t_js_generator) (elem_type : t_type) (iter : String) :
    Gen Unit := do
  let efield : t_field := { type := elem_type, name := iter }
  generate_serialize_field g efield ""
termination_by (sizeOf (t_type.set elem_type), 0)
decreasing_by
  all_goals simp_wf
  all_goals apply Prod.Lex.left
  all_goals omega

/-- Serializes the members of a list. -/
def generate_serialize_list_element (g : t_js_generator) (elem_type : t_type) (iter : String) :
    Gen Unit := do
  let efield : t_field := { type := elem_type, name := iter }
  generate_serialize_field g efield ""
termination_by (sizeOf (t_type.list elem_type), 0)
decreasing_by
  all_goals simp_wf
  all_goals apply Prod.Lex.left
  all_goals omega

end

/-- The body of the loop of `generate_js_struct_reader` over the declared
fields: the branch of the switch for one field. -/
def generate_js_struct_reader_case (g : t_js_generator) (f : t_field) : Gen Unit := do
  Gen.emit (.case f.key)
  let tag ← Gen.lift (type_to_enum f.type)
  Gen.emit (.if_ftype tag)
  Gen.indent_up
  generate_deserialize_field g f "this."
  Gen.indent_down
  Gen.emit .else_
  Gen.emit (.skip true)
  Gen.emit .close
  Gen.emit (.break_ false)

/-- Generates the read() method for a struct. -/
def generate_js_struct_reader (g : t_js_generator) (tstruct : t_struct) : Gen Unit := do
  let fields := tstruct.members
  Gen.emit (.reader_head g.gen_es6_ (g.js_namespace tstruct.program ++ tstruct.name))
  Gen.indent_up
  Gen.emit .read_struct_begin
  Gen.emit .while_true
  Gen.indent_up
  Gen.emit (.decl_ret g.js_const_type_)
  Gen.emit (.decl_ftype g.js_const_type_)
  if !fields.isEmpty then
    Gen.emit (.decl_fid g.js_const_type_)
  Gen.emit .if_stop
  Gen.indent_up
  Gen.emit (.break_ false)
  Gen.indent_down
  Gen.emit .close
  if !fields.isEmpty then
    Gen.emit .switch_fid
    Gen.indent_up
    Gen.for_each fields (generate_js_struct_reader_case g)
    if fields.length = 1 then
      Gen.emit (.case 0)
      Gen.emit (.skip true)
      Gen.emit (.break_ true)
    Gen.emit .default_
    Gen.emit (.skip true)
    Gen.scope_down
  else
    Gen.emit (.skip false)
  Gen.emit .read_field_end
  Gen.scope_down
  Gen.emit .read_struct_end
  Gen.emit .return_
  Gen.indent_down
  Gen.emit (.method_end g.gen_es6_)

/-- The body of the loop of `generate_js_struct_writer` over the declared
fields: the guarded block that writes one field. -/
def generate_js_struct_writer_field (g : t_js_generator) (f : t_field) : Gen Unit := do
  Gen.emit (.if_set f.name)
  Gen.indent_up
  let tag ← Gen.lift (type_to_enum f.type)
  Gen.emit (.write_field_begin f.name tag f.key)
  generate_serialize_field g f "this."
  Gen.emit .write_field_end
  Gen.indent_down
  Gen.emit .close

/-- Generates the write() method for a struct. -/
def generate_js_struct_writer (g : t_js_generator) (tstruct : t_struct) : Gen Unit := do
  let name := tstruct.name
  let fields := tstruct.members
  Gen.emit (.writer_head g.gen_es6_ (g.js_namespace tstruct.program ++ tstruct.name))
  Gen.indent_up
  Gen.emit (.write_struct_begin name)
  Gen.for_each fields (generate_js_struct_writer_field g)
  Gen.emit .write_field_stop
  Gen.emit .write_struct_end
  Gen.emit .return_
  Gen.indent_down
  Gen.emit (.method_end g.gen_es6_)

def has_js_namespace (g : t_js_generator) (p : t_program) : Bool :=
  if g.no_ns_ then false
  else p.namespace_js.length > 0

/-- Special indentation for TypeScript definitions because of the module:
the normal indentation, and two blanks more if a module was defined. -/
def ts_indent (g : t_js_generator) : Gen String := do
  let ind ← g.indent
  pure (ind ++ (if !g.ts_module_.isEmpty then "  " else ""))

/-- Returns "declare " if no module was defined. -/
def ts_declare (g : t_js_generator) : String :=
  if g.ts_module_.isEmpty then (if g.gen_node_ then "declare " else "export declare ") else ""

/-- Returns "?" if the given field is optional or has a default value. -/
def ts_get_req (field : t_field) : String :=
  if field.req = .T_OPTIONAL ∨ field.value.isSome then "?" else ""

/-- Modelled from the spec: the items `std::getline` reads from a text, which
are the pieces between line feeds, a last empty piece left out. -/
def getlines (doc : String) : List String :=
  let items := doc.splitOn "\n"
  if items.getLast? = some "" then items.dropLast else items

/-- Returns the documentation, if the provided documentable object has one. -/
def ts_print_doc (g : t_js_generator) (tdoc : Option String) : Gen String := do
  let ind ← g.ts_indent
  match tdoc with
  | some doc =>
    pure ("\n" ++ (ind ++ "/**" ++ "\n")
      ++ String.join ((getlines doc).map fun item => ind ++ " * " ++ item ++ "\n")
      ++ (ind ++ " */" ++ "\n"))
  | none => pure "\n"

/-- Converts a type to a TypeScript type. -/
def ts_get_type (g : t_js_generator) (type : t_type) : String :=
  match h : type.get_true_type with
  | .base tbase binary =>
    match tbase with
    | .TYPE_STRING => if binary then "Buffer" else "string"
    | .TYPE_BOOL => "boolean"
    | .TYPE_I8 => "any"
    | .TYPE_I16 => "number"
    | .TYPE_I32 => "number"
    | .TYPE_DOUBLE => "number"
    | .TYPE_I64 => "Int64"
    | .TYPE_VOID => "void"
  | .enum program name =>
    g.js_namespace program
      ++ (if program ≠ g.program_ then
            match g.include_2_import_name program with
            | some alias_name => alias_name ++ "."
            | none => ""
          else "")
      ++ name
  | .struct program name _ =>
    g.js_namespace program
      ++ (if program ≠ g.program_ then
            match g.include_2_import_name program with
            | some alias_name => alias_name ++ "."
            | none => ""
          else "")
      ++ name
  | .list etype => ts_get_type g etype ++ "[]"
  | .set etype => ts_get_type g etype ++ "[]"
  | .map key_type val_type =>
    let ktype := ts_get_type g key_type
    let vtype := ts_get_type g val_type
    if ktype = "number" ∨ ktype = "string" then
      "\x7b [k: " ++ ktype ++ "]: " ++ vtype ++ "; \x7d"
    else if key_type.is_enum then
      "\x7b [k: number /*" ++ ktype ++ "*/]: " ++ vtype ++ "; \x7d"
    else "any"
  | .typedef _ _ => ""
termination_by sizeOf type
decreasing_by
  all_goals
    have hs : ∀ u : t_type, sizeOf u.get_true_type ≤ sizeOf u := by
      intro u
      induction u <;> simp [t_type.get_true_type]
      omega
    have h1 := hs type
    rw [h] at h1
    simp only [t_type.map.sizeOf_spec, t_type.set.sizeOf_spec, t_type.list.sizeOf_spec] at h1
    omega

/-- Return type of contained elements for a container type.  For maps this is
the type of the value (keys are always strings in js).  It is called on
container types only. -/
def get_contained_type (t : t_type) : t_type :=
  match t with
  | .list elem => elem
  | .set elem => elem
  | .map _ val => val
  | _ => t

/-- The `while (etype->is_container())` loop of the constructor's container
copy: it appends one copy function per inner container level to `type_list`
and hands back the innermost contained type with the list. -/
def copy_type_list (etype : t_type) (type_list : String) : t_type × String :=
  if h : etype.is_container then
    let type_list := if type_list.length > 0 then type_list ++ ", " else type_list
    let type_list := type_list ++ (if etype.is_map then "Thrift.copyMap" else "Thrift.copyList")
    copy_type_list (get_contained_type etype) type_list
  else (etype, type_list)
termination_by sizeOf etype
decreasing_by
  cases etype <;> simp [t_type.is_container, t_type.is_map, t_type.is_set, t_type.is_list] at h
    <;> simp [get_contained_type]

/-- The assignment the constructor writes inside the presence test of a
field, for the field name and its resolved type `t`: a struct (`t->is_struct()`,
a struct reference that is no exception) is copied with its constructor, a
container with `Thrift.copyMap` or `Thrift.copyList`, anything else is assigned. -/
def generate_js_struct_definition_copy (g : t_js_generator) (name : String) (t : t_type) : Js :=
  match t with
  | .struct program sname false => .copy_struct name (g.js_type_namespace program ++ sname)
  | _ =>
    if t.is_container then
      let copyFunc := if t.is_map then "Thrift.copyMap" else "Thrift.copyList"
      let (etype, type_list) := copy_type_list (get_contained_type t) ""
      let type_list := if type_list.length > 0 then type_list ++ ", " else type_list
      let type_list :=
        match etype with
        | .struct program sname false => type_list ++ (g.js_type_namespace program ++ sname)
        | _ => type_list ++ "null"
      .copy_container name copyFunc type_list
    else .copy_plain name

/-- The body of the first loop of `generate_js_struct_definition` (members with
arguments): the declaration of one member, with its default value unless the
member is a struct or exception. -/
def generate_js_struct_definition_member (g : t_js_generator) (is_exception : Bool)
    (m : t_field) : Gen Unit := do
  let dval := g.declare_field m false true
  let t := m.type.get_true_type
  match m.value with
  | some value =>
    if !(t.is_struct || t.is_xception) then
      let dval ← render_const_value g m.type value
      Gen.emit (.member_default m.name dval)
    else
      Gen.emit (.decl_field dval)
  | none => Gen.emit (.decl_field dval)
  if g.gen_ts_ then
    let ts_access := if g.gen_node_ then "public " else ""
    let member_name := m.name
    let optional_flag := if is_exception ∧ member_name = "message" then "" else ts_get_req m
    let ind ← g.ts_indent
    Gen.emit (.ts (ind ++ ts_access ++ member_name ++ optional_flag ++ ": "
      ++ g.ts_get_type m.type ++ ";" ++ "\n"))

/-- The body of the second loop: the default value of a member that is a struct
or exception. -/
def generate_js_struct_definition_default (g : t_js_generator) (m : t_field) : Gen Unit := do
  let t := m.type.get_true_type
  match m.value with
  | some value =>
    if t.is_struct || t.is_xception then
      let dval ← render_const_value g t value
      Gen.emit (.member_default m.name dval)
  | none => pure ()

/-- The body of the third loop (early returns for exceptions): the guard of a
member whose resolved type is an exception (`t->is_xception()`). -/
def generate_js_struct_definition_guard (g : t_js_generator) (m : t_field) : Gen Unit :=
  match m.type.get_true_type with
  | .struct program name true =>
    Gen.emit (.instanceof_guard (g.js_type_namespace program ++ name) m.name)
  | _ => pure ()

/-- The body of the fourth loop: the presence test of one member, the copy of
the argument, and the `else` branch that throws when `!get_req()` holds, that
is for the requiredness of value 0, `T_REQUIRED`. -/
def generate_js_struct_definition_arg (g : t_js_generator) (m : t_field) : Gen Unit := do
  let t := m.type.get_true_type
  Gen.emit (.if_arg m.name)
  Gen.indent_up
  Gen.emit (g.generate_js_struct_definition_copy m.name t)
  Gen.indent_down
  if m.req = .T_REQUIRED then
    Gen.emit .else_
    Gen.emit (.throw_required m.name)
  Gen.emit .close
  if g.gen_ts_ then
    Gen.emit (.ts (m.name ++ ts_get_req m ++ ": " ++ g.ts_get_type m.type ++ "; "))

/-- The first part of `generate_js_struct_definition`, up to the end of the
loop over the members with arguments: the head of the definition, the opening
of the constructor, the call of the inherited constructor and the member
declarations. -/
def generate_js_struct_definition_open (g : t_js_generator) (tstruct : t_struct)
    (is_exception : Bool) (is_exported : Bool) : Gen Unit := do
  let members := tstruct.members
  let qname := g.js_namespace tstruct.program ++ tstruct.name
  let lhs :=
    if g.gen_node_ then
      let commonjs_export :=
        if is_exported ∧ !g.gen_esm_ then " = module.exports." ++ tstruct.name else ""
      let pfx :=
        if g.has_js_namespace tstruct.program then g.js_namespace tstruct.program
        else g.js_const_type_
      (if is_exported ∧ g.gen_esm_ then "export " else "") ++ pfx ++ tstruct.name
        ++ commonjs_export
    else qname
  if g.gen_ts_ then
    let doc ← g.ts_print_doc tstruct.doc
    let ind ← g.ts_indent
    Gen.emit (.ts (doc ++ ind ++ g.ts_declare ++ "class " ++ tstruct.name
      ++ (if is_exception then " extends Thrift.TException" else "") ++ " \x7b" ++ "\n"))
  if g.gen_es6_ then
    if g.gen_node_ ∧ is_exception then
      Gen.emit (.struct_head lhs " = class extends Thrift.TException \x7b")
    else
      Gen.emit (.struct_head lhs " = class \x7b")
    Gen.indent_up
    Gen.emit .constructor_head
  else
    Gen.emit (.struct_head lhs " = function(args) \x7b")
  Gen.indent_up
  -- Call super() method on inherited Error class
  if g.gen_node_ ∧ is_exception then
    if g.gen_es6_ then
      Gen.emit .super_call
    else
      Gen.emit (.texception_call qname)
    Gen.emit (.this_name qname)
  -- members with arguments
  Gen.for_each members (g.generate_js_struct_definition_member is_exception)

/-- The part of `generate_js_struct_definition` under `if (members.size() > 0)`
(generate constructor from array): the defaults of struct members, the early
returns for exceptions and the block `if (args)` with the presence test of
every member. -/
def generate_js_struct_definition_args (g : t_js_generator) (tstruct : t_struct) :
    Gen Unit := do
  let members := tstruct.members
  Gen.for_each members g.generate_js_struct_definition_default
  -- Early returns for exceptions
  Gen.for_each members g.generate_js_struct_definition_guard
  Gen.emit .if_args
  Gen.indent_up
  if g.gen_ts_ then
    let ind ← g.ts_indent
    Gen.emit (.ts ("\n" ++ ind ++ "constructor(args?: \x7b "))
  Gen.for_each members g.generate_js_struct_definition_arg
  Gen.indent_down
  Gen.emit .close
  if g.gen_ts_ then
    Gen.emit (.ts ("\x7d);" ++ "\n"))

/-- The last part of `generate_js_struct_definition` (done with constructor):
the end of the constructor, the prototype, the reader and the writer, and the
end of the class. -/
def generate_js_struct_definition_close (g : t_js_generator) (tstruct : t_struct)
    (is_exception : Bool) : Gen Unit := do
  let qname := g.js_namespace tstruct.program ++ tstruct.name
  Gen.indent_down
  Gen.emit (.constructor_end g.gen_es6_)
  if g.gen_ts_ then
    let ind ← g.ts_indent
    Gen.emit (.ts (ind ++ "\x7d" ++ "\n"))
  if !g.gen_es6_ then
    if is_exception then
      Gen.emit (.inherits qname)
      Gen.emit (.prototype_name qname tstruct.name)
    else
      -- init prototype manually if we aren't using es6
      Gen.emit (.prototype_init qname)
  g.generate_js_struct_reader tstruct
  g.generate_js_struct_writer tstruct
  -- Close out the class definition
  if g.gen_es6_ then
    Gen.indent_down
    Gen.emit .class_end

/-- Generates a struct definition for a thrift data type: the three parts of
the function body, in the order of the source.  A line is recorded when it is
complete; the lines of the TypeScript declaration stream are recorded among
those of `out`, as `Js.ts`. -/
def generate_js_struct_definition (g : t_js_generator) (tstruct : t_struct)
    (is_exception : Bool) (is_exported : Bool) : Gen Unit := do
  g.generate_js_struct_definition_open tstruct is_exception is_exported
  if tstruct.members.length > 0 then
    g.generate_js_struct_definition_args tstruct
  g.generate_js_struct_definition_close tstruct is_exception

/-- The struct `result` that `generate_js_function_helpers` builds for a
function: named after the service and the function, it holds the field
`success` with id 0 unless the return type is void, then the fields of the
throws list. -/
def generate_js_function_helpers_result (g : t_js_generator) (tfunction : t_function) :
    t_struct :=
  let result : t_struct :=
    { program := g.program_, name := g.service_name_ ++ "_" ++ tfunction.name ++ "_result",
      members := [] }
  let success : t_field := { type := tfunction.returntype, name := "success", key := 0 }
  let result := if !tfunction.returntype.is_void then result.append success else result
  tfunction.xceptions.members.foldl (fun result f => result.append f) result

/-- Generates a struct and helpers for a function. -/
def generate_js_function_helpers (g : t_js_generator) (tfunction : t_function) : Gen Unit :=
  g.generate_js_struct_definition (g.generate_js_function_helpers_result tfunction) false false

/-- The body of the loop of `generate_service_helpers`: the argument list is
renamed with `set_name`, defined, and given back its name; the function is
handed back as the loop leaves it. -/
def generate_service_helpers_function (g : t_js_generator) (tfunction : t_function) :
    Gen t_function := do
  let ts := tfunction.arglist
  let name := ts.name
  let ts := { ts with name := g.service_name_ ++ "_" ++ name }
  g.generate_js_struct_definition ts false false
  g.generate_js_function_helpers { tfunction with arglist := ts }
  let ts := { ts with name := name }
  pure { tfunction with arglist := ts }

/-- Generates helper functions for a service.  The generator and the service
are handed back as the function leaves them: it switches `gen_ts_` off and
sets it back at the end. -/
def generate_service_helpers (g : t_js_generator) (tservice : t_service) :
    Gen (t_js_generator × t_service) := do
  let functions := tservice.functions
  -- avoid generating helper structs
  let gen_ts_tmp := g.gen_ts_
  let g := { g with gen_ts_ := false }
  Gen.emit .helpers_comment
  let functions ← Gen.map_each functions g.generate_service_helpers_function
  let g := { g with gen_ts_ := gen_ts_tmp }
  pure (g, { tservice with functions := functions })

/-- Generates a constant value: the left-hand side is written by the first
statement; the second statement writes the rendered value, which
`render_const_value` hands back or throws for, and the end of the line. -/
def generate_const (g : t_js_generator) (tconst : t_const) : Gen Unit := do
  let type := tconst.type
  let name := tconst.name
  let value := tconst.value
  (if g.gen_esm_ then
    Gen.emit (.const_lhs ("export const " ++ name))
  else
    Gen.emit (.const_lhs (g.js_type_namespace g.program_ ++ name)))
  let rendered ← render_const_value g type value
  Gen.emit (.const_value rendered)
  if g.gen_ts_ then
    let doc ← g.ts_print_doc tconst.doc
    let ind ← g.ts_indent
    Gen.emit (.ts (doc ++ ind ++ g.ts_declare ++ g.js_const_type_ ++ name ++ ": "
      ++ g.ts_get_type type ++ ";" ++ "\n"))

/-- Structs can be normal or exceptions. -/
def generate_js_struct (g : t_js_generator) (tstruct : t_struct) (is_exception : Bool) :
    Gen Unit :=
  g.generate_js_struct_definition tstruct is_exception true

/-- Generates a struct definition for a thrift data type. -/
def generate_struct (g : t_js_generator) (tstruct : t_struct) : Gen Unit :=
  g.generate_js_struct tstruct false

/-- Generates a struct definition for a thrift exception. -/
def generate_xception (g : t_js_generator) (txception : t_struct) : Gen Unit :=
  g.generate_js_struct txception true

/-- Renders a field list: the names, with ", " in front of every name but the
first, and the callback at the end when it is asked for. -/
def argument_list (tstruct : t_struct) (include_callback : Bool) : String :=
  let fields := tstruct.members
  let result := (fields.foldl (fun (acc : String × Bool) f =>
    ((if acc.2 then acc.1 else acc.1 ++ ", ") ++ f.name, false)) ("", true)).1
  if include_callback then
    (if !fields.isEmpty then result ++ ", " else result) ++ "callback"
  else result

/-- Renders a function signature of the form `name = function(args)`. -/
def function_signature (tfunction : t_function) (pfx : String) (include_callback : Bool) :
    String :=
  pfx ++ tfunction.name ++ " = function(" ++ argument_list tfunction.arglist include_callback
    ++ ")"

/-- Checks if the specified field name is contained in the specified field
vector. -/
def find_field : List t_field → String → Bool
  | [], _ => false
  | f :: rest, name => if f.name = name then true else find_field rest name

/-- The `while` loop of `next_identifier_name`: as long as the current name is
the name of a field, "_" is put in front of it.  A name that is the name of a
field is no longer than the longest field name, and every round makes the
name longer, which bounds the number of rounds. -/
def next_identifier_name_loop (fields : List t_field) (current_name : String) : String :=
  if find_field fields current_name then
    next_identifier_name_loop fields (make_valid_nodeJs_identifier ("_" ++ current_name))
  else current_name
termination_by (fields.foldr (fun f m => max f.name.length m) 0) + 1 - current_name.length
decreasing_by
  rename_i h
  have hlen : (make_valid_nodeJs_identifier ("_" ++ current_name)).length
      = current_name.length + 1 := by
    have hd : ("_" ++ current_name).data = '_' :: current_name.data := rfl
    unfold make_valid_nodeJs_identifier
    rw [hd]
    simp only
    rw [if_neg (by decide)]
    simp only [String.length, List.length_map, List.length_cons]
  have hbound : ∀ (l : List t_field), find_field l current_name = true →
      current_name.length ≤ l.foldr (fun f m => max f.name.length m) 0 := by
    intro l
    induction l with
    | nil => intro hf; simp [find_field] at hf
    | cons f rest ih =>
      intro hf
      simp only [find_field] at hf
      simp only [List.foldr_cons]
      by_cases hn : f.name = current_name
      · rw [hn]; exact Nat.le_max_left _ _
      · rw [if_neg hn] at hf
        exact Nat.le_trans (ih hf) (Nat.le_max_right _ _)
  have hb := hbound fields h
  rw [hlen]
  omega

/-- Given a vector of fields, generates a valid identifier name that does not
conflict with the available field names. -/
def next_identifier_name (fields : List t_field) (base_name : String) : String :=
  next_identifier_name_loop fields (make_valid_nodeJs_identifier base_name)

/-- The text `js_type_namespace(t->get_program()) + t->get_name()` for a
resolved type.  A type that is neither a struct nor an enum has no program:
the null test of `js_type_namespace` fails for it, which the source reaches
under `gen_node_` only. -/
def js_type_name (g : t_js_generator) (t : t_type) : String :=
  match t with
  | .struct program name _ => g.js_type_namespace program ++ name
  | .enum program name => g.js_type_namespace program ++ name
  | _ => "ttypes." ++ t.get_name

/-- The loop of `ts_function_signature` over the arguments; `size` is the
number of all arguments. -/
def ts_function_signature_fields (g : t_js_generator) (include_callback : Bool) (size : Nat) :
    List t_field → String → Bool → String
  | [], str, _ => str
  | f :: rest, str, has_written_optional =>
    -- Ensure that non optional parameters do not follow optional parameters
    let original_optional := ts_get_req f
    let optional := if has_written_optional then "?" else original_optional
    let has_written_optional := has_written_optional || decide (optional.length > 0)
    let str := str ++ (f.name ++ optional ++ ": " ++ g.ts_get_type f.type)
    let str := if !rest.isEmpty ∨ (include_callback ∧ size > 0) then str ++ ", " else str
    ts_function_signature_fields g include_callback size rest str has_written_optional

/-- Renders a TypeScript function signature of the form
`name(args: types): type;`. -/
def ts_function_signature (g : t_js_generator) (tfunction : t_function)
    (include_callback : Bool) : String :=
  let fields := tfunction.arglist.members
  let str := tfunction.name ++ "("
  let str := ts_function_signature_fields g include_callback fields.length fields str false
  if include_callback then
    let str :=
      if g.gen_node_ then
        let exception_types := (tfunction.xceptions.members.foldl
          (fun (acc : String × Bool) m =>
            let t := m.type.get_true_type
            if acc.2 then (g.js_type_name t, false)
            else (acc.1 ++ (" | " ++ g.js_type_name t), false)) ("", true)).1
        if exception_types = "" then
          str ++ ("callback: (error: void, response: " ++ g.ts_get_type tfunction.returntype
            ++ ")=>void): ")
        else
          str ++ ("callback: (error: " ++ exception_types ++ ", response: "
            ++ g.ts_get_type tfunction.returntype ++ ")=>void): ")
      else
        str ++ ("callback: (data: " ++ g.ts_get_type tfunction.returntype ++ ")=>void): ")
    if g.gen_jquery_ then
      str ++ ("JQueryPromise<" ++ g.ts_get_type tfunction.returntype ++ ">;")
    else str ++ "void;"
  else
    if g.gen_es6_ then str ++ ("): Promise<" ++ g.ts_get_type tfunction.returntype ++ ">;")
    else str ++ ("): " ++ g.ts_get_type tfunction.returntype ++ ";")

/-- The text a receive function throws a value with. -/
def render_recv_throw (g : t_js_generator) (var : String) : String :=
  if g.gen_node_ then "return callback(" ++ var ++ ");"
  else "throw " ++ var ++ ";"

/-- The text a receive function returns a value with. -/
def render_recv_return (g : t_js_generator) (var : String) : String :=
  if g.gen_node_ then "return callback(null, " ++ var ++ ");"
  else "return " ++ var ++ ";"

/-- The arguments of the handler call of a oneway function, as the loop with
the flag `first` writes them. -/
def generate_process_function_oneway_args (fields : List t_field) : String :=
  (fields.foldl (fun (acc : String × Bool) f =>
    ((if acc.2 then acc.1 else acc.1 ++ ", ") ++ ("args." ++ f.name), false)) ("", true)).1

/-- The loop over the arguments of the promise style invocation: one line per
argument, with a comma after every argument but the last. -/
def generate_process_function_promise_args : List t_field → Gen Unit
  | [] => Gen.pure ()
  | f :: rest =>
    Gen.bind
      (Gen.emit (.processor (.promise_call_arg f.name (if !rest.isEmpty then "," else ""))))
      (fun _ => generate_process_function_promise_args rest)

/-- The body of the loop over the throws list in the `catch` handler of the
promise style invocation, on the flag `has_exception` and the text written so
far: a member whose resolved type is an exception (`t->is_xception()`) adds a
test of the error against its type. -/
def generate_process_function_instanceof_step (g : t_js_generator) (acc : Bool × String)
    (member : t_field) : Bool × String :=
  match member.type.get_true_type with
  | .struct program name true =>
    if !acc.1 then
      (true, acc.2 ++ ("if (err instanceof " ++ (g.js_type_namespace program ++ name)))
    else (acc.1, acc.2 ++ (" || err instanceof " ++ (g.js_type_namespace program ++ name)))
  | _ => acc

/-- The loop over the throws list in the `catch` handler of the promise style
invocation: the flag `has_exception` and the text written. -/
def generate_process_function_instanceof (g : t_js_generator) (members : List t_field) :
    Bool × String :=
  members.foldl g.generate_process_function_instanceof_step (false, "")

/-- The arguments in front of the callback of the callback style invocation. -/
def generate_process_function_callback_args (fields : List t_field) : String :=
  fields.foldl (fun acc f => acc ++ ("args." ++ f.name ++ ", ")) ""

/-- The body of the loop over the throws list in the test of the callback
style invocation, on the text written so far. -/
def generate_process_function_callback_instanceof_step (g : t_js_generator) (acc : String)
    (member : t_field) : String :=
  match member.type.get_true_type with
  | .struct program name true =>
    acc ++ (" || err instanceof " ++ (g.js_type_namespace program ++ name))
  | _ => acc

/-- The loop over the throws list in the test of the callback style
invocation. -/
def generate_process_function_callback_instanceof (g : t_js_generator)
    (members : List t_field) : String :=
  members.foldl g.generate_process_function_callback_instanceof_step ""

/-- The promise style invocation of `generate_process_function`.  A
conditional of the source is one step of the sequence here, written in
parentheses. -/
def generate_process_function_promise (g : t_js_generator) (tfunction : t_function) :
    Gen Unit := do
  let resultname :=
    g.js_namespace g.program_ ++ g.service_name_ ++ "_" ++ tfunction.name ++ "_result"
  let fields := tfunction.arglist.members
  Gen.emit (.processor (.if_handler_length tfunction.name fields.length))
  Gen.indent_up
  (if g.gen_es6_ then
    Gen.emit (.processor (.promise_call_head true tfunction.name ""))
  else
    Gen.emit (.processor (.promise_call_head false tfunction.name
      (if fields.length > 0 then "," else ""))))
  Gen.indent_up
  generate_process_function_promise_args fields
  Gen.indent_down
  Gen.emit (.processor (.promise_then g.gen_es6_))
  Gen.indent_up
  Gen.emit (.processor (.reply_success g.js_const_type_ resultname tfunction.name))
  Gen.indent_down
  Gen.emit (.processor (.promise_catch g.gen_es6_))
  Gen.indent_up
  Gen.emit (.processor (.decl_result g.js_let_type_))
  let exceptions := tfunction.xceptions
  let has_exception := (g.generate_process_function_instanceof exceptions.members).1
  (if has_exception then do
    Gen.emit (.processor
      (.if_err_instanceof (g.generate_process_function_instanceof exceptions.members).2))
    Gen.indent_up
    Gen.emit (.processor (.reply_exception resultname tfunction.name))
    Gen.indent_down
    Gen.emit .else_
    Gen.indent_up
  else pure ())
  Gen.emit (.processor (.reply_unknown tfunction.name))
  (if has_exception then do
    Gen.indent_down
    Gen.emit .close
  else pure ())
  Gen.emit (.processor .write_result)
  Gen.indent_down
  Gen.emit (.processor .close_call)
  Gen.indent_down

/-- The callback style invocation of `generate_process_function`. -/
def generate_process_function_callback (g : t_js_generator) (tfunction : t_function) :
    Gen Unit := do
  let resultname :=
    g.js_namespace g.program_ ++ g.service_name_ ++ "_" ++ tfunction.name ++ "_result"
  let fields := tfunction.arglist.members
  let exceptions := tfunction.xceptions
  let has_exception := (g.generate_process_function_instanceof exceptions.members).1
  Gen.emit .else_
  Gen.indent_up
  Gen.emit (.processor (.handler_call_callback g.gen_es6_ tfunction.name
    (generate_process_function_callback_args fields)))
  Gen.indent_up
  Gen.emit (.processor (.decl_result_obj g.js_let_type_))
  Gen.emit (.processor (.if_no_err
    (if has_exception then g.generate_process_function_callback_instanceof exceptions.members
     else "")))
  Gen.indent_up
  Gen.emit (.processor (.callback_reply resultname tfunction.name))
  Gen.indent_down
  Gen.emit .else_
  Gen.indent_up
  Gen.emit (.processor (.callback_unknown tfunction.name))
  Gen.indent_down
  Gen.emit (.processor .callback_write)
  Gen.indent_down
  Gen.emit (.processor .close_call)
  Gen.indent_down
  Gen.emit .close

/-- Generates a process function definition: the head, the decoding of the
arguments and, for a oneway function, the call of the handler, after which the
function returns; for another function the promise style and the callback
style invocation. -/
def generate_process_function (g : t_js_generator) (tservice : t_service)
    (tfunction : t_function) : Gen Unit := do
  Gen.emit (.processor (.process_function_head g.gen_es6_
    (g.js_namespace tservice.program ++ g.service_name_) tfunction.name))
  (if g.gen_ts_ then do
    Gen.indent_up
    let ind ← g.ts_indent
    Gen.emit (.ts (ind ++ "process_" ++ tfunction.name
      ++ "(seqid: number, input: thrift.TProtocol, output: thrift.TProtocol): void;" ++ "\n"))
    Gen.indent_down
  else pure ())
  Gen.indent_up
  let argsname :=
    g.js_namespace g.program_ ++ g.service_name_ ++ "_" ++ tfunction.name ++ "_args"
  Gen.emit (.processor (.process_read_args g.js_const_type_ argsname))
  -- Generate the function call
  let fields := tfunction.arglist.members
  -- Shortcut out here for oneway functions
  if tfunction.oneway then
    Gen.emit (.processor
      (.handler_call_oneway tfunction.name (generate_process_function_oneway_args fields)))
    Gen.indent_down
    if g.gen_es6_ then Gen.emit .close else Gen.emit .class_end
  else
    g.generate_process_function_promise tfunction
    g.generate_process_function_callback tfunction
    Gen.indent_down
    if g.gen_es6_ then Gen.emit .close else Gen.emit .class_end

/-- Generates a service server definition.  The head of the definition is one
line of `f_service_`, recorded when it is complete; the lines of the
TypeScript declaration stream `f_service_ts_` are recorded as `Js.ts`. -/
def generate_service_processor (g : t_js_generator) (tservice : t_service) : Gen Unit := do
  let functions := tservice.functions
  let qname := g.js_namespace tservice.program ++ g.service_name_
  let service_var :=
    if !g.gen_node_ ∨ g.has_js_namespace tservice.program then qname ++ "Processor"
    else g.service_name_ ++ "Processor"
  let lhs :=
    if !g.gen_node_ ∨ g.has_js_namespace tservice.program then service_var
    else g.js_const_type_ ++ service_var
  (if g.gen_node_ ∧ g.gen_ts_ then do
    Gen.emit (.ts ("\n" ++ "declare class Processor "
      ++ (match tservice.extends_ with
          | some (_, name) => "extends " ++ name ++ ".Processor "
          | none => "")
      ++ "\x7b" ++ "\n"))
    Gen.indent_up
    let ind ← g.ts_indent
    (if tservice.extends_.isNone then
      Gen.emit (.ts (ind ++ "private _handler: object;" ++ "\n" ++ "\n"))
    else pure ())
    Gen.emit (.ts (ind ++ "constructor(handler: object);" ++ "\n"))
    Gen.emit (.ts (ind ++ "process(input: thrift.TProtocol, output: thrift.TProtocol): void;"
      ++ "\n"))
    Gen.indent_down
  else pure ())
  let is_subclass_service := tservice.extends_.isSome
  -- ES6 Constructor
  (if g.gen_es6_ then do
    Gen.emit (.processor (.head lhs
      (match tservice.extends_ with
        | some (_, name) =>
          " = class " ++ g.service_name_ ++ "Processor extends " ++ name ++ "Processor \x7b"
        | none => " = class " ++ g.service_name_ ++ "Processor \x7b")))
    Gen.indent_up
    Gen.emit (.processor .constructor_handler)
  else
    Gen.emit (.processor (.head lhs " = function(handler) \x7b")))
  Gen.indent_up
  (if g.gen_es6_ ∧ is_subclass_service then
    Gen.emit (.processor .super_handler)
  else pure ())
  Gen.emit (.processor .set_handler)
  Gen.indent_down
  -- Done with constructor
  (if g.gen_es6_ then Gen.emit .close else Gen.emit .class_end)
  -- ES5 service inheritance
  (if !g.gen_es6_ ∧ is_subclass_service then
    Gen.emit (.processor (.processor_inherits qname
      (match tservice.extends_ with
        | some (_, name) => name
        | none => "")))
  else pure ())
  -- Generate the server implementation
  Gen.emit (.processor (.process_head g.gen_es6_ qname))
  Gen.indent_up
  Gen.emit (.processor (.process_dispatch g.js_const_type_))
  Gen.indent_down
  (if g.gen_es6_ then Gen.emit .close else Gen.emit .class_end)
  -- Generate the process subfunctions
  Gen.for_each functions (g.generate_process_function tservice)
  -- Close off the processor class definition
  (if g.gen_es6_ then do
    Gen.indent_down
    Gen.emit .class_end
  else pure ())
  (if g.gen_node_ ∧ g.gen_ts_ then
    Gen.emit (.ts ("\x7d" ++ "\n"))
  else pure ())
  if g.gen_esm_ then
    Gen.emit (.processor (.export_as true service_var))
  else
    Gen.emit (.processor (.export_as false service_var))

/-- The first part of `generate_service_client`, up to the loop over the
functions: the head of the definition, the constructor, the inheritance or
the prototype, and the sequence id utilities of the node dialects. -/
def generate_service_client_open (g : t_js_generator) (tservice : t_service) : Gen Unit := do
  let is_subclass_service := tservice.extends_.isSome
  let qname := g.js_namespace tservice.program ++ g.service_name_
  let client_var := qname ++ "Client"
  let lhs :=
    if g.gen_node_ then
      (if g.has_js_namespace tservice.program then "" else g.js_const_type_) ++ client_var
    else client_var
  (if g.gen_ts_ then do
    let doc ← g.ts_print_doc tservice.doc
    let ind ← g.ts_indent
    if g.gen_node_ then
      Gen.emit (.ts (doc ++ ind ++ g.ts_declare ++ "class " ++ "Client "
        ++ (match tservice.extends_ with
            | some (_, name) => "extends " ++ name ++ ".Client "
            | none => "")
        ++ "\x7b" ++ "\n"))
    else
      Gen.emit (.ts (doc ++ ind ++ g.ts_declare ++ "class " ++ g.service_name_ ++ "Client "
        ++ (match tservice.extends_ with
            | some (_, name) => "extends " ++ name ++ "Client "
            | none => "")
        ++ "\x7b" ++ "\n"))
  else pure ())
  -- ES6 Constructor
  (if g.gen_es6_ then do
    Gen.emit (.client (.head lhs
      (match tservice.extends_ with
        | some (program, name) =>
          " = class " ++ g.service_name_ ++ "Client extends " ++ g.js_namespace program ++ name
            ++ "Client \x7b"
        | none => " = class " ++ g.service_name_ ++ "Client \x7b")))
    Gen.indent_up
    Gen.emit (.client (.constructor_client g.gen_node_))
  else
    Gen.emit (.client (.head lhs
      (if g.gen_node_ then " = function(output, pClass) \x7b"
       else " = function(input, output) \x7b"))))
  Gen.indent_up
  (if g.gen_node_ then do
    (if g.gen_es6_ ∧ is_subclass_service then
      Gen.emit (.client .super_client)
    else pure ())
    Gen.emit (.client .set_output)
    Gen.emit (.client .set_pclass)
    Gen.emit (.client (.init_seqid true))
    Gen.emit (.client .init_reqs)
    if g.gen_ts_ then
      let ind ← g.ts_indent
      (if !is_subclass_service then
        Gen.emit (.ts (ind ++ "private output: thrift.TTransport;" ++ "\n"
          ++ ind ++ "private pClass: thrift.TProtocol;" ++ "\n"
          ++ ind ++ "private _seqid: number;" ++ "\n" ++ "\n"))
      else pure ())
      Gen.emit (.ts (ind ++ "constructor(output: thrift.TTransport, pClass: "
        ++ "\x7b new(trans: thrift.TTransport): thrift.TProtocol \x7d);" ++ "\n"))
  else do
    Gen.emit (.client .set_input)
    Gen.emit (.client .set_output_default)
    Gen.emit (.client (.init_seqid false))
    if g.gen_ts_ then
      let ind ← g.ts_indent
      Gen.emit (.ts (ind ++ "input: Thrift.TJSONProtocol;" ++ "\n" ++ ind
        ++ "output: Thrift.TJSONProtocol;" ++ "\n" ++ ind ++ "seqid: number;" ++ "\n" ++ "\n"
        ++ ind ++ "constructor(input: Thrift.TJSONProtocol, output?: Thrift.TJSONProtocol);"
        ++ "\n")))
  Gen.indent_down
  (if g.gen_es6_ then
    Gen.emit .close
  else do
    Gen.emit .class_end
    if is_subclass_service then
      Gen.emit (.client (.client_inherits qname
        (match tservice.extends_ with
          | some (program, name) => g.js_namespace program ++ name
          | none => "")))
    else
      -- init prototype
      Gen.emit (.client (.client_prototype_init qname)))
  -- utils for multiplexed services
  if g.gen_node_ then
    if g.gen_es6_ then
      Gen.emit (.client .seqid_getter)
      Gen.emit (.client .seqid_advancer)
    else
      Gen.emit (.client (.seqid_utils qname))

/-- The body of the method that calls a function, in the five dialects, as
`generate_service_client` writes it between the head and the end of the
method. -/
def generate_service_client_call_body (g : t_js_generator) (tfunction : t_function) :
    Gen Unit := do
  let funname := tfunction.name
  let arglist := argument_list tfunction.arglist false
  if g.gen_es6_ ∧ g.gen_node_ then
    Gen.emit (.client .advance_seqid)
    Gen.emit (.client (.self_promise g.js_const_type_))
    Gen.indent_up
    Gen.emit (.client .reqs_resolver)
    Gen.indent_up
    Gen.emit (.client .return_settle)
    Gen.indent_down
    Gen.emit .class_end
    Gen.emit (.client (.self_send funname arglist))
    Gen.indent_down
    Gen.emit (.client .close_call)
  else if g.gen_node_ then
    -- Node.js output
    Gen.emit (.client .advance_seqid_if_no_callback)
    Gen.indent_up
    Gen.emit (.client (.defer_reqs g.js_const_type_))
    Gen.indent_up
    Gen.emit (.client .if_error)
    Gen.indent_up
    Gen.emit (.client .defer_reject)
    Gen.indent_down
    Gen.emit .else_
    Gen.indent_up
    Gen.emit (.client .defer_resolve)
    Gen.indent_down
    Gen.emit .close
    Gen.indent_down
    Gen.emit .class_end
    Gen.emit (.client (.send_return_promise funname arglist))
    Gen.indent_down
    Gen.emit .else_
    Gen.indent_up
    Gen.emit (.client (.reqs_callback_send funname arglist))
    Gen.indent_down
    Gen.emit .close
  else if g.gen_es6_ then
    Gen.emit (.client (.self_promise g.js_const_type_))
    Gen.indent_up
    Gen.emit (.client
      (.self_send_callback funname arglist (if arglist.isEmpty then "" else ", ")))
    Gen.indent_up
    Gen.emit (.client .return_settle)
    Gen.indent_down
    Gen.emit (.client .close_call)
    Gen.indent_down
    Gen.emit (.client .close_call)
  else if g.gen_jquery_ then
    -- jQuery output
    Gen.emit (.client .if_no_callback)
    Gen.indent_up
    Gen.emit (.client (.this_send funname arglist))
    (if !tfunction.oneway then
      Gen.emit (.client
        (.call_recv (if !tfunction.returntype.is_void then "return " else "") funname))
    else pure ())
    Gen.indent_down
    Gen.emit .else_
    Gen.indent_up
    Gen.emit (.client
      (.post_data g.js_const_type_ funname arglist (if arglist.isEmpty then "" else ", ")))
    Gen.emit (.client .return_transport)
    Gen.indent_up
    Gen.emit (.client (.jq_request funname))
    Gen.indent_down
    Gen.indent_down
    Gen.emit .close
  else
    -- Standard JavaScript
    Gen.emit (.client
      (.this_send_callback funname arglist (if arglist.isEmpty then "" else ", ")))
    if !tfunction.oneway then
      Gen.emit (.client .if_not_callback)
      Gen.emit (.client
        (.call_recv (if !tfunction.returntype.is_void then "  return " else "") funname))
      Gen.emit .close

/-- The body of the loop of `generate_service_client`, first part: the method
of the client that calls the function. -/
def generate_service_client_call (g : t_js_generator) (tservice : t_service)
    (tfunction : t_function) : Gen Unit := do
  let qname := g.js_namespace tservice.program ++ g.service_name_
  let arg_struct := tfunction.arglist
  let funname := tfunction.name
  let arglist := argument_list arg_struct false
  -- Open function
  Gen.emit (.client .blank)
  (if g.gen_es6_ then
    Gen.emit (.client (.call_head_es6 funname arglist))
  else
    Gen.emit (.client (.call_head_proto qname (function_signature tfunction "" (!g.gen_es6_)))))
  Gen.indent_up
  (if g.gen_ts_ then do
    let doc ← g.ts_print_doc tfunction.doc
    let ind ← g.ts_indent
    -- function definition without callback
    Gen.emit (.ts (doc ++ ind ++ g.ts_function_signature tfunction false ++ "\n"))
    -- overload with callback
    if !g.gen_es6_ then
      Gen.emit (.ts (doc ++ ind ++ g.ts_function_signature tfunction true ++ "\n"))
    else
      Gen.emit (.ts (doc ++ ind ++ g.ts_function_signature tfunction true ++ "\n"))
  else pure ())
  g.generate_service_client_call_body tfunction
  Gen.indent_down
  Gen.emit (.method_end g.gen_es6_)

/-- The loop over the fields of the object that holds the arguments: one entry
per field, with a comma after every entry but the last. -/
def generate_service_client_params : List t_field → Gen Unit
  | [] => Gen.pure ()
  | f :: rest =>
    Gen.bind (Gen.emit (.send (.param_entry f.name rest.isEmpty)))
      (fun _ => generate_service_client_params rest)

/-- The part of the send function that flushes the transport, in the
dialects. -/
def generate_service_client_send_flush (g : t_js_generator) (tfunction : t_function) :
    Gen Unit := do
  let funname := tfunction.name
  if g.gen_node_ then
    if tfunction.oneway then
      Gen.emit (.send .flush_output)
      Gen.emit (.send (.decl_callback_seqid g.js_const_type_))
      Gen.emit (.send .delete_reqs_seqid)
      Gen.emit (.send .callback_null)
    else
      Gen.emit (.send .return_flush_output)
  else
    if g.gen_jquery_ then
      Gen.emit (.send .return_flush_callback)
    else if g.gen_es6_ then
      Gen.emit (.send (.decl_self g.js_const_type_))
      if tfunction.oneway then
        Gen.emit (.send .flush_null)
        Gen.emit (.send .callback_call)
      else
        Gen.emit (.send .flush_arrow)
        Gen.indent_up
        Gen.emit (.send (.decl_error_result g.js_let_type_))
        Gen.emit (.send .try_)
        Gen.emit (.send (.recv_into_result funname))
        Gen.emit (.send .catch_e)
        Gen.emit (.send .error_is_e)
        Gen.emit .close
        Gen.emit (.send .callback_error_result)
        Gen.indent_down
        Gen.emit (.send .close_call)
    else
      Gen.emit (.send .if_callback)
      Gen.indent_up
      (if tfunction.oneway then do
        Gen.emit (.send .flush_null)
        Gen.emit (.send .callback_call)
      else do
        Gen.emit (.send (.decl_self g.js_const_type_))
        Gen.emit (.send .flush_function)
        Gen.indent_up
        Gen.emit (.send (.decl_result_null g.js_let_type_))
        Gen.emit (.send .try_)
        Gen.emit (.send (.recv_into_result funname))
        Gen.emit (.send .catch_e)
        Gen.emit (.send .result_is_e)
        Gen.emit .close
        Gen.emit (.send .callback_result)
        Gen.indent_down
        Gen.emit (.send .close_call))
      Gen.indent_down
      Gen.emit .else_
      Gen.emit (.send .return_flush)
      Gen.emit .close

/-- The body of the loop of `generate_service_client`, second part: the send
function. -/
def generate_service_client_send (g : t_js_generator) (tservice : t_service)
    (tfunction : t_function) : Gen Unit := do
  let qname := g.js_namespace tservice.program ++ g.service_name_
  let arg_struct := tfunction.arglist
  let fields := arg_struct.members
  let funname := tfunction.name
  let arglist := argument_list arg_struct false
  -- Send function
  (if g.gen_es6_ then
    if g.gen_node_ then
      Gen.emit (.send (.send_head_es6 funname arglist))
    else
      -- ES6 js still uses callbacks here
      Gen.emit (.send (.send_head_es6 funname (argument_list arg_struct true)))
  else
    Gen.emit (.send (.send_head_proto qname (function_signature tfunction "" (!g.gen_node_)))))
  Gen.indent_up
  (if g.gen_node_ then
    Gen.emit (.send (.decl_output g.js_const_type_))
  else pure ())
  let outputVar := if g.gen_node_ then "output" else "this.output"
  let argsname :=
    g.js_namespace g.program_ ++ g.service_name_ ++ "_" ++ tfunction.name ++ "_args"
  let messageType :=
    if tfunction.oneway then "Thrift.MessageType.ONEWAY" else "Thrift.MessageType.CALL"
  -- Build args
  (if fields.length > 0 then do
    let params_identifier := next_identifier_name fields "params"
    Gen.emit (.send (.params_open g.js_const_type_ params_identifier))
    Gen.indent_up
    generate_service_client_params fields
    Gen.indent_down
    Gen.emit .class_end
    Gen.emit (.send (.new_args g.js_const_type_ argsname params_identifier))
  else
    Gen.emit (.send (.new_args g.js_const_type_ argsname "")))
  -- Serialize the request header within try/catch
  Gen.emit (.send .try_)
  Gen.indent_up
  Gen.emit (.send (.write_message_begin outputVar tfunction.name messageType g.gen_node_))
  -- Write to the stream
  Gen.emit (.send (.write_args outputVar))
  g.generate_service_client_send_flush tfunction
  Gen.indent_down
  Gen.emit .close
  -- Reset the transport and delete registered callback if there was a serialization error
  Gen.emit (.send .catch_open)
  Gen.indent_up
  (if g.gen_node_ then do
    Gen.emit (.send .delete_reqs_seqid)
    Gen.emit (.send (.if_reset outputVar))
    Gen.emit (.send (.do_reset outputVar))
    Gen.emit .close
  else do
    Gen.emit (.send (.if_reset (outputVar ++ ".getTransport()")))
    Gen.emit (.send (.do_reset (outputVar ++ ".getTransport()")))
    Gen.emit .close)
  Gen.emit (.send .throw_e)
  Gen.indent_down
  Gen.emit .close
  Gen.indent_down
  -- Close send function
  if g.gen_es6_ then Gen.emit .close else Gen.emit .class_end

/-- The loop over the throws list in the receive function: one test per
field, in the order of the list. -/
def generate_service_client_recv_xceptions (g : t_js_generator) (xceptions : List t_field) :
    Gen Unit :=
  Gen.for_each xceptions fun x =>
    Gen.emit (.recv (.recv_if_exception x.name (g.render_recv_throw ("result." ++ x.name))))

/-- The body of the loop of `generate_service_client`, third part: the receive
function, which is written for a function that is not oneway. -/
def generate_service_client_recv (g : t_js_generator) (tservice : t_service)
    (tfunction : t_function) : Gen Unit := do
  let qname := g.js_namespace tservice.program ++ g.service_name_
  let resultname := qname ++ "_" ++ tfunction.name ++ "_result"
  Gen.emit (.recv .blank)
  -- Open receive function
  (if g.gen_node_ then
    if g.gen_es6_ then
      Gen.emit (.recv (.recv_head_es6 tfunction.name "input, mtype, rseqid"))
    else
      Gen.emit (.recv (.recv_head_node qname tfunction.name))
  else
    if g.gen_es6_ then
      Gen.emit (.recv (.recv_head_es6 tfunction.name ""))
    else
      let noargs : t_struct := { program := g.program_, name := "", members := [] }
      let recv_function : t_function :=
        { returntype := tfunction.returntype, name := "recv_" ++ tfunction.name,
          arglist := noargs, xceptions := { program := g.program_, name := "", members := [] } }
      Gen.emit (.recv (.recv_head_proto qname (function_signature recv_function "" false))))
  Gen.indent_up
  let inputVar := if g.gen_node_ then "input" else "this.input"
  (if g.gen_node_ then
    Gen.emit (.recv (.recv_callback g.js_const_type_))
  else
    Gen.emit (.recv (.recv_read_begin g.js_const_type_)))
  Gen.emit (.recv .if_mtype_exception)
  Gen.indent_up
  Gen.emit (.recv (.recv_exception g.js_const_type_ inputVar (g.render_recv_throw "x")))
  Gen.scope_down
  Gen.emit (.recv (.recv_result g.js_const_type_ resultname inputVar))
  Gen.emit (.recv (.recv_message_end inputVar))
  g.generate_service_client_recv_xceptions tfunction.xceptions.members
  -- Careful, only return result if not a void function
  (if !tfunction.returntype.is_void then do
    Gen.emit (.recv (.recv_if_success (g.render_recv_return "result.success")))
    Gen.emit (.recv (.recv_unknown (g.render_recv_throw ("'" ++ tfunction.name
      ++ " failed: unknown result'"))))
  else
    if g.gen_node_ then
      Gen.emit (.recv .callback_null)
    else
      Gen.emit .return_)
  -- Close receive function
  Gen.indent_down
  if g.gen_es6_ then Gen.emit .close else Gen.emit .class_end

/-- The body of the loop of `generate_service_client`: the call method, the
send function and, unless the function is oneway, the receive function. -/
def generate_service_client_function (g : t_js_generator) (tservice : t_service)
    (tfunction : t_function) : Gen Unit := do
  g.generate_service_client_call tservice tfunction
  g.generate_service_client_send tservice tfunction
  -- Receive function
  if !tfunction.oneway then
    g.generate_service_client_recv tservice tfunction

/-- The last part of `generate_service_client` (finish class definitions). -/
def generate_service_client_close (g : t_js_generator) (tservice : t_service) : Gen Unit := do
  let client_var := g.js_namespace tservice.program ++ g.service_name_ ++ "Client"
  (if g.gen_ts_ then do
    let ind ← g.ts_indent
    Gen.emit (.ts (ind ++ "\x7d" ++ "\n"))
  else pure ())
  (if g.gen_es6_ then do
    Gen.indent_down
    Gen.emit (.client .client_end)
  else pure ())
  if g.gen_esm_ then
    Gen.emit (.client (.export_as true client_var))
  else if g.gen_node_ then
    Gen.emit (.client (.export_as false client_var))

/-- Generates a service client definition: the three parts of the function
body, in the order of the source. -/
def generate_service_client (g : t_js_generator) (tservice : t_service) : Gen Unit := do
  g.generate_service_client_open tservice
  -- Generate client method implementations
  Gen.for_each tservice.functions (g.generate_service_client_function tservice)
  g.generate_service_client_close tservice

/-- The members of the generator that deal with output directories, imports
and escapes.  The code generation functions embedded here do not read them, so
they are kept apart from `t_js_generator`. -/
structure file_settings where
  gen_episode_file_ : Bool := false
  (imports : List String := [])
  module_name_2_import_path : List (String × String) := []
  thrift_package_output_directory_ : String := ""
  out_dir_base_ : String := ""
  escape_ : List (Char × String) := []
  deriving DecidableEq, Repr

/-- What `generate_service` and the include renderers read of the program
beyond its name and namespace: the included programs, each with its
`get_recursive()` flag, and the names of the declared enums, constants,
exceptions and structs. -/
structure program_contents where
  includes : List (t_program × Bool) := []
  enums : List String := []
  consts : List String := []
  xceptions : List String := []
  structs : List String := []
  deriving DecidableEq, Repr

/-- The function `autogen_comment`; `version` is the value of the macro
`THRIFT_VERSION`. -/
def autogen_comment (version : String) : String :=
  "//\n" ++ "// Autogenerated by Thrift Compiler (" ++ version ++ ")\n"
    ++ "//\n" ++ "// DO NOT EDIT UNLESS YOU ARE SURE THAT YOU KNOW WHAT YOU ARE DOING\n"
    ++ "//\n"

/-- Prints standard js imports. -/
def js_includes (g : t_js_generator) : String :=
  if g.gen_node_ then
    let result := ""
    let result :=
      if g.gen_esm_ then result ++ "import \x7b Thrift \x7d from 'thrift';\n"
      else result ++ (g.js_const_type_ ++ "thrift = require('thrift');\n"
        ++ g.js_const_type_ ++ "Thrift = thrift.Thrift;\n")
    let result :=
      if !g.gen_es6_ then
        (if g.gen_esm_ then result ++ "import \x7b Q \x7d from 'thrift';\n"
         else result ++ (g.js_const_type_ ++ "Q = thrift.Q;\n"))
      else result
    let result :=
      if g.gen_esm_ then result ++ "import Int64 from 'node-int64';"
      else result ++ (g.js_const_type_ ++ "Int64 = require('node-int64');\n")
    result
  else
    "if (typeof Int64 === 'undefined' && typeof require === 'function') \x7b\n  "
      ++ g.js_const_type_ ++ "Int64 = require('node-int64');\n\x7d\n"

/-- Prints standard ts imports. -/
def ts_includes (g : t_js_generator) : String :=
  if g.gen_node_ then
    "import thrift = require('thrift');\n" ++ "import Thrift = thrift.Thrift;\n"
      ++ "import Q = thrift.Q;\n" ++ "import Int64 = require('node-int64');"
  else "import Int64 = require('node-int64');"

/-- The path from which an included program is imported; `recursive` is
`program->get_recursive()`. -/
def get_import_path (g : t_js_generator) (files : file_settings) (program : t_program)
    (recursive : Bool) : String :=
  let import_file_name := program.name ++ "_types"
  let import_file_name_with_extension :=
    import_file_name ++ (if g.gen_esm_ then ".mjs" else ".js")
  if recursive then "./" ++ import_file_name_with_extension
  else
    match files.module_name_2_import_path.lookup import_file_name with
    | some path => path
    | none => "./" ++ import_file_name_with_extension

/-- Renders all the imports necessary for including another Thrift program. -/
def render_includes (g : t_js_generator) (files : file_settings) (contents : program_contents) :
    String :=
  let result := ""
  if g.gen_node_ then
    let includes := contents.includes
    let result := includes.foldl (fun result included =>
      if g.gen_esm_ then
        result ++ ("import * as " ++ make_valid_nodeJs_identifier included.1.name
          ++ "_ttypes from '" ++ g.get_import_path files included.1 included.2 ++ "';\n")
      else
        result ++ (g.js_const_type_ ++ make_valid_nodeJs_identifier included.1.name
          ++ "_ttypes = require('" ++ g.get_import_path files included.1 included.2 ++ "');\n"))
      result
    if includes.length > 0 then result ++ "\n" else result
  else result

/-- Renders all the TypeScript imports necessary for including another Thrift
program.  It enters the import names into `include_2_import_name`, so the
generator is handed back with the text. -/
def render_ts_includes (g : t_js_generator) (files : file_settings)
    (contents : program_contents) : String × t_js_generator :=
  let result := ""
  if !g.gen_node_ then (result, g)
  else
    let includes := contents.includes
    let r := includes.foldl (fun (r : String × t_js_generator) included =>
      let include_name := make_valid_nodeJs_identifier included.1.name ++ "_ttypes"
      let table := r.2.include_2_import_name
      (r.1 ++ ("import " ++ include_name ++ " = require('"
          ++ g.get_import_path files included.1 included.2 ++ "');\n"),
        { r.2 with include_2_import_name := fun p =>
            match table p with
            | some name => some name
            | none => if p = included.1 then some include_name else none }))
      (result, g)
    if includes.length > 0 then (r.1 ++ "\n", r.2) else r

/-- The loop of `generate_enum` over the constants. -/
def generate_enum_constants (g : t_js_generator) : List (String × Int) → Gen Unit
  | [] => pure ()
  | c :: rest => do
    let value := c.2
    (if g.gen_ts_ then do
      let ind ← g.ts_indent
      Gen.emit (.ts (ind ++ c.1 ++ " = " ++ decimal value ++ "," ++ "\n"))
      -- add 'value: key' in addition to 'key: value' for TypeScript enums
      Gen.emit (.enum_ (.enum_reverse value c.1))
    else pure ())
    Gen.emit (.enum_ (.enum_value c.1 value (!rest.isEmpty)))
    generate_enum_constants g rest

/-- Generates code for an enumerated type. -/
def generate_enum (g : t_js_generator) (tenum : t_enum) : Gen Unit := do
  (if g.gen_esm_ then
    Gen.emit (.enum_ (.enum_head ("export const " ++ tenum.name)))
  else
    Gen.emit (.enum_ (.enum_head (g.js_type_namespace tenum.program ++ tenum.name))))
  (if g.gen_ts_ then do
    let doc ← g.ts_print_doc tenum.doc
    let ind ← g.ts_indent
    Gen.emit (.ts (doc ++ ind ++ g.ts_declare ++ "enum " ++ tenum.name ++ " \x7b" ++ "\n"))
  else pure ())
  Gen.indent_up
  g.generate_enum_constants tenum.constants
  Gen.indent_down
  Gen.emit (.enum_ .enum_end)
  (if g.gen_ts_ then do
    let ind ← g.ts_indent
    Gen.emit (.ts (ind ++ "\x7d" ++ "\n"))
  else pure ())

/-- A type alias of the TypeScript declaration file of a service. -/
def generate_service_ts_alias (g : t_js_generator) (name : String) : Gen Unit :=
  Gen.emit (.ts ("import " ++ name ++ " = ttypes." ++ g.js_namespace g.program_ ++ name ++ "\n"))

/-- The module head of the TypeScript declaration file of a service: the part
of `generate_service` under `!ts_module_.empty()` before the helpers. -/
def generate_service_ts_module_open (g : t_js_generator) : Gen Unit :=
  if !g.ts_module_.isEmpty then
    (if g.gen_node_ then
      Gen.emit (.ts ("declare module " ++ g.ts_module_ ++ " \x7b"))
    else do
      Gen.emit (.ts ("declare module \"./" ++ g.program_.name ++ "_types\" \x7b" ++ "\n"))
      Gen.indent_up
      let ind ← g.ts_indent
      Gen.emit (.ts (ind ++ "module " ++ g.program_.name ++ " \x7b" ++ "\n"))
      Gen.indent_up)
  else pure ()

/-- The head of the TypeScript declaration file of a service: the part of
`generate_service` under `gen_ts_` before the helpers.  The generator is handed
back as `render_ts_includes` leaves it. -/
def generate_service_ts_head (g : t_js_generator) (files : file_settings)
    (contents : program_contents) (version : String) (tservice : t_service) :
    Gen t_js_generator := do
  (match tservice.extends_ with
    | some ext => Gen.emit (.ts ("/// <reference path=\"" ++ ext.2 ++ ".d.ts\" />" ++ "\n"))
    | none => pure ())
  let rendered := g.render_ts_includes files contents
  let g := rendered.2
  Gen.emit (.ts (autogen_comment version ++ "\n" ++ g.ts_includes ++ "\n" ++ rendered.1 ++ "\n"))
  (if g.gen_node_ then do
    Gen.emit (.ts ("import ttypes = require('./" ++ g.program_.name ++ "_types');" ++ "\n"))
    -- Generate type aliases: enum, const, exception, structs
    Gen.for_each contents.enums g.generate_service_ts_alias
    Gen.for_each contents.consts g.generate_service_ts_alias
    Gen.for_each contents.xceptions g.generate_service_ts_alias
    Gen.for_each contents.structs g.generate_service_ts_alias
  else
    Gen.emit (.ts ("import \x7b " ++ g.program_.name ++ " \x7d from \"./" ++ g.program_.name
      ++ "_types\";" ++ "\n" ++ "\n")))
  g.generate_service_ts_module_open
  pure g

/-- The requires of the service file under `gen_node_`. -/
def generate_service_requires (g : t_js_generator) (tservice : t_service) : Gen Unit := do
  (match tservice.extends_ with
    | some ext => do
      Gen.emit (.service (.require_extends g.js_const_type_ ext.2))
      Gen.emit (.ts ("import " ++ ext.2 ++ " = require('./" ++ ext.2 ++ "');" ++ "\n"))
    | none => pure ())
  (if g.gen_esm_ then Gen.emit (.service (.import_ttypes g.program_.name))
   else Gen.emit (.service (.require_ttypes g.js_const_type_ g.program_.name)))

/-- The end of the TypeScript declaration file of a service: the part of
`generate_service` under `gen_ts_` after the processor. -/
def generate_service_ts_module_close (g : t_js_generator) : Gen Unit :=
  if g.gen_ts_ then
    (if !g.ts_module_.isEmpty then
      (if g.gen_node_ then Gen.emit (.ts ("\x7d" ++ "\n"))
       else do
        Gen.indent_down
        let ind ← g.ts_indent
        Gen.emit (.ts (ind ++ "\x7d" ++ "\n"))
        Gen.emit (.ts ("\x7d" ++ "\n")))
    else pure ())
  else pure ()

/-- Generates a service interface definition: nothing in this generator. -/
def generate_service_interface (_g : t_js_generator) (_tservice : t_service) : Gen Unit :=
  pure ()

/-- Generates a thrift service.  The opening and closing of the files is not
part of the model; `files` holds the members the constructor has set,
`contents` what is read of the program and `version` the macro
`THRIFT_VERSION`. -/
def generate_service (g : t_js_generator) (files : file_settings) (contents : program_contents)
    (version : String) (tservice : t_service) : Gen Unit := do
  (if files.gen_episode_file_ then
    Gen.emit (.service (.episode g.service_name_ files.thrift_package_output_directory_))
  else pure ())
  Gen.emit (.service (.autogen_comment (autogen_comment version)))
  (if (g.gen_node_ ∨ g.gen_es6_) ∧ g.no_ns_ then Gen.emit (.service .use_strict) else pure ())
  Gen.emit (.service (.includes g.js_includes (g.render_includes files contents)))
  let g ← (if g.gen_ts_ then g.generate_service_ts_head files contents version tservice
    else pure g)
  (if g.gen_node_ then g.generate_service_requires tservice else pure ())
  let helped ← g.generate_service_helpers tservice
  let g := helped.1
  let tservice := helped.2
  g.generate_service_interface tservice
  g.generate_service_client tservice
  (if g.gen_node_ then g.generate_service_processor tservice else pure ())
  g.generate_service_ts_module_close

end t_js_generator

open t_js_generator

/-! ## The handler of the c_glib test client (`testthrifttestzlibclient.cpp`) -/

/-- Modelled from the spec: the generated type `Xtruct` of the test service
(`ThriftTest_types.h`, produced from `ThriftTest.thrift`). -/
structure Xtruct where
  string_thing : String := ""
  byte_thing : Int := 0
  i32_thing : Int := 0
  i64_thing : Int := 0
  deriving DecidableEq, Repr

/-- Modelled from the spec: the generated exception type `Xception` of the test
service. -/
structure Xception where
  errorCode : Int := 0
  message : String := ""
  deriving DecidableEq, Repr

/-- Modelled from the spec: the generated exception type `Xception2` of the
test service. -/
structure Xception2 where
  errorCode : Int := 0
  struct_thing : Xtruct := {}
  deriving DecidableEq, Repr

/-- What a handler of the test service throws. -/
inductive TestThrown
  | xception (e : Xception)
  | xception2 (e : Xception2)
  deriving DecidableEq, Repr

/-- What a call of a handler leaves behind: the text written to `cout` and
either the thrown exception or the value of the reference parameter `result`
at the return. -/
structure TestOutcome where
  cout : String
  result : Except TestThrown Xtruct

namespace TestHandler

/-- `TestHandler::testMultiException`; `result` is the value of the reference
parameter at entry. -/
def testMultiException (result : Xtruct) (arg0 arg1 : String) : TestOutcome :=
  let cout := "[C -> C++] testMultiException(" ++ arg0 ++ ", " ++ arg1 ++ ")" ++ "\n"
  if arg0 = "Xception" then
    let e : Xception := {}
    let e := { e with errorCode := 1001 }
    let e := { e with message := "This is an Xception" }
    ⟨cout, .error (.xception e)⟩
  else if arg0 = "Xception2" then
    let e : Xception2 := {}
    let e := { e with errorCode := 2002 }
    let e := { e with struct_thing := { e.struct_thing with string_thing := "This is an Xception2" } }
    ⟨cout, .error (.xception2 e)⟩
  else
    let result := { result with string_thing := arg1 }
    ⟨cout, .ok result⟩

end TestHandler

/-! ## Definitions that follow the wording of the specification -/

/-- The wire-tag table as the specification states it, over resolved types:
bool BOOL, i8 BYTE, i16 I16, i32 I32, i64 I64, double DOUBLE, string and binary
STRING, every enum I32, every struct and exception STRUCT, map MAP, set SET,
list LIST; void has no tag. -/
def wire_tag : t_type → Option String
  | .base .TYPE_VOID _ => none
  | .base .TYPE_BOOL _ => some "Thrift.Type.BOOL"
  | .base .TYPE_I8 _ => some "Thrift.Type.BYTE"
  | .base .TYPE_I16 _ => some "Thrift.Type.I16"
  | .base .TYPE_I32 _ => some "Thrift.Type.I32"
  | .base .TYPE_I64 _ => some "Thrift.Type.I64"
  | .base .TYPE_DOUBLE _ => some "Thrift.Type.DOUBLE"
  | .base .TYPE_STRING _ => some "Thrift.Type.STRING"
  | .enum _ _ => some "Thrift.Type.I32"
  | .struct _ _ _ => some "Thrift.Type.STRUCT"
  | .map _ _ => some "Thrift.Type.MAP"
  | .set _ => some "Thrift.Type.SET"
  | .list _ => some "Thrift.Type.LIST"
  | .typedef _ _ => none

/-- A call of the protocol's value interface made by a line of a field codec:
a primitive `readX` or `writeX`, a container marker `readKBegin`, `readKEnd`,
`writeKBegin`, `writeKEnd`, or the call of a struct's own reader or writer. -/
inductive Call
  | prim (p : Prim)
  | begin_ (k : Kind)
  | end_ (k : Kind)
  | struct_
  deriving DecidableEq, Repr

/-- The call a line makes on the protocol reader `input`.  Declarations, loop
heads, stores and the read-stack adjustment of the browser dialect make none. -/
def Js.read_call : Js → Option Call
  | .read_prim _ p _ => some (.prim p)
  | .read_struct _ => some .struct_
  | .read_begin _ _ k => some (.begin_ k)
  | .read_end k => some (.end_ k)
  | _ => none

/-- The call a line makes on the protocol writer `output`. -/
def Js.write_call : Js → Option Call
  | .write_prim p _ => some (.prim p)
  | .write_struct _ => some .struct_
  | .write_begin k _ _ => some (.begin_ k)
  | .write_end k => some (.end_ k)
  | _ => none

/-- The sequence of protocol calls made by emitted reading code, in text order. -/
def read_calls (out : List Line) : List Call :=
  out.filterMap (fun l => l.js.read_call)

/-- The sequence of protocol calls made by emitted writing code, in text order. -/
def write_calls (out : List Line) : List Call :=
  out.filterMap (fun l => l.js.write_call)

/-- A type none of whose components below containers and typedefs (structs
are not entered) resolves to void: the field types of the data model. -/
def void_free : t_type → Bool
  | .base tbase _ => tbase != .TYPE_VOID
  | .enum _ _ => true
  | .struct _ _ _ => true
  | .typedef _ t => void_free t
  | .list elem => void_free elem
  | .set elem => void_free elem
  | .map key val => void_free key && void_free val

/-- The container frame of the specification, as a sequence of calls: one
primitive for a base type or enum (enums use the I32 pair), one struct call for
a struct or exception, and for a container its begin marker, the calls of its
element (for a map: of its key, then of its value) and its end marker. -/
def codec_calls : t_type → List Call
  | .base tbase binary =>
    match base_prim tbase binary with
    | some p => [.prim p]
    | none => []
  | .enum _ _ => [.prim .i32]
  | .struct _ _ _ => [.struct_]
  | .typedef _ t => codec_calls t
  | .list elem => [.begin_ .list] ++ codec_calls elem ++ [.end_ .list]
  | .set elem => [.begin_ .set] ++ codec_calls elem ++ [.end_ .set]
  | .map key val => [.begin_ .map] ++ codec_calls key ++ codec_calls val ++ [.end_ .map]

/-- The statements written by the field codecs (`generate_deserialize_field`,
`generate_serialize_field` and the functions they call). -/
def Js.is_field_codec : Js → Bool
  | .read_prim _ _ _ => true
  | .new_struct _ _ => true
  | .read_struct _ => true
  | .init_container _ _ => true
  | .read_begin _ _ _ => true
  | .decl_size _ _ _ => true
  | .for_count _ _ _ => true
  | .rstack_pop _ => true
  | .decl_field _ => true
  | .let_null _ _ => true
  | .map_store _ _ _ => true
  | .push _ _ => true
  | .read_end _ => true
  | .close => true
  | .write_prim _ _ => true
  | .write_struct _ => true
  | .write_begin _ _ _ => true
  | .for_in _ _ _ => true
  | .if_own _ _ => true
  | .let_index _ _ _ _ => true
  | .write_end _ => true
  | _ => false

/-- Whether every line of a stream is a statement of the field codecs. -/
def all_field_codec (out : List Line) : Bool :=
  out.all (fun l => l.js.is_field_codec)

/-- The statements of a stream, without their indentation. -/
def statements (out : List Line) : List Js :=
  out.map Line.js

/-- The header write of a field, `output.writeFieldBegin(...)`. -/
def Js.is_write_field_begin : Js → Bool
  | .write_field_begin _ _ _ => true
  | _ => false

/-- The statements of the block the writer emits for one field: the guard, the
field header, the field codec and the field footer. -/
def Js.is_writer_block_line : Js → Bool
  | .if_set _ => true
  | .write_field_begin _ _ _ => true
  | .write_field_end => true
  | j => j.is_field_codec

/-- The statements of the branch the reader emits for one declared field,
its `case` label apart: the tag test, the field codec, the skip of the other
branch and the `break`. -/
def Js.is_reader_branch_line : Js → Bool
  | .if_ftype _ => true
  | .else_ => true
  | .skip _ => true
  | .break_ _ => true
  | j => j.is_field_codec

def Js.is_break : Js → Bool
  | .break_ _ => true
  | _ => false

/-- The label `case fid:`. -/
def Js.is_case (fid : Int) : Js → Bool
  | .case key => key == fid
  | _ => false

/-- The label `default:`. -/
def Js.is_default : Js → Bool
  | .default_ => true
  | _ => false

/-- The label at which a JavaScript `switch (fid)` with the given clause lines
is entered for the id `fid`: the first `case` label equal to the id, and
`default:` when no `case` label equals it. -/
def switch_entry_label (clauses : List Js) (fid : Int) : Option Js :=
  if clauses.any (Js.is_case fid) then some (.case fid)
  else if clauses.any Js.is_default then some .default_
  else none

/-- The lines of a clause list after the first line that is the given label. -/
def after_label (is_label : Js → Bool) (clauses : List Js) : List Js :=
  (clauses.dropWhile (fun j => !is_label j)).drop 1

/-- The statements a `switch (fid)` runs for the id `fid`: those after its entry
label, up to the first `break` or to the end of the clauses. -/
def switch_arm (clauses : List Js) (fid : Int) : List Js :=
  if clauses.any (Js.is_case fid) then
    (after_label (Js.is_case fid) clauses).takeWhile (fun j => !j.is_break)
  else if clauses.any Js.is_default then
    (after_label Js.is_default clauses).takeWhile (fun j => !j.is_break)
  else []

/-- A step that writes nothing at state `s` and, when it returns normally,
leaves the state `t`. -/
def Gen.lands {α : Type} (x : Gen α) (s t : GenState) : Prop :=
  (x s).out = [] ∧ ∀ r, (x s).result = .ok r → (x s).state = t

/-- The text of one entry of a struct constant as the specification words it:
on a line of its own the quoted key, ` : `, and the rendering of the value at
the type of the declared field named by the key (the generator state `s1` is
the one inside the braces). -/
def struct_entry_text (g : t_js_generator) (fields : List t_field) (s1 : GenState)
    (kv : t_const_value × t_const_value) : String :=
  "\n" ++ indent_text g.indent_str s1.indent_
    ++ ("'" ++ g.get_escaped_string kv.1.get_string ++ "'") ++ " : "
    ++ (match find_field_type fields kv.1.get_string with
        | some field_type => ((render_const_value g field_type kv.2 s1).value?).getD ""
        | none => "")

/-- An entry of a struct constant whose key names a declared field and whose
value renders at the type of that field. -/
def entry_renders (g : t_js_generator) (fields : List t_field) (s1 : GenState)
    (kv : t_const_value × t_const_value) : Prop :=
  ∃ field_type r, find_field_type fields kv.1.get_string = some field_type
    ∧ (render_const_value g field_type kv.2 s1).result = .ok r

/-- A write to the TypeScript declaration stream. -/
def Js.is_ts : Js → Bool
  | .ts _ => true
  | _ => false

/-- The statements written to the JavaScript stream, in order: those of a
stream without the lines of the TypeScript declaration stream. -/
def js_statements (out : List Line) : List Js :=
  (statements out).filter (fun j => !j.is_ts)

/-- The statements that make up the argument handling of a constructor: the
`instanceof` guard, `if (args)`, the presence test of a field, the three forms
of the copy of a field and the throw for an unset required field. -/
def Js.is_args_line : Js → Bool
  | .instanceof_guard _ _ => true
  | .if_args => true
  | .if_arg _ => true
  | .copy_struct _ _ => true
  | .copy_container _ _ _ => true
  | .copy_plain _ => true
  | .throw_required _ => true
  | _ => false

/-- A step that returns normally from every state and writes only lines for
which `P` holds. -/
def Gen.emits {α : Type} (P : Js → Bool) (x : Gen α) : Prop :=
  ∀ s, (∃ a, (x s).result = .ok a) ∧ ∀ l ∈ (x s).out, P l.js = true

/-- Every declared default value renders at the type of its field, whatever
the state of the generator. -/
def defaults_render (g : t_js_generator) (members : List t_field) : Prop :=
  ∀ m ∈ members, ∀ v, m.value = some v →
    ∀ s, ∃ r, (render_const_value g m.type v s).result = .ok r

/-- The early-return guard of the specification for a member: one for a member
whose typedef-resolved type is an exception, none for any other member. -/
def constructor_guard (g : t_js_generator) (m : t_field) : Option Js :=
  match m.type.get_true_type with
  | .struct program name true =>
    some (.instanceof_guard (g.js_type_namespace program ++ name) m.name)
  | _ => none

/-- The block the constructor holds for one member inside `if (args)`: the
presence test, the copy of the argument, the `else` branch with the throw
exactly for a required member, and the closing brace. -/
def constructor_arg_block (g : t_js_generator) (m : t_field) : List Js :=
  [.if_arg m.name, g.generate_js_struct_definition_copy m.name m.type.get_true_type]
    ++ (if m.req = .T_REQUIRED then [.else_, .throw_required m.name] else [])
    ++ [.close]

/-- The descriptor list of the specification for a contained type: one copy
function per container level, following list and set element types and map
value types, then the qualified constructor name of the innermost struct, or
`null` when the innermost type is not a struct.  Typedefs are transparent. -/
def descriptor_entries (g : t_js_generator) : t_type → List String
  | .list elem => "Thrift.copyList" :: descriptor_entries g elem
  | .set elem => "Thrift.copyList" :: descriptor_entries g elem
  | .map _ val => "Thrift.copyMap" :: descriptor_entries g val
  | .typedef _ type => descriptor_entries g type
  | .struct program name false => [g.js_type_namespace program ++ name]
  | _ => ["null"]

/-- A contained type written without typedefs, down its list and set element
types and map value types. -/
def contained_typedef_free : t_type → Bool
  | .list elem => contained_typedef_free elem
  | .set elem => contained_typedef_free elem
  | .map _ val => contained_typedef_free val
  | .typedef _ _ => false
  | _ => true

/-- A function whose argument list and result struct can be defined: the
members of both are of types of the data model and their default values
render. -/
def function_well_formed (g : t_js_generator) (tfunction : t_function) : Prop :=
  (∀ m ∈ tfunction.arglist.members, void_free m.type = true)
    ∧ defaults_render g tfunction.arglist.members
    ∧ (∀ m ∈ (g.generate_js_function_helpers_result tfunction).members, void_free m.type = true)
    ∧ defaults_render g (g.generate_js_function_helpers_result tfunction).members

/-- A character that may stand in an identifier: an ASCII letter, a digit,
`_` or `$`. -/
def valid_identifier_char (c : Char) : Bool :=
  c.isAlpha || c.isDigit || c == '_' || c == '$'

/-- The character the specification puts for a character of a name: itself
when it may stand in an identifier, `_` otherwise. -/
def sanitize_char (c : Char) : Char :=
  if valid_identifier_char c then c else '_'

/-- Whether a name starts with a digit. -/
def starts_with_digit (name : String) : Bool :=
  match name.data with
  | c :: _ => c.isDigit
  | [] => false

/-- A step that throws from every state. -/
def Gen.fails {α : Type} (x : Gen α) : Prop :=
  ∀ s, ∃ e, (x s).result = .error e

/-- A step that returns normally from every state and writes the statements
`L` to the JavaScript stream, whatever the state. -/
def Gen.writes {α : Type} (x : Gen α) (L : List Js) : Prop :=
  ∀ s, (∃ a, (x s).result = .ok a) ∧ js_statements (x s).out = L

/-- The lines of the arguments of the promise style invocation: one per
argument, with a comma after every argument but the last. -/
def promise_call_args : List t_field → List Js
  | [] => []
  | f :: rest =>
    .processor (.promise_call_arg f.name (if rest.isEmpty then "" else ","))
      :: promise_call_args rest

/-- The qualified names of the exception types among the fields of a throws
list: one for every field whose typedef-resolved type is an exception, in the
order of the list. -/
def exception_type_names (g : t_js_generator) (members : List t_field) : List String :=
  members.filterMap fun m =>
    match m.type.get_true_type with
    | .struct program name true => some (g.js_type_namespace program ++ name)
    | _ => none

/-- The qualified names of the exception types a function declares. -/
def declared_exception_types (g : t_js_generator) (tfunction : t_function) : List String :=
  exception_type_names g tfunction.xceptions.members

/-- The statements that make up an invocation of the handler. -/
def ProcessorJs.is_handler_call : ProcessorJs → Bool
  | .handler_call_oneway _ _ => true
  | .promise_call_head _ _ _ => true
  | .promise_call_arg _ _ => true
  | .handler_call_callback _ _ _ => true
  | _ => false

/-- The statements that make up an invocation of the handler. -/
def Js.is_handler_call : Js → Bool
  | .processor statement => statement.is_handler_call
  | _ => false

/-- The argument a line of the promise style invocation passes. -/
def Js.handler_argument : Js → Option String
  | .processor (.promise_call_arg name _) => some ("args." ++ name)
  | _ => none

/-- The function whose process member a statement opens. -/
def ProcessorJs.process_member : ProcessorJs → Option String
  | .process_function_head _ _ fname => some fname
  | _ => none

/-- The function whose process member a statement opens. -/
def Js.process_member : Js → Option String
  | .processor statement => statement.process_member
  | _ => none

/-- The statements of the promise style invocation of a function, as the
specification describes the processor: the invocation, the reply that carries
the return value, and the handler of a raised error, which answers a declared
exception with a reply and anything else with an application exception. -/
def promise_style_statements (g : t_js_generator) (f : t_function) : List Js :=
  let resultname := g.js_namespace g.program_ ++ g.service_name_ ++ "_" ++ f.name ++ "_result"
  let types := declared_exception_types g f
  [.processor (.if_handler_length f.name f.arglist.members.length),
    .processor (.promise_call_head g.gen_es6_ f.name
      (if g.gen_es6_ then "" else if f.arglist.members.length > 0 then "," else ""))]
  ++ promise_call_args f.arglist.members
  ++ [.processor (.promise_then g.gen_es6_),
      .processor (.reply_success g.js_const_type_ resultname f.name),
      .processor (.promise_catch g.gen_es6_),
      .processor (.decl_result g.js_let_type_)]
  ++ (if types.isEmpty then [.processor (.reply_unknown f.name)]
      else
        [.processor (.if_err_instanceof
            ("if (err instanceof " ++ " || err instanceof ".intercalate types)),
          .processor (.reply_exception resultname f.name),
          .else_,
          .processor (.reply_unknown f.name),
          .close])
  ++ [.processor .write_result, .processor .close_call]

/-- The statements of the callback style invocation of a function. -/
def callback_style_statements (g : t_js_generator) (f : t_function) : List Js :=
  let resultname := g.js_namespace g.program_ ++ g.service_name_ ++ "_" ++ f.name ++ "_result"
  let types := declared_exception_types g f
  [.else_,
    .processor (.handler_call_callback g.gen_es6_ f.name
      (String.join (f.arglist.members.map fun a => "args." ++ a.name ++ ", "))),
    .processor (.decl_result_obj g.js_let_type_),
    .processor (.if_no_err (String.join (types.map fun t => " || err instanceof " ++ t))),
    .processor (.callback_reply resultname f.name),
    .else_,
    .processor (.callback_unknown f.name),
    .processor .callback_write,
    .processor .close_call,
    .close]

/-- The statements of the process function of a function: the head, the
decoding of the arguments, then for a oneway function the invocation of the
handler and nothing else, for another function the promise style and the
callback style invocation, and the end of the function. -/
def process_function_statements (g : t_js_generator) (tservice : t_service)
    (f : t_function) : List Js :=
  [.processor (.process_function_head g.gen_es6_
      (g.js_namespace tservice.program ++ g.service_name_) f.name),
    .processor (.process_read_args g.js_const_type_
      (g.js_namespace g.program_ ++ g.service_name_ ++ "_" ++ f.name ++ "_args"))]
  ++ (if f.oneway then
        [.processor (.handler_call_oneway f.name
          (", ".intercalate (f.arglist.members.map fun a => "args." ++ a.name)))]
      else promise_style_statements g f ++ callback_style_statements g f)
  ++ [if g.gen_es6_ then .close else .class_end]

/-- The statements of the processor of a service: the constructor, the
inheritance, the dispatching `process`, one process function per function of
the service and the export. -/
def processor_statements (g : t_js_generator) (tservice : t_service) : List Js :=
  let qname := g.js_namespace tservice.program ++ g.service_name_
  let service_var :=
    if !g.gen_node_ ∨ g.has_js_namespace tservice.program then qname ++ "Processor"
    else g.service_name_ ++ "Processor"
  let lhs :=
    if !g.gen_node_ ∨ g.has_js_namespace tservice.program then service_var
    else g.js_const_type_ ++ service_var
  (match tservice.extends_ with
    | some (_, parent) =>
      if g.gen_es6_ then
        [.processor (.head lhs
            (" = class " ++ g.service_name_ ++ "Processor extends " ++ parent ++ "Processor \x7b")),
          .processor .constructor_handler, .processor .super_handler,
          .processor .set_handler, .close]
      else
        [.processor (.head lhs " = function(handler) \x7b"), .processor .set_handler,
          .class_end, .processor (.processor_inherits qname parent)]
    | none =>
      if g.gen_es6_ then
        [.processor (.head lhs (" = class " ++ g.service_name_ ++ "Processor \x7b")),
          .processor .constructor_handler, .processor .set_handler, .close]
      else
        [.processor (.head lhs " = function(handler) \x7b"), .processor .set_handler,
          .class_end])
  ++ [.processor (.process_head g.gen_es6_ qname),
      .processor (.process_dispatch g.js_const_type_),
      if g.gen_es6_ then .close else .class_end]
  ++ (tservice.functions.map (process_function_statements g tservice)).flatten
  ++ (if g.gen_es6_ then [.class_end] else [])
  ++ [.processor (.export_as g.gen_esm_ service_var)]

/-- The statements of a receive function. -/
def Js.is_recv : Js → Bool
  | .recv _ => true
  | _ => false

/-- The entries of the object that holds the arguments: one per field, with a
comma after every entry but the last. -/
def param_entries : List t_field → List Js
  | [] => []
  | f :: rest => .send (.param_entry f.name rest.isEmpty) :: param_entries rest

/-- The statements of the body of the method that calls a function, by
dialect: node with ES6, node, ES6 in the browser, jQuery, standard. -/
def client_call_body_statements (g : t_js_generator) (f : t_function) : List Js :=
  let arglist := argument_list f.arglist false
  let sep := if arglist.isEmpty then "" else ", "
  if g.gen_es6_ ∧ g.gen_node_ then
    [.client .advance_seqid, .client (.self_promise g.js_const_type_), .client .reqs_resolver,
      .client .return_settle, .class_end, .client (.self_send f.name arglist),
      .client .close_call]
  else if g.gen_node_ then
    [.client .advance_seqid_if_no_callback, .client (.defer_reqs g.js_const_type_),
      .client .if_error, .client .defer_reject, .else_, .client .defer_resolve, .close,
      .class_end, .client (.send_return_promise f.name arglist), .else_,
      .client (.reqs_callback_send f.name arglist), .close]
  else if g.gen_es6_ then
    [.client (.self_promise g.js_const_type_), .client (.self_send_callback f.name arglist sep),
      .client .return_settle, .client .close_call, .client .close_call]
  else if g.gen_jquery_ then
    [.client .if_no_callback, .client (.this_send f.name arglist)]
    ++ (if !f.oneway then
          [.client (.call_recv (if !f.returntype.is_void then "return " else "") f.name)]
        else [])
    ++ [.else_, .client (.post_data g.js_const_type_ f.name arglist sep),
        .client .return_transport, .client (.jq_request f.name), .close]
  else
    [.client (.this_send_callback f.name arglist sep)]
    ++ (if !f.oneway then
          [.client .if_not_callback,
            .client (.call_recv (if !f.returntype.is_void then "  return " else "") f.name),
            .close]
        else [])

/-- The statements of the method that calls a function: an empty line, the
head, the body and the end of the method. -/
def client_call_statements (g : t_js_generator) (tservice : t_service) (f : t_function) :
    List Js :=
  [.client .blank,
    if g.gen_es6_ then .client (.call_head_es6 f.name (argument_list f.arglist false))
    else .client (.call_head_proto (g.js_namespace tservice.program ++ g.service_name_)
      (function_signature f "" true))]
  ++ client_call_body_statements g f
  ++ [.method_end g.gen_es6_]

/-- The statements with which the send function flushes the transport, by
dialect. -/
def client_send_flush_statements (g : t_js_generator) (f : t_function) : List Js :=
  if g.gen_node_ then
    if f.oneway then
      [.send .flush_output, .send (.decl_callback_seqid g.js_const_type_),
        .send .delete_reqs_seqid, .send .callback_null]
    else [.send .return_flush_output]
  else if g.gen_jquery_ then [.send .return_flush_callback]
  else if g.gen_es6_ then
    .send (.decl_self g.js_const_type_)
      :: (if f.oneway then [.send .flush_null, .send .callback_call]
          else
            [.send .flush_arrow, .send (.decl_error_result g.js_let_type_), .send .try_,
              .send (.recv_into_result f.name), .send .catch_e, .send .error_is_e, .close,
              .send .callback_error_result, .send .close_call])
  else
    .send .if_callback
      :: (if f.oneway then [.send .flush_null, .send .callback_call]
          else
            [.send (.decl_self g.js_const_type_), .send .flush_function,
              .send (.decl_result_null g.js_let_type_), .send .try_,
              .send (.recv_into_result f.name), .send .catch_e, .send .result_is_e, .close,
              .send .callback_result, .send .close_call])
      ++ [.else_, .send .return_flush, .close]

/-- The statements of the send function of a function: the head, the object
with the arguments, the envelope with the message kind and the sequence id,
the arguments, the flush, and the handler of a serialization error. -/
def client_send_statements (g : t_js_generator) (tservice : t_service) (f : t_function) :
    List Js :=
  let qname := g.js_namespace tservice.program ++ g.service_name_
  let outputVar := if g.gen_node_ then "output" else "this.output"
  let argsname := g.js_namespace g.program_ ++ g.service_name_ ++ "_" ++ f.name ++ "_args"
  let target := if g.gen_node_ then outputVar else outputVar ++ ".getTransport()"
  [if g.gen_es6_ then .send (.send_head_es6 f.name (argument_list f.arglist (!g.gen_node_)))
    else .send (.send_head_proto qname (function_signature f "" (!g.gen_node_)))]
  ++ (if g.gen_node_ then [.send (.decl_output g.js_const_type_)] else [])
  ++ (if f.arglist.members.length > 0 then
        [.send (.params_open g.js_const_type_
            (next_identifier_name f.arglist.members "params"))]
        ++ param_entries f.arglist.members
        ++ [.class_end,
            .send (.new_args g.js_const_type_ argsname
              (next_identifier_name f.arglist.members "params"))]
      else [.send (.new_args g.js_const_type_ argsname "")])
  ++ [.send .try_,
      .send (.write_message_begin outputVar f.name
        (if f.oneway then "Thrift.MessageType.ONEWAY" else "Thrift.MessageType.CALL")
        g.gen_node_),
      .send (.write_args outputVar)]
  ++ client_send_flush_statements g f
  ++ [.close, .send .catch_open]
  ++ (if g.gen_node_ then [.send .delete_reqs_seqid] else [])
  ++ [.send (.if_reset target), .send (.do_reset target), .close, .send .throw_e, .close,
      if g.gen_es6_ then .close else .class_end]

/-- The head of the receive function, by dialect. -/
def client_recv_head (g : t_js_generator) (tservice : t_service) (f : t_function) : Js :=
  let qname := g.js_namespace tservice.program ++ g.service_name_
  if g.gen_node_ then
    if g.gen_es6_ then .recv (.recv_head_es6 f.name "input, mtype, rseqid")
    else .recv (.recv_head_node qname f.name)
  else
    if g.gen_es6_ then .recv (.recv_head_es6 f.name "")
    else .recv (.recv_head_proto qname ("recv_" ++ f.name ++ " = function()"))

/-- The statements of the receive function of a function: the head, the
decoding of the message and of an application exception, the decoding of the
result struct, then one test per field of the throws list, in order, each
raising the exception of its slot when that is not null; after them, for a
function that returns a value, the return of the success slot when it is not
null and the raising of `unknown result`, and for a void function the normal
return. -/
def client_recv_statements (g : t_js_generator) (tservice : t_service) (f : t_function) :
    List Js :=
  let qname := g.js_namespace tservice.program ++ g.service_name_
  let inputVar := if g.gen_node_ then "input" else "this.input"
  [.recv .blank, client_recv_head g tservice f,
    if g.gen_node_ then .recv (.recv_callback g.js_const_type_)
    else .recv (.recv_read_begin g.js_const_type_),
    .recv .if_mtype_exception,
    .recv (.recv_exception g.js_const_type_ inputVar (g.render_recv_throw "x")),
    .close,
    .recv (.recv_result g.js_const_type_ (qname ++ "_" ++ f.name ++ "_result") inputVar),
    .recv (.recv_message_end inputVar)]
  ++ f.xceptions.members.map (fun x =>
      .recv (.recv_if_exception x.name (g.render_recv_throw ("result." ++ x.name))))
  ++ (if f.returntype.is_void then
        [if g.gen_node_ then .recv .callback_null else .return_]
      else
        [.recv (.recv_if_success (g.render_recv_return "result.success")),
          .recv (.recv_unknown
            (g.render_recv_throw ("'" ++ f.name ++ " failed: unknown result'")))])
  ++ [if g.gen_es6_ then .close else .class_end]

/-- The statements `generate_service_client` writes for a function: the call
method, the send function and, unless the function is oneway, the receive
function. -/
def client_function_statements (g : t_js_generator) (tservice : t_service)
    (f : t_function) : List Js :=
  client_call_statements g tservice f ++ client_send_statements g tservice f
    ++ (if f.oneway then [] else client_recv_statements g tservice f)

/-- The name with `k` underscores in front. -/
def underscored (k : Nat) (name : String) : String :=
  String.mk (List.replicate k '_') ++ name

/-- Whether a field is optional or has a default value. -/
def is_optional_parameter (f : t_field) : Bool :=
  decide (f.req = .T_OPTIONAL) || f.value.isSome

/-- The mark of the parameter at position `i`: "?" when that parameter or one
declared before it is optional or has a default value. -/
def ts_parameter_mark (fields : List t_field) (i : Nat) : String :=
  if (fields.take (i + 1)).any is_optional_parameter then "?" else ""

/-- The text of the parameters of a TypeScript signature: in declaration
order, each as `name`, mark, `: `, type, with `, ` after every parameter that
has a successor or is followed by the callback. -/
def ts_parameters (g : t_js_generator) (include_callback : Bool) (fields : List t_field) :
    List String :=
  fields.enum.map fun p =>
    p.2.name ++ ts_parameter_mark fields p.1 ++ ": " ++ g.ts_get_type p.2.type
      ++ (if p.1 + 1 < fields.length ∨ (include_callback = true ∧ fields.length > 0)
          then ", " else "")

/-- A lower-case hexadecimal digit. -/
def is_lower_hex (c : Char) : Bool :=
  c.isDigit || (decide ('a' ≤ c) && decide (c ≤ 'f'))

/-- The value of a lower-case hexadecimal digit. -/
def hex_digit_value (c : Char) : Nat :=
  if c.isDigit then c.toNat - '0'.toNat else c.toNat - 'a'.toNat + 10

/-- The number a hexadecimal numeral stands for, most significant digit first. -/
def read_hex (text : String) : Nat :=
  text.data.foldl (fun acc c => 16 * acc + hex_digit_value c) 0

/-- The signed value of a 64-bit pattern in two-complement. -/
def twos_complement64 (n : Nat) : Int :=
  if n < 2 ^ 63 then (n : Int) else (n : Int) - 2 ^ 64

/-- The id of a `case` label. -/
def Js.case_label : Js → Option Int
  | .case key => some key
  | _ => none

/-- The ids of the `case` labels of a text, in order. -/
def case_labels (L : List Js) : List Int :=
  L.filterMap Js.case_label

/-- The kind of a container type. -/
def container_kind : t_type → Option Kind
  | .map _ _ => some .map
  | .set _ => some .set
  | .list _ => some .list
  | _ => none

/-- The calls of the elements of a container: of the element of a list or set,
of the key and then the value of a map. -/
def element_calls : t_type → List Call
  | .map key val => codec_calls key ++ codec_calls val
  | .set elem => codec_calls elem
  | .list elem => codec_calls elem
  | _ => []

/-- The number of containers of kind `k` in a type expression, typedefs looked
through and structs not entered. -/
def kind_nodes (k : Kind) : t_type → Nat
  | .base _ _ => 0
  | .enum _ _ => 0
  | .struct _ _ _ => 0
  | .typedef _ t => kind_nodes k t
  | .list elem => (if k = .list then 1 else 0) + kind_nodes k elem
  | .set elem => (if k = .set then 1 else 0) + kind_nodes k elem
  | .map key val => (if k = .map then 1 else 0) + kind_nodes k key + kind_nodes k val

/-- Reads a sequence of calls with the stack of the containers that are open:
a begin marker opens its kind, an end marker must close the kind opened last.
The result is the stack at the end, or nothing when an end marker finds no
open container or one of another kind. -/
def match_markers : List Call → List Kind → Option (List Kind)
  | [], open_ => some open_
  | .begin_ k :: rest, open_ => match_markers rest (k :: open_)
  | .end_ k :: rest, open_ =>
    match open_ with
    | top :: below => if top = k then match_markers rest below else none
    | [] => none
  | .prim _ :: rest, open_ => match_markers rest open_
  | .struct_ :: rest, open_ => match_markers rest open_

/-- A step that, whenever it returns normally, leaves the indentation level
`d` above the level at entry. -/
def Gen.shifts {α : Type} (x : Gen α) (d : Int) : Prop :=
  ∀ s, (∃ a, (x s).result = .ok a) → (x s).state.indent_ = s.indent_ + d

/-- A step all of whose values have the property `P`. -/
def Gen.values {α : Type} (x : Gen α) (P : α → Prop) : Prop :=
  ∀ s a, (x s).result = .ok a → P a

/-- The levels by which the module head of the TypeScript declaration file of
a service moves the indentation. -/
def ts_module_open_shift (g : t_js_generator) : Int :=
  if !g.ts_module_.isEmpty then (if g.gen_node_ then 0 else 2) else 0

/-- The levels by which the end of the TypeScript declaration file of a
service moves the indentation. -/
def ts_module_close_shift (g : t_js_generator) : Int :=
  if g.gen_ts_ then (if !g.ts_module_.isEmpty then (if g.gen_node_ then 0 else -1) else 0)
  else 0

/-- The levels by which `generate_service` moves the indentation: one level
when TypeScript declarations are written into a module and the dialect is not
node, none otherwise. -/
def service_shift (g : t_js_generator) : Int :=
  if g.gen_ts_ = true ∧ g.ts_module_.isEmpty = false ∧ g.gen_node_ = false then 1 else 0

/-- The switches that decide how `generate_service` moves the indentation. -/
def same_dialect (a g : t_js_generator) : Prop :=
  a.gen_ts_ = g.gen_ts_ ∧ a.gen_node_ = g.gen_node_ ∧ a.ts_module_ = g.ts_module_

/-! ## Sample inputs -/

/-- A program for the worked examples. -/
def sample_program : t_program := ⟨"shapes", ""⟩

/-- A generator for the browser dialect with default switches. -/
def sample_generator : t_js_generator := { program_ := sample_program }

/-- A field `map<string, list<Point>>` reached through a typedef, with id 1. -/
def sample_field : t_field :=
  { type := t_type.typedef "Index"
      (.map (.base .TYPE_STRING false) (.list (.struct sample_program "Point" false))),
    name := "index", key := 1 }

/-- A struct with the field `index` and an `i64` field `total` with id 2. -/
def sample_struct : t_struct :=
  { program := sample_program, name := "Drawing",
    members := [sample_field, { type := .base .TYPE_I64 false, name := "total", key := 2 }] }

/-- A struct with the single field `count` of type `i32` and id 1. -/
def single_field_struct : t_struct :=
  { program := sample_program, name := "Counter",
    members := [{ type := .base .TYPE_I32 false, name := "count", key := 1 }] }

/-- A generator whose type graph holds the structs `Segment` (a `Point` field
`start` and an `i32` field `width`) and `Point` (the `i32` fields `x` and `y`). -/
def constants_generator : t_js_generator :=
  { program_ := sample_program,
    get_members := fun _ name =>
      if name = "Segment" then
        [{ type := .struct sample_program "Point" false, name := "start", key := 1 },
         { type := g_type_i32, name := "width", key := 2 }]
      else if name = "Point" then
        [{ type := g_type_i32, name := "x", key := 1 }, { type := g_type_i32, name := "y", key := 2 }]
      else [] }

/-- The typedef `Id` of `i64`. -/
def id_alias : t_type := t_type.typedef "Id" (.base .TYPE_I64 false)

/-- The typedef `Corner` of the struct `Point`. -/
def corner_alias : t_type := t_type.typedef "Corner" (.struct sample_program "Point" false)

/-- A struct `Order` with a required `i32` field `id`, an optional string
field `note` with the default value 'none', a `Point` field `origin`, a field
`cause` of the exception type `Failure`, and a field `rows` of type
`list<map<string, list<Point>>>`. -/
def order_struct : t_struct :=
  { program := sample_program, name := "Order",
    members :=
      [{ type := g_type_i32, name := "id", key := 1, req := .T_REQUIRED },
       { type := g_type_string, name := "note", key := 2, req := .T_OPTIONAL,
         value := some (.CV_STRING "none") },
       { type := .struct sample_program "Point" false, name := "origin", key := 3 },
       { type := .struct sample_program "Failure" true, name := "cause", key := 4 },
       { type := .list (.map g_type_string (.list (.struct sample_program "Point" false))),
         name := "rows", key := 5 }] }

/-- A struct `Lookup_result` with the single field `cause` of the exception
type `Failure`. -/
def lookup_result_struct : t_struct :=
  { program := sample_program, name := "Lookup_result",
    members := [{ type := .struct sample_program "Failure" true, name := "cause", key := 1 }] }

/-- A function `Point lookup(1: string key) throws (1: Failure cause)`. -/
def lookup_function : t_function :=
  { returntype := .struct sample_program "Point" false, name := "lookup",
    arglist :=
      { program := sample_program, name := "lookup_args",
        members := [{ type := g_type_string, name := "key", key := 1 }] },
    xceptions :=
      { program := sample_program, name := "",
        members := [{ type := .struct sample_program "Failure" true, name := "cause", key := 1 }] } }

/-- A service `Directory` with the function `lookup`. -/
def directory_service : t_service :=
  { program := sample_program, name := "Directory", functions := [lookup_function] }

/-- A generator at work on the service `Directory`, with TypeScript
declarations switched on. -/
def directory_generator : t_js_generator :=
  { program_ := sample_program, service_name_ := "Directory", gen_ts_ := true }

/-- A function `oneway void ping()`. -/
def ping_function : t_function :=
  { returntype := .base .TYPE_VOID false, name := "ping",
    arglist := { program := sample_program, name := "ping_args", members := [] },
    xceptions := { program := sample_program, name := "", members := [] },
    oneway := true }

/-- A service `Registry` that extends the service `Directory` and declares the
function `ping`. -/
def registry_service : t_service :=
  { program := sample_program, name := "Registry", functions := [ping_function],
    extends_ := some (sample_program, "Directory") }

/-- A generator for the node dialect (without `with_ns`, so namespaces are
suppressed) at work on the service `Registry`. -/
def registry_generator : t_js_generator :=
  { program_ := sample_program, service_name_ := "Registry", gen_node_ := true,
    no_ns_ := true }

/-- A constant `EDGE` of the struct type `Segment` whose entry `tint` names no
field of `Segment`. -/
def stray_key_const : t_const :=
  { type := .struct sample_program "Segment" false, name := "EDGE",
    value := .CV_MAP [(.CV_STRING "width", .CV_INTEGER 1), (.CV_STRING "tint", .CV_INTEGER 2)] }

/-- A generator for the jQuery dialect at work on the service `Registry`. -/
def jquery_generator : t_js_generator :=
  { program_ := sample_program, service_name_ := "Registry", gen_jquery_ := true }

/-- A generator for the standard browser dialect at work on the service
`Registry`. -/
def browser_generator : t_js_generator :=
  { program_ := sample_program, service_name_ := "Registry" }

/-- Arguments that take the names the client would give its callback. -/
def callback_fields : List t_field :=
  [{ type := .base .TYPE_STRING false, name := "callback", key := 1 },
   { type := .base .TYPE_I32 false, name := "_callback", key := 2 }]

/-- A function `search(limit, key)` whose first argument has a default value
and whose second argument has none. -/
def search_function : t_function :=
  { returntype := .base .TYPE_STRING false, name := "search",
    arglist :=
      { program := sample_program, name := "search_args",
        members := [{ type := .base .TYPE_I32 false, name := "limit", key := 1,
                      value := some (.CV_INTEGER 10) },
                    { type := .base .TYPE_STRING false, name := "key", key := 2 }] },
    xceptions := { program := sample_program, name := "", members := [] } }

/-- A function `count()` that returns an i32 and declares no exception: its
result struct holds the single field `success` with id 0. -/
def count_function : t_function :=
  { returntype := .base .TYPE_I32 false, name := "count",
    arglist := { program := sample_program, name := "count_args", members := [] },
    xceptions := { program := sample_program, name := "", members := [] } }

/-- The type `map<string, list<Point>>`. -/
def index_type : t_type :=
  .map (.base .TYPE_STRING false) (.list (.struct sample_program "Point" false))

/-- A struct `Node` that contains itself, directly and through a list. -/
def node_members : List t_field :=
  [{ type := .struct sample_program "Node" false, name := "next", key := 1 },
   { type := .list (.struct sample_program "Node" false), name := "children", key := 2 }]

/-- A generator at work on a program that declares the struct `Node`. -/
def node_generator : t_js_generator :=
  { program_ := sample_program,
    get_members := fun _ name => if name = "Node" then node_members else [] }

/-- A program that declares the namespace `Shapes` for js. -/
def namespaced_program : t_program := ⟨"shapes", "Shapes"⟩

/-- A function `Point find(1: string key) throws (1: Failure cause)` of the
namespaced program. -/
def find_function : t_function :=
  { returntype := .struct namespaced_program "Point" false, name := "find",
    arglist :=
      { program := namespaced_program, name := "find_args",
        members := [{ type := .base .TYPE_STRING false, name := "key", key := 1 }] },
    xceptions :=
      { program := namespaced_program, name := "",
        members := [{ type := .struct namespaced_program "Failure" true, name := "cause",
                      key := 1 }] } }

/-- A service `Catalog` with the function `find`. -/
def catalog_service : t_service :=
  { program := namespaced_program, name := "Catalog", functions := [find_function] }

/-- A generator for the browser dialect with TypeScript declarations (the
option `ts` alone) at work on the service `Catalog` of the namespaced program:
`init_generator` has set `ts_module_` to the namespace. -/
def declarations_generator : t_js_generator :=
  { program_ := namespaced_program, service_name_ := "Catalog", gen_ts_ := true,
    ts_module_ := "Shapes" }

/-! # Theorems -/

/-! ## Facts about typedef resolution -/

theorem get_true_type_not_typedef (t : t_type) : t.get_true_type.is_typedef = false := by
  induction t <;> simp_all [t_type.get_true_type, t_type.is_typedef]

theorem get_true_type_idem (t : t_type) : t.get_true_type.get_true_type = t.get_true_type := by
  induction t <;> simp_all [t_type.get_true_type]

theorem type_to_enum_true_type (t : t_type) :
    type_to_enum t.get_true_type = type_to_enum t := by
  simp only [type_to_enum, get_true_type_idem]

/-! ## Rendering of numerals -/

theorem toDigitsCore_chars (f : Nat) : ∀ (n : Nat) (acc : List Char) (c : Char),
    c ∈ Nat.toDigitsCore 10 f n acc → c ∈ acc ∨ c.isDigit = true := by
  induction f with
  | zero => intro n acc c h; simp [Nat.toDigitsCore] at h; exact Or.inl h
  | succ f ih =>
    intro n acc c h
    simp only [Nat.toDigitsCore] at h
    have hd : (Nat.digitChar (n % 10)).isDigit = true := by
      have : n % 10 < 10 := Nat.mod_lt _ (by decide)
      interval_cases (n % 10) <;> decide
    split at h
    · rcases List.mem_cons.mp h with h | h
      · exact Or.inr (h ▸ hd)
      · exact Or.inl h
    · rcases ih _ _ _ h with h | h
      · rcases List.mem_cons.mp h with h | h
        · exact Or.inr (h ▸ hd)
        · exact Or.inl h
      · exact Or.inr h

theorem decimal_chars (i : Int) (c : Char) (h : c ∈ (decimal i).data) :
    c = '-' ∨ c.isDigit = true := by
  unfold decimal at h
  split at h
  · simp only [String.data_append, List.mem_append] at h
    rcases h with h | h
    · left; simpa using h
    · right
      rcases toDigitsCore_chars _ _ _ _ h with h | h
      · simp at h
      · exact h
  · right
    rcases toDigitsCore_chars _ _ _ _ h with h | h
    · simp at h
    · exact h

theorem int64_literal_ne_hex (d h : String) (hd : ∀ c ∈ d.data, c = '-' ∨ c.isDigit = true) :
    "new Int64(" ++ d ++ ")" ≠ "new Int64('" ++ h ++ "')" := by
  intro heq
  have h2 := congrArg String.data heq
  simp only [String.data_append] at h2
  have h3 : d.data ++ [')'] = (Char.ofNat 39) :: (h.data ++ [Char.ofNat 39, ')']) := by
    simpa using h2
  cases hdd : d.data with
  | nil =>
    rw [hdd] at h3
    simp at h3
  | cons c rest =>
    rw [hdd] at h3
    simp at h3
    have hc := hd c (by rw [hdd]; exact List.mem_cons_self _ _)
    rw [h3.1] at hc
    revert hc
    decide


/-! ## The generator monad -/

namespace Gen

theorem bind_def {α β : Type} (x : Gen α) (f : α → Gen β) : (x >>= f) = Gen.bind x f := rfl

theorem pure_def {α : Type} (a : α) : (Pure.pure a : Gen α) = Gen.pure a := rfl

theorem bind_emit {β : Type} (j : Js) (f : Unit → Gen β) (s : GenState) :
    Gen.bind (Gen.emit j) f s
      = ⟨⟨s.indent_, j⟩ :: (f () s).out, (f () s).state, (f () s).result⟩ := rfl

theorem bind_tmp {β : Type} (g : t_js_generator) (n : String) (f : String → Gen β)
    (s : GenState) :
    Gen.bind (g.tmp n) f s = f (g.tmp_name n s.tmp_) { s with tmp_ := s.tmp_ + 1 } := rfl

theorem bind_indent_up {β : Type} (f : Unit → Gen β) (s : GenState) :
    Gen.bind Gen.indent_up f s = f () { s with indent_ := s.indent_ + 1 } := rfl

theorem bind_indent_down {β : Type} (f : Unit → Gen β) (s : GenState) :
    Gen.bind Gen.indent_down f s = f () { s with indent_ := s.indent_ - 1 } := rfl

theorem bind_scope_down {β : Type} (f : Unit → Gen β) (s : GenState) :
    Gen.bind Gen.scope_down f s
      = ⟨⟨s.indent_ - 1, .close⟩ :: (f () { s with indent_ := s.indent_ - 1 }).out,
          (f () { s with indent_ := s.indent_ - 1 }).state,
          (f () { s with indent_ := s.indent_ - 1 }).result⟩ := rfl

theorem bind_pure {α β : Type} (a : α) (f : α → Gen β) (s : GenState) :
    Gen.bind (Gen.pure a) f s = f a s := rfl

theorem bind_lift_ok {α β : Type} (a : α) (f : α → Gen β) (s : GenState) :
    Gen.bind (Gen.lift (.ok a)) f s = f a s := rfl

theorem bind_ok {α β : Type} (x : Gen α) (f : α → Gen β) (s : GenState) (a : α)
    (h : (x s).result = .ok a) :
    Gen.bind x f s
      = ⟨(x s).out ++ (f a (x s).state).out, (f a (x s).state).state,
          (f a (x s).state).result⟩ := by
  simp only [Gen.bind, h]

theorem bind_ok_unit {β : Type} (x : Gen Unit) (f : Unit → Gen β) (s : GenState)
    (h : (x s).result = .ok ()) :
    Gen.bind x f s
      = ⟨(x s).out ++ (f () (x s).state).out, (f () (x s).state).state,
          (f () (x s).state).result⟩ := bind_ok x f s () h

theorem bind_assoc {α β γ : Type} (x : Gen α) (f : α → Gen β) (h : β → Gen γ) :
    Gen.bind (Gen.bind x f) h = Gen.bind x (fun a => Gen.bind (f a) h) := by
  funext s
  simp only [Gen.bind]
  cases hx : (x s).result with
  | error e => simp
  | ok a =>
    simp only
    cases hf : (f a (x s).state).result with
    | error e => simp
    | ok b => simp [List.append_assoc]

end Gen

theorem read_calls_nil : read_calls [] = [] := rfl

theorem read_calls_cons (l : Line) (out : List Line) :
    read_calls (l :: out)
      = (match l.js.read_call with
        | some c => c :: read_calls out
        | none => read_calls out) := by
  cases h : l.js.read_call <;> simp [read_calls, List.filterMap_cons, h]

theorem read_calls_append (a b : List Line) :
    read_calls (a ++ b) = read_calls a ++ read_calls b := by
  simp only [read_calls, List.filterMap_append]

theorem all_field_codec_nil : all_field_codec [] = true := rfl

theorem all_field_codec_cons (l : Line) (out : List Line) :
    all_field_codec (l :: out) = (l.js.is_field_codec && all_field_codec out) := by
  simp only [all_field_codec, List.all_cons]

theorem all_field_codec_append (a b : List Line) :
    all_field_codec (a ++ b) = (all_field_codec a && all_field_codec b) := by
  simp only [all_field_codec, List.all_append]

theorem write_calls_nil : write_calls [] = [] := rfl

theorem write_calls_cons (l : Line) (out : List Line) :
    write_calls (l :: out)
      = (match l.js.write_call with
        | some c => c :: write_calls out
        | none => write_calls out) := by
  cases h : l.js.write_call <;> simp [write_calls, List.filterMap_cons, h]

theorem write_calls_append (a b : List Line) :
    write_calls (a ++ b) = write_calls a ++ write_calls b := by
  simp only [write_calls, List.filterMap_append]

/-! ## The field codecs -/

theorem generate_deserialize_field_typedef (g : t_js_generator) (n : String) (t : t_type)
    (nm : String) (k : Int) (r : e_req) (v : Option t_const_value) (pfx : String) :
    generate_deserialize_field g ⟨.typedef n t, nm, k, r, v⟩ pfx
      = generate_deserialize_field g ⟨t, nm, k, r, v⟩ pfx := by
  rw [generate_deserialize_field, generate_deserialize_field]
  simp only [t_type.get_true_type]

theorem generate_serialize_field_typedef (g : t_js_generator) (n : String) (t : t_type)
    (nm : String) (k : Int) (r : e_req) (v : Option t_const_value) (pfx : String) :
    generate_serialize_field g ⟨.typedef n t, nm, k, r, v⟩ pfx
      = generate_serialize_field g ⟨t, nm, k, r, v⟩ pfx := by
  rw [generate_serialize_field, generate_serialize_field]
  simp only [t_type.get_true_type]

theorem type_to_enum_ok (t : t_type) (h : void_free t = true) :
    ∃ tag, type_to_enum t = .ok tag := by
  induction t with
  | base tbase binary =>
    cases tbase <;> simp [void_free] at h <;> simp [type_to_enum, t_type.get_true_type]
  | typedef n t ih =>
    obtain ⟨tag, ht⟩ := ih h
    exact ⟨tag, by simpa [type_to_enum, t_type.get_true_type] using ht⟩
  | _ => simp [type_to_enum, t_type.get_true_type]

/-- For a field type of the data model the deserializer returns normally and
the protocol calls of its output are the container frame of the type. -/
theorem deserialize_calls (g : t_js_generator) (t : t_type) :
    ∀ (name : String) (key : Int) (req : e_req) (value : Option t_const_value) (pfx : String)
      (s : GenState), void_free t = true →
      (generate_deserialize_field g ⟨t, name, key, req, value⟩ pfx s).result = .ok ()
        ∧ read_calls (generate_deserialize_field g ⟨t, name, key, req, value⟩ pfx s).out
            = codec_calls t
        ∧ all_field_codec (generate_deserialize_field g ⟨t, name, key, req, value⟩ pfx s).out
            = true := by
  induction t with
  | base tbase binary =>
    intro name key req value pfx s h
    cases tbase <;> simp [void_free] at h <;>
      simp [generate_deserialize_field, t_type.get_true_type, t_type.is_void, base_prim,
        Gen.emit, read_calls, Js.read_call, codec_calls, Js.is_field_codec, all_field_codec]
  | enum p n =>
    intro name key req value pfx s h
    simp [generate_deserialize_field, t_type.get_true_type, t_type.is_void,
        Gen.emit, read_calls, Js.read_call, codec_calls, Js.is_field_codec, all_field_codec]
  | struct p n x =>
    intro name key req value pfx s h
    simp [generate_deserialize_field, generate_deserialize_struct, t_type.get_true_type,
      t_type.is_void, Gen.bind_def, Gen.bind_emit, Gen.emit, read_calls, Js.read_call,
      codec_calls, Js.is_field_codec, all_field_codec]
  | typedef n t ih =>
    intro name key req value pfx s h
    rw [generate_deserialize_field_typedef]
    exact ih name key req value pfx s h
  | list e ih =>
    intro name key req value pfx s h
    have h' : void_free e = true := h
    have ihr := fun n k r v p s => (ih n k r v p s h').1
    have iho := fun n k r v p s => (ih n k r v p s h').2.1
    have iha := fun n k r v p s => (ih n k r v p s h').2.2
    rw [generate_deserialize_field]
    simp only [t_type.get_true_type, t_type.is_void, Bool.false_eq_true, if_false,
      generate_deserialize_container, generate_deserialize_list_element,
      Gen.bind_def, Gen.bind_assoc, Gen.bind_emit, Gen.bind_tmp, Gen.bind_indent_up,
      Gen.bind_scope_down, Gen.bind_ok_unit _ _ _ (ihr _ _ _ _ _ _), Gen.emit,
      read_calls_cons, read_calls_append, read_calls_nil, Js.read_call, iho, codec_calls,
      all_field_codec_cons, all_field_codec_append, all_field_codec_nil, Js.is_field_codec, iha]
    simp
  | set e ih =>
    intro name key req value pfx s h
    have h' : void_free e = true := h
    have ihr := fun n k r v p s => (ih n k r v p s h').1
    have iho := fun n k r v p s => (ih n k r v p s h').2.1
    have iha := fun n k r v p s => (ih n k r v p s h').2.2
    rw [generate_deserialize_field]
    simp only [t_type.get_true_type, t_type.is_void, Bool.false_eq_true, if_false,
      generate_deserialize_container, generate_deserialize_set_element,
      Gen.bind_def, Gen.bind_assoc, Gen.bind_emit, Gen.bind_tmp, Gen.bind_indent_up,
      Gen.bind_scope_down, Gen.bind_ok_unit _ _ _ (ihr _ _ _ _ _ _), Gen.emit,
      read_calls_cons, read_calls_append, read_calls_nil, Js.read_call, iho, codec_calls,
      all_field_codec_cons, all_field_codec_append, all_field_codec_nil, Js.is_field_codec, iha]
    simp
  | map kt vt ihk ihv =>
    intro name key req value pfx s h
    have hk : void_free kt = true := by
      simp only [void_free, Bool.and_eq_true] at h
      exact h.1
    have hv : void_free vt = true := by
      simp only [void_free, Bool.and_eq_true] at h
      exact h.2
    have ihkr := fun n k r v p s => (ihk n k r v p s hk).1
    have ihko := fun n k r v p s => (ihk n k r v p s hk).2.1
    have ihka := fun n k r v p s => (ihk n k r v p s hk).2.2
    have ihvr := fun n k r v p s => (ihv n k r v p s hv).1
    have ihvo := fun n k r v p s => (ihv n k r v p s hv).2.1
    have ihva := fun n k r v p s => (ihv n k r v p s hv).2.2
    rw [generate_deserialize_field]
    cases hn : g.gen_node_ <;>
    · simp only [t_type.get_true_type, t_type.is_void, Bool.false_eq_true, if_false, hn,
        Bool.not_false, Bool.not_true, if_true,
        generate_deserialize_container, generate_deserialize_map_element,
        Gen.bind_def, Gen.pure_def, Gen.bind_pure, Gen.bind_assoc, Gen.bind_emit, Gen.bind_tmp,
        Gen.bind_indent_up,
        Gen.bind_scope_down, Gen.bind_ok_unit _ _ _ (ihkr _ _ _ _ _ _),
        Gen.bind_ok_unit _ _ _ (ihvr _ _ _ _ _ _), Gen.emit,
        read_calls_cons, read_calls_append, read_calls_nil, Js.read_call, ihko, ihvo,
      all_field_codec_cons, all_field_codec_append, all_field_codec_nil, Js.is_field_codec, ihka, ihva,
        codec_calls]
      simp

/-- For a field type of the data model the serializer returns normally and the
protocol calls of its output are the container frame of the type. -/
theorem serialize_calls (g : t_js_generator) (t : t_type) :
    ∀ (name : String) (key : Int) (req : e_req) (value : Option t_const_value) (pfx : String)
      (s : GenState), void_free t = true →
      (generate_serialize_field g ⟨t, name, key, req, value⟩ pfx s).result = .ok ()
        ∧ write_calls (generate_serialize_field g ⟨t, name, key, req, value⟩ pfx s).out
            = codec_calls t
        ∧ all_field_codec (generate_serialize_field g ⟨t, name, key, req, value⟩ pfx s).out
            = true := by
  induction t with
  | base tbase binary =>
    intro name key req value pfx s h
    cases tbase <;> simp [void_free] at h <;>
      simp [generate_serialize_field, t_type.get_true_type, t_type.is_void, base_prim,
        Gen.emit, write_calls, Js.write_call, codec_calls, Js.is_field_codec, all_field_codec]
  | enum p n =>
    intro name key req value pfx s h
    simp [generate_serialize_field, t_type.get_true_type, t_type.is_void,
        Gen.emit, write_calls, Js.write_call, codec_calls, Js.is_field_codec, all_field_codec]
  | struct p n x =>
    intro name key req value pfx s h
    simp [generate_serialize_field, generate_serialize_struct, t_type.get_true_type,
      t_type.is_void, Gen.emit, write_calls, Js.write_call, codec_calls, Js.is_field_codec, all_field_codec]
  | typedef n t ih =>
    intro name key req value pfx s h
    rw [generate_serialize_field_typedef]
    exact ih name key req value pfx s h
  | list e ih =>
    intro name key req value pfx s h
    have h' : void_free e = true := h
    obtain ⟨tag, htag⟩ := type_to_enum_ok e h'
    have ihr := fun n k r v p s => (ih n k r v p s h').1
    have iho := fun n k r v p s => (ih n k r v p s h').2.1
    have iha := fun n k r v p s => (ih n k r v p s h').2.2
    rw [generate_serialize_field]
    simp only [t_type.get_true_type, t_type.is_void, Bool.false_eq_true, if_false,
      generate_serialize_container, generate_serialize_list_element, htag, Gen.bind_lift_ok,
      Gen.bind_def, Gen.bind_assoc, Gen.bind_emit, Gen.bind_tmp, Gen.bind_indent_up,
      Gen.bind_scope_down, Gen.bind_ok_unit _ _ _ (ihr _ _ _ _ _ _), Gen.emit,
      write_calls_cons, write_calls_append, write_calls_nil, Js.write_call, iho, codec_calls,
      all_field_codec_cons, all_field_codec_append, all_field_codec_nil, Js.is_field_codec, iha]
    simp
  | set e ih =>
    intro name key req value pfx s h
    have h' : void_free e = true := h
    obtain ⟨tag, htag⟩ := type_to_enum_ok e h'
    have ihr := fun n k r v p s => (ih n k r v p s h').1
    have iho := fun n k r v p s => (ih n k r v p s h').2.1
    have iha := fun n k r v p s => (ih n k r v p s h').2.2
    rw [generate_serialize_field]
    simp only [t_type.get_true_type, t_type.is_void, Bool.false_eq_true, if_false,
      generate_serialize_container, generate_serialize_set_element, htag, Gen.bind_lift_ok,
      Gen.bind_def, Gen.bind_assoc, Gen.bind_emit, Gen.bind_tmp, Gen.bind_indent_up,
      Gen.bind_scope_down, Gen.bind_ok_unit _ _ _ (ihr _ _ _ _ _ _), Gen.emit,
      write_calls_cons, write_calls_append, write_calls_nil, Js.write_call, iho, codec_calls,
      all_field_codec_cons, all_field_codec_append, all_field_codec_nil, Js.is_field_codec, iha]
    simp
  | map kt vt ihk ihv =>
    intro name key req value pfx s h
    have hk : void_free kt = true := by
      simp only [void_free, Bool.and_eq_true] at h
      exact h.1
    have hv : void_free vt = true := by
      simp only [void_free, Bool.and_eq_true] at h
      exact h.2
    obtain ⟨ktag, hktag⟩ := type_to_enum_ok kt hk
    obtain ⟨vtag, hvtag⟩ := type_to_enum_ok vt hv
    have ihkr := fun n k r v p s => (ihk n k r v p s hk).1
    have ihko := fun n k r v p s => (ihk n k r v p s hk).2.1
    have ihka := fun n k r v p s => (ihk n k r v p s hk).2.2
    have ihvr := fun n k r v p s => (ihv n k r v p s hv).1
    have ihvo := fun n k r v p s => (ihv n k r v p s hv).2.1
    have ihva := fun n k r v p s => (ihv n k r v p s hv).2.2
    rw [generate_serialize_field]
    simp only [t_type.get_true_type, t_type.is_void, Bool.false_eq_true, if_false,
      generate_serialize_container, generate_serialize_map_element, hktag, hvtag,
      Gen.bind_lift_ok,
      Gen.bind_def, Gen.bind_assoc, Gen.bind_emit, Gen.bind_tmp, Gen.bind_indent_up,
      Gen.bind_scope_down, Gen.bind_ok_unit _ _ _ (ihkr _ _ _ _ _ _),
      Gen.bind_ok_unit _ _ _ (ihvr _ _ _ _ _ _), Gen.emit,
      write_calls_cons, write_calls_append, write_calls_nil, Js.write_call, ihko, ihvo,
      all_field_codec_cons, all_field_codec_append, all_field_codec_nil, Js.is_field_codec, ihka, ihva,
      codec_calls]
    simp

/-! ## Constants -/

/-- C3: `type_to_enum` is a function of the typedef-resolved type alone and
agrees with the fixed wire-tag table (bool BOOL, i8 BYTE, i16 I16, i32 I32,
i64 I64, double DOUBLE, string and binary STRING, enum I32, struct and
exception STRUCT, map MAP, set SET, list LIST); it throws exactly when the
resolved type is void. -/
theorem type_to_enum_wire_tag_table (t : t_type) :
    (type_to_enum t).toOption = wire_tag t.get_true_type
      ∧ ((type_to_enum t).toOption = none ↔ t.get_true_type.is_void = true) := by
  have hnt := get_true_type_not_typedef t
  unfold type_to_enum
  cases h : t.get_true_type with
  | base tbase binary => cases tbase <;> simp [wire_tag, t_type.is_void, Except.toOption]
  | typedef n u => rw [h] at hnt; simp [t_type.is_typedef] at hnt
  | _ => simp [wire_tag, t_type.is_void, Except.toOption]

/-- C8: an Int64 constant takes the from-string hexadecimal constructor path
exactly when it lies outside the range from -9007199254740991 to
9007199254740991; the four boundary values fall on the stated sides. -/
theorem render_const_value_i64_hex_iff (g : t_js_generator) (binary : Bool) (v : Int)
    (s : GenState) :
    ((render_const_value g (.base .TYPE_I64 binary) (.CV_INTEGER v) s).value?
        = some ("new Int64('" ++ hex64 v ++ "')")
      ↔ (v > 9007199254740991 ∨ v < -9007199254740991))
    ∧ (render_const_value g (.base .TYPE_I64 binary) (.CV_INTEGER 9007199254740991) s).value?
        = some "new Int64(9007199254740991)"
    ∧ (render_const_value g (.base .TYPE_I64 binary) (.CV_INTEGER (-9007199254740991)) s).value?
        = some "new Int64(-9007199254740991)"
    ∧ (render_const_value g (.base .TYPE_I64 binary) (.CV_INTEGER 9007199254740992) s).value?
        = some "new Int64('20000000000000')"
    ∧ (render_const_value g (.base .TYPE_I64 binary) (.CV_INTEGER (-9007199254740992)) s).value?
        = some "new Int64('ffe0000000000000')" := by
  refine ⟨?_, ?_, ?_, ?_, ?_⟩
  · simp only [render_const_value, t_type.get_true_type, t_const_value.get_integer,
      max_safe_integer, min_safe_integer]
    by_cases hr : v ≤ 0x1fffffffffffff ∧ v ≥ -0x1fffffffffffff
    · rw [if_pos hr]
      simp only [pure, Gen.pure, Outcome.value?, Option.some.injEq]
      constructor
      · intro h
        exact absurd h (int64_literal_ne_hex _ _ (decimal_chars v))
      · intro h
        omega
    · rw [if_neg hr]
      simp only [pure, Gen.pure, Outcome.value?, true_iff]
      omega
  · rfl
  · rfl
  · rfl
  · rfl

/-- C9 as stated fails: the constant 9007199254740991 of type Int64 is not
rendered as its bare decimal numeral. -/
theorem render_const_value_i64_not_bare_numeral :
    (render_const_value { program_ := ⟨"p", ""⟩ } (.base .TYPE_I64 false)
        (.CV_INTEGER 9007199254740991) {}).value? ≠ some (decimal 9007199254740991) := by
  decide

/-- C9 (amended): an Int64 constant within the range from -9007199254740991 to
9007199254740991 is rendered as the constructor call `new Int64(n)` whose
argument n is the decimal numeral of the constant. -/
theorem render_const_value_i64_safe (g : t_js_generator) (binary : Bool) (v : Int)
    (s : GenState) (hlo : -9007199254740991 ≤ v) (hhi : v ≤ 9007199254740991) :
    (render_const_value g (.base .TYPE_I64 binary) (.CV_INTEGER v) s).value?
      = some ("new Int64(" ++ decimal v ++ ")") := by
  simp only [render_const_value, t_type.get_true_type, t_const_value.get_integer,
    max_safe_integer, min_safe_integer]
  rw [if_pos ⟨by omega, by omega⟩]
  rfl

/-- Witness of C9 (amended): the constant -42 renders as `new Int64(-42)`. -/
theorem render_const_value_i64_safe_witness :
    (render_const_value { program_ := ⟨"p", ""⟩ } (.base .TYPE_I64 false)
        (.CV_INTEGER (-42)) {}).value? = some "new Int64(-42)" :=
  render_const_value_i64_safe { program_ := ⟨"p", ""⟩ } false (-42) {} (by decide) (by decide)

/-- C10: a bool-typed constant renders as `true` when its integer value is
positive and as `false` otherwise. -/
theorem render_const_value_bool (g : t_js_generator) (binary : Bool) (value : t_const_value)
    (s : GenState) :
    (render_const_value g (.base .TYPE_BOOL binary) value s).value?
      = some (if value.get_integer > 0 then "true" else "false") := by
  cases value <;> simp [render_const_value, t_type.get_true_type, pure, Gen.pure, Outcome.value?]

/-! ## The field codecs mirror each other -/

/-- C1: for a field whose type is a type of the data model (no component
resolves to void), `generate_serialize_field` and `generate_deserialize_field`
both return normally, and the protocol calls of the emitted writer code are, in
order, those of the emitted reader code with write for read: the same primitive
`X`, the same container markers with the same nesting, key before value for a
map, and a struct call for a struct call.  Both are the container frame of the
type. -/
theorem serialize_mirrors_deserialize (g : t_js_generator) (tfield : t_field) (pfx : String)
    (s s' : GenState) (h : void_free tfield.type = true) :
    (generate_serialize_field g tfield pfx s).result = .ok ()
      ∧ (generate_deserialize_field g tfield pfx s').result = .ok ()
      ∧ write_calls (generate_serialize_field g tfield pfx s).out
          = read_calls (generate_deserialize_field g tfield pfx s').out
      ∧ read_calls (generate_deserialize_field g tfield pfx s').out
          = codec_calls tfield.type := by
  obtain ⟨type, name, key, req, value⟩ := tfield
  have hs := serialize_calls g type name key req value pfx s h
  have hd := deserialize_calls g type name key req value pfx s' h
  exact ⟨hs.1, hd.1, hs.2.1.trans hd.2.1.symm, hd.2.1⟩

/-- Witness of C1: the field `index` of type `map<string, list<Point>>`, reached
through a typedef. -/
theorem serialize_mirrors_deserialize_witness :
    write_calls (generate_serialize_field sample_generator sample_field "this." {}).out
        = read_calls (generate_deserialize_field sample_generator sample_field "this." {}).out
      ∧ read_calls (generate_deserialize_field sample_generator sample_field "this." {}).out
        = [.begin_ .map, .prim .string, .begin_ .list, .struct_, .end_ .list, .end_ .map] :=
  ⟨(serialize_mirrors_deserialize sample_generator sample_field "this." {} {} (by decide)).2.2.1,
    (serialize_mirrors_deserialize sample_generator sample_field "this." {} {} (by decide)).2.2.2⟩

/-! ## The struct writer -/

theorem statements_append (a b : List Line) :
    statements (a ++ b) = statements a ++ statements b := by
  simp only [statements, List.map_append]

theorem statements_cons (l : Line) (out : List Line) :
    statements (l :: out) = l.js :: statements out := rfl

theorem statements_nil : statements [] = [] := rfl

/-- A statement that is not of the field codecs does not occur in a stream of
field-codec lines. -/
theorem not_mem_of_all_field_codec (out : List Line) (j : Js) (hj : j.is_field_codec = false)
    (h : all_field_codec out = true) : j ∉ statements out := by
  intro hmem
  simp only [statements, List.mem_map] at hmem
  obtain ⟨l, hl, rfl⟩ := hmem
  simp only [all_field_codec, List.all_eq_true] at h
  have := h l hl
  rw [hj] at this
  exact Bool.false_ne_true this

/-- The block written for one field by the loop of the writer. -/
theorem writer_field_block (g : t_js_generator) (f : t_field) (s : GenState)
    (h : void_free f.type = true) :
    ∃ tag, type_to_enum f.type = .ok tag
      ∧ (generate_js_struct_writer_field g f s).result = .ok ()
      ∧ statements (generate_js_struct_writer_field g f s).out
          = [.if_set f.name, .write_field_begin f.name tag f.key]
            ++ statements
                (generate_serialize_field g f "this." { s with indent_ := s.indent_ + 1 }).out
            ++ [.write_field_end, .close] := by
  obtain ⟨tag, htag⟩ := type_to_enum_ok f.type h
  obtain ⟨type, name, key, req, value⟩ := f
  have hs := fun s => (serialize_calls g type name key req value "this." s h).1
  refine ⟨tag, htag, ?_, ?_⟩
  · simp only [generate_js_struct_writer_field, Gen.bind_def, Gen.bind_emit, Gen.bind_indent_up,
      htag, Gen.bind_lift_ok, Gen.bind_ok_unit _ _ _ (hs _), Gen.bind_indent_down, Gen.emit]
  · simp only [generate_js_struct_writer_field, Gen.bind_def, Gen.bind_emit, Gen.bind_indent_up,
      htag, Gen.bind_lift_ok, Gen.bind_ok_unit _ _ _ (hs _), Gen.bind_indent_down, Gen.emit,
      statements_cons, statements_append, statements_nil]
    simp

/-- The loop of the writer over the fields: one block per field, in order. -/
theorem writer_field_blocks (g : t_js_generator) :
    ∀ (fields : List t_field) (s : GenState), (∀ f ∈ fields, void_free f.type = true) →
      (Gen.for_each fields (generate_js_struct_writer_field g) s).result = .ok ()
      ∧ ∃ blocks : List (List Js),
          statements (Gen.for_each fields (generate_js_struct_writer_field g) s).out
            = blocks.flatten
          ∧ List.Forall₂ (fun f block => ∃ tag st, type_to_enum f.type = .ok tag
              ∧ block = [.if_set f.name, .write_field_begin f.name tag f.key]
                  ++ statements (generate_serialize_field g f "this." st).out
                  ++ [.write_field_end, .close]) fields blocks := by
  intro fields
  induction fields with
  | nil =>
    intro s _
    exact ⟨rfl, [], rfl, List.Forall₂.nil⟩
  | cons f rest ih =>
    intro s h
    obtain ⟨tag, htag, hok, hout⟩ := writer_field_block g f s (h f (List.mem_cons_self _ _))
    obtain ⟨hrest, blocks, hb, hall⟩ :=
      ih (generate_js_struct_writer_field g f s).state
        (fun f' hf' => h f' (List.mem_cons_of_mem _ hf'))
    refine ⟨?_, ?_⟩
    · simp only [Gen.for_each, Gen.bind_ok_unit _ _ _ hok]
      exact hrest
    · refine ⟨([.if_set f.name, .write_field_begin f.name tag f.key]
          ++ statements
              (generate_serialize_field g f "this." { s with indent_ := s.indent_ + 1 }).out
          ++ [.write_field_end, .close]) :: blocks, ?_,
        List.Forall₂.cons ⟨tag, { s with indent_ := s.indent_ + 1 }, htag, rfl⟩ hall⟩
      simp only [Gen.for_each, Gen.bind_ok_unit _ _ _ hok, statements_append, hout, hb,
        List.flatten_cons]


theorem countP_statements_field_codec (p : Js → Bool) (out : List Line)
    (hp : ∀ j, p j = true → j.is_field_codec = false) (h : all_field_codec out = true) :
    (statements out).countP p = 0 := by
  rw [List.countP_eq_zero]
  intro j hj hpj
  exact not_mem_of_all_field_codec out j (hp j hpj) h hj

/-- What the loop of the writer does not write, and how many field headers and
footers it writes. -/
theorem writer_field_blocks_lines (g : t_js_generator) :
    ∀ (fields : List t_field) (s : GenState), (∀ f ∈ fields, void_free f.type = true) →
      (∀ j ∈ statements (Gen.for_each fields (generate_js_struct_writer_field g) s).out,
          j.is_writer_block_line = true)
      ∧ (statements (Gen.for_each fields (generate_js_struct_writer_field g) s).out).countP
          Js.is_write_field_begin = fields.length
      ∧ (statements (Gen.for_each fields (generate_js_struct_writer_field g) s).out).count
          .write_field_end = fields.length := by
  intro fields
  induction fields with
  | nil =>
    intro s _
    exact ⟨(by intro j hj; cases hj), rfl, rfl⟩
  | cons f rest ih =>
    intro s h
    have hf := h f (List.mem_cons_self _ _)
    obtain ⟨tag, htag, hok, hout⟩ := writer_field_block g f s hf
    obtain ⟨ih1, ih2, ih3⟩ :=
      ih (generate_js_struct_writer_field g f s).state
        (fun f' hf' => h f' (List.mem_cons_of_mem _ hf'))
    have hcodec : all_field_codec
        (generate_serialize_field g f "this." { s with indent_ := s.indent_ + 1 }).out = true := by
      obtain ⟨type, name, key, req, value⟩ := f
      exact (serialize_calls g type name key req value "this." _ hf).2.2
    simp only [Gen.for_each, Gen.bind_ok_unit _ _ _ hok, statements_append, hout]
    refine ⟨?_, ?_, ?_⟩
    · intro j hj
      simp only [List.mem_append, List.mem_cons, List.mem_singleton, List.not_mem_nil,
        or_false] at hj
      rcases hj with ((((hj | hj) | hj) | (hj | hj)) | hj)
      · rw [hj]; rfl
      · rw [hj]; rfl
      · simp only [statements, List.mem_map] at hj
        obtain ⟨l, hl, rfl⟩ := hj
        simp only [all_field_codec, List.all_eq_true] at hcodec
        have hc := hcodec l hl
        revert hc
        cases l.js <;> simp [Js.is_writer_block_line, Js.is_field_codec]
      · rw [hj]; rfl
      · rw [hj]; rfl
      · exact ih1 j hj
    · rw [List.countP_append, List.countP_append, List.countP_append, ih2,
        countP_statements_field_codec _ _ _ hcodec]
      · simp [List.countP_cons, Js.is_write_field_begin]
        omega
      · intro j hj
        cases j <;> simp_all [Js.is_write_field_begin, Js.is_field_codec]
    · rw [List.count_append, List.count_append, List.count_append, ih3]
      have h0 : (statements
          (generate_serialize_field g f "this." { s with indent_ := s.indent_ + 1 }).out).count
            .write_field_end = 0 :=
        List.count_eq_zero.mpr (not_mem_of_all_field_codec _ _ rfl hcodec)
      rw [h0]
      simp [List.count_cons]
      omega


/-- The text of the writer around the loop over the fields. -/
theorem struct_writer_statements (g : t_js_generator) (tstruct : t_struct) (s : GenState)
    (h : ∀ f ∈ tstruct.members, void_free f.type = true) :
    (generate_js_struct_writer g tstruct s).result = .ok ()
      ∧ statements (generate_js_struct_writer g tstruct s).out
          = .writer_head g.gen_es6_ (g.js_namespace tstruct.program ++ tstruct.name)
            :: .write_struct_begin tstruct.name
            :: (statements (Gen.for_each tstruct.members (generate_js_struct_writer_field g)
                  { s with indent_ := s.indent_ + 1 }).out
                ++ [.write_field_stop, .write_struct_end, .return_, .method_end g.gen_es6_]) := by
  have hok := (writer_field_blocks g tstruct.members { s with indent_ := s.indent_ + 1 } h).1
  constructor
  · simp only [generate_js_struct_writer, Gen.bind_def, Gen.bind_emit, Gen.bind_indent_up,
      Gen.bind_ok_unit _ _ _ hok, Gen.bind_indent_down, Gen.emit]
  · simp only [generate_js_struct_writer, Gen.bind_def, Gen.bind_emit, Gen.bind_indent_up,
      Gen.bind_ok_unit _ _ _ hok, Gen.bind_indent_down, Gen.emit, statements_cons,
      statements_append, statements_nil]

/-- C6: for every struct of the data model, with or without fields, the writer
returns normally and its text is the method head, `writeStructBegin`, the field
blocks, then `writeFieldStop` directly followed by `writeStructEnd`, `return`
and the end of the method; it holds exactly one `writeFieldStop` and exactly
one `writeStructEnd`. -/
theorem struct_writer_stop_and_end_once (g : t_js_generator) (tstruct : t_struct)
    (s : GenState) (h : ∀ f ∈ tstruct.members, void_free f.type = true) :
    (generate_js_struct_writer g tstruct s).result = .ok ()
      ∧ (∃ blocks : List Js,
          (∀ j ∈ blocks, j.is_writer_block_line = true)
          ∧ statements (generate_js_struct_writer g tstruct s).out
              = [.writer_head g.gen_es6_ (g.js_namespace tstruct.program ++ tstruct.name),
                  .write_struct_begin tstruct.name]
                ++ blocks
                ++ [.write_field_stop, .write_struct_end, .return_, .method_end g.gen_es6_])
      ∧ (statements (generate_js_struct_writer g tstruct s).out).count .write_field_stop = 1
      ∧ (statements (generate_js_struct_writer g tstruct s).out).count .write_struct_end = 1 := by
  obtain ⟨hok, hst⟩ := struct_writer_statements g tstruct s h
  obtain ⟨hl, -, -⟩ :=
    writer_field_blocks_lines g tstruct.members { s with indent_ := s.indent_ + 1 } h
  have hnot : ∀ j : Js, j.is_writer_block_line = false →
      (statements (Gen.for_each tstruct.members (generate_js_struct_writer_field g)
        { s with indent_ := s.indent_ + 1 }).out).count j = 0 := by
    intro j hj
    rw [List.count_eq_zero]
    intro hmem
    rw [hl j hmem] at hj
    exact Bool.noConfusion hj
  refine ⟨hok, ⟨_, hl, by rw [hst]; simp⟩, ?_, ?_⟩
  · rw [hst, List.count_cons, List.count_cons, List.count_append,
      hnot .write_field_stop rfl]
    simp [List.count_cons]
  · rw [hst, List.count_cons, List.count_cons, List.count_append,
      hnot .write_struct_end rfl]
    simp [List.count_cons]

/-- Witness of C6: the writer of the struct `Drawing`. -/
theorem struct_writer_stop_and_end_once_witness :
    (statements (generate_js_struct_writer sample_generator sample_struct {}).out).count
        .write_field_stop = 1
      ∧ (statements (generate_js_struct_writer sample_generator sample_struct {}).out).count
        .write_struct_end = 1 :=
  (struct_writer_stop_and_end_once sample_generator sample_struct {} (by decide)).2.2

/-- C7: for every struct of the data model the writer holds exactly one block
per declared field, in declaration order; the block of a field is the guard
`if (this.name !== null && this.name !== undefined)`, the header
`writeFieldBegin('name', type_to_enum(type), id)`, the serialization of the
field with the receiver `this.`, `writeFieldEnd` and the closing brace.  Hence
there are as many `writeFieldBegin` and as many `writeFieldEnd` calls as fields. -/
theorem struct_writer_block_per_field (g : t_js_generator) (tstruct : t_struct)
    (s : GenState) (h : ∀ f ∈ tstruct.members, void_free f.type = true) :
    (∃ blocks : List (List Js),
        statements (generate_js_struct_writer g tstruct s).out
            = [.writer_head g.gen_es6_ (g.js_namespace tstruct.program ++ tstruct.name),
                .write_struct_begin tstruct.name]
              ++ blocks.flatten
              ++ [.write_field_stop, .write_struct_end, .return_, .method_end g.gen_es6_]
        ∧ List.Forall₂ (fun f block => ∃ tag st, type_to_enum f.type = .ok tag
            ∧ block = [.if_set f.name, .write_field_begin f.name tag f.key]
                ++ statements (generate_serialize_field g f "this." st).out
                ++ [.write_field_end, .close]) tstruct.members blocks)
      ∧ (statements (generate_js_struct_writer g tstruct s).out).countP Js.is_write_field_begin
          = tstruct.members.length
      ∧ (statements (generate_js_struct_writer g tstruct s).out).count .write_field_end
          = tstruct.members.length
      ∧ (∀ name ind, (Js.if_set name).text ind
          = ind ++ "if (this." ++ name ++ " !== null && this." ++ name
            ++ " !== undefined) \x7b\n") := by
  obtain ⟨-, hst⟩ := struct_writer_statements g tstruct s h
  obtain ⟨-, blocks, hb, hall⟩ :=
    writer_field_blocks g tstruct.members { s with indent_ := s.indent_ + 1 } h
  obtain ⟨-, hc1, hc2⟩ :=
    writer_field_blocks_lines g tstruct.members { s with indent_ := s.indent_ + 1 } h
  refine ⟨⟨blocks, by rw [hst, hb]; simp, hall⟩, ?_, ?_, fun _ _ => rfl⟩
  · rw [hst, List.countP_cons, List.countP_cons, List.countP_append, hc1]
    simp [Js.is_write_field_begin]
  · rw [hst, List.count_cons, List.count_cons, List.count_append, hc2]
    simp

/-- Witness of C7: the writer of the struct `Drawing` with its two fields. -/
theorem struct_writer_block_per_field_witness :
    (statements (generate_js_struct_writer sample_generator sample_struct {}).out).countP
        Js.is_write_field_begin = 2
      ∧ (statements (generate_js_struct_writer sample_generator sample_struct {}).out).count
        .write_field_end = 2 :=
  ⟨(struct_writer_block_per_field sample_generator sample_struct {} (by decide)).2.1,
    (struct_writer_block_per_field sample_generator sample_struct {} (by decide)).2.2.1⟩

/-! ## The struct reader -/

/-- The branch written for one field by the loop of the reader. -/
theorem reader_case_block (g : t_js_generator) (f : t_field) (s : GenState)
    (h : void_free f.type = true) :
    ∃ tag, type_to_enum f.type = .ok tag
      ∧ (generate_js_struct_reader_case g f s).result = .ok ()
      ∧ statements (generate_js_struct_reader_case g f s).out
          = [.case f.key, .if_ftype tag]
            ++ statements
                (generate_deserialize_field g f "this." { s with indent_ := s.indent_ + 1 }).out
            ++ [.else_, .skip true, .close, .break_ false] := by
  obtain ⟨tag, htag⟩ := type_to_enum_ok f.type h
  obtain ⟨type, name, key, req, value⟩ := f
  have hs := fun s => (deserialize_calls g type name key req value "this." s h).1
  refine ⟨tag, htag, ?_, ?_⟩
  · simp only [generate_js_struct_reader_case, Gen.bind_def, Gen.bind_emit, Gen.bind_indent_up,
      htag, Gen.bind_lift_ok, Gen.bind_ok_unit _ _ _ (hs _), Gen.bind_indent_down, Gen.emit]
  · simp only [generate_js_struct_reader_case, Gen.bind_def, Gen.bind_emit, Gen.bind_indent_up,
      htag, Gen.bind_lift_ok, Gen.bind_ok_unit _ _ _ (hs _), Gen.bind_indent_down, Gen.emit,
      statements_cons, statements_append, statements_nil]
    simp

/-- The loop of the reader over the fields: one branch per field, in order. -/
theorem reader_case_blocks (g : t_js_generator) :
    ∀ (fields : List t_field) (s : GenState), (∀ f ∈ fields, void_free f.type = true) →
      (Gen.for_each fields (generate_js_struct_reader_case g) s).result = .ok ()
      ∧ ∃ cases : List (List Js),
          statements (Gen.for_each fields (generate_js_struct_reader_case g) s).out
            = cases.flatten
          ∧ List.Forall₂ (fun f branch => ∃ tag st, type_to_enum f.type = .ok tag
              ∧ branch = [.case f.key, .if_ftype tag]
                  ++ statements (generate_deserialize_field g f "this." st).out
                  ++ [.else_, .skip true, .close, .break_ false]) fields cases := by
  intro fields
  induction fields with
  | nil =>
    intro s _
    exact ⟨rfl, [], rfl, List.Forall₂.nil⟩
  | cons f rest ih =>
    intro s h
    obtain ⟨tag, htag, hok, hout⟩ := reader_case_block g f s (h f (List.mem_cons_self _ _))
    obtain ⟨hrest, cases, hb, hall⟩ :=
      ih (generate_js_struct_reader_case g f s).state
        (fun f' hf' => h f' (List.mem_cons_of_mem _ hf'))
    refine ⟨?_, ?_⟩
    · simp only [Gen.for_each, Gen.bind_ok_unit _ _ _ hok]
      exact hrest
    · refine ⟨([.case f.key, .if_ftype tag]
          ++ statements
              (generate_deserialize_field g f "this." { s with indent_ := s.indent_ + 1 }).out
          ++ [.else_, .skip true, .close, .break_ false]) :: cases, ?_,
        List.Forall₂.cons ⟨tag, { s with indent_ := s.indent_ + 1 }, htag, rfl⟩ hall⟩
      simp only [Gen.for_each, Gen.bind_ok_unit _ _ _ hok, statements_append, hout, hb,
        List.flatten_cons]

/-- The lines of the loop of the reader: `case` labels of declared ids and
branch lines. -/
theorem reader_case_blocks_lines (g : t_js_generator) :
    ∀ (fields : List t_field) (s : GenState), (∀ f ∈ fields, void_free f.type = true) →
      ∀ j ∈ statements (Gen.for_each fields (generate_js_struct_reader_case g) s).out,
        (∃ f ∈ fields, j = .case f.key) ∨ j.is_reader_branch_line = true := by
  intro fields
  induction fields with
  | nil =>
    intro s _ j hj
    cases hj
  | cons f rest ih =>
    intro s h j hj
    have hf := h f (List.mem_cons_self _ _)
    obtain ⟨tag, htag, hok, hout⟩ := reader_case_block g f s hf
    have hcodec : all_field_codec
        (generate_deserialize_field g f "this." { s with indent_ := s.indent_ + 1 }).out
          = true := by
      obtain ⟨type, name, key, req, value⟩ := f
      exact (deserialize_calls g type name key req value "this." _ hf).2.2
    simp only [Gen.for_each, Gen.bind_ok_unit _ _ _ hok, statements_append, hout] at hj
    simp only [List.mem_append, List.mem_cons, List.mem_singleton, List.not_mem_nil,
      or_false] at hj
    rcases hj with ((((hj | hj) | hj) | (hj | hj | hj | hj)) | hj)
    · exact Or.inl ⟨f, List.mem_cons_self _ _, hj⟩
    · right; rw [hj]; rfl
    · right
      simp only [statements, List.mem_map] at hj
      obtain ⟨l, hl, rfl⟩ := hj
      simp only [all_field_codec, List.all_eq_true] at hcodec
      have hc := hcodec l hl
      revert hc
      cases l.js <;> simp [Js.is_reader_branch_line, Js.is_field_codec]
    · right; rw [hj]; rfl
    · right; rw [hj]; rfl
    · right; rw [hj]; rfl
    · right; rw [hj]; rfl
    · rcases ih _ (fun f' hf' => h f' (List.mem_cons_of_mem _ hf')) j hj with ⟨f', hf', hj'⟩ | hj'
      · exact Or.inl ⟨f', List.mem_cons_of_mem _ hf', hj'⟩
      · exact Or.inr hj'

/-- The text of the reader of a struct without fields. -/
theorem struct_reader_statements_nil (g : t_js_generator) (tstruct : t_struct) (s : GenState)
    (h : tstruct.members = []) :
    (generate_js_struct_reader g tstruct s).result = .ok ()
      ∧ statements (generate_js_struct_reader g tstruct s).out
          = [.reader_head g.gen_es6_ (g.js_namespace tstruct.program ++ tstruct.name),
              .read_struct_begin, .while_true, .decl_ret g.js_const_type_,
              .decl_ftype g.js_const_type_, .if_stop, .break_ false, .close,
              .skip false, .read_field_end, .close, .read_struct_end, .return_,
              .method_end g.gen_es6_] := by
  constructor <;>
    simp [generate_js_struct_reader, h, Gen.bind_def, Gen.pure_def, Gen.bind_pure, Gen.bind_emit,
      Gen.bind_indent_up, Gen.bind_indent_down, Gen.bind_scope_down, Gen.emit, statements]

/-- The text of the reader of a struct with fields, around the loop over them. -/
theorem struct_reader_statements (g : t_js_generator) (tstruct : t_struct) (s : GenState)
    (hne : tstruct.members ≠ []) (h : ∀ f ∈ tstruct.members, void_free f.type = true) :
    (generate_js_struct_reader g tstruct s).result = .ok ()
      ∧ statements (generate_js_struct_reader g tstruct s).out
          = [.reader_head g.gen_es6_ (g.js_namespace tstruct.program ++ tstruct.name),
              .read_struct_begin, .while_true, .decl_ret g.js_const_type_,
              .decl_ftype g.js_const_type_, .decl_fid g.js_const_type_, .if_stop,
              .break_ false, .close, .switch_fid]
            ++ (statements (Gen.for_each tstruct.members (generate_js_struct_reader_case g)
                  { s with indent_ := s.indent_ + 1 + 1 + 1 }).out
              ++ (if tstruct.members.length = 1 then [.case 0, .skip true, .break_ true] else [])
              ++ [.default_, .skip true])
            ++ [.close, .read_field_end, .close, .read_struct_end, .return_,
                .method_end g.gen_es6_] := by
  have hemp : tstruct.members.isEmpty = false := by
    cases hm : tstruct.members with
    | nil => exact absurd hm hne
    | cons a l => rfl
  have hok := fun s => (reader_case_blocks g tstruct.members s h).1
  by_cases hlen : tstruct.members.length = 1
  · constructor <;>
      simp [generate_js_struct_reader, hemp, hlen, Gen.bind_def, Gen.pure_def, Gen.bind_pure,
        Gen.bind_assoc, Gen.bind_emit, Gen.bind_indent_up, Gen.bind_indent_down,
        Gen.bind_scope_down, Gen.bind_ok_unit _ _ _ (hok _), Gen.emit, statements_cons,
        statements_append, statements_nil]
  · constructor <;>
      simp [generate_js_struct_reader, hemp, hlen, Gen.bind_def, Gen.pure_def, Gen.bind_pure,
        Gen.bind_assoc, Gen.bind_emit, Gen.bind_indent_up, Gen.bind_indent_down,
        Gen.bind_scope_down, Gen.bind_ok_unit _ _ _ (hok _), Gen.emit, statements_cons,
        statements_append, statements_nil]


theorem forall₂_exists_of_mem {α β : Type} {R : α → β → Prop} :
    ∀ {l₁ : List α} {l₂ : List β}, List.Forall₂ R l₁ l₂ → ∀ a ∈ l₁, ∃ b ∈ l₂, R a b := by
  intro l₁ l₂ h
  induction h with
  | nil => intro a ha; cases ha
  | cons hab _ ih =>
    intro a ha
    rcases List.mem_cons.mp ha with rfl | ha
    · exact ⟨_, List.mem_cons_self _ _, hab⟩
    · obtain ⟨b, hb, hr⟩ := ih a ha
      exact ⟨b, List.mem_cons_of_mem _ hb, hr⟩

/-- C4: for every struct of the data model with at least one field, the switch
of the reader holds one branch per declared field, in declaration order: the
label `case id` with the declared id, the test of the read tag against
`type_to_enum` of the field type, under it the deserialization of the field
with the receiver `this.`, and in the other branch `input.skip(ftype)`.  The
tag tested for a field is the tag the writer passes to `writeFieldBegin` for
that field. -/
theorem struct_reader_branch_per_field (g : t_js_generator) (tstruct : t_struct)
    (s s' : GenState) (hne : tstruct.members ≠ [])
    (h : ∀ f ∈ tstruct.members, void_free f.type = true) :
    (generate_js_struct_reader g tstruct s).result = .ok ()
      ∧ (∃ cases : List (List Js),
          statements (generate_js_struct_reader g tstruct s).out
            = [.reader_head g.gen_es6_ (g.js_namespace tstruct.program ++ tstruct.name),
                .read_struct_begin, .while_true, .decl_ret g.js_const_type_,
                .decl_ftype g.js_const_type_, .decl_fid g.js_const_type_, .if_stop,
                .break_ false, .close, .switch_fid]
              ++ cases.flatten
              ++ (if tstruct.members.length = 1 then [.case 0, .skip true, .break_ true]
                  else [])
              ++ [.default_, .skip true, .close, .read_field_end, .close, .read_struct_end,
                  .return_, .method_end g.gen_es6_]
          ∧ List.Forall₂ (fun f branch => ∃ tag st, type_to_enum f.type = .ok tag
              ∧ branch = [.case f.key, .if_ftype tag]
                  ++ statements (generate_deserialize_field g f "this." st).out
                  ++ [.else_, .skip true, .close, .break_ false]) tstruct.members cases)
      ∧ (∀ f ∈ tstruct.members, ∃ tag, type_to_enum f.type = .ok tag
          ∧ .if_ftype tag ∈ statements (generate_js_struct_reader g tstruct s).out
          ∧ .write_field_begin f.name tag f.key
              ∈ statements (generate_js_struct_writer g tstruct s').out) := by
  obtain ⟨hok, hst⟩ := struct_reader_statements g tstruct s hne h
  obtain ⟨-, cases, hc, hall⟩ :=
    reader_case_blocks g tstruct.members { s with indent_ := s.indent_ + 1 + 1 + 1 } h
  obtain ⟨-, hwst⟩ := struct_writer_statements g tstruct s' h
  obtain ⟨-, blocks, hb, hwall⟩ :=
    writer_field_blocks g tstruct.members { s' with indent_ := s'.indent_ + 1 } h
  refine ⟨hok, ⟨cases, by rw [hst, hc]; simp, hall⟩, ?_⟩
  intro f hf
  obtain ⟨branch, hbranch, tag, st, htag, hbr⟩ := forall₂_exists_of_mem hall f hf
  obtain ⟨block, hblock, tag', st', htag', hbl⟩ := forall₂_exists_of_mem hwall f hf
  have htt : tag' = tag := by
    rw [htag] at htag'
    exact (Except.ok.inj htag').symm
  subst htt
  refine ⟨tag', htag, ?_, ?_⟩
  · rw [hst, hc]
    have : Js.if_ftype tag' ∈ cases.flatten :=
      List.mem_flatten.mpr ⟨branch, hbranch, by rw [hbr]; simp⟩
    simp [this]
  · rw [hwst, hb]
    have : Js.write_field_begin f.name tag' f.key ∈ blocks.flatten :=
      List.mem_flatten.mpr ⟨block, hblock, by rw [hbl]; simp⟩
    simp [this]

/-- Witness of C4: the field `index` in the reader and the writer of `Drawing`. -/
theorem struct_reader_branch_per_field_witness :
    ∃ tag, type_to_enum sample_field.type = .ok tag
      ∧ .if_ftype tag ∈ statements (generate_js_struct_reader sample_generator sample_struct {}).out
      ∧ .write_field_begin sample_field.name tag sample_field.key
          ∈ statements (generate_js_struct_writer sample_generator sample_struct {}).out :=
  (struct_reader_branch_per_field sample_generator sample_struct {} {} (List.cons_ne_nil _ _)
    (by decide)).2.2 sample_field (List.mem_cons_self _ _)


theorem dropWhile_append_of_all {α : Type} (p : α → Bool) :
    ∀ (a b : List α), (∀ x ∈ a, p x = true) → (a ++ b).dropWhile p = b.dropWhile p := by
  intro a
  induction a with
  | nil => intro b _; rfl
  | cons x a ih =>
    intro b h
    rw [List.cons_append, List.dropWhile_cons, if_pos (h x (List.mem_cons_self _ _))]
    exact ih b (fun y hy => h y (List.mem_cons_of_mem _ hy))

theorem generate_deserialize_field_base (g : t_js_generator) (tbase : t_base) (binary : Bool)
    (name : String) (key : Int) (req : e_req) (value : Option t_const_value) (pfx : String)
    (p : Prim) (hp : base_prim tbase binary = some p) (s : GenState) :
    generate_deserialize_field g ⟨.base tbase binary, name, key, req, value⟩ pfx s
      = ⟨[⟨s.indent_, .read_prim (pfx ++ name) p (!g.gen_node_)⟩], s, .ok ()⟩ := by
  rw [generate_deserialize_field]
  cases tbase <;> simp_all [base_prim, t_type.get_true_type, t_type.is_void, Gen.emit]

/-- C5 as stated fails: in the reader of a struct whose only field has id 1, a
field with the undeclared id 0 does not reach the `default:` branch of the
switch; the switch is entered at the extra label `case 0:`. -/
theorem reader_unknown_id_zero_enters_case_zero :
    (0 : Int) ∉ single_field_struct.members.map t_field.key
      ∧ statements (generate_js_struct_reader sample_generator single_field_struct {}).out
        = [.reader_head false "Counter", .read_struct_begin, .while_true, .decl_ret "var ",
            .decl_ftype "var ", .decl_fid "var ", .if_stop, .break_ false, .close, .switch_fid]
          ++ [.case 1, .if_ftype "Thrift.Type.I32", .read_prim "this.count" .i32 true, .else_,
              .skip true, .close, .break_ false, .case 0, .skip true, .break_ true, .default_,
              .skip true]
          ++ [.close, .read_field_end, .close, .read_struct_end, .return_, .method_end false]
      ∧ switch_entry_label
          [.case 1, .if_ftype "Thrift.Type.I32", .read_prim "this.count" .i32 true, .else_,
            .skip true, .close, .break_ false, .case 0, .skip true, .break_ true, .default_,
            .skip true] 0 = some (.case 0) := by
  refine ⟨by decide, ?_, rfl⟩
  have hst := (struct_reader_statements sample_generator single_field_struct {}
    (List.cons_ne_nil _ _) (by decide)).2
  obtain ⟨tag, htag, hok, hout⟩ := reader_case_block sample_generator
    { type := .base .TYPE_I32 false, name := "count", key := 1 } ⟨0 + 1 + 1 + 1, 0⟩ rfl
  have htag' : tag = "Thrift.Type.I32" := (Except.ok.inj htag).symm
  subst htag'
  rw [generate_deserialize_field_base sample_generator .TYPE_I32 false "count" 1 _ _ "this."
    .i32 rfl] at hout
  have hloop : statements (Gen.for_each single_field_struct.members
      (generate_js_struct_reader_case sample_generator) ⟨0 + 1 + 1 + 1, 0⟩).out
        = [.case 1, .if_ftype "Thrift.Type.I32", .read_prim "this.count" .i32 true, .else_,
            .skip true, .close, .break_ false] := by
    show statements (Gen.bind (generate_js_struct_reader_case sample_generator
      { type := .base .TYPE_I32 false, name := "count", key := 1 })
        (fun _ => Gen.pure ()) ⟨0 + 1 + 1 + 1, 0⟩).out = _
    rw [Gen.bind_ok_unit _ _ _ hok]
    simp only [statements_append, hout]
    rfl
  rw [hst, hloop]
  rfl

/-- A switch whose clauses end in `default:` and `input.skip(ftype)`, entered
for an id that no `case` label carries. -/
theorem switch_default_arm (L : List Js) (fid : Int)
    (hcase : ∀ j ∈ L, (!Js.is_case fid j) = true) (hdef : ∀ j ∈ L, (!Js.is_default j) = true) :
    switch_arm (L ++ [.default_, .skip true]) fid = [.skip true]
      ∧ switch_entry_label (L ++ [.default_, .skip true]) fid = some .default_ := by
  have hany1 : (L ++ [Js.default_, Js.skip true]).any (Js.is_case fid) = false := by
    rw [List.any_eq_false]
    intro j hj
    rcases List.mem_append.mp hj with hj | hj
    · simpa using hcase j hj
    · simp only [List.mem_cons, List.mem_singleton, List.not_mem_nil, or_false] at hj
      rcases hj with rfl | rfl <;> simp [Js.is_case]
  have hany2 : (L ++ [Js.default_, Js.skip true]).any Js.is_default = true := by
    rw [List.any_append]
    simp [Js.is_default]
  constructor
  · simp only [switch_arm, hany1, hany2, after_label, if_true, Bool.false_eq_true, if_false]
    rw [dropWhile_append_of_all _ _ _ hdef]
    rfl
  · simp only [switch_entry_label, hany1, hany2, if_true, Bool.false_eq_true, if_false]

/-- A switch with the extra clause `case 0:` before `default:`, entered for an
id other than 0 that no `case` label carries. -/
theorem switch_default_arm_after_pseudo (L : List Js) (fid : Int) (h0 : fid ≠ 0)
    (hcase : ∀ j ∈ L, (!Js.is_case fid j) = true) (hdef : ∀ j ∈ L, (!Js.is_default j) = true) :
    switch_arm (L ++ [.case 0, .skip true, .break_ true, .default_, .skip true]) fid
        = [.skip true]
      ∧ switch_entry_label (L ++ [.case 0, .skip true, .break_ true, .default_, .skip true]) fid
        = some .default_ := by
  have h0' : ((0 : Int) == fid) = false := by
    simp only [beq_eq_false_iff_ne, ne_eq]
    exact fun e => h0 e.symm
  have hany1 : (L ++ [Js.case 0, Js.skip true, Js.break_ true, Js.default_, Js.skip true]).any
      (Js.is_case fid) = false := by
    rw [List.any_eq_false]
    intro j hj
    rcases List.mem_append.mp hj with hj | hj
    · simpa using hcase j hj
    · simp only [List.mem_cons, List.mem_singleton, List.not_mem_nil, or_false] at hj
      rcases hj with rfl | rfl | rfl | rfl | rfl <;> simp [Js.is_case, h0']
  have hany2 : (L ++ [Js.case 0, Js.skip true, Js.break_ true, Js.default_, Js.skip true]).any
      Js.is_default = true := by
    rw [List.any_append]
    simp [Js.is_default]
  constructor
  · simp only [switch_arm, hany1, hany2, after_label, if_true, Bool.false_eq_true, if_false]
    rw [dropWhile_append_of_all _ _ _ hdef]
    rfl
  · simp only [switch_entry_label, hany1, hany2, if_true, Bool.false_eq_true, if_false]

/-- A switch with the extra clause `case 0:`, entered for the id 0 when no
other `case` label carries it. -/
theorem switch_pseudo_arm (L : List Js) (hcase : ∀ j ∈ L, (!Js.is_case 0 j) = true) :
    switch_arm (L ++ [.case 0, .skip true, .break_ true, .default_, .skip true]) 0
        = [.skip true]
      ∧ switch_entry_label (L ++ [.case 0, .skip true, .break_ true, .default_, .skip true]) 0
        = some (.case 0) := by
  have hany1 : (L ++ [Js.case 0, Js.skip true, Js.break_ true, Js.default_, Js.skip true]).any
      (Js.is_case 0) = true := by
    rw [List.any_append]
    simp [Js.is_case]
  constructor
  · simp only [switch_arm, hany1, after_label, if_true]
    rw [dropWhile_append_of_all _ _ _ hcase]
    rfl
  · simp only [switch_entry_label, hany1, if_true]

/-- C5 (amended): for every struct of the data model the reader consumes a field
whose id matches no declared field with `input.skip(ftype)`, whose argument is
the runtime tag.  Without fields the skip is unconditional.  With fields the
switch runs exactly `input.skip(ftype)` for such an id; it is entered at
`default:`, except that in a struct with exactly one field the undeclared id 0
is taken by the extra branch `case 0:`.  In every case the loop then reads the
field footer and starts over, until the STOP tag breaks it. -/
theorem struct_reader_skips_unknown_field (g : t_js_generator) (tstruct : t_struct)
    (s : GenState) (fid : Int) (h : ∀ f ∈ tstruct.members, void_free f.type = true)
    (hfid : ∀ f ∈ tstruct.members, f.key ≠ fid) :
    (generate_js_struct_reader g tstruct s).result = .ok ()
      ∧ (tstruct.members = [] →
          statements (generate_js_struct_reader g tstruct s).out
            = [.reader_head g.gen_es6_ (g.js_namespace tstruct.program ++ tstruct.name),
                .read_struct_begin, .while_true, .decl_ret g.js_const_type_,
                .decl_ftype g.js_const_type_, .if_stop, .break_ false, .close,
                .skip false, .read_field_end, .close, .read_struct_end, .return_,
                .method_end g.gen_es6_])
      ∧ (tstruct.members ≠ [] →
          ∃ clauses : List Js,
            statements (generate_js_struct_reader g tstruct s).out
              = [.reader_head g.gen_es6_ (g.js_namespace tstruct.program ++ tstruct.name),
                  .read_struct_begin, .while_true, .decl_ret g.js_const_type_,
                  .decl_ftype g.js_const_type_, .decl_fid g.js_const_type_, .if_stop,
                  .break_ false, .close, .switch_fid]
                ++ clauses
                ++ [.close, .read_field_end, .close, .read_struct_end, .return_,
                    .method_end g.gen_es6_]
            ∧ switch_arm clauses fid = [.skip true]
            ∧ switch_entry_label clauses fid
                = (if tstruct.members.length = 1 ∧ fid = 0 then some (.case 0)
                    else some .default_))
      ∧ (∀ pad ind, (Js.skip pad).text ind
          = ind ++ (if pad then "  " else "") ++ "input.skip(ftype);\n") := by
  have hres : (generate_js_struct_reader g tstruct s).result = .ok () := by
    by_cases hm : tstruct.members = []
    · exact (struct_reader_statements_nil g tstruct s hm).1
    · exact (struct_reader_statements g tstruct s hm h).1
  refine ⟨hres, fun hm => (struct_reader_statements_nil g tstruct s hm).2, ?_, fun _ _ => rfl⟩
  intro hne
  obtain ⟨-, hst⟩ := struct_reader_statements g tstruct s hne h
  have hlines :=
    reader_case_blocks_lines g tstruct.members { s with indent_ := s.indent_ + 1 + 1 + 1 } h
  generalize statements (Gen.for_each tstruct.members (generate_js_struct_reader_case g)
    { s with indent_ := s.indent_ + 1 + 1 + 1 }).out = L at hst hlines
  have hcase : ∀ j ∈ L, (!Js.is_case fid j) = true := by
    intro j hj
    rcases hlines j hj with ⟨f, hf, rfl⟩ | hb
    · simp only [Js.is_case, Bool.not_eq_true', beq_eq_false_iff_ne, ne_eq]
      exact hfid f hf
    · revert hb
      cases j <;> simp [Js.is_case, Js.is_reader_branch_line, Js.is_field_codec]
  have hdef : ∀ j ∈ L, (!Js.is_default j) = true := by
    intro j hj
    rcases hlines j hj with ⟨f, hf, rfl⟩ | hb
    · rfl
    · revert hb
      cases j <;> simp [Js.is_default, Js.is_reader_branch_line, Js.is_field_codec]
  refine ⟨_, hst, ?_⟩
  by_cases hlen : tstruct.members.length = 1
  · by_cases h0 : fid = 0
    · subst h0
      simp only [hlen, if_true, List.append_assoc, List.cons_append, List.nil_append, and_self]
      exact switch_pseudo_arm L hcase
    · simp only [hlen, h0, if_true, List.append_assoc, List.cons_append, List.nil_append,
        and_false, if_false]
      exact switch_default_arm_after_pseudo L fid h0 hcase hdef
  · simp only [hlen, if_false, List.append_nil, false_and]
    exact switch_default_arm L fid hcase hdef

/-- Witness of C5 (amended): the undeclared id 7 in the reader of `Drawing`. -/
theorem struct_reader_skips_unknown_field_witness :
    ∃ clauses : List Js,
      statements (generate_js_struct_reader sample_generator sample_struct {}).out
        = [.reader_head false "Drawing", .read_struct_begin, .while_true, .decl_ret "var ",
            .decl_ftype "var ", .decl_fid "var ", .if_stop, .break_ false, .close, .switch_fid]
          ++ clauses
          ++ [.close, .read_field_end, .close, .read_struct_end, .return_, .method_end false]
      ∧ switch_arm clauses 7 = [.skip true]
      ∧ switch_entry_label clauses 7 = some .default_ :=
  (struct_reader_skips_unknown_field sample_generator sample_struct {} 7 (by decide)
    (by decide)).2.2.1 (List.cons_ne_nil _ _)

/-! ## Struct and map constants -/

theorem Gen.lands_pure {α : Type} (a : α) (s : GenState) : Gen.lands (Gen.pure a) s s :=
  ⟨rfl, fun _ _ => rfl⟩

theorem Gen.lands_throw {α : Type} (m : String) (s t : GenState) :
    Gen.lands (Gen.throw m : Gen α) s t :=
  ⟨rfl, fun _ h => by simp [Gen.throw] at h⟩

theorem Gen.lands_bind {α β : Type} (x : Gen α) (f : α → Gen β) (s t u : GenState)
    (hx : Gen.lands x s t) (hf : ∀ a, Gen.lands (f a) t u) : Gen.lands (Gen.bind x f) s u := by
  obtain ⟨hxo, hxs⟩ := hx
  cases hr : (x s).result with
  | error e =>
    refine ⟨by simp [Gen.bind, hr, hxo], fun r h => ?_⟩
    simp [Gen.bind, hr] at h
  | ok a =>
    have hst := hxs a hr
    obtain ⟨hfo, hfs⟩ := hf a
    rw [Gen.lands, Gen.bind_ok x f s a hr, hst]
    exact ⟨by simp [hxo, hfo], hfs⟩

theorem Gen.lands_indent_up (s : GenState) :
    Gen.lands Gen.indent_up s { s with indent_ := s.indent_ + 1 } := ⟨rfl, fun _ _ => rfl⟩

theorem Gen.lands_indent_down (s : GenState) :
    Gen.lands Gen.indent_down { s with indent_ := s.indent_ + 1 } s := by
  refine ⟨rfl, fun _ _ => ?_⟩
  simp [Gen.indent_down]

theorem Gen.lands_indent (g : t_js_generator) (s : GenState) : Gen.lands g.indent s s :=
  ⟨rfl, fun _ _ => rfl⟩

theorem Gen.lands_nested {α β : Type} (x : Gen α) (f : α → String → β) (s : GenState)
    (g : t_js_generator)
    (hx : Gen.lands x { s with indent_ := s.indent_ + 1 } { s with indent_ := s.indent_ + 1 }) :
    Gen.lands (Gen.bind Gen.indent_up fun _ => Gen.bind x fun y =>
      Gen.bind Gen.indent_down fun _ => Gen.bind g.indent fun ind => Gen.pure (f y ind)) s s :=
  Gen.lands_bind _ _ _ _ _ (Gen.lands_indent_up s) fun _ =>
    Gen.lands_bind _ _ _ _ _ hx fun y =>
      Gen.lands_bind _ _ _ _ _ (Gen.lands_indent_down s) fun _ =>
        Gen.lands_bind _ _ _ _ _ (Gen.lands_indent g s) fun ind => Gen.lands_pure _ s

mutual
theorem render_const_value_lands (g : t_js_generator) (type : t_type) :
    ∀ (value : t_const_value) (s : GenState), Gen.lands (render_const_value g type value) s s
  | value, s => by
    rw [render_const_value]
    generalize type.get_true_type = tt
    cases tt with
    | base tbase binary =>
      cases tbase <;> simp only [pure] <;>
        first
          | exact Gen.lands_pure _ s
          | exact Gen.lands_throw _ s s
          | (split <;> exact Gen.lands_pure _ s)
    | enum p n => exact Gen.lands_pure _ s
    | typedef n t => exact Gen.lands_pure _ s
    | struct p n x =>
      cases value with
      | CV_MAP val =>
        exact Gen.lands_nested _ _ s g (render_struct_entries_lands g n (g.get_members p n) val true _)
      | _ => exact Gen.lands_nested _ _ s g (Gen.lands_pure _ _)
    | map k v =>
      cases value with
      | CV_MAP val =>
        exact Gen.lands_nested _ _ s g (render_map_entries_lands g k v val true _)
      | _ => exact Gen.lands_nested _ _ s g (Gen.lands_pure _ _)
    | list e =>
      cases value with
      | CV_LIST val =>
        exact Gen.lands_bind _ _ _ _ _ (render_list_entries_lands g e val true s)
          fun _ => Gen.lands_pure _ s
      | _ => exact Gen.lands_bind _ _ _ _ _ (Gen.lands_pure _ s) fun _ => Gen.lands_pure _ s
    | set e =>
      cases value with
      | CV_LIST val =>
        exact Gen.lands_bind _ _ _ _ _ (render_list_entries_lands g e val true s)
          fun _ => Gen.lands_pure _ s
      | _ => exact Gen.lands_bind _ _ _ _ _ (Gen.lands_pure _ s) fun _ => Gen.lands_pure _ s
theorem render_struct_entries_lands (g : t_js_generator) (type_name : String)
    (fields : List t_field) :
    ∀ (val : List (t_const_value × t_const_value)) (first : Bool) (s : GenState),
      Gen.lands (render_struct_entries g type_name fields val first) s s
  | [], first, s => by rw [render_struct_entries]; exact Gen.lands_pure _ s
  | (k, v) :: rest, first, s => by
    rw [render_struct_entries]
    split
    · exact Gen.lands_throw _ s s
    · exact Gen.lands_bind _ _ _ _ _ (Gen.lands_indent g s) fun _ =>
        Gen.lands_bind _ _ _ _ _ (render_const_value_lands g _ k s) fun _ =>
          Gen.lands_bind _ _ _ _ _ (render_const_value_lands g _ v s) fun _ =>
            Gen.lands_bind _ _ _ _ _ (render_struct_entries_lands g type_name fields rest false s)
              fun _ => Gen.lands_pure _ s
theorem render_map_entries_lands (g : t_js_generator) (ktype vtype : t_type) :
    ∀ (val : List (t_const_value × t_const_value)) (first : Bool) (s : GenState),
      Gen.lands (render_map_entries g ktype vtype val first) s s
  | [], first, s => by rw [render_map_entries]; exact Gen.lands_pure _ s
  | (k, v) :: rest, first, s => by
    rw [render_map_entries]
    have hjp : ∀ key : String, Gen.lands (Gen.bind (render_const_value g vtype v) fun val =>
        Gen.bind (render_map_entries g ktype vtype rest false) fun more =>
          Gen.pure ((if first = true then "" else ",\n") ++ key ++ " : " ++ val ++ more)) s s :=
      fun key => Gen.lands_bind _ _ _ _ _ (render_const_value_lands g _ v s) fun _ =>
        Gen.lands_bind _ _ _ _ _ (render_map_entries_lands g ktype vtype rest false s)
          fun _ => Gen.lands_pure _ s
    refine Gen.lands_bind _ _ _ _ _ (Gen.lands_indent g s) fun ind => ?_
    dsimp only
    split
    · exact Gen.lands_bind _ _ _ _ _ (Gen.lands_pure _ s) fun key => hjp key
    · exact Gen.lands_bind _ _ _ _ _ (render_const_value_lands g _ k s) fun _ =>
        Gen.lands_bind _ _ _ _ _ (Gen.lands_pure _ s) fun key => hjp key
theorem render_list_entries_lands (g : t_js_generator) (etype : t_type) :
    ∀ (val : List t_const_value) (first : Bool) (s : GenState),
      Gen.lands (render_list_entries g etype val first) s s
  | [], first, s => by rw [render_list_entries]; exact Gen.lands_pure _ s
  | v :: rest, first, s => by
    rw [render_list_entries]
    exact Gen.lands_bind _ _ _ _ _ (render_const_value_lands g _ v s) fun _ =>
      Gen.lands_bind _ _ _ _ _ (render_list_entries_lands g etype rest false s)
        fun _ => Gen.lands_pure _ s
end

theorem intercalate_go_append (sep x : String) :
    ∀ (l : List String) (y : String),
      String.intercalate.go (x ++ y) sep l = x ++ String.intercalate.go y sep l := by
  intro l
  induction l with
  | nil => intro y; rfl
  | cons a l ih =>
    intro y
    simp only [String.intercalate.go]
    rw [String.append_assoc, String.append_assoc, ih, String.append_assoc]

theorem intercalate_cons (sep a : String) (l : List String) :
    sep.intercalate (a :: l) = a ++ (if l.isEmpty then "" else sep ++ sep.intercalate l) := by
  cases l with
  | nil => simp [String.intercalate, String.intercalate.go]
  | cons b l =>
    simp only [String.intercalate, String.intercalate.go, List.isEmpty_cons, Bool.false_eq_true,
      if_false]
    rw [String.append_assoc, intercalate_go_append, intercalate_go_append]

theorem Gen.bind_indent {β : Type} (g : t_js_generator) (f : String → Gen β) (s : GenState) :
    Gen.bind g.indent f s = f (indent_text g.indent_str s.indent_) s := rfl

theorem Gen.bind_throw {α β : Type} (m : String) (f : α → Gen β) (s : GenState) :
    Gen.bind (Gen.throw m) f s = ⟨[], s, .error m⟩ := rfl

theorem Gen.bind_error {α β : Type} (x : Gen α) (f : α → Gen β) (s : GenState) (e : String)
    (h : (x s).result = .error e) : (Gen.bind x f s).result = .error e := by
  simp only [Gen.bind, h]

theorem render_const_value_string (g : t_js_generator) (k : t_const_value) :
    render_const_value g g_type_string k
      = Gen.pure ("'" ++ g.get_escaped_string k.get_string ++ "'") := by
  rw [render_const_value]; rfl

theorem render_struct_entries_cons (g : t_js_generator) (type_name : String)
    (fields : List t_field) (k v : t_const_value) (rest : List (t_const_value × t_const_value))
    (first : Bool) (field_type : t_type) (s : GenState) (r : String)
    (hf : find_field_type fields k.get_string = some field_type)
    (hv : (render_const_value g field_type v s).result = .ok r) :
    (render_struct_entries g type_name fields ((k, v) :: rest) first s).result
      = ((render_struct_entries g type_name fields rest false s).result.map fun more =>
          (if first then "" else ",") ++ "\n" ++ indent_text g.indent_str s.indent_
            ++ ("'" ++ g.get_escaped_string k.get_string ++ "'") ++ " : " ++ r ++ more) := by
  have hst := (render_const_value_lands g field_type v s).2 r hv
  rw [render_struct_entries]
  simp only [hf, Gen.bind_def, Gen.bind_indent, render_const_value_string, Gen.bind_pure,
    Gen.bind_ok _ _ _ _ hv, hst]
  cases hr : (render_struct_entries g type_name fields rest false s).result with
  | error e => simp [Gen.bind, hr, Except.map]
  | ok more => simp [Gen.bind, hr, Except.map, pure, Gen.pure]


theorem render_struct_entries_unmatched (g : t_js_generator) (type_name : String)
    (fields : List t_field) :
    ∀ (val : List (t_const_value × t_const_value)) (first : Bool) (s : GenState),
      (∃ kv ∈ val, find_field_type fields kv.1.get_string = none) →
        ∃ e, (render_struct_entries g type_name fields val first s).result = .error e := by
  intro val
  induction val with
  | nil => intro first s h; simp at h
  | cons kv rest ih =>
    intro first s h
    obtain ⟨k, v⟩ := kv
    cases hf : find_field_type fields k.get_string with
    | none => exact ⟨_, by rw [render_struct_entries]; simp only [hf]; rfl⟩
    | some field_type =>
      have hrest : ∃ kv ∈ rest, find_field_type fields kv.1.get_string = none := by
        obtain ⟨kv, hkv, hnone⟩ := h
        rcases List.mem_cons.mp hkv with rfl | hmem
        · rw [hf] at hnone; simp at hnone
        · exact ⟨kv, hmem, hnone⟩
      cases hv : (render_const_value g field_type v s).result with
      | error e =>
        refine ⟨e, ?_⟩
        rw [render_struct_entries]
        simp only [hf, Gen.bind_def, Gen.bind_indent, render_const_value_string, Gen.bind_pure]
        exact Gen.bind_error _ _ _ _ hv
      | ok r =>
        obtain ⟨e, he⟩ := ih false s hrest
        exact ⟨e, by rw [render_struct_entries_cons g type_name fields k v rest first
          field_type s r hf hv, he]; rfl⟩

theorem render_struct_entries_first_unmatched (g : t_js_generator) (type_name : String)
    (fields : List t_field) (s : GenState) (k v : t_const_value)
    (post : List (t_const_value × t_const_value))
    (hk : find_field_type fields k.get_string = none) :
    ∀ (pre : List (t_const_value × t_const_value)) (first : Bool),
      (∀ kv ∈ pre, entry_renders g fields s kv) →
        (render_struct_entries g type_name fields (pre ++ (k, v) :: post) first s).result
          = .error ("type error: " ++ type_name ++ " has no field " ++ k.get_string) := by
  intro pre
  induction pre with
  | nil =>
    intro first _
    rw [List.nil_append, render_struct_entries]
    simp only [hk]
    rfl
  | cons kv pre ih =>
    intro first h
    obtain ⟨k0, v0⟩ := kv
    obtain ⟨field_type, r, hf, hv⟩ := h (k0, v0) (List.mem_cons_self _ _)
    rw [List.cons_append, render_struct_entries_cons g type_name fields k0 v0 _ first
      field_type s r hf hv, ih false (fun kv hkv => h kv (List.mem_cons_of_mem _ hkv))]
    rfl

theorem render_struct_entries_first_failing (g : t_js_generator) (type_name : String)
    (fields : List t_field) (s : GenState) (k v : t_const_value)
    (post : List (t_const_value × t_const_value)) (field_type : t_type) (e : String)
    (hk : find_field_type fields k.get_string = some field_type)
    (hv : (render_const_value g field_type v s).result = .error e) :
    ∀ (pre : List (t_const_value × t_const_value)) (first : Bool),
      (∀ kv ∈ pre, entry_renders g fields s kv) →
        (render_struct_entries g type_name fields (pre ++ (k, v) :: post) first s).result
          = .error e := by
  intro pre
  induction pre with
  | nil =>
    intro first _
    rw [List.nil_append, render_struct_entries]
    simp only [hk, Gen.bind_def, Gen.bind_indent, render_const_value_string, Gen.bind_pure]
    exact Gen.bind_error _ _ _ _ hv
  | cons kv pre ih =>
    intro first h
    obtain ⟨k0, v0⟩ := kv
    obtain ⟨field_type0, r, hf, hv0⟩ := h (k0, v0) (List.mem_cons_self _ _)
    rw [List.cons_append, render_struct_entries_cons g type_name fields k0 v0 _ first
      field_type0 s r hf hv0, ih false (fun kv hkv => h kv (List.mem_cons_of_mem _ hkv))]
    rfl

theorem render_struct_entries_all (g : t_js_generator) (type_name : String)
    (fields : List t_field) (s : GenState) :
    ∀ (val : List (t_const_value × t_const_value)) (first : Bool),
      (∀ kv ∈ val, entry_renders g fields s kv) →
        (render_struct_entries g type_name fields val first s).result
          = .ok ((if first || val.isEmpty then "" else ",")
              ++ ",".intercalate (val.map (struct_entry_text g fields s))) := by
  intro val
  induction val with
  | nil =>
    intro first _
    rw [render_struct_entries]
    simp [pure, Gen.pure, String.intercalate]
  | cons kv rest ih =>
    intro first h
    obtain ⟨k, v⟩ := kv
    obtain ⟨field_type, r, hf, hv⟩ := h (k, v) (List.mem_cons_self _ _)
    rw [render_struct_entries_cons g type_name fields k v rest first field_type s r hf hv,
      ih false (fun kv hkv => h kv (List.mem_cons_of_mem _ hkv)), List.map_cons,
      intercalate_cons]
    simp only [Except.map, struct_entry_text, hf, hv, Outcome.value?, Option.getD_some]
    congr 1
    have hnil : ",".intercalate [] = "" := rfl
    cases first <;> cases rest <;>
      simp only [List.map_nil, List.map_cons, List.isEmpty_nil, List.isEmpty_cons, Bool.or_false,
        Bool.false_or, Bool.true_or, Bool.or_true, if_true, if_false, Bool.false_eq_true,
        String.append_assoc, String.append_empty, String.empty_append, hnil]


theorem render_const_value_struct_result (g : t_js_generator) (type : t_type) (p : t_program)
    (n : String) (x : Bool) (val : List (t_const_value × t_const_value)) (s : GenState)
    (htype : type.get_true_type = .struct p n x) :
    (render_const_value g type (.CV_MAP val) s).result
      = ((render_struct_entries g n (g.get_members p n) val true
            { s with indent_ := s.indent_ + 1 }).result.map fun body =>
          "new " ++ g.js_type_namespace p ++ n ++ "(\x7b" ++ body ++ "\n"
            ++ indent_text g.indent_str s.indent_ ++ "\x7d)") := by
  rw [render_const_value]
  simp only [htype, Gen.bind_def, Gen.bind_indent_up]
  cases hr : (render_struct_entries g n (g.get_members p n) val true
      { s with indent_ := s.indent_ + 1 }).result with
  | error e => rw [Gen.bind_error _ _ _ _ hr]; rfl
  | ok body =>
    have hst := (render_struct_entries_lands g n (g.get_members p n) val true
      { s with indent_ := s.indent_ + 1 }).2 body hr
    simp only [Gen.bind_ok _ _ _ _ hr, hst, Gen.bind_indent_down, Gen.bind_indent, Except.map,
      pure, Gen.pure, Int.add_sub_cancel]

/-- C11 as stated fails: in the constant of type `Segment` with the entries
`start` (the nested constant with the one entry `z: 1`) and `tint: 2`, the
key `tint` names no field of `Segment`, yet the error raised is
the one of the nested `Point` constant, which is rendered first; it names
neither `Segment` nor `tint`. -/
theorem render_const_value_struct_nested_error_first :
    find_field_type (constants_generator.get_members sample_program "Segment") "tint" = none
      ∧ (render_const_value constants_generator (.struct sample_program "Segment" false)
          (.CV_MAP [(.CV_STRING "start", .CV_MAP [(.CV_STRING "z", .CV_INTEGER 1)]),
                    (.CV_STRING "tint", .CV_INTEGER 2)]) {}).error?
          = some "type error: Point has no field z"
      ∧ (render_const_value constants_generator (.struct sample_program "Segment" false)
          (.CV_MAP [(.CV_STRING "start", .CV_MAP [(.CV_STRING "z", .CV_INTEGER 1)]),
                    (.CV_STRING "tint", .CV_INTEGER 2)]) {}).error?
          ≠ some "type error: Segment has no field tint" := by
  decide

/-- C11 (amended): for a constant of struct or exception type `n` with entries
`val`: (1) if some key names no declared field, `render_const_value` throws;
(2) the error is `type error: n has no field k` for the first such key `k`
when every entry before it renders; (3) when every entry before an entry
renders and the key of that entry names a declared field but its value fails
to render at the type of the field, the error is the error of that value, so
the first entry that fails decides the error, whatever follows it; (4) if
every key names a declared field and every value renders, the result is
`new <NS>n(...)` around a braced list of the entries
`'key' : render(type of the field with that name, value)`, one per line and
separated by commas. -/
theorem render_const_value_struct_entries (g : t_js_generator) (type : t_type) (p : t_program)
    (n : String) (x : Bool) (val : List (t_const_value × t_const_value)) (s : GenState)
    (htype : type.get_true_type = .struct p n x) :
    ((∃ kv ∈ val, find_field_type (g.get_members p n) kv.1.get_string = none) →
        ∃ e, (render_const_value g type (.CV_MAP val) s).result = .error e)
      ∧ (∀ pre k v post, val = pre ++ (k, v) :: post →
          (∀ kv ∈ pre, entry_renders g (g.get_members p n) { s with indent_ := s.indent_ + 1 } kv) →
          find_field_type (g.get_members p n) k.get_string = none →
          (render_const_value g type (.CV_MAP val) s).result
            = .error ("type error: " ++ n ++ " has no field " ++ k.get_string))
      ∧ (∀ pre k v post field_type e, val = pre ++ (k, v) :: post →
          (∀ kv ∈ pre, entry_renders g (g.get_members p n) { s with indent_ := s.indent_ + 1 } kv) →
          find_field_type (g.get_members p n) k.get_string = some field_type →
          (render_const_value g field_type v { s with indent_ := s.indent_ + 1 }).result
            = .error e →
          (render_const_value g type (.CV_MAP val) s).result = .error e)
      ∧ ((∀ kv ∈ val,
            entry_renders g (g.get_members p n) { s with indent_ := s.indent_ + 1 } kv) →
          (render_const_value g type (.CV_MAP val) s).result
            = .ok ("new " ++ g.js_type_namespace p ++ n ++ "(\x7b"
                ++ ",".intercalate (val.map
                    (struct_entry_text g (g.get_members p n) { s with indent_ := s.indent_ + 1 }))
                ++ "\n" ++ indent_text g.indent_str s.indent_ ++ "\x7d)")) := by
  rw [render_const_value_struct_result g type p n x val s htype]
  refine ⟨fun h => ?_, fun pre k v post hval hpre hk => ?_,
    fun pre k v post field_type e hval hpre hk hv => ?_, fun h => ?_⟩
  · obtain ⟨e, he⟩ := render_struct_entries_unmatched g n _ val true _ h
    exact ⟨e, by rw [he]; rfl⟩
  · rw [hval, render_struct_entries_first_unmatched g n _ _ k v post hk pre true hpre]
    rfl
  · rw [hval, render_struct_entries_first_failing g n _ _ k v post field_type e hk hv pre true
      hpre]
    rfl
  · rw [render_struct_entries_all g n _ _ val true h]
    simp only [Bool.true_or, if_true, Except.map, String.append_empty, String.empty_append,
      String.append_assoc]

/-- Witness of C11 (amended): a `Segment` constant that renders, one whose
second key `tint` names no field, and one whose second entry fails to render
before the key `tint` is reached. -/
theorem render_const_value_struct_entries_witness :
    (render_const_value constants_generator (.struct sample_program "Segment" false)
        (.CV_MAP [(.CV_STRING "start", .CV_MAP [(.CV_STRING "x", .CV_INTEGER 1)]),
                  (.CV_STRING "width", .CV_INTEGER 2)]) {}).result
        = .ok "new Segment(\x7b\n  'start' : new Point(\x7b\n    'x' : 1\n  \x7d),\n  'width' : 2\n\x7d)"
      ∧ (render_const_value constants_generator (.struct sample_program "Segment" false)
          (.CV_MAP [(.CV_STRING "start", .CV_MAP [(.CV_STRING "x", .CV_INTEGER 1)]),
                    (.CV_STRING "tint", .CV_INTEGER 2)]) {}).result
        = .error "type error: Segment has no field tint"
      ∧ (render_const_value constants_generator (.struct sample_program "Segment" false)
          (.CV_MAP [(.CV_STRING "width", .CV_INTEGER 2),
                    (.CV_STRING "start", .CV_MAP [(.CV_STRING "z", .CV_INTEGER 1)]),
                    (.CV_STRING "tint", .CV_INTEGER 2)]) {}).result
        = .error "type error: Point has no field z" :=
  ⟨((render_const_value_struct_entries constants_generator
      (.struct sample_program "Segment" false) sample_program "Segment" false _ {} rfl).2.2.2 (by
        intro kv hkv
        simp only [List.mem_cons, List.mem_singleton, List.not_mem_nil, or_false] at hkv
        rcases hkv with rfl | rfl
        · exact ⟨_, _, rfl, rfl⟩
        · exact ⟨_, _, rfl, rfl⟩)).trans (by rfl),
    (render_const_value_struct_entries constants_generator
      (.struct sample_program "Segment" false) sample_program "Segment" false _ {} rfl).2.1 [(.CV_STRING "start", .CV_MAP [(.CV_STRING "x", .CV_INTEGER 1)])]
        (.CV_STRING "tint") (.CV_INTEGER 2) [] rfl
        (by
          intro kv hkv
          simp only [List.mem_singleton] at hkv
          subst hkv
          exact ⟨_, _, rfl, rfl⟩) rfl,
    (render_const_value_struct_entries constants_generator
      (.struct sample_program "Segment" false) sample_program "Segment" false _ {} rfl).2.2.1
        [(.CV_STRING "width", .CV_INTEGER 2)]
        (.CV_STRING "start") (.CV_MAP [(.CV_STRING "z", .CV_INTEGER 1)])
        [(.CV_STRING "tint", .CV_INTEGER 2)] _ _ rfl
        (by
          intro kv hkv
          simp only [List.mem_singleton] at hkv
          subst hkv
          exact ⟨_, _, rfl, rfl⟩) rfl rfl⟩

/-- C12 fails on the code for a key type reached through a typedef: with key
type `i64` the key 5 of a map constant is rendered as the quoted decimal
`"5"`, but with key type `Id`, a typedef of `i64`, it is rendered as the
constructor expression `new Int64(5)`. -/
theorem render_const_value_map_typedef_i64_key :
    (render_const_value sample_generator (.map (.base .TYPE_I64 false) g_type_string)
        (.CV_MAP [(.CV_INTEGER 5, .CV_STRING "a")]) {}).value?
        = some "\x7b\n  \"5\" : 'a'\n\x7d"
      ∧ (render_const_value sample_generator (.map id_alias g_type_string)
          (.CV_MAP [(.CV_INTEGER 5, .CV_STRING "a")]) {}).value?
        = some "\x7b\n  new Int64(5) : 'a'\n\x7d" := by
  decide

/-! ## Steps that return normally -/

theorem Gen.emits_pure {α : Type} (P : Js → Bool) (a : α) : Gen.emits P (Gen.pure a) :=
  fun _ => ⟨⟨a, rfl⟩, fun _ h => by cases h⟩

theorem Gen.emits_emit (P : Js → Bool) (j : Js) (h : P j = true) : Gen.emits P (Gen.emit j) :=
  fun _ => ⟨⟨(), rfl⟩, fun l hl => by
    simp only [Gen.emit, List.mem_singleton] at hl
    rw [hl]; exact h⟩

theorem Gen.emits_indent_up (P : Js → Bool) : Gen.emits P Gen.indent_up :=
  fun _ => ⟨⟨(), rfl⟩, fun _ h => by cases h⟩

theorem Gen.emits_indent_down (P : Js → Bool) : Gen.emits P Gen.indent_down :=
  fun _ => ⟨⟨(), rfl⟩, fun _ h => by cases h⟩

theorem Gen.emits_indent (P : Js → Bool) (g : t_js_generator) : Gen.emits P g.indent :=
  fun _ => ⟨⟨_, rfl⟩, fun _ h => by cases h⟩

theorem Gen.emits_bind {α β : Type} (P : Js → Bool) (x : Gen α) (f : α → Gen β)
    (hx : Gen.emits P x) (hf : ∀ a, Gen.emits P (f a)) : Gen.emits P (Gen.bind x f) := by
  intro s
  obtain ⟨⟨a, ha⟩, hxl⟩ := hx s
  obtain ⟨⟨b, hb⟩, hfl⟩ := hf a (x s).state
  rw [Gen.bind_ok x f s a ha]
  refine ⟨⟨b, hb⟩, fun l hl => ?_⟩
  rcases List.mem_append.mp hl with h | h
  · exact hxl l h
  · exact hfl l h

theorem Gen.emits_ite {α : Type} (P : Js → Bool) (c : Prop) [Decidable c] (x y : Gen α)
    (hx : Gen.emits P x) (hy : Gen.emits P y) : Gen.emits P (if c then x else y) := by
  split
  · exact hx
  · exact hy

theorem Gen.emits_for_each {α : Type} (P : Js → Bool) (body : α → Gen Unit) :
    ∀ l : List α, (∀ a ∈ l, Gen.emits P (body a)) → Gen.emits P (Gen.for_each l body) := by
  intro l
  induction l with
  | nil => intro _; exact Gen.emits_pure P ()
  | cons a rest ih =>
    intro h
    exact Gen.emits_bind P _ _ (h a (List.mem_cons_self _ _))
      fun _ => ih fun b hb => h b (List.mem_cons_of_mem _ hb)

theorem Gen.emits_mono {α : Type} (P Q : Js → Bool) (x : Gen α) (h : ∀ j, P j = true → Q j = true)
    (hx : Gen.emits P x) : Gen.emits Q x :=
  fun s => ⟨(hx s).1, fun l hl => h _ ((hx s).2 l hl)⟩

theorem Gen.emits_unit {β : Type} (P : Js → Bool) (x : Gen Unit) (hx : Gen.emits P x)
    (s : GenState) : (x s).result = .ok () := by
  obtain ⟨⟨a, ha⟩, _⟩ := hx s
  exact ha

theorem emits_ts_indent (P : Js → Bool) (g : t_js_generator) : Gen.emits P g.ts_indent :=
  Gen.emits_bind P _ _ (Gen.emits_indent P g) fun _ => Gen.emits_pure P _

theorem emits_ts_print_doc (P : Js → Bool) (g : t_js_generator) (tdoc : Option String) :
    Gen.emits P (g.ts_print_doc tdoc) := by
  refine Gen.emits_bind P _ _ (emits_ts_indent P g) fun ind => ?_
  cases tdoc <;> exact Gen.emits_pure P _

/-! ## Lines of the stream -/

theorem js_statements_nil : js_statements [] = [] := rfl

theorem js_statements_append (a b : List Line) :
    js_statements (a ++ b) = js_statements a ++ js_statements b := by
  simp only [js_statements, statements_append, List.filter_append]

theorem js_statements_cons (l : Line) (out : List Line) :
    js_statements (l :: out)
      = (if l.js.is_ts then js_statements out else l.js :: js_statements out) := by
  cases h : l.js.is_ts <;> simp [js_statements, statements_cons, List.filter_cons, h]

theorem mem_js_statements (out : List Line) (j : Js) (h : j ∈ js_statements out) :
    ∃ l ∈ out, l.js = j := by
  simp only [js_statements, statements, List.mem_filter, List.mem_map] at h
  exact h.1

theorem js_statements_of_emits {α : Type} (P : Js → Bool) (x : Gen α) (s : GenState)
    (hx : Gen.emits P x) : ∀ j ∈ js_statements (x s).out, P j = true := by
  intro j hj
  obtain ⟨l, hl, rfl⟩ := mem_js_statements _ _ hj
  exact (hx s).2 l hl


theorem render_const_value_true_type (g : t_js_generator) (t : t_type) (v : t_const_value) :
    render_const_value g t.get_true_type v = render_const_value g t v := by
  rw [render_const_value, render_const_value, get_true_type_idem]

theorem emits_render_const_value (P : Js → Bool) (g : t_js_generator) (t : t_type)
    (v : t_const_value) (h : ∀ s, ∃ r, (render_const_value g t v s).result = .ok r) :
    Gen.emits P (render_const_value g t v) :=
  fun s => ⟨h s, fun l hl => by
    rw [(render_const_value_lands g t v s).1] at hl
    cases hl⟩

theorem emits_definition_member (g : t_js_generator) (is_exception : Bool) (m : t_field)
    (hd : ∀ v, m.value = some v → ∀ s, ∃ r, (render_const_value g m.type v s).result = .ok r) :
    Gen.emits (fun j => !j.is_args_line)
      (g.generate_js_struct_definition_member is_exception m) := by
  simp only [generate_js_struct_definition_member, Gen.bind_def, Gen.pure_def]
  cases hv : m.value with
  | none =>
    simp only
    (repeat' (first
      | exact Gen.emits_emit _ _ rfl
      | exact Gen.emits_pure _ _
      | exact emits_ts_indent _ _
      | exact emits_ts_print_doc _ _ _
      | exact Gen.emits_indent_up _
      | exact Gen.emits_indent_down _
      | apply Gen.emits_bind
      | apply Gen.emits_ite
      | intro _))
  | some value =>
    have hr := emits_render_const_value (fun j => !j.is_args_line) g m.type value (hd value hv)
    simp only
    (repeat' (first
      | exact hr
      | exact Gen.emits_emit _ _ rfl
      | exact Gen.emits_pure _ _
      | exact emits_ts_indent _ _
      | apply Gen.emits_bind
      | apply Gen.emits_ite
      | intro _))

theorem emits_definition_open (g : t_js_generator) (tstruct : t_struct)
    (is_exception is_exported : Bool) (hd : defaults_render g tstruct.members) :
    Gen.emits (fun j => !j.is_args_line)
      (g.generate_js_struct_definition_open tstruct is_exception is_exported) := by
  have hloop := Gen.emits_for_each (fun j => !j.is_args_line)
    (g.generate_js_struct_definition_member is_exception) tstruct.members
    (fun m hm => emits_definition_member g is_exception m (hd m hm))
  simp only [generate_js_struct_definition_open, Gen.bind_def, Gen.pure_def]
  (repeat' (first
      | exact hloop
      | exact Gen.emits_emit _ _ rfl
      | exact Gen.emits_pure _ _
      | exact emits_ts_indent _ _
      | exact emits_ts_print_doc _ _ _
      | exact Gen.emits_indent_up _
      | exact Gen.emits_indent_down _
      | apply Gen.emits_bind
      | apply Gen.emits_ite
      | intro _))


theorem Gen.emits_scope_down (P : Js → Bool) (h : P .close = true) : Gen.emits P Gen.scope_down :=
  fun _ => ⟨⟨(), rfl⟩, fun l hl => by
    simp only [Gen.scope_down, List.mem_singleton] at hl
    rw [hl]; exact h⟩

theorem Gen.emits_lift_ok {α : Type} (P : Js → Bool) (a : α) : Gen.emits P (Gen.lift (.ok a)) :=
  fun _ => ⟨⟨a, rfl⟩, fun _ h => by cases h⟩

theorem not_args_line_of_field_codec (j : Js) (h : j.is_field_codec = true) :
    (!j.is_args_line) = true := by
  cases j <;> simp [Js.is_field_codec] at h <;> rfl

theorem emits_deserialize_field (g : t_js_generator) (f : t_field) (pfx : String)
    (h : void_free f.type = true) :
    Gen.emits (fun j => !j.is_args_line) (generate_deserialize_field g f pfx) := by
  obtain ⟨type, name, key, req, value⟩ := f
  intro s
  obtain ⟨hok, _, hall⟩ := deserialize_calls g type name key req value pfx s h
  refine ⟨⟨(), hok⟩, fun l hl => ?_⟩
  simp only [all_field_codec, List.all_eq_true] at hall
  exact not_args_line_of_field_codec _ (hall l hl)

theorem emits_serialize_field (g : t_js_generator) (f : t_field) (pfx : String)
    (h : void_free f.type = true) :
    Gen.emits (fun j => !j.is_args_line) (generate_serialize_field g f pfx) := by
  obtain ⟨type, name, key, req, value⟩ := f
  intro s
  obtain ⟨hok, _, hall⟩ := serialize_calls g type name key req value pfx s h
  refine ⟨⟨(), hok⟩, fun l hl => ?_⟩
  simp only [all_field_codec, List.all_eq_true] at hall
  exact not_args_line_of_field_codec _ (hall l hl)

theorem emits_struct_reader (g : t_js_generator) (tstruct : t_struct)
    (h : ∀ f ∈ tstruct.members, void_free f.type = true) :
    Gen.emits (fun j => !j.is_args_line) (g.generate_js_struct_reader tstruct) := by
  have hloop := Gen.emits_for_each (fun j => !j.is_args_line)
    (g.generate_js_struct_reader_case) tstruct.members (fun f hf => by
      obtain ⟨tag, htag⟩ := type_to_enum_ok f.type (h f hf)
      have hd := emits_deserialize_field g f "this." (h f hf)
      simp only [generate_js_struct_reader_case, Gen.bind_def, htag]
      (repeat' (first
        | exact hd
        | exact Gen.emits_lift_ok _ _
        | exact Gen.emits_emit _ _ rfl
        | exact Gen.emits_indent_up _
        | exact Gen.emits_indent_down _
        | apply Gen.emits_bind
        | intro _)))
  simp only [generate_js_struct_reader, Gen.bind_def, Gen.pure_def]
  (repeat' (first
      | exact hloop
      | exact Gen.emits_emit _ _ rfl
      | exact Gen.emits_pure _ _
      | exact Gen.emits_indent_up _
      | exact Gen.emits_indent_down _
      | exact Gen.emits_scope_down _ rfl
      | apply Gen.emits_bind
      | apply Gen.emits_ite
      | intro _))

theorem emits_struct_writer (g : t_js_generator) (tstruct : t_struct)
    (h : ∀ f ∈ tstruct.members, void_free f.type = true) :
    Gen.emits (fun j => !j.is_args_line) (g.generate_js_struct_writer tstruct) := by
  have hloop := Gen.emits_for_each (fun j => !j.is_args_line)
    (g.generate_js_struct_writer_field) tstruct.members (fun f hf => by
      obtain ⟨tag, htag⟩ := type_to_enum_ok f.type (h f hf)
      have hd := emits_serialize_field g f "this." (h f hf)
      simp only [generate_js_struct_writer_field, Gen.bind_def, htag]
      (repeat' (first
        | exact hd
        | exact Gen.emits_lift_ok _ _
        | exact Gen.emits_emit _ _ rfl
        | exact Gen.emits_indent_up _
        | exact Gen.emits_indent_down _
        | apply Gen.emits_bind
        | intro _)))
  simp only [generate_js_struct_writer, Gen.bind_def, Gen.pure_def]
  (repeat' (first
      | exact hloop
      | exact Gen.emits_emit _ _ rfl
      | exact Gen.emits_pure _ _
      | exact Gen.emits_indent_up _
      | exact Gen.emits_indent_down _
      | apply Gen.emits_bind
      | intro _))

theorem emits_definition_close (g : t_js_generator) (tstruct : t_struct) (is_exception : Bool)
    (h : ∀ f ∈ tstruct.members, void_free f.type = true) :
    Gen.emits (fun j => !j.is_args_line)
      (g.generate_js_struct_definition_close tstruct is_exception) := by
  have hr := emits_struct_reader g tstruct h
  have hw := emits_struct_writer g tstruct h
  simp only [generate_js_struct_definition_close, Gen.bind_def, Gen.pure_def]
  (repeat' (first
      | exact hr
      | exact hw
      | exact Gen.emits_emit _ _ rfl
      | exact Gen.emits_pure _ _
      | exact emits_ts_indent _ _
      | exact Gen.emits_indent_up _
      | exact Gen.emits_indent_down _
      | apply Gen.emits_bind
      | apply Gen.emits_ite
      | intro _))


theorem emits_definition_default (g : t_js_generator) (m : t_field)
    (hd : ∀ v, m.value = some v → ∀ s, ∃ r, (render_const_value g m.type v s).result = .ok r) :
    Gen.emits (fun j => !j.is_args_line) (g.generate_js_struct_definition_default m) := by
  simp only [generate_js_struct_definition_default, Gen.bind_def, Gen.pure_def]
  cases hv : m.value with
  | none => exact Gen.emits_pure _ _
  | some value =>
    have hr := emits_render_const_value (fun j => !j.is_args_line) g m.type.get_true_type value
      (by rw [render_const_value_true_type]; exact hd value hv)
    simp only
    (repeat' (first
      | exact hr
      | exact Gen.emits_emit _ _ rfl
      | exact Gen.emits_pure _ _
      | apply Gen.emits_bind
      | apply Gen.emits_ite
      | intro _))

theorem definition_guard_out (g : t_js_generator) (m : t_field) (s : GenState) :
    g.generate_js_struct_definition_guard m s
      = ⟨((constructor_guard g m).map fun j => (⟨s.indent_, j⟩ : Line)).toList, s, .ok ()⟩ := by
  simp only [generate_js_struct_definition_guard, constructor_guard]
  generalize m.type.get_true_type = t
  cases t with
  | struct p n x => cases x <;> rfl
  | _ => rfl

theorem definition_guards (g : t_js_generator) :
    ∀ (members : List t_field) (s : GenState),
      (Gen.for_each members g.generate_js_struct_definition_guard s).result = .ok ()
        ∧ (Gen.for_each members g.generate_js_struct_definition_guard s).state = s
        ∧ js_statements (Gen.for_each members g.generate_js_struct_definition_guard s).out
            = members.filterMap (constructor_guard g) := by
  intro members
  induction members with
  | nil => intro s; exact ⟨rfl, rfl, rfl⟩
  | cons m rest ih =>
    intro s
    obtain ⟨h1, h2, h3⟩ := ih s
    simp only [Gen.for_each, Gen.bind, definition_guard_out, h1, h2, js_statements_append, h3,
      List.filterMap_cons]
    refine ⟨trivial, trivial, ?_⟩
    cases hg : constructor_guard g m with
    | none => simp [js_statements_nil]
    | some j =>
      have hts : j.is_ts = false := by
        simp only [constructor_guard] at hg
        split at hg
        · cases hg; rfl
        · cases hg
      simp [js_statements_cons, js_statements_nil, hts]

theorem definition_arg_out (g : t_js_generator) (m : t_field) (s : GenState) :
    (g.generate_js_struct_definition_arg m s).result = .ok ()
      ∧ (g.generate_js_struct_definition_arg m s).state = s
      ∧ js_statements (g.generate_js_struct_definition_arg m s).out
          = constructor_arg_block g m := by
  have hcopy : (g.generate_js_struct_definition_copy m.name m.type.get_true_type).is_ts
      = false := by
    simp only [generate_js_struct_definition_copy]
    split
    · rfl
    · split <;> rfl
  have hst : ({ indent_ := s.indent_ + 1 - 1, tmp_ := s.tmp_ } : GenState) = s := by
    simp [Int.add_sub_cancel]
  have h1 : (Js.if_arg m.name).is_ts = false := rfl
  have h2 : Js.else_.is_ts = false := rfl
  have h3 : (Js.throw_required m.name).is_ts = false := rfl
  have h4 : Js.close.is_ts = false := rfl
  have h5 : ∀ text, (Js.ts text).is_ts = true := fun _ => rfl
  by_cases hreq : m.req = .T_REQUIRED <;> cases hts : g.gen_ts_ <;>
    simp [generate_js_struct_definition_arg, constructor_arg_block, Gen.bind_def, Gen.pure_def,
      Gen.bind_emit, Gen.bind_indent_up, Gen.bind_indent_down, Gen.bind_pure, Gen.emit, Gen.pure,
      js_statements_cons, js_statements_nil, hreq, hts, hcopy, h1, h2, h3, h4, h5, hst]


theorem definition_arg_blocks (g : t_js_generator) :
    ∀ (members : List t_field) (s : GenState),
      (Gen.for_each members g.generate_js_struct_definition_arg s).result = .ok ()
        ∧ (Gen.for_each members g.generate_js_struct_definition_arg s).state = s
        ∧ js_statements (Gen.for_each members g.generate_js_struct_definition_arg s).out
            = (members.map (constructor_arg_block g)).flatten := by
  intro members
  induction members with
  | nil => intro s; exact ⟨rfl, rfl, rfl⟩
  | cons m rest ih =>
    intro s
    obtain ⟨h1, h2, h3⟩ := definition_arg_out g m s
    obtain ⟨i1, i2, i3⟩ := ih s
    simp only [Gen.for_each, Gen.bind_ok_unit _ _ _ h1, h2, i1, i2, js_statements_append, h3, i3,
      List.map_cons, List.flatten_cons]
    exact ⟨trivial, trivial, trivial⟩

theorem Gen.bind_ts_indent {β : Type} (g : t_js_generator) (f : String → Gen β) (s : GenState) :
    Gen.bind g.ts_indent f s
      = f (indent_text g.indent_str s.indent_ ++ (if !g.ts_module_.isEmpty then "  " else "")) s :=
  rfl

/-- The part of the constructor that handles the argument object. -/
theorem definition_args_statements (g : t_js_generator) (tstruct : t_struct) (s : GenState)
    (hd : defaults_render g tstruct.members) :
    (g.generate_js_struct_definition_args tstruct s).result = .ok ()
      ∧ ∃ defaults, js_statements (g.generate_js_struct_definition_args tstruct s).out
          = defaults ++ (tstruct.members.filterMap (constructor_guard g) ++ [.if_args]
              ++ (tstruct.members.map (constructor_arg_block g)).flatten ++ [.close])
        ∧ ∀ j ∈ defaults, (!j.is_args_line) = true := by
  have hdef := Gen.emits_for_each (fun j => !j.is_args_line)
    g.generate_js_struct_definition_default tstruct.members
    (fun m hm => emits_definition_default g m (hd m hm))
  have hdok := Gen.emits_unit (β := Unit) _ _ hdef s
  have hg := definition_guards g tstruct.members
  have ha := definition_arg_blocks g tstruct.members
  have h1 : Js.if_args.is_ts = false := rfl
  have h4 : Js.close.is_ts = false := rfl
  have h5 : ∀ text, (Js.ts text).is_ts = true := fun _ => rfl
  refine ⟨?_, js_statements
      (Gen.for_each tstruct.members g.generate_js_struct_definition_default s).out, ?_,
    js_statements_of_emits _ _ s hdef⟩
  · cases hts : g.gen_ts_ <;>
      simp [generate_js_struct_definition_args, Gen.bind_def, Gen.pure_def, Gen.bind_pure,
        Gen.bind_ok_unit _ _ _ hdok, Gen.bind_ok_unit _ _ _ (hg _).1, fun s => (hg s).2.1,
        Gen.bind_emit, Gen.bind_indent_up, Gen.bind_indent_down,
        Gen.bind_ok_unit _ _ _ (ha _).1, fun s => (ha s).2.1, Gen.emit, Gen.pure, hts,
        Gen.bind_ts_indent]
  · cases hts : g.gen_ts_ <;>
      simp [generate_js_struct_definition_args, Gen.bind_def, Gen.pure_def, Gen.bind_pure,
        Gen.bind_ok_unit _ _ _ hdok, Gen.bind_ok_unit _ _ _ (hg _).1, fun s => (hg s).2.1,
        Gen.bind_emit, Gen.bind_indent_up, Gen.bind_indent_down,
        Gen.bind_ok_unit _ _ _ (ha _).1, fun s => (ha s).2.1, Gen.emit, Gen.pure, hts,
        Gen.bind_ts_indent, js_statements_append, js_statements_cons, js_statements_nil,
        fun s => (hg s).2.2, fun s => (ha s).2.2, h1, h4, h5]


/-- The statements of a struct definition around the argument handling of the
constructor: nothing before or after it is a statement of the argument
handling. -/
theorem struct_definition_statements (g : t_js_generator) (tstruct : t_struct)
    (is_exception is_exported : Bool) (s : GenState)
    (hv : ∀ f ∈ tstruct.members, void_free f.type = true)
    (hd : defaults_render g tstruct.members) :
    (g.generate_js_struct_definition tstruct is_exception is_exported s).result = .ok ()
      ∧ ∃ pre post,
          js_statements (g.generate_js_struct_definition tstruct is_exception is_exported s).out
            = pre
              ++ (if tstruct.members.length > 0 then
                    tstruct.members.filterMap (constructor_guard g) ++ [.if_args]
                      ++ (tstruct.members.map (constructor_arg_block g)).flatten ++ [.close]
                  else [])
              ++ post
          ∧ (∀ j ∈ pre, (!j.is_args_line) = true) ∧ (∀ j ∈ post, (!j.is_args_line) = true) := by
  have ho := emits_definition_open g tstruct is_exception is_exported hd
  have hc := emits_definition_close g tstruct is_exception hv
  have hook := Gen.emits_unit (β := Unit) _ _ ho s
  have hcok := fun s => Gen.emits_unit (β := Unit) _ _ hc s
  by_cases hlen : tstruct.members.length > 0
  · obtain ⟨haok, defaults, hargs, hdefaults⟩ := definition_args_statements g tstruct
      (g.generate_js_struct_definition_open tstruct is_exception is_exported s).state hd
    refine ⟨?_, js_statements
        (g.generate_js_struct_definition_open tstruct is_exception is_exported s).out ++ defaults,
      js_statements (g.generate_js_struct_definition_close tstruct is_exception
        (g.generate_js_struct_definition_args tstruct
          (g.generate_js_struct_definition_open tstruct is_exception is_exported s).state).state).out,
      ?_, ?_, js_statements_of_emits _ _ _ hc⟩
    · simp only [generate_js_struct_definition, Gen.bind_def, hlen, if_true,
        Gen.bind_ok_unit _ _ _ hook, Gen.bind_ok_unit _ _ _ haok, hcok]
    · simp only [generate_js_struct_definition, Gen.bind_def, hlen, if_true,
        Gen.bind_ok_unit _ _ _ hook, Gen.bind_ok_unit _ _ _ haok, js_statements_append, hargs,
        List.append_assoc]
    · intro j hj
      rcases List.mem_append.mp hj with h | h
      · exact js_statements_of_emits _ _ s ho j h
      · exact hdefaults j h
  · refine ⟨?_, js_statements
        (g.generate_js_struct_definition_open tstruct is_exception is_exported s).out,
      js_statements (g.generate_js_struct_definition_close tstruct is_exception
          (g.generate_js_struct_definition_open tstruct is_exception is_exported s).state).out,
      ?_, js_statements_of_emits _ _ s ho, js_statements_of_emits _ _ _ hc⟩
    · simp only [generate_js_struct_definition, Gen.bind_def, hlen, if_false, Gen.pure_def,
        Gen.bind_ok_unit _ _ _ hook, Gen.bind_pure, hcok]
    · simp only [generate_js_struct_definition, Gen.bind_def, hlen, if_false, Gen.pure_def,
        Gen.bind_ok_unit _ _ _ hook, Gen.bind_pure, js_statements_append, List.append_nil]

/-! ## The constructor -/

theorem copy_type_list_step (etype : t_type) (type_list : String) :
    copy_type_list etype type_list
      = if etype.is_container then
          copy_type_list (get_contained_type etype)
            ((if type_list.length > 0 then type_list ++ ", " else type_list)
              ++ (if etype.is_map then "Thrift.copyMap" else "Thrift.copyList"))
        else (etype, type_list) := by
  rw [copy_type_list]
  split <;> rfl

theorem descriptor_entries_ne_nil (g : t_js_generator) (t : t_type) :
    (descriptor_entries g t).isEmpty = false := by
  induction t with
  | struct p n x => cases x <;> rfl
  | typedef n t ih => simpa [descriptor_entries] using ih
  | _ => rfl

/-- The text the constructor puts between the brackets of a container copy:
the list accumulated by the loop, then the entry of the innermost type. -/
theorem copy_type_list_entries (g : t_js_generator) (c : t_type) :
    ∀ type_list : String, contained_typedef_free c = true →
      (if (copy_type_list c type_list).2.length > 0 then (copy_type_list c type_list).2 ++ ", "
        else (copy_type_list c type_list).2)
        ++ (match (copy_type_list c type_list).1 with
            | .struct program sname false => g.js_type_namespace program ++ sname
            | _ => "null")
      = (if type_list.length > 0 then type_list ++ ", " else type_list)
          ++ ", ".intercalate (descriptor_entries g c) := by
  have hlen : ∀ a b : String, 0 < b.length → (a ++ b).length > 0 := by
    intro a b hb
    rw [String.length_append]
    omega
  have hsingle : ∀ a : String, ", ".intercalate [a] = a := fun _ => rfl
  induction c with
  | base tbase binary =>
    intro tl _
    rw [copy_type_list_step]
    simp only [t_type.is_container, t_type.is_map, t_type.is_set, t_type.is_list, Bool.or_self,
      Bool.false_eq_true, if_false, descriptor_entries, hsingle]
  | enum p n =>
    intro tl _
    rw [copy_type_list_step]
    simp only [t_type.is_container, t_type.is_map, t_type.is_set, t_type.is_list, Bool.or_self,
      Bool.false_eq_true, if_false, descriptor_entries, hsingle]
  | struct p n x =>
    intro tl _
    rw [copy_type_list_step]
    cases x <;>
      simp only [t_type.is_container, t_type.is_map, t_type.is_set, t_type.is_list, Bool.or_self,
        Bool.false_eq_true, if_false, descriptor_entries, hsingle]
  | typedef n t ih =>
    intro tl h
    simp [contained_typedef_free] at h
  | list e ih =>
    intro tl h
    rw [copy_type_list_step]
    simp only [t_type.is_container, t_type.is_map, t_type.is_set, t_type.is_list, Bool.or_true,
      Bool.or_false, if_true, Bool.false_eq_true, if_false, get_contained_type]
    rw [ih _ (by simpa [contained_typedef_free] using h), if_pos (hlen _ _ (by decide))]
    simp only [descriptor_entries, intercalate_cons, descriptor_entries_ne_nil,
      Bool.false_eq_true, if_false, String.append_assoc]
  | set e ih =>
    intro tl h
    rw [copy_type_list_step]
    simp only [t_type.is_container, t_type.is_map, t_type.is_set, t_type.is_list, Bool.or_true,
      Bool.or_false, if_true, Bool.false_eq_true, if_false, get_contained_type]
    rw [ih _ (by simpa [contained_typedef_free] using h), if_pos (hlen _ _ (by decide))]
    simp only [descriptor_entries, intercalate_cons, descriptor_entries_ne_nil,
      Bool.false_eq_true, if_false, String.append_assoc]
  | map k v ihk ih =>
    intro tl h
    rw [copy_type_list_step]
    simp only [t_type.is_container, t_type.is_map, t_type.is_set, t_type.is_list, Bool.or_true,
      Bool.true_or, if_true, get_contained_type]
    rw [ih _ (by simpa [contained_typedef_free] using h), if_pos (hlen _ _ (by decide))]
    simp only [descriptor_entries, intercalate_cons, descriptor_entries_ne_nil,
      Bool.false_eq_true, if_false, String.append_assoc]

theorem definition_copy_container (g : t_js_generator) (name : String) (t : t_type)
    (hc : t.is_container = true)
    (hf : contained_typedef_free (get_contained_type t) = true) :
    g.generate_js_struct_definition_copy name t
      = .copy_container name (if t.is_map then "Thrift.copyMap" else "Thrift.copyList")
          (", ".intercalate (descriptor_entries g (get_contained_type t))) := by
  have h := copy_type_list_entries g (get_contained_type t) "" hf
  have h0 : ¬ ("".length > 0) := by decide
  rw [if_neg h0, String.empty_append] at h
  rw [← h]
  cases t <;> simp [t_type.is_container, t_type.is_map, t_type.is_set, t_type.is_list] at hc <;>
    simp only [generate_js_struct_definition_copy, t_type.is_container, t_type.is_map,
      t_type.is_set, t_type.is_list, Bool.or_true, Bool.true_or, Bool.or_false, if_true,
      Bool.false_eq_true, if_false] <;>
    (congr 1; split <;> simp_all)

theorem definition_copy_form (g : t_js_generator) (name : String) (t : t_type) :
    (∃ q, g.generate_js_struct_definition_copy name t = .copy_struct name q)
      ∨ (∃ f l, g.generate_js_struct_definition_copy name t = .copy_container name f l)
      ∨ g.generate_js_struct_definition_copy name t = .copy_plain name := by
  simp only [generate_js_struct_definition_copy]
  split
  · exact Or.inl ⟨_, rfl⟩
  · split
    · exact Or.inr (Or.inl ⟨_, _, rfl⟩)
    · exact Or.inr (Or.inr rfl)

theorem constructor_arg_block_lines (g : t_js_generator) (m : t_field) :
    ∀ j ∈ constructor_arg_block g m,
      j = .if_arg m.name ∨ j = g.generate_js_struct_definition_copy m.name m.type.get_true_type
        ∨ j = .else_ ∨ j = .throw_required m.name ∨ j = .close := by
  intro j hj
  simp only [constructor_arg_block, List.mem_append, List.mem_cons, List.mem_singleton,
    List.not_mem_nil, or_false] at hj
  rcases hj with (h | h) | h
  · rcases h with h | h
    · exact Or.inl h
    · exact Or.inr (Or.inl h)
  · split at h
    · simp only [List.mem_cons, List.mem_singleton, List.not_mem_nil, or_false] at h
      rcases h with h | h
      · exact Or.inr (Or.inr (Or.inl h))
      · exact Or.inr (Or.inr (Or.inr (Or.inl h)))
    · cases h
  · exact Or.inr (Or.inr (Or.inr (Or.inr h)))

theorem constructor_guard_form (g : t_js_generator) (m : t_field) (j : Js)
    (h : constructor_guard g m = some j) :
    ∃ p n, m.type.get_true_type = .struct p n true
      ∧ j = .instanceof_guard (g.js_type_namespace p ++ n) m.name := by
  simp only [constructor_guard] at h
  split at h
  · next p n heq => exact ⟨p, n, heq, by cases h; rfl⟩
  · cases h

/-- The statements of a struct with members, around the blocks of the members
inside `if (args)`. -/
theorem struct_definition_blocks (g : t_js_generator) (tstruct : t_struct)
    (is_exception is_exported : Bool) (s : GenState)
    (hv : ∀ f ∈ tstruct.members, void_free f.type = true)
    (hd : defaults_render g tstruct.members) (hne : tstruct.members ≠ []) :
    ∃ pre post,
      js_statements (g.generate_js_struct_definition tstruct is_exception is_exported s).out
        = pre ++ tstruct.members.filterMap (constructor_guard g) ++ [.if_args]
            ++ (tstruct.members.map (constructor_arg_block g)).flatten ++ [.close] ++ post
      ∧ (∀ j ∈ pre, (!j.is_args_line) = true) ∧ (∀ j ∈ post, (!j.is_args_line) = true) := by
  obtain ⟨_, pre, post, hout, hpre, hpost⟩ :=
    struct_definition_statements g tstruct is_exception is_exported s hv hd
  have hlen : tstruct.members.length > 0 := List.length_pos.mpr hne
  refine ⟨pre, post, ?_, hpre, hpost⟩
  rw [hout, if_pos hlen]
  simp only [List.append_assoc]


theorem order_struct_defaults_render : defaults_render sample_generator order_struct.members := by
  intro m hm v hv
  simp only [order_struct, List.mem_cons, List.mem_singleton, List.not_mem_nil, or_false] at hm
  rcases hm with rfl | rfl | rfl | rfl | rfl
  · cases hv
  · cases hv
    exact fun s => ⟨_, rfl⟩
  · cases hv
  · cases hv
  · cases hv

/-- C13: for every struct of the data model with members, the constructor
holds inside `if (args)` one block per member, in declaration order: the
presence test `if (args.f !== undefined && args.f !== null)`, the copy of the
argument, then the branch `else` with the throw of `Thrift.TProtocolException`
saying `Required field f is unset!` exactly when the member is required, and
the closing brace.  No other statement of the definition is a presence test
or such a throw. -/
theorem constructor_required_field_throw (g : t_js_generator) (tstruct : t_struct)
    (is_exception is_exported : Bool) (s : GenState)
    (hv : ∀ f ∈ tstruct.members, void_free f.type = true)
    (hd : defaults_render g tstruct.members) (hne : tstruct.members ≠ []) :
    (g.generate_js_struct_definition tstruct is_exception is_exported s).result = .ok ()
      ∧ (∃ pre post,
          js_statements (g.generate_js_struct_definition tstruct is_exception is_exported s).out
            = pre ++ [.if_args]
                ++ (tstruct.members.map fun f =>
                      [.if_arg f.name,
                        g.generate_js_struct_definition_copy f.name f.type.get_true_type]
                      ++ (if f.req = .T_REQUIRED then [.else_, .throw_required f.name] else [])
                      ++ [.close]).flatten
                ++ [.close] ++ post
          ∧ (∀ j ∈ pre ++ post, ∀ n, j ≠ .throw_required n ∧ j ≠ .if_arg n))
      ∧ (∀ f : t_field, Js.throw_required f.name ∈ constructor_arg_block g f
          ↔ f.req = .T_REQUIRED)
      ∧ (∀ n ind, (Js.if_arg n).text ind
          = ind ++ "if (args." ++ n ++ " !== undefined && args." ++ n ++ " !== null) \x7b\n")
      ∧ (∀ n ind, (Js.throw_required n).text ind
          = ind ++ "  throw new Thrift.TProtocolException(Thrift.TProtocolExceptionType.UNKNOWN, "
              ++ "'Required field " ++ n ++ " is unset!');\n") := by
  refine ⟨(struct_definition_statements g tstruct is_exception is_exported s hv hd).1, ?_, ?_,
    fun _ _ => rfl, fun _ _ => rfl⟩
  · obtain ⟨pre, post, hout, hpre, hpost⟩ :=
      struct_definition_blocks g tstruct is_exception is_exported s hv hd hne
    refine ⟨pre ++ tstruct.members.filterMap (constructor_guard g), post, ?_, ?_⟩
    · rw [hout]
      rfl
    · intro j hj n
      have hnot : (!j.is_args_line) = true ∨ ∃ q m, j = .instanceof_guard q m := by
        rcases List.mem_append.mp hj with h | h
        · rcases List.mem_append.mp h with h | h
          · exact Or.inl (hpre j h)
          · obtain ⟨m, _, hm⟩ := List.mem_filterMap.mp h
            obtain ⟨p, n, _, hj⟩ := constructor_guard_form g m j hm
            exact Or.inr ⟨_, _, hj⟩
        · exact Or.inl (hpost j h)
      rcases hnot with h | ⟨q, m, rfl⟩
      · constructor <;> intro he <;> rw [he] at h <;> cases h
      · constructor <;> intro he <;> cases he
  · intro f
    have hc := definition_copy_form g f.name f.type.get_true_type
    constructor
    · intro h
      by_contra hreq
      simp only [constructor_arg_block, hreq, if_false, List.append_nil, List.mem_append,
        List.mem_cons, List.mem_singleton, List.not_mem_nil, or_false, reduceCtorEq,
        false_or] at h
      rcases hc with ⟨q, hq⟩ | ⟨fn, l, hq⟩ | hq <;> rw [hq] at h <;> cases h
    · intro hreq
      simp [constructor_arg_block, hreq]

/-- Witness of C13: the struct `Order`, whose field `id` is required. -/
theorem constructor_required_field_throw_witness :
    (sample_generator.generate_js_struct_definition order_struct false false {}).result = .ok ()
      ∧ (Js.throw_required "id" ∈ constructor_arg_block sample_generator
            { type := g_type_i32, name := "id", key := 1, req := .T_REQUIRED }
          ↔ e_req.T_REQUIRED = .T_REQUIRED) :=
  ⟨(constructor_required_field_throw sample_generator order_struct false false {} (by decide)
      order_struct_defaults_render (List.cons_ne_nil _ _)).1,
    (constructor_required_field_throw sample_generator order_struct false false {} (by decide)
      order_struct_defaults_render (List.cons_ne_nil _ _)).2.2.1 _⟩


theorem constructor_arg_block_not_guard (g : t_js_generator) (m : t_field) (j : Js)
    (hj : j ∈ constructor_arg_block g m) :
    (∀ q n, j ≠ .instanceof_guard q n) ∧ j ≠ .if_args := by
  have hc := definition_copy_form g m.name m.type.get_true_type
  rcases constructor_arg_block_lines g m j hj with h | h | h | h | h
  · rw [h]; exact ⟨fun _ _ he => (by cases he), fun he => (by cases he)⟩
  · rcases hc with ⟨q, hq⟩ | ⟨fn, l, hq⟩ | hq <;> rw [h, hq] <;>
      exact ⟨fun _ _ he => (by cases he), fun he => (by cases he)⟩
  · rw [h]; exact ⟨fun _ _ he => (by cases he), fun he => (by cases he)⟩
  · rw [h]; exact ⟨fun _ _ he => (by cases he), fun he => (by cases he)⟩
  · rw [h]; exact ⟨fun _ _ he => (by cases he), fun he => (by cases he)⟩

/-- C18: for every struct of the data model with at least one member, the
statements of the constructor before `if (args)` end with the early-return
guards `if (args instanceof T) ...`, one for each member whose typedef-resolved
type is an exception `T`, in declaration order, and none for a member of
another type; no other statement of the definition is such a guard, and
`if (args)` occurs once. -/
theorem constructor_exception_guards (g : t_js_generator) (tstruct : t_struct)
    (is_exception is_exported : Bool) (s : GenState)
    (hv : ∀ f ∈ tstruct.members, void_free f.type = true)
    (hd : defaults_render g tstruct.members) (hne : tstruct.members ≠ []) :
    (∃ pre post,
        js_statements (g.generate_js_struct_definition tstruct is_exception is_exported s).out
          = pre ++ tstruct.members.filterMap (constructor_guard g) ++ [.if_args] ++ post
        ∧ (∀ j ∈ pre ++ post, (∀ q n, j ≠ .instanceof_guard q n) ∧ j ≠ .if_args))
      ∧ (∀ (m : t_field) (j : Js), constructor_guard g m = some j
          ↔ ∃ p n, m.type.get_true_type = .struct p n true
              ∧ j = .instanceof_guard (g.js_type_namespace p ++ n) m.name)
      ∧ (∀ q n ind, (Js.instanceof_guard q n).text ind
          = ind ++ "if (args instanceof " ++ q ++ ") \x7b\n"
              ++ ind ++ ind ++ "this." ++ n ++ " = args;\n"
              ++ ind ++ ind ++ "return;\n"
              ++ ind ++ "\x7d\n")
      ∧ (∀ ind, Js.if_args.text ind = ind ++ "if (args) \x7b\n") := by
  refine ⟨?_, ?_, fun _ _ _ => rfl, fun _ => rfl⟩
  · obtain ⟨pre, post, hout, hpre, hpost⟩ :=
      struct_definition_blocks g tstruct is_exception is_exported s hv hd hne
    refine ⟨pre, (tstruct.members.map (constructor_arg_block g)).flatten ++ [.close] ++ post,
      ?_, ?_⟩
    · rw [hout]
      simp only [List.append_assoc]
    · intro j hj
      have hnot : ∀ j : Js, (!j.is_args_line) = true →
          (∀ q n, j ≠ .instanceof_guard q n) ∧ j ≠ .if_args := by
        intro j h
        refine ⟨fun q n he => ?_, fun he => ?_⟩ <;> rw [he] at h <;> cases h
      rcases List.mem_append.mp hj with h | h
      · exact hnot j (hpre j h)
      · rcases List.mem_append.mp h with h | h
        · rcases List.mem_append.mp h with h | h
          · obtain ⟨block, hblock, hjb⟩ := List.mem_flatten.mp h
            obtain ⟨m, _, rfl⟩ := List.mem_map.mp hblock
            exact constructor_arg_block_not_guard g m j hjb
          · rw [List.mem_singleton.mp h]
            exact ⟨fun _ _ he => (by cases he), fun he => (by cases he)⟩
        · exact hnot j (hpost j h)
  · intro m j
    constructor
    · exact constructor_guard_form g m j
    · rintro ⟨p, n, heq, rfl⟩
      simp only [constructor_guard, heq]

/-- Witness of C18: the struct `Order`, whose member `cause` is an exception. -/
theorem constructor_exception_guards_witness :
    ∃ pre post,
      js_statements
          (sample_generator.generate_js_struct_definition order_struct false false {}).out
        = pre ++ [.instanceof_guard "Failure" "cause"] ++ [.if_args] ++ post
      ∧ (∀ j ∈ pre ++ post, (∀ q n, j ≠ .instanceof_guard q n) ∧ j ≠ .if_args) :=
  (constructor_exception_guards sample_generator order_struct false false {} (by decide)
    order_struct_defaults_render (List.cons_ne_nil _ _)).1

theorem constructor_arg_block_within (g : t_js_generator) (tstruct : t_struct)
    (is_exception is_exported : Bool) (s : GenState)
    (hv : ∀ f ∈ tstruct.members, void_free f.type = true)
    (hd : defaults_render g tstruct.members) (f : t_field) (hf : f ∈ tstruct.members) :
    ∃ pre post,
      js_statements (g.generate_js_struct_definition tstruct is_exception is_exported s).out
        = pre ++ constructor_arg_block g f ++ post := by
  obtain ⟨pre, post, hout, _, _⟩ :=
    struct_definition_blocks g tstruct is_exception is_exported s hv hd
      (List.ne_nil_of_mem hf)
  obtain ⟨l1, l2, hl⟩ := List.append_of_mem hf
  refine ⟨pre ++ List.filterMap (constructor_guard g) tstruct.members ++ [.if_args]
      ++ (l1.map (constructor_arg_block g)).flatten,
    (l2.map (constructor_arg_block g)).flatten ++ [.close] ++ post, ?_⟩
  rw [hout]
  simp only [hl, List.map_append, List.map_cons, List.flatten_append, List.flatten_cons,
    List.append_assoc]

/-- C16: for every member of a struct of the data model whose resolved type is
a container with contained types written without typedefs, the block of the
member in the constructor copies the argument with `Thrift.copyMap` (a map) or
`Thrift.copyList` (a list or set), applied to `args.f` and to the descriptor
list of the contained type: one copy function per inner container level, from
the outside in, then the constructor name of the innermost struct or `null`. -/
theorem constructor_copies_container (g : t_js_generator) (tstruct : t_struct)
    (is_exception is_exported : Bool) (s : GenState)
    (hv : ∀ f ∈ tstruct.members, void_free f.type = true)
    (hd : defaults_render g tstruct.members) (f : t_field) (hf : f ∈ tstruct.members)
    (hc : f.type.get_true_type.is_container = true)
    (hfree : contained_typedef_free (get_contained_type f.type.get_true_type) = true) :
    (∃ pre post,
        js_statements (g.generate_js_struct_definition tstruct is_exception is_exported s).out
          = pre
            ++ ([.if_arg f.name,
                  .copy_container f.name
                    (if f.type.get_true_type.is_map then "Thrift.copyMap" else "Thrift.copyList")
                    (", ".intercalate
                      (descriptor_entries g (get_contained_type f.type.get_true_type)))]
                ++ (if f.req = .T_REQUIRED then [.else_, .throw_required f.name] else [])
                ++ [.close])
            ++ post)
      ∧ (descriptor_entries g (get_contained_type f.type.get_true_type)).length ≥ 1
      ∧ (∀ name copyFunc type_list ind, (Js.copy_container name copyFunc type_list).text ind
          = ind ++ "this." ++ name
              ++ (" = " ++ copyFunc ++ "(args." ++ name ++ ", [" ++ type_list ++ "]);")
              ++ "\n") := by
  refine ⟨?_, ?_, fun _ _ _ _ => rfl⟩
  · have h := constructor_arg_block_within g tstruct is_exception is_exported s hv hd f hf
    rw [constructor_arg_block, definition_copy_container g f.name _ hc hfree] at h
    exact h
  · have h := descriptor_entries_ne_nil g (get_contained_type f.type.get_true_type)
    cases hl : descriptor_entries g (get_contained_type f.type.get_true_type) with
    | nil => rw [hl] at h; cases h
    | cons a l => simp

/-- Witness of C16: the member `rows` of `Order`, of type
`list<map<string, list<Point>>>`. -/
theorem constructor_copies_container_witness :
    ∃ pre post,
      js_statements
          (sample_generator.generate_js_struct_definition order_struct false false {}).out
        = pre
          ++ [.if_arg "rows",
              .copy_container "rows" "Thrift.copyList" "Thrift.copyMap, Thrift.copyList, Point",
              .close]
          ++ post :=
  (constructor_copies_container sample_generator order_struct false false {} (by decide)
    order_struct_defaults_render
    { type := .list (.map g_type_string (.list (.struct sample_program "Point" false))),
      name := "rows", key := 5 }
    (by simp [order_struct]) rfl rfl).1

/-- C17 fails on the code: the list of a struct is copied with the descriptor
`[Point]`, but the list of a typedef of that struct with the descriptor
`[null]`, which leaves its elements uncopied. -/
theorem constructor_copy_typedef_element :
    sample_generator.generate_js_struct_definition_copy "corners"
        (.list (.struct sample_program "Point" false))
        = .copy_container "corners" "Thrift.copyList" "Point"
      ∧ sample_generator.generate_js_struct_definition_copy "corners"
          (.list corner_alias)
        = .copy_container "corners" "Thrift.copyList" "null"
      ∧ (Js.copy_container "corners" "Thrift.copyList" "null").text ""
        = "this.corners = Thrift.copyList(args.corners, [null]);\n" := by
  refine ⟨?_, ?_, by decide⟩
  · simp [generate_js_struct_definition_copy, t_type.is_container, t_type.is_map, t_type.is_set,
      t_type.is_list, get_contained_type, copy_type_list_step, sample_generator,
      js_type_namespace, js_namespace, sample_program]
  · simp [generate_js_struct_definition_copy, t_type.is_container, t_type.is_map, t_type.is_set,
      t_type.is_list, get_contained_type, copy_type_list_step, corner_alias]


theorem lookup_result_defaults_render :
    defaults_render sample_generator lookup_result_struct.members := by
  intro m hm v hv
  simp only [lookup_result_struct, List.mem_singleton] at hm
  subst hm
  cases hv

/-- C15 as stated fails: in the constructor of `Lookup_result` the member
`cause`, whose type is the exception `Failure`, is assigned the argument
itself, `this.cause = args.cause;`, and not a copy `new Failure(args.cause)`. -/
theorem constructor_aliases_exception_member :
    (∃ pre post,
        js_statements
            (sample_generator.generate_js_struct_definition lookup_result_struct false false
              {}).out
          = pre ++ [.if_arg "cause", .copy_plain "cause", .close] ++ post)
      ∧ (∀ q, Js.copy_struct "cause" q ∉ js_statements
          (sample_generator.generate_js_struct_definition lookup_result_struct false false {}).out)
      ∧ (Js.copy_plain "cause").text "" = "this.cause = args.cause;\n" := by
  obtain ⟨pre, post, hout, hpre, hpost⟩ :=
    struct_definition_blocks sample_generator lookup_result_struct false false {} (by decide)
      lookup_result_defaults_render (List.cons_ne_nil _ _)
  refine ⟨constructor_arg_block_within sample_generator lookup_result_struct false false {}
      (by decide) lookup_result_defaults_render _ (List.mem_singleton.mpr rfl), ?_, by decide⟩
  intro q hq
  rw [hout] at hq
  have hnot : ∀ j : Js, (!j.is_args_line) = true → j ≠ .copy_struct "cause" q := by
    intro j h he
    rw [he] at h
    cases h
  simp only [List.mem_append, List.mem_singleton] at hq
  rcases hq with ((((h | h) | h) | h) | h) | h
  · exact hnot _ (hpre _ h) rfl
  · obtain ⟨m, _, hm⟩ := List.mem_filterMap.mp h
    obtain ⟨p, n, _, hj⟩ := constructor_guard_form _ m _ hm
    cases hj
  · cases h
  · simp [lookup_result_struct, constructor_arg_block, generate_js_struct_definition_copy,
      t_type.get_true_type, t_type.is_container, t_type.is_map, t_type.is_set,
      t_type.is_list] at h
  · cases h
  · exact hnot _ (hpost _ h) rfl

/-- C15 (amended): for every member of a struct of the data model, the block
of the member in the constructor copies a present argument with the
constructor of its type, `this.f = new T(args.f);`, when the resolved type of
the member is a struct that is no exception, and assigns the argument itself,
`this.f = args.f;`, when it is an exception. -/
theorem constructor_copies_struct_member (g : t_js_generator) (tstruct : t_struct)
    (is_exception is_exported : Bool) (s : GenState)
    (hv : ∀ f ∈ tstruct.members, void_free f.type = true)
    (hd : defaults_render g tstruct.members) (f : t_field) (hf : f ∈ tstruct.members)
    (p : t_program) (n : String) (x : Bool) (ht : f.type.get_true_type = .struct p n x) :
    (∃ pre post,
        js_statements (g.generate_js_struct_definition tstruct is_exception is_exported s).out
          = pre
            ++ ([.if_arg f.name,
                  if x then .copy_plain f.name
                  else .copy_struct f.name (g.js_type_namespace p ++ n)]
                ++ (if f.req = .T_REQUIRED then [.else_, .throw_required f.name] else [])
                ++ [.close])
            ++ post)
      ∧ (∀ name q ind, (Js.copy_struct name q).text ind
          = ind ++ "this." ++ name ++ (" = new " ++ q ++ "(args." ++ name ++ ");") ++ "\n")
      ∧ (∀ name ind, (Js.copy_plain name).text ind
          = ind ++ "this." ++ name ++ " = args." ++ name ++ ";\n") := by
  refine ⟨?_, fun _ _ _ => rfl, fun _ _ => rfl⟩
  have h := constructor_arg_block_within g tstruct is_exception is_exported s hv hd f hf
  rw [constructor_arg_block, ht] at h
  cases x
  · exact h
  · exact h

/-- Witness of C15 (amended): the member `origin` of `Order`, of the struct
type `Point`. -/
theorem constructor_copies_struct_member_witness :
    ∃ pre post,
      js_statements
          (sample_generator.generate_js_struct_definition order_struct false false {}).out
        = pre ++ [.if_arg "origin", .copy_struct "origin" "Point", .close] ++ post :=
  (constructor_copies_struct_member sample_generator order_struct false false {} (by decide)
    order_struct_defaults_render
    { type := .struct sample_program "Point" false, name := "origin", key := 3 }
    (by simp [order_struct]) sample_program "Point" false rfl).1

/-- C14 as stated fails: the constructor of `Order` throws for the unset
required member `id`, but no statement of its reader is such a throw. -/
theorem reader_has_no_required_check :
    Js.throw_required "id" ∈ js_statements
        (sample_generator.generate_js_struct_definition order_struct false false {}).out
      ∧ ∀ n, Js.throw_required n ∉ statements
          (sample_generator.generate_js_struct_reader order_struct {}).out := by
  refine ⟨?_, ?_⟩
  · obtain ⟨pre, post, h⟩ := constructor_arg_block_within sample_generator order_struct
      false false {} (by decide) order_struct_defaults_render
      { type := g_type_i32, name := "id", key := 1, req := .T_REQUIRED } (by simp [order_struct])
    rw [h]
    simp [constructor_arg_block]
  · intro n hn
    simp only [statements, List.mem_map] at hn
    obtain ⟨l, hl, hj⟩ := hn
    have h := (emits_struct_reader sample_generator order_struct (by decide) {}).2 l hl
    rw [hj] at h
    cases h

/-- C14 (amended): required members are enforced on the construction path
only.  For every struct of the data model the reader returns normally and
none of its statements is the throw for an unset required member, whereas the
constructor holds that throw for every required member. -/
theorem required_enforced_by_constructor_only (g : t_js_generator) (tstruct : t_struct)
    (is_exception is_exported : Bool) (s s' : GenState)
    (hv : ∀ f ∈ tstruct.members, void_free f.type = true)
    (hd : defaults_render g tstruct.members) :
    (g.generate_js_struct_reader tstruct s').result = .ok ()
      ∧ (∀ n, Js.throw_required n ∉ statements (g.generate_js_struct_reader tstruct s').out)
      ∧ (∀ f ∈ tstruct.members, f.req = .T_REQUIRED →
          ∃ pre post,
            js_statements
                (g.generate_js_struct_definition tstruct is_exception is_exported s).out
              = pre ++ [.else_, .throw_required f.name, .close] ++ post) := by
  refine ⟨Gen.emits_unit (β := Unit) _ _ (emits_struct_reader g tstruct hv) s', ?_, ?_⟩
  · intro n hn
    simp only [statements, List.mem_map] at hn
    obtain ⟨l, hl, hj⟩ := hn
    have h := (emits_struct_reader g tstruct hv s').2 l hl
    rw [hj] at h
    cases h
  · intro f hf hreq
    obtain ⟨pre, post, h⟩ :=
      constructor_arg_block_within g tstruct is_exception is_exported s hv hd f hf
    rw [constructor_arg_block, if_pos hreq] at h
    exact ⟨pre ++ [.if_arg f.name,
        g.generate_js_struct_definition_copy f.name f.type.get_true_type], post,
      by rw [h]; simp only [List.append_assoc, List.cons_append, List.nil_append]⟩

/-- Witness of C14 (amended): the struct `Order` and its required member `id`. -/
theorem required_enforced_by_constructor_only_witness :
    (sample_generator.generate_js_struct_reader order_struct {}).result = .ok ()
      ∧ ∃ pre post,
          js_statements
              (sample_generator.generate_js_struct_definition order_struct false false {}).out
            = pre ++ [.else_, .throw_required "id", .close] ++ post :=
  ⟨(required_enforced_by_constructor_only sample_generator order_struct false false {} {}
      (by decide) order_struct_defaults_render).1,
    (required_enforced_by_constructor_only sample_generator order_struct false false {} {}
      (by decide) order_struct_defaults_render).2.2
      { type := g_type_i32, name := "id", key := 1, req := .T_REQUIRED }
      (by simp [order_struct]) rfl⟩

/-! ## Service helpers -/

theorem foldl_append_members (fields : List t_field) :
    ∀ result : t_struct,
      (fields.foldl (fun result f => result.append f) result).members = result.members ++ fields
        ∧ (fields.foldl (fun result f => result.append f) result).name = result.name
        ∧ (fields.foldl (fun result f => result.append f) result).program = result.program := by
  induction fields with
  | nil => intro result; simp
  | cons f rest ih =>
    intro result
    obtain ⟨h1, h2, h3⟩ := ih (result.append f)
    rw [List.foldl_cons]
    refine ⟨h1.trans ?_, h2.trans rfl, h3.trans rfl⟩
    simp only [t_struct.append, List.append_assoc, List.singleton_append]

/-- C19: the result struct that `generate_js_function_helpers` synthesizes for
a function `f` with return type `R` and throws list `X`, and then defines, is
named `<service>_f_result` (after the service being generated) and its members
are exactly the field `success` with id 0 and type `R` when `R` is not void
(none when it is), followed by the fields of `X` in declaration order. -/
theorem function_helpers_result_struct (g : t_js_generator) (tfunction : t_function) :
    (g.generate_js_function_helpers_result tfunction).name
        = g.service_name_ ++ "_" ++ tfunction.name ++ "_result"
      ∧ (g.generate_js_function_helpers_result tfunction).members
        = (if tfunction.returntype.is_void then []
            else [{ type := tfunction.returntype, name := "success", key := 0 }])
          ++ tfunction.xceptions.members
      ∧ g.generate_js_function_helpers tfunction
        = g.generate_js_struct_definition (g.generate_js_function_helpers_result tfunction)
            false false := by
  refine ⟨?_, ?_, rfl⟩
  · simp only [generate_js_function_helpers_result, foldl_append_members]
    split <;> rfl
  · simp only [generate_js_function_helpers_result, foldl_append_members]
    cases h : tfunction.returntype.is_void <;> simp [t_struct.append]

theorem helpers_function_value (g : t_js_generator) (tfunction : t_function) (s : GenState)
    (r : t_function) (h : (g.generate_service_helpers_function tfunction s).result = .ok r) :
    r = tfunction := by
  simp only [generate_service_helpers_function, Gen.bind_def, Gen.pure_def, Gen.bind] at h
  split at h
  · cases h
  · simp only at h
    split at h
    · cases h
    · simp only [Gen.pure, Except.ok.injEq] at h
      rw [← h]

theorem map_each_helpers_value (g : t_js_generator) :
    ∀ (functions : List t_function) (s : GenState) (r : List t_function),
      (Gen.map_each functions g.generate_service_helpers_function s).result = .ok r →
        r = functions := by
  intro functions
  induction functions with
  | nil =>
    intro s r h
    simp only [Gen.map_each, Gen.pure, Except.ok.injEq] at h
    exact h.symm
  | cons f rest ih =>
    intro s r h
    simp only [Gen.map_each, Gen.bind] at h
    split at h
    · cases h
    · next a ha =>
      simp only at h
      split at h
      · cases h
      · next b hb =>
        simp only [Gen.pure, Except.ok.injEq] at h
        rw [← h, helpers_function_value g f s a ha, ih _ b hb]


theorem helpers_function_out (g : t_js_generator) (tfunction : t_function) (s : GenState)
    (h : function_well_formed g tfunction) :
    (g.generate_service_helpers_function tfunction s).result = .ok tfunction
      ∧ ∃ s2, (g.generate_service_helpers_function tfunction s).out
          = (g.generate_js_struct_definition
                { tfunction.arglist with
                  name := g.service_name_ ++ "_" ++ tfunction.arglist.name } false false s).out
            ++ (g.generate_js_function_helpers
                { tfunction with
                  arglist := { tfunction.arglist with
                    name := g.service_name_ ++ "_" ++ tfunction.arglist.name } } s2).out := by
  obtain ⟨hv, hd, hrv, hrd⟩ := h
  have hargs := (struct_definition_statements g
    { tfunction.arglist with name := g.service_name_ ++ "_" ++ tfunction.arglist.name }
    false false s hv hd).1
  have hres := fun s2 => (struct_definition_statements g
    (g.generate_js_function_helpers_result tfunction) false false s2 hrv hrd).1
  have hsame : g.generate_js_function_helpers
      { tfunction with
        arglist := { tfunction.arglist with
          name := g.service_name_ ++ "_" ++ tfunction.arglist.name } }
      = g.generate_js_struct_definition (g.generate_js_function_helpers_result tfunction)
          false false := rfl
  refine ⟨?_, (g.generate_js_struct_definition
      { tfunction.arglist with name := g.service_name_ ++ "_" ++ tfunction.arglist.name }
      false false s).state, ?_⟩
  · simp only [generate_service_helpers_function, Gen.bind_def, Gen.pure_def,
      Gen.bind_ok_unit _ _ _ hargs, hsame, Gen.bind_ok_unit _ _ _ (hres _), Gen.pure]
  · simp only [generate_service_helpers_function, Gen.bind_def, Gen.pure_def,
      Gen.bind_ok_unit _ _ _ hargs, hsame, Gen.bind_ok_unit _ _ _ (hres _), Gen.pure,
      List.append_nil]

theorem map_each_helpers_out (g : t_js_generator) :
    ∀ (functions : List t_function) (s : GenState),
      (∀ f ∈ functions, function_well_formed g f) →
        (Gen.map_each functions g.generate_service_helpers_function s).result = .ok functions
          ∧ ∃ outs : List (List Line),
              (Gen.map_each functions g.generate_service_helpers_function s).out = outs.flatten
              ∧ List.Forall₂ (fun f o => ∃ s1 s2,
                  o = (g.generate_js_struct_definition
                        { f.arglist with name := g.service_name_ ++ "_" ++ f.arglist.name }
                        false false s1).out
                    ++ (g.generate_js_function_helpers
                        { f with
                          arglist := { f.arglist with
                            name := g.service_name_ ++ "_" ++ f.arglist.name } } s2).out)
                functions outs := by
  intro functions
  induction functions with
  | nil => intro s _; exact ⟨rfl, [], rfl, List.Forall₂.nil⟩
  | cons f rest ih =>
    intro s h
    obtain ⟨hok, s2, hout⟩ := helpers_function_out g f s (h f (List.mem_cons_self _ _))
    obtain ⟨hrest, outs, houts, hall⟩ := ih (g.generate_service_helpers_function f s).state
      (fun f' hf' => h f' (List.mem_cons_of_mem _ hf'))
    refine ⟨?_, (g.generate_service_helpers_function f s).out :: outs, ?_,
      List.Forall₂.cons ⟨s, s2, hout⟩ hall⟩
    · simp only [Gen.map_each, Gen.bind_ok _ _ _ _ hok, Gen.bind_ok _ _ _ _ hrest, Gen.pure]
    · simp only [Gen.map_each, Gen.bind_ok _ _ _ _ hok, Gen.bind_ok _ _ _ _ hrest, Gen.pure,
        List.append_nil, houts, List.flatten_cons]

/-- C20: on normal completion `generate_service_helpers` hands back the
service as it was, every argument list under its own name, and the generator
as it was, the TypeScript flag included.  For a service of the data model it
completes normally, and after the comment line it emits, function by
function, the definition of the argument list under the name
`<service>_<original name>`, with the TypeScript flag off, and the definition
of the result struct. -/
theorem service_helpers_restores_names (g : t_js_generator) (tservice : t_service)
    (s : GenState) :
    (∀ g' tservice', (g.generate_service_helpers tservice s).result = .ok (g', tservice') →
        g' = g ∧ tservice' = tservice)
      ∧ ((∀ f ∈ tservice.functions, function_well_formed { g with gen_ts_ := false } f) →
          (g.generate_service_helpers tservice s).result = .ok (g, tservice)
            ∧ ∃ outs : List (List Line),
                (g.generate_service_helpers tservice s).out
                  = ⟨s.indent_, .helpers_comment⟩ :: outs.flatten
                ∧ List.Forall₂ (fun f o => ∃ s1 s2,
                    o = (generate_js_struct_definition { g with gen_ts_ := false }
                          { f.arglist with name := g.service_name_ ++ "_" ++ f.arglist.name }
                          false false s1).out
                      ++ (generate_js_function_helpers { g with gen_ts_ := false }
                          { f with
                            arglist := { f.arglist with
                              name := g.service_name_ ++ "_" ++ f.arglist.name } } s2).out)
                  tservice.functions outs) := by
  constructor
  · intro g' tservice' h
    simp only [generate_service_helpers, Gen.bind_def, Gen.pure_def, Gen.bind_emit] at h
    simp only [Gen.bind] at h
    split at h
    · cases h
    · next a ha =>
      simp only [Gen.pure, Except.ok.injEq, Prod.mk.injEq] at h
      rw [map_each_helpers_value _ _ _ a ha] at h
      exact ⟨h.1.symm, h.2.symm⟩
  · intro h
    obtain ⟨hok, outs, houts, hall⟩ :=
      map_each_helpers_out { g with gen_ts_ := false } tservice.functions s h
    refine ⟨?_, outs, ?_, hall⟩
    · simp only [generate_service_helpers, Gen.bind_def, Gen.pure_def, Gen.bind_emit,
        Gen.bind_ok _ _ _ _ hok, Gen.pure]
    · simp only [generate_service_helpers, Gen.bind_def, Gen.pure_def, Gen.bind_emit,
        Gen.bind_ok _ _ _ _ hok, Gen.pure, List.append_nil, houts]


theorem lookup_function_well_formed :
    ∀ f ∈ directory_service.functions,
      function_well_formed { directory_generator with gen_ts_ := false } f := by
  intro f hf
  simp only [directory_service, List.mem_singleton] at hf
  subst hf
  refine ⟨by decide, ?_, by decide, ?_⟩
  · intro m hm v hv
    simp only [lookup_function, List.mem_singleton] at hm
    subst hm
    cases hv
  · intro m hm v hv
    simp only [generate_js_function_helpers_result, lookup_function, t_struct.append,
      t_type.is_void, List.foldl_cons, List.foldl_nil, List.nil_append, List.cons_append,
      Bool.not_false, if_true, List.mem_cons, List.mem_singleton, List.not_mem_nil,
      or_false] at hm
    rcases hm with rfl | rfl <;> cases hv

/-- Witness of C20: the service `Directory` with the function `lookup`,
generated with TypeScript declarations switched on. -/
theorem service_helpers_restores_names_witness :
    (directory_generator.generate_service_helpers directory_service {}).result
        = .ok (directory_generator, directory_service)
      ∧ (directory_generator.generate_js_function_helpers_result lookup_function).name
        = "Directory_lookup_result" :=
  ⟨((service_helpers_restores_names directory_generator directory_service {}).2
      lookup_function_well_formed).1, rfl⟩

/-! ## Identifiers -/

theorem u32_le_iff (a b : UInt32) : a ≤ b ↔ a.toNat ≤ b.toNat := Iff.rfl

theorem char_le_iff (a b : Char) : a ≤ b ↔ a.val.toNat ≤ b.val.toNat := Iff.rfl

theorem char_lt_iff (a b : Char) : a < b ↔ a.val.toNat < b.val.toNat := Iff.rfl

theorem replace_condition_iff (c : Char) :
    ((('A' > c) ∨ (c > 'Z')) ∧ (('a' > c) ∨ (c > 'z')) ∧ (('0' > c) ∨ (c > '9'))
        ∧ ('_' ≠ c) ∧ ('$' ≠ c)) ↔ valid_identifier_char c = false := by
  have h1 : ('_' ≠ c) ↔ c.val.toNat ≠ 95 := by
    constructor
    · intro h hv
      apply h
      apply Char.ext
      apply UInt32.toNat.inj
      rw [hv]; rfl
    · intro h hc
      rw [← hc] at h
      exact h rfl
  have h2 : ('$' ≠ c) ↔ c.val.toNat ≠ 36 := by
    constructor
    · intro h hv
      apply h
      apply Char.ext
      apply UInt32.toNat.inj
      rw [hv]; rfl
    · intro h hc
      rw [← hc] at h
      exact h rfl
  have e1 : (c == '_') = true ↔ c.val.toNat = 95 := by
    rw [beq_iff_eq]
    constructor
    · intro h; rw [h]; rfl
    · intro hv; apply Char.ext; apply UInt32.toNat.inj; rw [hv]; rfl
  have e2 : (c == '$') = true ↔ c.val.toNat = 36 := by
    rw [beq_iff_eq]
    constructor
    · intro h; rw [h]; rfl
    · intro hv; apply Char.ext; apply UInt32.toNat.inj; rw [hv]; rfl
  simp only [GT.gt, char_lt_iff, h1, h2, valid_identifier_char, Char.isAlpha, Char.isUpper,
    Char.isLower, Char.isDigit, Bool.or_eq_false_iff, Bool.and_eq_false_iff, decide_eq_false_iff_not,
    u32_le_iff, ge_iff_le]
  have v1 : ('A' : Char).val.toNat = 65 := rfl
  have v2 : ('Z' : Char).val.toNat = 90 := rfl
  have v3 : ('a' : Char).val.toNat = 97 := rfl
  have v4 : ('z' : Char).val.toNat = 122 := rfl
  have v5 : ('0' : Char).val.toNat = 48 := rfl
  have v6 : ('9' : Char).val.toNat = 57 := rfl
  have w1 : (65 : UInt32).toNat = 65 := rfl
  have w2 : (90 : UInt32).toNat = 90 := rfl
  have w3 : (97 : UInt32).toNat = 97 := rfl
  have w4 : (122 : UInt32).toNat = 122 := rfl
  have w5 : (48 : UInt32).toNat = 48 := rfl
  have w6 : (57 : UInt32).toNat = 57 := rfl
  rw [v1, v2, v3, v4, v5, v6, w1, w2, w3, w4, w5, w6]
  have n1 : (c == '_') = false ↔ c.val.toNat ≠ 95 := by
    rw [Ne, ← e1]; cases (c == '_') <;> simp
  have n2 : (c == '$') = false ↔ c.val.toNat ≠ 36 := by
    rw [Ne, ← e2]; cases (c == '$') <;> simp
  rw [n1, n2]
  omega


theorem digit_condition_iff (c : Char) : ('0' ≤ c ∧ c ≤ '9') ↔ c.isDigit = true := by
  simp only [char_le_iff, Char.isDigit, Bool.and_eq_true, decide_eq_true_eq, u32_le_iff,
    ge_iff_le]
  exact Iff.rfl

theorem sanitize_char_valid (c : Char) : valid_identifier_char (sanitize_char c) = true := by
  unfold sanitize_char
  split
  · assumption
  · rfl

theorem make_valid_nodeJs_identifier_data (name : String) :
    (make_valid_nodeJs_identifier name).data
      = (if starts_with_digit name then ['_'] else []) ++ name.data.map sanitize_char := by
  have hmap : ∀ l : List Char,
      (l.map fun c =>
        if (('A' > c) ∨ (c > 'Z')) ∧ (('a' > c) ∨ (c > 'z')) ∧ (('0' > c) ∨ (c > '9'))
            ∧ ('_' ≠ c) ∧ ('$' ≠ c) then '_' else c) = l.map sanitize_char := by
    intro l
    apply List.map_congr_left
    intro c _
    by_cases hv : valid_identifier_char c = true
    · rw [if_neg (by rw [replace_condition_iff, hv]; simp), sanitize_char, if_pos hv]
    · rw [if_pos ((replace_condition_iff c).mpr (by simpa using hv)), sanitize_char, if_neg hv]
  unfold make_valid_nodeJs_identifier starts_with_digit
  cases hd : name.data with
  | nil => simp [hd]
  | cons c rest =>
    simp only
    by_cases hdig : c.isDigit = true
    · rw [if_pos ((digit_condition_iff c).mpr hdig), hmap]
      simp [hdig, sanitize_char, valid_identifier_char]
    · rw [if_neg (fun h => hdig ((digit_condition_iff c).mp h)), hmap]
      simp [hdig]

/-- C30: `make_valid_nodeJs_identifier` maps the empty name to itself; for
every name the result is the name with every character that is no ASCII
letter, digit, `_` or `$` replaced by `_` and the other characters unchanged,
with exactly one `_` put in front when the name starts with a digit.  Hence
every character of the result may stand in an identifier, the first character
of the result of a non-empty name is no digit, and the result is one longer
than a name that starts with a digit and as long as any other name. -/
theorem make_valid_nodeJs_identifier_valid (name : String) :
    make_valid_nodeJs_identifier "" = ""
      ∧ (make_valid_nodeJs_identifier name).data
          = (if starts_with_digit name then ['_'] else []) ++ name.data.map sanitize_char
      ∧ (∀ c, valid_identifier_char c = true → sanitize_char c = c)
      ∧ (∀ c ∈ (make_valid_nodeJs_identifier name).data, valid_identifier_char c = true)
      ∧ (∀ c rest, (make_valid_nodeJs_identifier name).data = c :: rest → c.isDigit = false)
      ∧ (name ≠ "" → (make_valid_nodeJs_identifier name).data ≠ [])
      ∧ (make_valid_nodeJs_identifier name).length
          = name.length + (if starts_with_digit name then 1 else 0) := by
  have hdata := make_valid_nodeJs_identifier_data name
  refine ⟨rfl, hdata, ?_, ?_, ?_, ?_, ?_⟩
  · intro c hc
    rw [sanitize_char, if_pos hc]
  · intro c hc
    rw [hdata] at hc
    rcases List.mem_append.mp hc with h | h
    · split at h
      · rw [List.mem_singleton.mp h]; rfl
      · cases h
    · obtain ⟨d, _, rfl⟩ := List.mem_map.mp h
      exact sanitize_char_valid d
  · intro c rest hc
    rw [hdata] at hc
    unfold starts_with_digit at hc
    cases hn : name.data with
    | nil => rw [hn] at hc; simp at hc
    | cons d l =>
      rw [hn] at hc
      simp only [List.map_cons] at hc
      by_cases hdig : d.isDigit = true
      · simp only [hdig, if_true, List.singleton_append, List.cons.injEq] at hc
        rw [← hc.1]; rfl
      · simp only [hdig, Bool.false_eq_true, if_false, List.nil_append, List.cons.injEq] at hc
        rw [← hc.1, sanitize_char]
        split
        · simpa using hdig
        · rfl
  · intro hne hnil
    rw [hdata] at hnil
    have hd : name.data = [] := by
      have := (List.append_eq_nil.mp hnil).2
      simpa using this
    exact hne (String.ext hd)
  · rw [String.length, hdata, String.length]
    split <;> simp [Nat.add_comm]

/-! ## Void -/

theorem Gen.fails_throw {α : Type} (m : String) : Gen.fails (Gen.throw m : Gen α) :=
  fun _ => ⟨m, rfl⟩

theorem Gen.fails_lift_error {α : Type} (m : String) : Gen.fails (Gen.lift (.error m) : Gen α) :=
  fun _ => ⟨m, rfl⟩

theorem Gen.fails_bind_left {α β : Type} (x : Gen α) (f : α → Gen β) (hx : Gen.fails x) :
    Gen.fails (Gen.bind x f) := by
  intro s
  obtain ⟨e, he⟩ := hx s
  exact ⟨e, Gen.bind_error x f s e he⟩

theorem Gen.fails_bind_right {α β : Type} (P : Js → Bool) (x : Gen α) (f : α → Gen β)
    (hx : Gen.emits P x) (hf : ∀ a, Gen.fails (f a)) : Gen.fails (Gen.bind x f) := by
  intro s
  obtain ⟨⟨a, ha⟩, _⟩ := hx s
  obtain ⟨e, he⟩ := hf a (x s).state
  exact ⟨e, by rw [Gen.bind_ok x f s a ha]; exact he⟩

theorem Gen.fails_ite {α : Type} (c : Prop) [Decidable c] (x y : Gen α)
    (hx : Gen.fails x) (hy : Gen.fails y) : Gen.fails (if c then x else y) := by
  split
  · exact hx
  · exact hy

theorem Gen.emits_tmp (P : Js → Bool) (g : t_js_generator) (n : String) :
    Gen.emits P (g.tmp n) :=
  fun _ => ⟨⟨_, rfl⟩, fun _ h => by cases h⟩

theorem void_free_of_not_void (tbase : t_base) (binary : Bool)
    (h : void_free (.base tbase binary) = false) : tbase = .TYPE_VOID := by
  cases tbase <;> first | rfl | simp [void_free] at h

theorem emits_true_deserialize_field (g : t_js_generator) (f : t_field) (pfx : String)
    (h : void_free f.type = true) :
    Gen.emits (fun _ => true) (generate_deserialize_field g f pfx) :=
  Gen.emits_mono _ _ _ (fun _ _ => rfl) (emits_deserialize_field g f pfx h)

theorem emits_true_serialize_field (g : t_js_generator) (f : t_field) (pfx : String)
    (h : void_free f.type = true) :
    Gen.emits (fun _ => true) (generate_serialize_field g f pfx) :=
  Gen.emits_mono _ _ _ (fun _ _ => rfl) (emits_serialize_field g f pfx h)

/-- The deserializer throws for a field type with a void component. -/
theorem deserialize_field_fails (g : t_js_generator) (t : t_type) :
    ∀ (name : String) (key : Int) (req : e_req) (value : Option t_const_value) (pfx : String),
      void_free t = false →
        Gen.fails (generate_deserialize_field g ⟨t, name, key, req, value⟩ pfx) := by
  induction t with
  | base tbase binary =>
    intro name key req value pfx h
    rw [void_free_of_not_void tbase binary h, generate_deserialize_field]
    simp only [t_type.get_true_type, t_type.is_void, if_true]
    exact Gen.fails_throw _
  | enum p n => intro name key req value pfx h; simp [void_free] at h
  | struct p n x => intro name key req value pfx h; simp [void_free] at h
  | typedef n t ih =>
    intro name key req value pfx h
    rw [generate_deserialize_field_typedef]
    exact ih name key req value pfx h
  | list e ih =>
    intro name key req value pfx h
    have h' : void_free e = false := h
    rw [generate_deserialize_field]
    simp only [t_type.get_true_type, t_type.is_void, Bool.false_eq_true, if_false,
      generate_deserialize_container, generate_deserialize_list_element, Gen.bind_def,
      Gen.bind_assoc]
    (repeat' (first
      | exact Gen.fails_bind_left _ _ (ih _ _ _ _ _ h')
      | apply Gen.fails_bind_right (fun _ => true)
      | exact Gen.emits_emit _ _ rfl
      | exact Gen.emits_tmp _ _ _
      | exact Gen.emits_indent_up _
      | intro _))
  | set e ih =>
    intro name key req value pfx h
    have h' : void_free e = false := h
    rw [generate_deserialize_field]
    simp only [t_type.get_true_type, t_type.is_void, Bool.false_eq_true, if_false,
      generate_deserialize_container, generate_deserialize_set_element, Gen.bind_def,
      Gen.bind_assoc]
    (repeat' (first
      | exact Gen.fails_bind_left _ _ (ih _ _ _ _ _ h')
      | apply Gen.fails_bind_right (fun _ => true)
      | exact Gen.emits_emit _ _ rfl
      | exact Gen.emits_tmp _ _ _
      | exact Gen.emits_indent_up _
      | intro _))
  | map kt vt ihk ihv =>
    intro name key req value pfx h
    rw [generate_deserialize_field]
    simp only [t_type.get_true_type, t_type.is_void, Bool.false_eq_true, if_false,
      generate_deserialize_container, generate_deserialize_map_element, Gen.bind_def,
      Gen.pure_def, Gen.bind_assoc]
    cases hk : void_free kt with
    | false =>
      (repeat' (first
        | exact Gen.fails_bind_left _ _ (ihk _ _ _ _ _ hk)
        | apply Gen.fails_bind_right (fun _ => true)
        | apply Gen.fails_ite
        | exact Gen.emits_emit _ _ rfl
        | exact Gen.emits_pure _ _
        | exact Gen.emits_tmp _ _ _
        | exact Gen.emits_indent_up _
        | apply Gen.emits_ite
        | intro _))
    | true =>
      have hv : void_free vt = false := by
        simp only [void_free, hk, Bool.true_and] at h
        exact h
      (repeat' (first
        | exact Gen.fails_bind_left _ _ (ihv _ _ _ _ _ hv)
        | apply Gen.fails_bind_right (fun _ => true)
        | apply Gen.fails_ite
        | exact emits_true_deserialize_field g _ _ hk
        | exact Gen.emits_emit _ _ rfl
        | exact Gen.emits_pure _ _
        | exact Gen.emits_tmp _ _ _
        | exact Gen.emits_indent_up _
        | apply Gen.emits_ite
        | intro _))


theorem type_to_enum_error_of_void (t : t_type) (h : t.get_true_type.is_void = true) :
    type_to_enum t = .error "NO T_VOID CONSTRUCT" := by
  unfold type_to_enum
  cases ht : t.get_true_type with
  | base tbase binary =>
    rw [ht] at h
    cases tbase <;> first | rfl | simp [t_type.is_void] at h
  | _ => rw [ht] at h; simp [t_type.is_void] at h

/-- The serializer throws for a field type with a void component. -/
theorem serialize_field_fails (g : t_js_generator) (t : t_type) :
    ∀ (name : String) (key : Int) (req : e_req) (value : Option t_const_value) (pfx : String),
      void_free t = false →
        Gen.fails (generate_serialize_field g ⟨t, name, key, req, value⟩ pfx) := by
  induction t with
  | base tbase binary =>
    intro name key req value pfx h
    rw [void_free_of_not_void tbase binary h, generate_serialize_field]
    simp only [t_type.get_true_type, t_type.is_void, if_true]
    exact Gen.fails_throw _
  | enum p n => intro name key req value pfx h; simp [void_free] at h
  | struct p n x => intro name key req value pfx h; simp [void_free] at h
  | typedef n t ih =>
    intro name key req value pfx h
    rw [generate_serialize_field_typedef]
    exact ih name key req value pfx h
  | list e ih =>
    intro name key req value pfx h
    have h' : void_free e = false := h
    rw [generate_serialize_field]
    simp only [t_type.get_true_type, t_type.is_void, Bool.false_eq_true, if_false,
      generate_serialize_container, generate_serialize_list_element, Gen.bind_def,
      Gen.bind_assoc]
    cases htag : type_to_enum e with
    | error m => exact Gen.fails_bind_left _ _ (Gen.fails_lift_error m)
    | ok tag =>
      (repeat' (first
        | exact Gen.fails_bind_left _ _ (ih _ _ _ _ _ h')
        | apply Gen.fails_bind_right (fun _ => true)
        | exact Gen.emits_lift_ok _ _
        | exact Gen.emits_emit _ _ rfl
        | exact Gen.emits_tmp _ _ _
        | exact Gen.emits_indent_up _
        | intro _))
  | set e ih =>
    intro name key req value pfx h
    have h' : void_free e = false := h
    rw [generate_serialize_field]
    simp only [t_type.get_true_type, t_type.is_void, Bool.false_eq_true, if_false,
      generate_serialize_container, generate_serialize_set_element, Gen.bind_def,
      Gen.bind_assoc]
    cases htag : type_to_enum e with
    | error m => exact Gen.fails_bind_left _ _ (Gen.fails_lift_error m)
    | ok tag =>
      (repeat' (first
        | exact Gen.fails_bind_left _ _ (ih _ _ _ _ _ h')
        | apply Gen.fails_bind_right (fun _ => true)
        | exact Gen.emits_lift_ok _ _
        | exact Gen.emits_emit _ _ rfl
        | exact Gen.emits_tmp _ _ _
        | exact Gen.emits_indent_up _
        | intro _))
  | map kt vt ihk ihv =>
    intro name key req value pfx h
    rw [generate_serialize_field]
    simp only [t_type.get_true_type, t_type.is_void, Bool.false_eq_true, if_false,
      generate_serialize_container, generate_serialize_map_element, Gen.bind_def,
      Gen.pure_def, Gen.bind_assoc]
    cases hktag : type_to_enum kt with
    | error m => exact Gen.fails_bind_left _ _ (Gen.fails_lift_error m)
    | ok ktag =>
      cases hvtag : type_to_enum vt with
      | error m =>
        exact Gen.fails_bind_right (fun _ => true) _ _ (Gen.emits_lift_ok _ _)
          fun _ => Gen.fails_bind_left _ _ (Gen.fails_lift_error m)
      | ok vtag =>
        cases hk : void_free kt with
        | false =>
          (repeat' (first
            | exact Gen.fails_bind_left _ _ (ihk _ _ _ _ _ hk)
            | apply Gen.fails_bind_right (fun _ => true)
            | exact Gen.emits_lift_ok _ _
            | exact Gen.emits_emit _ _ rfl
            | exact Gen.emits_tmp _ _ _
            | exact Gen.emits_indent_up _
            | intro _))
        | true =>
          have hv : void_free vt = false := by
            simp only [void_free, hk, Bool.true_and] at h
            exact h
          (repeat' (first
            | exact Gen.fails_bind_left _ _ (ihv _ _ _ _ _ hv)
            | apply Gen.fails_bind_right (fun _ => true)
            | exact emits_true_serialize_field g _ _ hk
            | exact Gen.emits_lift_ok _ _
            | exact Gen.emits_emit _ _ rfl
            | exact Gen.emits_tmp _ _ _
            | exact Gen.emits_indent_up _
            | intro _))

theorem render_const_value_void (g : t_js_generator) (type : t_type) (value : t_const_value)
    (s : GenState) (h : type.get_true_type.is_void = true) :
    (render_const_value g type value s).result
      = .error "compiler error: no const of base type void" := by
  rw [render_const_value]
  cases ht : type.get_true_type with
  | base tbase binary =>
    rw [ht] at h
    cases tbase <;> first | rfl | simp [t_type.is_void] at h
  | _ => rw [ht] at h; simp [t_type.is_void] at h

theorem void_free_of_is_void (t : t_type) (h : t.get_true_type.is_void = true) :
    void_free t = false := by
  induction t with
  | base tbase binary => cases tbase <;> first | rfl | simp [t_type.get_true_type, t_type.is_void] at h
  | typedef n t ih => exact ih h
  | _ => simp [t_type.get_true_type, t_type.is_void] at h


/-- C29: void is rejected wherever a value is handled.  The field codecs
`generate_deserialize_field` and `generate_serialize_field` throw for every
field type with a void component: a type that resolves to void through
typedefs (with the messages `CANNOT GENERATE ... CODE FOR void TYPE`), and a
list, set or map whose element, key or value type has one, at any depth;
`type_to_enum` throws `NO T_VOID CONSTRUCT` for a type that resolves to void,
and `render_const_value` throws for a constant of such a type. -/
theorem void_rejected (g : t_js_generator) :
    (∀ (tfield : t_field) (pfx : String) (s : GenState), void_free tfield.type = false →
        ∃ e, (generate_deserialize_field g tfield pfx s).result = .error e)
      ∧ (∀ (tfield : t_field) (pfx : String) (s : GenState), void_free tfield.type = false →
          ∃ e, (generate_serialize_field g tfield pfx s).result = .error e)
      ∧ (∀ (tfield : t_field) (pfx : String) (s : GenState),
          tfield.type.get_true_type.is_void = true →
            (generate_deserialize_field g tfield pfx s).result
                = .error ("CANNOT GENERATE DESERIALIZE CODE FOR void TYPE: " ++ pfx ++ tfield.name)
              ∧ (generate_serialize_field g tfield pfx s).result
                = .error ("CANNOT GENERATE SERIALIZE CODE FOR void TYPE: " ++ pfx ++ tfield.name))
      ∧ (∀ t : t_type, t.get_true_type.is_void = true →
          type_to_enum t = .error "NO T_VOID CONSTRUCT")
      ∧ (∀ (type : t_type) (value : t_const_value) (s : GenState),
          type.get_true_type.is_void = true →
            (render_const_value g type value s).result
              = .error "compiler error: no const of base type void")
      ∧ (∀ t : t_type, t.get_true_type.is_void = true → void_free t = false)
      ∧ (∀ e k : t_type, void_free e = false →
          void_free (.list e) = false ∧ void_free (.set e) = false
            ∧ void_free (.map e k) = false ∧ void_free (.map k e) = false) := by
  refine ⟨?_, ?_, ?_, type_to_enum_error_of_void, render_const_value_void g,
    void_free_of_is_void, ?_⟩
  · intro tfield pfx s h
    obtain ⟨type, name, key, req, value⟩ := tfield
    exact deserialize_field_fails g type name key req value pfx h s
  · intro tfield pfx s h
    obtain ⟨type, name, key, req, value⟩ := tfield
    exact serialize_field_fails g type name key req value pfx h s
  · intro tfield pfx s h
    constructor
    · rw [generate_deserialize_field]
      simp only [h, if_true]
      rfl
    · rw [generate_serialize_field]
      simp only [h, if_true]
      rfl
  · intro e k h
    simp [void_free, h]

/-- Witness of C29: a field of type `list<map<string, void>>`. -/
theorem void_rejected_witness :
    ∃ e, (generate_deserialize_field sample_generator
        { type := .list (.map g_type_string (.base .TYPE_VOID false)), name := "rows" }
        "this." {}).result = .error e :=
  (void_rejected sample_generator).1 _ "this." {} (by decide)

/-! ## The service processor -/

theorem Gen.writes_pure {α : Type} (a : α) : Gen.writes (Gen.pure a) [] :=
  fun _ => ⟨⟨a, rfl⟩, rfl⟩

theorem Gen.writes_indent_up : Gen.writes Gen.indent_up [] :=
  fun _ => ⟨⟨_, rfl⟩, rfl⟩

theorem Gen.writes_indent_down : Gen.writes Gen.indent_down [] :=
  fun _ => ⟨⟨_, rfl⟩, rfl⟩

theorem Gen.writes_scope_down : Gen.writes Gen.scope_down [.close] :=
  fun _ => ⟨⟨_, rfl⟩, rfl⟩

theorem Gen.writes_ts_indent (g : t_js_generator) : Gen.writes g.ts_indent [] :=
  fun _ => ⟨⟨_, rfl⟩, rfl⟩

theorem Gen.writes_ts_print_doc (g : t_js_generator) (tdoc : Option String) :
    Gen.writes (g.ts_print_doc tdoc) [] := by
  intro s
  cases tdoc <;> exact ⟨⟨_, rfl⟩, rfl⟩

theorem Gen.writes_emit (j : Js) (h : j.is_ts = false) : Gen.writes (Gen.emit j) [j] := by
  intro s
  refine ⟨⟨_, rfl⟩, ?_⟩
  show js_statements [⟨s.indent_, j⟩] = [j]
  rw [js_statements_cons]
  simp only [h, Bool.false_eq_true, if_false, js_statements_nil]

theorem Gen.writes_ts (text : String) : Gen.writes (Gen.emit (.ts text)) [] :=
  fun _ => ⟨⟨_, rfl⟩, rfl⟩

theorem Gen.writes_bind {α β : Type} (x : Gen α) (f : α → Gen β) (L1 L2 : List Js)
    (hx : Gen.writes x L1) (hf : ∀ a, Gen.writes (f a) L2) :
    Gen.writes (Gen.bind x f) (L1 ++ L2) := by
  intro s
  obtain ⟨⟨a, ha⟩, ho⟩ := hx s
  obtain ⟨⟨b, hb⟩, hp⟩ := hf a (x s).state
  rw [Gen.bind_ok x f s a ha]
  exact ⟨⟨b, hb⟩, by rw [js_statements_append, ho, hp]⟩

theorem Gen.writes_ite {α : Type} (c : Prop) [Decidable c] (x y : Gen α) (L1 L2 : List Js)
    (hx : Gen.writes x L1) (hy : Gen.writes y L2) :
    Gen.writes (if c then x else y) (if c then L1 else L2) := by
  split
  · exact hx
  · exact hy

theorem Gen.writes_congr {α : Type} (x : Gen α) (L1 L2 : List Js) (hx : Gen.writes x L1)
    (h : L1 = L2) : Gen.writes x L2 := h ▸ hx

theorem Gen.writes_for_each {α : Type} (body : α → Gen Unit) (block : α → List Js)
    (h : ∀ a, Gen.writes (body a) (block a)) :
    ∀ l : List α, Gen.writes (Gen.for_each l body) (l.map block).flatten := by
  intro l
  induction l with
  | nil => exact Gen.writes_pure ()
  | cons a rest ih =>
    rw [Gen.for_each, List.map_cons, List.flatten_cons]
    exact Gen.writes_bind _ _ _ _ (h a) (fun _ => ih)

theorem string_join_cons (a : String) (l : List String) :
    String.join (a :: l) = a ++ String.join l := by
  rw [String.join_eq, String.join_eq]
  apply String.ext
  simp only [List.map_cons, List.flatten_cons, String.data_append]

theorem string_join_nil : String.join [] = "" := rfl

theorem intercalate_eq_join (sep a : String) (l : List String) :
    sep.intercalate (a :: l) = a ++ String.join (l.map fun b => sep ++ b) := by
  induction l generalizing a with
  | nil => simp [intercalate_cons, string_join_nil]
  | cons b l ih =>
    rw [intercalate_cons, List.map_cons, string_join_cons, ih]
    simp only [List.isEmpty_cons, Bool.false_eq_true, if_false, String.append_assoc]

theorem foldl_sep_rest {α : Type} (sep : String) (name : α → String) :
    ∀ (l : List α) (acc : String),
      (l.foldl (fun (acc : String × Bool) f =>
          ((if acc.2 then acc.1 else acc.1 ++ sep) ++ name f, false)) (acc, false)).1
        = acc ++ String.join (l.map fun f => sep ++ name f) := by
  intro l
  induction l with
  | nil => intro acc; simp [string_join_nil]
  | cons a l ih =>
    intro acc
    rw [List.foldl_cons]
    simp only [Bool.false_eq_true, if_false]
    rw [ih, List.map_cons, string_join_cons]
    simp only [String.append_assoc]

theorem foldl_sep {α : Type} (sep : String) (name : α → String) (l : List α) :
    (l.foldl (fun (acc : String × Bool) f =>
        ((if acc.2 then acc.1 else acc.1 ++ sep) ++ name f, false)) ("", true)).1
      = sep.intercalate (l.map name) := by
  cases l with
  | nil => rfl
  | cons a l =>
    rw [List.foldl_cons]
    simp only [if_true]
    rw [foldl_sep_rest, List.map_cons, intercalate_eq_join, List.map_map]
    simp only [String.empty_append]
    rfl

theorem oneway_args_eq (fields : List t_field) :
    generate_process_function_oneway_args fields
      = ", ".intercalate (fields.map fun a => "args." ++ a.name) :=
  foldl_sep ", " (fun a : t_field => "args." ++ a.name) fields

theorem foldl_join {α : Type} (piece : α → String) :
    ∀ (l : List α) (acc : String),
      l.foldl (fun acc f => acc ++ piece f) acc = acc ++ String.join (l.map piece) := by
  intro l
  induction l with
  | nil => intro acc; simp [string_join_nil]
  | cons a l ih =>
    intro acc
    rw [List.foldl_cons, ih, List.map_cons, string_join_cons, String.append_assoc]

theorem callback_args_eq (fields : List t_field) :
    generate_process_function_callback_args fields
      = String.join (fields.map fun a => "args." ++ a.name ++ ", ") := by
  unfold generate_process_function_callback_args
  rw [foldl_join (fun a : t_field => "args." ++ a.name ++ ", ")]
  simp only [String.empty_append]

theorem string_join_append (a b : List String) :
    String.join (a ++ b) = String.join a ++ String.join b := by
  induction a with
  | nil => simp [string_join_nil]
  | cons x a ih => rw [List.cons_append, string_join_cons, string_join_cons, ih,
      String.append_assoc]

theorem exception_type_names_cons (g : t_js_generator) (m : t_field) (rest : List t_field) :
    exception_type_names g (m :: rest)
      = exception_type_names g [m] ++ exception_type_names g rest := by
  unfold exception_type_names
  rw [← List.filterMap_append]
  rfl

theorem instanceof_step_true (g : t_js_generator) (m : t_field) (text : String) :
    g.generate_process_function_instanceof_step (true, text) m
      = (true, text ++ String.join
          ((exception_type_names g [m]).map fun t => " || err instanceof " ++ t)) := by
  unfold generate_process_function_instanceof_step exception_type_names
  cases ht : m.type.get_true_type with
  | struct p n x =>
    cases x <;>
      simp [ht, string_join_cons, string_join_nil]
  | _ => simp [ht, string_join_nil]

theorem instanceof_fold_true (g : t_js_generator) :
    ∀ (members : List t_field) (text : String),
      members.foldl g.generate_process_function_instanceof_step (true, text)
        = (true, text ++ String.join
            ((exception_type_names g members).map fun t => " || err instanceof " ++ t)) := by
  intro members
  induction members with
  | nil => intro text; simp [exception_type_names, string_join_nil]
  | cons m rest ih =>
    intro text
    rw [List.foldl_cons, instanceof_step_true, ih, exception_type_names_cons g m rest,
      List.map_append, string_join_append, String.append_assoc]

theorem instanceof_fold_false (g : t_js_generator) :
    ∀ (members : List t_field) (text : String),
      members.foldl g.generate_process_function_instanceof_step (false, text)
        = (if (exception_type_names g members).isEmpty then (false, text)
           else (true, text ++ ("if (err instanceof "
              ++ " || err instanceof ".intercalate (exception_type_names g members)))) := by
  intro members
  induction members with
  | nil => intro text; rfl
  | cons m rest ih =>
    intro text
    rw [List.foldl_cons, exception_type_names_cons g m rest]
    cases ht : m.type.get_true_type with
    | struct p n x =>
      cases x
      · have h1 : g.generate_process_function_instanceof_step (false, text) m = (false, text) := by
          simp [generate_process_function_instanceof_step, ht]
        have h2 : exception_type_names g [m] = [] := by
          simp [exception_type_names, ht]
        rw [h1, h2, ih, List.nil_append]
      · have h1 : g.generate_process_function_instanceof_step (false, text) m
            = (true, text ++ ("if (err instanceof " ++ (g.js_type_namespace p ++ n))) := by
          simp [generate_process_function_instanceof_step, ht]
        have h2 : exception_type_names g [m] = [g.js_type_namespace p ++ n] := by
          simp [exception_type_names, ht]
        rw [h1, h2, instanceof_fold_true, List.singleton_append, intercalate_eq_join]
        simp only [List.isEmpty_cons, Bool.false_eq_true, if_false, String.append_assoc]
    | _ =>
      have h1 : g.generate_process_function_instanceof_step (false, text) m = (false, text) := by
        simp [generate_process_function_instanceof_step, ht]
      have h2 : exception_type_names g [m] = [] := by
        simp [exception_type_names, ht]
      rw [h1, h2, ih, List.nil_append]

theorem instanceof_eq (g : t_js_generator) (f : t_function) :
    g.generate_process_function_instanceof f.xceptions.members
      = (if (declared_exception_types g f).isEmpty then (false, "")
         else (true, "if (err instanceof "
            ++ " || err instanceof ".intercalate (declared_exception_types g f))) := by
  unfold generate_process_function_instanceof declared_exception_types
  rw [instanceof_fold_false]
  simp only [String.empty_append]

theorem callback_instanceof_fold (g : t_js_generator) :
    ∀ (members : List t_field) (text : String),
      members.foldl g.generate_process_function_callback_instanceof_step text
        = text ++ String.join
            ((exception_type_names g members).map fun t => " || err instanceof " ++ t) := by
  intro members
  induction members with
  | nil => intro text; simp [exception_type_names, string_join_nil]
  | cons m rest ih =>
    intro text
    have hstep : g.generate_process_function_callback_instanceof_step text m
        = text ++ String.join
            ((exception_type_names g [m]).map fun t => " || err instanceof " ++ t) := by
      unfold generate_process_function_callback_instanceof_step exception_type_names
      cases ht : m.type.get_true_type with
      | struct p n x => cases x <;> simp [ht, string_join_cons, string_join_nil]
      | _ => simp [ht, string_join_nil]
    rw [List.foldl_cons, hstep, ih, exception_type_names_cons g m rest, List.map_append,
      string_join_append, String.append_assoc]

theorem callback_instanceof_eq (g : t_js_generator) (f : t_function) :
    g.generate_process_function_callback_instanceof f.xceptions.members
      = String.join ((declared_exception_types g f).map fun t => " || err instanceof " ++ t) := by
  unfold generate_process_function_callback_instanceof declared_exception_types
  rw [callback_instanceof_fold]
  simp only [String.empty_append]

theorem writes_promise_args : ∀ fields : List t_field,
    Gen.writes (generate_process_function_promise_args fields) (promise_call_args fields) := by
  intro fields
  induction fields with
  | nil => exact Gen.writes_pure ()
  | cons f rest ih =>
    rw [generate_process_function_promise_args, promise_call_args]
    refine Gen.writes_congr _ _ _
      (Gen.writes_bind _ _ _ _ (Gen.writes_emit _ rfl) (fun _ => ih)) ?_
    cases rest <;> rfl

theorem writes_process_function_promise (g : t_js_generator) (f : t_function) :
    Gen.writes (g.generate_process_function_promise f) (promise_style_statements g f) := by
  apply Gen.writes_congr
  case hx =>
    simp only [generate_process_function_promise, Gen.bind_def, Gen.pure_def]
    (repeat' (first
      | exact Gen.writes_emit _ rfl
      | exact Gen.writes_indent_up
      | exact Gen.writes_indent_down
      | exact Gen.writes_pure _
      | exact writes_promise_args _
      | apply Gen.writes_bind
      | apply Gen.writes_ite
      | intro _))
  case h =>
    unfold promise_style_statements
    rw [instanceof_eq]
    cases hes6 : g.gen_es6_ <;> cases hex : (declared_exception_types g f).isEmpty <;>
      simp only [hex, if_true, if_false, Bool.false_eq_true, List.cons_append, List.nil_append,
        List.append_assoc, List.append_nil]

theorem writes_process_function_callback (g : t_js_generator) (f : t_function) :
    Gen.writes (g.generate_process_function_callback f) (callback_style_statements g f) := by
  apply Gen.writes_congr
  case hx =>
    simp only [generate_process_function_callback, Gen.bind_def, Gen.pure_def]
    (repeat' (first
      | exact Gen.writes_emit _ rfl
      | exact Gen.writes_indent_up
      | exact Gen.writes_indent_down
      | exact Gen.writes_pure _
      | apply Gen.writes_bind
      | apply Gen.writes_ite
      | intro _))
  case h =>
    unfold callback_style_statements
    rw [instanceof_eq, callback_args_eq, callback_instanceof_eq]
    cases hex : (declared_exception_types g f).isEmpty
    · simp only [hex, if_true, if_false, Bool.false_eq_true, List.cons_append, List.nil_append,
        List.append_assoc, List.append_nil]
    · have hnil : declared_exception_types g f = [] := List.isEmpty_iff.mp hex
      simp only [hex, if_true, if_false, Bool.false_eq_true, List.cons_append, List.nil_append,
        List.append_assoc, List.append_nil, hnil, List.map_nil, string_join_nil]

theorem writes_process_function (g : t_js_generator) (tservice : t_service) (f : t_function) :
    Gen.writes (g.generate_process_function tservice f)
      (process_function_statements g tservice f) := by
  apply Gen.writes_congr
  case hx =>
    simp only [generate_process_function, Gen.bind_def, Gen.pure_def]
    (repeat' (first
      | exact Gen.writes_emit _ rfl
      | exact Gen.writes_ts _
      | exact Gen.writes_indent_up
      | exact Gen.writes_indent_down
      | exact Gen.writes_ts_indent _
      | exact Gen.writes_pure _
      | exact writes_process_function_promise _ _
      | exact writes_process_function_callback _ _
      | apply Gen.writes_bind
      | apply Gen.writes_ite
      | intro _))
  case h =>
    unfold process_function_statements
    rw [oneway_args_eq]
    cases hes6 : g.gen_es6_ <;> cases hts : g.gen_ts_ <;> cases hone : f.oneway <;>
      simp only [hes6, hts, hone, if_true, if_false, Bool.false_eq_true, List.cons_append,
        List.nil_append, List.append_assoc, List.append_nil]

theorem writes_service_processor (g : t_js_generator) (tservice : t_service) :
    Gen.writes (g.generate_service_processor tservice) (processor_statements g tservice) := by
  apply Gen.writes_congr
  case hx =>
    simp only [generate_service_processor, Gen.bind_def, Gen.pure_def]
    (repeat' (first
      | exact Gen.writes_emit _ rfl
      | exact Gen.writes_ts _
      | exact Gen.writes_indent_up
      | exact Gen.writes_indent_down
      | exact Gen.writes_ts_indent _
      | exact Gen.writes_pure _
      | exact Gen.writes_for_each _ _ (writes_process_function g tservice) _
      | apply Gen.writes_bind
      | apply Gen.writes_ite
      | intro _))
  case h =>
    unfold processor_statements
    cases hext : tservice.extends_ with
    | none =>
      cases hes6 : g.gen_es6_ <;> cases hesm : g.gen_esm_ <;>
        simp only [hes6, hesm, if_true, if_false, Bool.false_eq_true, List.cons_append,
          List.nil_append, List.append_assoc, List.append_nil, Option.isSome_none,
          Option.isNone_none, and_false, and_true, Bool.not_true, Bool.not_false, and_self,
          ite_self]
    | some ext =>
      obtain ⟨pp, parent⟩ := ext
      cases hes6 : g.gen_es6_ <;> cases hesm : g.gen_esm_ <;>
        simp only [hes6, hesm, if_true, if_false, Bool.false_eq_true, List.cons_append,
          List.nil_append, List.append_assoc, List.append_nil, Option.isSome_some,
          Option.isNone_some, and_false, and_true, Bool.not_true, Bool.not_false, and_self,
          ite_self]

theorem promise_call_args_handler_calls : ∀ fields : List t_field,
    (promise_call_args fields).filter Js.is_handler_call = promise_call_args fields := by
  intro fields
  induction fields with
  | nil => rfl
  | cons f rest ih =>
    rw [promise_call_args, List.filter_cons_of_pos rfl, ih]

theorem promise_call_args_arguments : ∀ fields : List t_field,
    (promise_call_args fields).filterMap Js.handler_argument
      = fields.map fun a => "args." ++ a.name := by
  intro fields
  induction fields with
  | nil => rfl
  | cons f rest ih =>
    simp only [promise_call_args, List.filterMap_cons, Js.handler_argument, ih, List.map_cons]

theorem promise_call_args_members : ∀ fields : List t_field,
    (promise_call_args fields).filterMap Js.process_member = [] := by
  intro fields
  induction fields with
  | nil => rfl
  | cons f rest ih =>
    rw [promise_call_args, List.filterMap_cons_none rfl, ih]

theorem process_function_handler_statements (g : t_js_generator) (tservice : t_service)
    (f : t_function) :
    (process_function_statements g tservice f).filter Js.is_handler_call
      = (if f.oneway then
          [.processor (.handler_call_oneway f.name
            (", ".intercalate (f.arglist.members.map fun a => "args." ++ a.name)))]
        else
          [.processor (.promise_call_head g.gen_es6_ f.name
            (if g.gen_es6_ then "" else if f.arglist.members.length > 0 then "," else ""))]
          ++ promise_call_args f.arglist.members
          ++ [.processor (.handler_call_callback g.gen_es6_ f.name
            (String.join (f.arglist.members.map fun a => "args." ++ a.name ++ ", ")))]) := by
  unfold process_function_statements promise_style_statements callback_style_statements
  cases hone : f.oneway <;> cases hes6 : g.gen_es6_ <;>
    cases hex : (declared_exception_types g f).isEmpty <;>
    simp [List.filter_append, List.filter_cons, Js.is_handler_call,
      ProcessorJs.is_handler_call, promise_call_args_handler_calls, hex]

theorem process_function_members (g : t_js_generator) (tservice : t_service)
    (f : t_function) :
    (process_function_statements g tservice f).filterMap Js.process_member = [f.name] := by
  unfold process_function_statements promise_style_statements callback_style_statements
  cases hone : f.oneway <;> cases hes6 : g.gen_es6_ <;>
    cases hex : (declared_exception_types g f).isEmpty <;>
    simp [List.filterMap_append, List.filterMap_cons, Js.process_member,
      ProcessorJs.process_member, promise_call_args_members, hex]

theorem process_functions_members (g : t_js_generator) (tservice : t_service) :
    ∀ functions : List t_function,
      ((functions.map (process_function_statements g tservice)).flatten).filterMap
          Js.process_member
        = functions.map fun f => f.name := by
  intro functions
  induction functions with
  | nil => rfl
  | cons f rest ih =>
    rw [List.map_cons, List.flatten_cons, List.filterMap_append, process_function_members, ih,
      List.map_cons, List.singleton_append]

theorem processor_members (g : t_js_generator) (tservice : t_service) :
    (processor_statements g tservice).filterMap Js.process_member
      = tservice.functions.map fun f => f.name := by
  have hf := process_functions_members g tservice tservice.functions
  unfold processor_statements
  cases hext : tservice.extends_ with
  | none =>
    cases hes6 : g.gen_es6_ <;>
      simp only [List.filterMap_append, List.filterMap_cons, List.filterMap_nil,
        Js.process_member, ProcessorJs.process_member, hf, if_true, if_false,
        Bool.false_eq_true, List.nil_append, List.append_nil]
  | some ext =>
    obtain ⟨pp, parent⟩ := ext
    cases hes6 : g.gen_es6_ <;>
      simp only [List.filterMap_append, List.filterMap_cons, List.filterMap_nil,
        Js.process_member, ProcessorJs.process_member, hf, if_true, if_false,
        Bool.false_eq_true, List.nil_append, List.append_nil]

/-- C24: every handler invocation that `generate_process_function` emits passes
the fields of the argument list as `args.<name>`, in declaration order: the
invocation of a oneway function holds them separated by ", "; the promise
style invocation holds one line per field, with a comma after every line but
the last; the callback style invocation holds each followed by ", " and the
callback after them.  No other statement of the process function invokes the
handler. -/
theorem process_function_passes_arguments (g : t_js_generator) (tservice : t_service)
    (f : t_function) (s : GenState) :
    (js_statements (g.generate_process_function tservice f s).out).filter Js.is_handler_call
        = (if f.oneway then
            [.processor (.handler_call_oneway f.name
              (", ".intercalate (f.arglist.members.map fun a => "args." ++ a.name)))]
          else
            [.processor (.promise_call_head g.gen_es6_ f.name
              (if g.gen_es6_ then "" else if f.arglist.members.length > 0 then "," else ""))]
            ++ promise_call_args f.arglist.members
            ++ [.processor (.handler_call_callback g.gen_es6_ f.name
              (String.join (f.arglist.members.map fun a => "args." ++ a.name ++ ", ")))])
      ∧ (promise_call_args f.arglist.members).filterMap Js.handler_argument
          = f.arglist.members.map (fun a => "args." ++ a.name)
      ∧ (∀ ind args, (Js.processor (.handler_call_oneway f.name args)).text ind
          = ind ++ "this._handler." ++ f.name ++ "(" ++ args ++ ");\n")
      ∧ (∀ ind comma, (Js.processor (.promise_call_head false f.name comma)).text ind
          = ind ++ "Q.fcall(this._handler." ++ f.name ++ ".bind(this._handler)" ++ comma ++ "\n")
      ∧ (∀ ind comma, (Js.processor (.promise_call_head true f.name comma)).text ind
          = ind ++ "new Promise((resolve) => resolve(this._handler." ++ f.name
              ++ ".bind(this._handler)(\n")
      ∧ (∀ ind name comma, (Js.processor (.promise_call_arg name comma)).text ind
          = ind ++ "args." ++ name ++ comma ++ "\n")
      ∧ (∀ ind args, (Js.processor (.handler_call_callback g.gen_es6_ f.name args)).text ind
          = ind ++ "this._handler." ++ f.name ++ "(" ++ args
              ++ (if g.gen_es6_ then "(err, result) => \x7b\n"
                  else "function (err, result) \x7b\n")) := by
  refine ⟨?_, promise_call_args_arguments _, fun _ _ => rfl, fun _ _ => rfl, fun _ _ => rfl,
    fun _ _ _ => rfl, fun _ _ => rfl⟩
  rw [(writes_process_function g tservice f s).2]
  exact process_function_handler_statements g tservice f

/-- C25: for a function that is not oneway the process function answers a
raised error as follows.  In the promise style the `catch` handler tests the
error against every declared exception type (the throws fields whose resolved
type is an exception, joined by `||`); in that case it builds the result
struct from the error and writes the message kind REPLY, otherwise it builds a
`TApplicationException` of kind UNKNOWN with the message of the error and
writes the message kind EXCEPTION; without a declared exception type there is
no test and the answer is always the latter.  The callback style makes the
same test after the test for the absence of an error. -/
theorem process_function_error_replies (g : t_js_generator) (tservice : t_service)
    (f : t_function) (s : GenState) (hone : f.oneway = false) :
    (∃ pre mid post,
        js_statements (g.generate_process_function tservice f s).out
          = pre
            ++ ([.processor (.promise_catch g.gen_es6_),
                  .processor (.decl_result g.js_let_type_)]
                ++ (if (declared_exception_types g f).isEmpty then
                      [.processor (.reply_unknown f.name)]
                    else
                      [.processor (.if_err_instanceof ("if (err instanceof "
                          ++ " || err instanceof ".intercalate (declared_exception_types g f))),
                        .processor (.reply_exception
                          (g.js_namespace g.program_ ++ g.service_name_ ++ "_" ++ f.name
                            ++ "_result") f.name),
                        .else_,
                        .processor (.reply_unknown f.name),
                        .close])
                ++ [.processor .write_result, .processor .close_call])
            ++ mid
            ++ [.processor (.if_no_err (String.join
                  ((declared_exception_types g f).map fun t => " || err instanceof " ++ t))),
                .processor (.callback_reply
                  (g.js_namespace g.program_ ++ g.service_name_ ++ "_" ++ f.name ++ "_result")
                  f.name),
                .else_,
                .processor (.callback_unknown f.name),
                .processor .callback_write]
            ++ post)
      ∧ (∀ ind cond, (Js.processor (.if_err_instanceof cond)).text ind
          = ind ++ cond ++ ") \x7b\n")
      ∧ (∀ ind resultname, (Js.processor (.reply_exception resultname f.name)).text ind
          = ind ++ "result = new " ++ resultname ++ "(err);\n"
            ++ ind ++ "output.writeMessageBegin(\"" ++ f.name
            ++ "\", Thrift.MessageType.REPLY, seqid);\n")
      ∧ (∀ ind, (Js.processor (.reply_unknown f.name)).text ind
          = ind ++ "result = new Thrift.TApplicationException("
            ++ "Thrift.TApplicationExceptionType.UNKNOWN, err.message);\n"
            ++ ind ++ "output.writeMessageBegin(\"" ++ f.name
            ++ "\", Thrift.MessageType.EXCEPTION, seqid);\n")
      ∧ (∀ ind cond, (Js.processor (.if_no_err cond)).text ind
          = ind ++ "if ((err === null || typeof err === 'undefined')" ++ cond ++ ") \x7b\n")
      ∧ (∀ ind, (Js.processor (.callback_unknown f.name)).text ind
          = ind ++ "result_obj = new Thrift.TApplicationException("
            ++ "Thrift.TApplicationExceptionType.UNKNOWN, err.message);\n"
            ++ ind ++ "output.writeMessageBegin(\"" ++ f.name
            ++ "\", Thrift.MessageType.EXCEPTION, seqid);\n") := by
  refine ⟨?_, fun _ _ => rfl, fun _ _ => rfl, fun _ => rfl, fun _ _ => rfl, fun _ => rfl⟩
  rw [(writes_process_function g tservice f s).2]
  unfold process_function_statements promise_style_statements callback_style_statements
  refine ⟨[.processor (.process_function_head g.gen_es6_
        (g.js_namespace tservice.program ++ g.service_name_) f.name),
      .processor (.process_read_args g.js_const_type_
        (g.js_namespace g.program_ ++ g.service_name_ ++ "_" ++ f.name ++ "_args")),
      .processor (.if_handler_length f.name f.arglist.members.length),
      .processor (.promise_call_head g.gen_es6_ f.name
        (if g.gen_es6_ then "" else if f.arglist.members.length > 0 then "," else ""))]
      ++ promise_call_args f.arglist.members
      ++ [.processor (.promise_then g.gen_es6_),
          .processor (.reply_success g.js_const_type_
            (g.js_namespace g.program_ ++ g.service_name_ ++ "_" ++ f.name ++ "_result")
            f.name)],
    [.else_,
      .processor (.handler_call_callback g.gen_es6_ f.name
        (String.join (f.arglist.members.map fun a => "args." ++ a.name ++ ", "))),
      .processor (.decl_result_obj g.js_let_type_)],
    [.processor .close_call, .close, if g.gen_es6_ then .close else .class_end], ?_⟩
  simp only [hone, if_false, Bool.false_eq_true, List.append_assoc, List.cons_append,
    List.nil_append]

/-- Witness of C25: the function `lookup`, which declares the exception
`Failure`. -/
theorem process_function_error_replies_witness :
    lookup_function.oneway = false
      ∧ declared_exception_types directory_generator lookup_function = ["Failure"]
      ∧ ∀ ind, (Js.processor (.reply_unknown lookup_function.name)).text ind
          = ind ++ "result = new Thrift.TApplicationException("
            ++ "Thrift.TApplicationExceptionType.UNKNOWN, err.message);\n"
            ++ ind ++ "output.writeMessageBegin(\"" ++ lookup_function.name
            ++ "\", Thrift.MessageType.EXCEPTION, seqid);\n" :=
  ⟨rfl, by decide,
    (process_function_error_replies directory_generator directory_service lookup_function {}
      rfl).2.2.2.1⟩

/-- C27: for a service that extends a parent service the processor is declared
to inherit from the processor of the parent (in the ES6 dialects by the
`extends` clause of the class, whose constructor calls `super(handler)`;
otherwise by `Thrift.inherits`), its `process` dispatches on the member
`'process_' + r.fname` and answers a name without such a member with an
application exception of kind UNKNOWN_METHOD, and the process members it
defines are those of the functions of the service itself, one each, in
order. -/
theorem processor_inherits_and_dispatches (g : t_js_generator) (tservice : t_service)
    (pp : t_program) (parent : String) (s : GenState)
    (hext : tservice.extends_ = some (pp, parent)) :
    (∃ lhs rest,
        js_statements (g.generate_service_processor tservice s).out
          = (if g.gen_es6_ then
              [.processor (.head lhs (" = class " ++ g.service_name_ ++ "Processor extends "
                  ++ parent ++ "Processor \x7b")),
                .processor .constructor_handler, .processor .super_handler,
                .processor .set_handler, .close]
            else
              [.processor (.head lhs " = function(handler) \x7b"), .processor .set_handler,
                .class_end,
                .processor (.processor_inherits
                  (g.js_namespace tservice.program ++ g.service_name_) parent)])
            ++ [.processor (.process_head g.gen_es6_
                  (g.js_namespace tservice.program ++ g.service_name_)),
                .processor (.process_dispatch g.js_const_type_),
                if g.gen_es6_ then .close else .class_end]
            ++ rest)
      ∧ (js_statements (g.generate_service_processor tservice s).out).filterMap
            Js.process_member
          = tservice.functions.map (fun f => f.name)
      ∧ (∀ ind child,
          (Js.processor (.processor_inherits child parent)).text ind
            = ind ++ "Thrift.inherits(" ++ child ++ "Processor, " ++ parent ++ "Processor);\n")
      ∧ (∀ ind qname fname,
          (Js.processor (.process_function_head true qname fname)).text ind
              = ind ++ "process_" ++ fname ++ " (seqid, input, output) \x7b\n"
            ∧ (Js.processor (.process_function_head false qname fname)).text ind
              = ind ++ qname ++ "Processor.prototype.process_" ++ fname
                ++ " = function(seqid, input, output) \x7b\n")
      ∧ (∀ ind decl,
          (Js.processor (.process_dispatch decl)).text ind
            = ind ++ decl ++ "r = input.readMessageBegin();\n"
              ++ ind ++ "if (this['process_' + r.fname]) \x7b\n"
              ++ ind ++ "  return this['process_' + r.fname].call(this, r.rseqid, input, output);\n"
              ++ ind ++ "\x7d else \x7b\n"
              ++ ind ++ "  input.skip(Thrift.Type.STRUCT);\n"
              ++ ind ++ "  input.readMessageEnd();\n"
              ++ ind ++ "  " ++ decl ++ "x = new Thrift.TApplicationException("
              ++ "Thrift.TApplicationExceptionType.UNKNOWN_METHOD, 'Unknown function ' + r.fname);\n"
              ++ ind ++ "  output.writeMessageBegin(r.fname, Thrift.MessageType.EXCEPTION, r.rseqid);\n"
              ++ ind ++ "  x[Symbol.for(\"write\")](output);\n"
              ++ ind ++ "  output.writeMessageEnd();\n"
              ++ ind ++ "  output.flush();\n"
              ++ ind ++ "\x7d\n") := by
  refine ⟨?_, ?_, fun _ _ => rfl, fun _ _ _ => ⟨rfl, rfl⟩, fun _ _ => rfl⟩
  · rw [(writes_service_processor g tservice s).2]
    unfold processor_statements
    rw [hext]
    refine ⟨if !g.gen_node_ ∨ g.has_js_namespace tservice.program then
        (if !g.gen_node_ ∨ g.has_js_namespace tservice.program then
          g.js_namespace tservice.program ++ g.service_name_ ++ "Processor"
        else g.service_name_ ++ "Processor")
      else g.js_const_type_
        ++ (if !g.gen_node_ ∨ g.has_js_namespace tservice.program then
          g.js_namespace tservice.program ++ g.service_name_ ++ "Processor"
        else g.service_name_ ++ "Processor"),
      (tservice.functions.map (process_function_statements g tservice)).flatten
      ++ (if g.gen_es6_ then [.class_end] else [])
      ++ [.processor (.export_as g.gen_esm_
          (if !g.gen_node_ ∨ g.has_js_namespace tservice.program then
            g.js_namespace tservice.program ++ g.service_name_ ++ "Processor"
          else g.service_name_ ++ "Processor"))], ?_⟩
    cases hes6 : g.gen_es6_ <;>
      simp only [if_true, if_false, Bool.false_eq_true, List.append_assoc, List.cons_append,
        List.nil_append]
  · rw [(writes_service_processor g tservice s).2]
    exact processor_members g tservice

/-- Witness of C27: the service `Registry`, which extends `Directory`. -/
theorem processor_inherits_and_dispatches_witness :
    registry_service.extends_ = some (sample_program, "Directory")
      ∧ (js_statements (registry_generator.generate_service_processor registry_service {}).out
          ).filterMap Js.process_member
          = registry_service.functions.map (fun f => f.name) :=
  ⟨rfl, (processor_inherits_and_dispatches registry_generator registry_service sample_program
    "Directory" {} rfl).2.1⟩

/-! ## Output kept at a failure -/

theorem Gen.bind_out_append {α β : Type} (x : Gen α) (f : α → Gen β) (s : GenState) :
    ∃ rest, (Gen.bind x f s).out = (x s).out ++ rest := by
  cases h : (x s).result with
  | error e => exact ⟨[], by simp only [Gen.bind, h, List.append_nil]⟩
  | ok a => exact ⟨_, by rw [Gen.bind_ok x f s a h]⟩

theorem Gen.bind_ts_print_doc {β : Type} (g : t_js_generator) (tdoc : Option String)
    (f : String → Gen β) (s : GenState) :
    Gen.bind (g.ts_print_doc tdoc) f s = f (((g.ts_print_doc tdoc s).value?).getD "") s := by
  cases tdoc <;> rfl

theorem definition_open_head (g : t_js_generator) (tstruct : t_struct)
    (is_exception is_exported : Bool) (s : GenState) :
    ∃ lhs rhs rest,
      js_statements (g.generate_js_struct_definition_open tstruct is_exception is_exported s).out
        = .struct_head lhs rhs :: rest := by
  have h1 : ∀ lhs rhs, (Js.struct_head lhs rhs).is_ts = false := fun _ _ => rfl
  have h2 : ∀ text, (Js.ts text).is_ts = true := fun _ => rfl
  cases hts : g.gen_ts_ <;> cases hes6 : g.gen_es6_ <;>
    by_cases hne : (g.gen_node_ = true ∧ is_exception = true) <;>
    simp only [generate_js_struct_definition_open, Gen.bind_def, Gen.pure_def, hts, hes6, hne,
      if_true, if_false, Bool.false_eq_true, Gen.bind_assoc, Gen.bind_emit, Gen.bind_pure,
      Gen.bind_ts_print_doc, Gen.bind_ts_indent, js_statements_cons, h1, h2] <;>
    exact ⟨_, _, _, rfl⟩

theorem js_statements_bind_head {α β : Type} (x : Gen α) (f : α → Gen β) (s : GenState)
    (j : Js) (rest : List Js) (h : js_statements (x s).out = j :: rest) :
    ∃ more, js_statements (Gen.bind x f s).out = j :: more := by
  obtain ⟨tail, ht⟩ := Gen.bind_out_append x f s
  exact ⟨rest ++ js_statements tail, by rw [ht, js_statements_append, h, List.cons_append]⟩

theorem struct_definition_head (g : t_js_generator) (tstruct : t_struct)
    (is_exception is_exported : Bool) (s : GenState) :
    ∃ lhs rhs rest,
      js_statements (g.generate_js_struct_definition tstruct is_exception is_exported s).out
        = .struct_head lhs rhs :: rest := by
  obtain ⟨lhs, rhs, rest, h⟩ := definition_open_head g tstruct is_exception is_exported s
  rw [generate_js_struct_definition, Gen.bind_def]
  exact ⟨lhs, rhs, js_statements_bind_head _ _ s _ rest h⟩

theorem generate_const_error_out (g : t_js_generator) (tconst : t_const) (s : GenState)
    (e : String) (h : (g.generate_const tconst s).result = .error e) :
    (g.generate_const tconst s).out
      = [⟨s.indent_, .const_lhs (if g.gen_esm_ then "export const " ++ tconst.name
            else g.js_type_namespace g.program_ ++ tconst.name)⟩] := by
  have hl := render_const_value_lands g tconst.type tconst.value s
  have hbody : ∀ (k : Unit → Gen Unit) (j : Js),
      (∀ r t, (k r t).result = .ok ()) →
      (Gen.bind (Gen.emit j) (fun _ =>
          Gen.bind (render_const_value g tconst.type tconst.value)
            (fun rendered => Gen.bind (Gen.emit (.const_value rendered)) k)) s).result
          = .error e →
      (Gen.bind (Gen.emit j) (fun _ =>
          Gen.bind (render_const_value g tconst.type tconst.value)
            (fun rendered => Gen.bind (Gen.emit (.const_value rendered)) k)) s).out
          = [⟨s.indent_, j⟩] := by
    intro k j hk he
    rw [Gen.bind_emit] at he ⊢
    simp only at he ⊢
    cases hr : (render_const_value g tconst.type tconst.value s).result with
    | error e2 =>
      simp only [Gen.bind, hr, hl.1]
    | ok r =>
      rw [Gen.bind_ok _ _ _ r hr] at he
      simp only [Gen.bind_emit, hk] at he
      cases he
  have hk : ∀ (r : Unit) (t : GenState),
      ((fun (_ : Unit) => (if g.gen_ts_ = true then
          Gen.bind (g.ts_print_doc tconst.doc) (fun doc =>
            Gen.bind g.ts_indent (fun ind =>
              Gen.emit (.ts (doc ++ ind ++ g.ts_declare ++ g.js_const_type_ ++ tconst.name
                ++ ": " ++ g.ts_get_type tconst.type ++ ";" ++ "\n"))))
        else Gen.pure PUnit.unit : Gen Unit)) r t).result = .ok () := by
    intro r t
    cases hts : g.gen_ts_
    · rfl
    · simp only [if_true, Gen.bind_ts_print_doc, Gen.bind_ts_indent]
      rfl
  cases hesm : g.gen_esm_ <;>
    simp only [generate_const, Gen.bind_def, Gen.pure_def, hesm, if_true, if_false,
      Bool.false_eq_true] at h ⊢
  · exact hbody _ _ hk h
  · exact hbody _ _ hk h

/-- C28 as stated fails: for the constant `EDGE` of type `Segment`, whose entry
`tint` names no field, `generate_const` throws after its first statement has
written the left-hand side, so the stream holds `EDGE = ` more than before. -/
theorem generate_const_leaves_left_hand_side :
    (constants_generator.generate_const stray_key_const {}).error?
        = some "type error: Segment has no field tint"
      ∧ (constants_generator.generate_const stray_key_const {}).out
        = [⟨0, .const_lhs "EDGE"⟩]
      ∧ stream_text "  " (constants_generator.generate_const stray_key_const {}).out
        = "EDGE = " := by
  refine ⟨rfl, rfl, rfl⟩

/-- C28 (amended): a failure keeps what was written before it.  Whenever
`generate_const` throws, the stream holds, after what it held before, the
left-hand side of the constant (`export const name = ` under `esm`, otherwise
the qualified name and ` = `) and nothing else; and what `generate_struct` and
`generate_xception` write begins, whether they throw or not, with the head of
the definition, which they write before anything that can throw. -/
theorem fatal_error_keeps_written_output (g : t_js_generator) :
    (∀ (tconst : t_const) (s : GenState) (e : String),
        (g.generate_const tconst s).result = .error e →
          (g.generate_const tconst s).out
            = [⟨s.indent_, .const_lhs (if g.gen_esm_ then "export const " ++ tconst.name
                else g.js_type_namespace g.program_ ++ tconst.name)⟩])
      ∧ (∀ (tstruct : t_struct) (s : GenState), ∃ lhs rhs rest,
          js_statements (g.generate_struct tstruct s).out = .struct_head lhs rhs :: rest)
      ∧ (∀ (txception : t_struct) (s : GenState), ∃ lhs rhs rest,
          js_statements (g.generate_xception txception s).out = .struct_head lhs rhs :: rest)
      ∧ (∀ ind lhs, (Js.const_lhs lhs).text ind = lhs ++ " = ")
      ∧ (∀ ind lhs rhs, (Js.struct_head lhs rhs).text ind = lhs ++ rhs ++ "\n") :=
  ⟨generate_const_error_out g,
    fun tstruct s => struct_definition_head g tstruct false true s,
    fun txception s => struct_definition_head g txception true true s,
    fun _ _ => rfl, fun _ _ _ => rfl⟩

/-- Witness of C28 (amended): the constant `EDGE`. -/
theorem fatal_error_keeps_written_output_witness :
    (constants_generator.generate_const stray_key_const {}).out
      = [⟨0, .const_lhs (if constants_generator.gen_esm_ then "export const " ++ stray_key_const.name
          else constants_generator.js_type_namespace constants_generator.program_
            ++ stray_key_const.name)⟩] :=
  (fatal_error_keeps_written_output constants_generator).1 stray_key_const {}
    "type error: Segment has no field tint" rfl

/-! ## The service client -/

theorem writes_client_call_body (g : t_js_generator) (f : t_function) :
    Gen.writes (g.generate_service_client_call_body f) (client_call_body_statements g f) := by
  apply Gen.writes_congr
  case hx =>
    simp only [generate_service_client_call_body, Gen.bind_def, Gen.pure_def]
    (repeat' (first
      | exact Gen.writes_emit _ rfl
      | exact Gen.writes_indent_up
      | exact Gen.writes_indent_down
      | exact Gen.writes_pure _
      | apply Gen.writes_bind
      | apply Gen.writes_ite
      | intro _))
  case h =>
    unfold client_call_body_statements
    cases hes6 : g.gen_es6_ <;> cases hnode : g.gen_node_ <;> cases hjq : g.gen_jquery_ <;>
      cases hone : f.oneway <;>
      simp only [hes6, hnode, hjq, hone, if_true, if_false, Bool.false_eq_true,
        List.cons_append, List.nil_append, List.append_assoc, List.append_nil, and_self,
        and_true, and_false, Bool.not_true, Bool.not_false]

theorem writes_client_call (g : t_js_generator) (tservice : t_service) (f : t_function) :
    Gen.writes (g.generate_service_client_call tservice f)
      (client_call_statements g tservice f) := by
  apply Gen.writes_congr
  case hx =>
    simp only [generate_service_client_call, Gen.bind_def, Gen.pure_def]
    (repeat' (first
      | exact Gen.writes_emit _ rfl
      | exact Gen.writes_ts _
      | exact Gen.writes_indent_up
      | exact Gen.writes_indent_down
      | exact Gen.writes_ts_indent _
      | exact Gen.writes_ts_print_doc _ _
      | exact Gen.writes_pure _
      | exact writes_client_call_body _ _
      | apply Gen.writes_bind
      | apply Gen.writes_ite
      | intro _))
  case h =>
    unfold client_call_statements
    cases hes6 : g.gen_es6_ <;>
      simp only [hes6, if_true, if_false, Bool.false_eq_true, List.cons_append,
        List.nil_append, List.append_assoc, List.append_nil, ite_self, Bool.not_false]

theorem writes_client_params : ∀ fields : List t_field,
    Gen.writes (generate_service_client_params fields) (param_entries fields) := by
  intro fields
  induction fields with
  | nil => exact Gen.writes_pure ()
  | cons f rest ih =>
    rw [generate_service_client_params, param_entries]
    refine Gen.writes_congr _ _ _
      (Gen.writes_bind _ _ _ _ (Gen.writes_emit _ rfl) (fun _ => ih)) ?_
    rfl

theorem writes_client_send_flush (g : t_js_generator) (f : t_function) :
    Gen.writes (g.generate_service_client_send_flush f) (client_send_flush_statements g f) := by
  apply Gen.writes_congr
  case hx =>
    simp only [generate_service_client_send_flush, Gen.bind_def, Gen.pure_def]
    (repeat' (first
      | exact Gen.writes_emit _ rfl
      | exact Gen.writes_indent_up
      | exact Gen.writes_indent_down
      | exact Gen.writes_pure _
      | apply Gen.writes_bind
      | apply Gen.writes_ite
      | intro _))
  case h =>
    unfold client_send_flush_statements
    cases hes6 : g.gen_es6_ <;> cases hnode : g.gen_node_ <;> cases hjq : g.gen_jquery_ <;>
      cases hone : f.oneway <;>
      simp only [hes6, hnode, hjq, hone, if_true, if_false, Bool.false_eq_true,
        List.cons_append, List.nil_append, List.append_assoc, List.append_nil]

theorem writes_client_send (g : t_js_generator) (tservice : t_service) (f : t_function) :
    Gen.writes (g.generate_service_client_send tservice f)
      (client_send_statements g tservice f) := by
  apply Gen.writes_congr
  case hx =>
    simp only [generate_service_client_send, Gen.bind_def, Gen.pure_def]
    (repeat' (first
      | exact Gen.writes_emit _ rfl
      | exact Gen.writes_indent_up
      | exact Gen.writes_indent_down
      | exact Gen.writes_pure _
      | exact writes_client_params _
      | exact writes_client_send_flush _ _
      | apply Gen.writes_bind
      | apply Gen.writes_ite
      | intro _))
  case h =>
    unfold client_send_statements
    cases hes6 : g.gen_es6_ <;> cases hnode : g.gen_node_ <;>
      by_cases hlen : f.arglist.members.length > 0 <;>
      simp only [hes6, hnode, hlen, if_true, if_false, Bool.false_eq_true,
        List.cons_append, List.nil_append, List.append_assoc, List.append_nil,
        Bool.not_true, Bool.not_false]

theorem writes_client_recv_xceptions (g : t_js_generator) (xceptions : List t_field) :
    Gen.writes (g.generate_service_client_recv_xceptions xceptions)
      (xceptions.map fun x =>
        .recv (.recv_if_exception x.name (g.render_recv_throw ("result." ++ x.name)))) := by
  have h := Gen.writes_for_each
    (fun x : t_field =>
      Gen.emit (.recv (.recv_if_exception x.name (g.render_recv_throw ("result." ++ x.name)))))
    (fun x => [.recv (.recv_if_exception x.name (g.render_recv_throw ("result." ++ x.name)))])
    (by intro x; exact Gen.writes_emit _ rfl) xceptions
  refine Gen.writes_congr _ _ _ h ?_
  clear h
  induction xceptions with
  | nil => rfl
  | cons x rest ih =>
    rw [List.map_cons, List.flatten_cons, List.map_cons, List.singleton_append, ih]

theorem writes_client_recv (g : t_js_generator) (tservice : t_service) (f : t_function) :
    Gen.writes (g.generate_service_client_recv tservice f)
      (client_recv_statements g tservice f) := by
  apply Gen.writes_congr
  case hx =>
    simp only [generate_service_client_recv, Gen.bind_def, Gen.pure_def]
    (repeat' (first
      | exact Gen.writes_emit _ rfl
      | exact Gen.writes_indent_up
      | exact Gen.writes_indent_down
      | exact Gen.writes_scope_down
      | exact Gen.writes_pure _
      | exact writes_client_recv_xceptions _ _
      | apply Gen.writes_bind
      | apply Gen.writes_ite
      | intro _))
  case h =>
    unfold client_recv_statements client_recv_head
    have hs : (" = function(" ++ ")" : String) = " = function()" := rfl
    cases hes6 : g.gen_es6_ <;> cases hnode : g.gen_node_ <;>
      cases hvoid : f.returntype.is_void <;>
      simp only [hes6, hnode, hvoid, if_true, if_false, Bool.false_eq_true,
        List.cons_append, List.nil_append, List.append_assoc, List.append_nil,
        Bool.not_true, Bool.not_false, function_signature, argument_list, List.foldl_nil,
        String.empty_append, String.append_assoc, hs]

theorem writes_client_function (g : t_js_generator) (tservice : t_service) (f : t_function) :
    Gen.writes (g.generate_service_client_function tservice f)
      (client_function_statements g tservice f) := by
  apply Gen.writes_congr
  case hx =>
    simp only [generate_service_client_function, Gen.bind_def, Gen.pure_def]
    (repeat' (first
      | exact writes_client_call _ _ _
      | exact writes_client_send _ _ _
      | exact writes_client_recv _ _ _
      | exact Gen.writes_pure _
      | apply Gen.writes_bind
      | apply Gen.writes_ite
      | intro _))
  case h =>
    unfold client_function_statements
    cases hone : f.oneway <;>
      simp only [hone, if_true, if_false, Bool.false_eq_true, List.append_assoc,
        List.append_nil, Bool.not_true, Bool.not_false]

/-- C22 fails in the jQuery dialect: for the oneway function `ping` the method
that calls it hands `this.recv_ping` to `jqRequest` in its asynchronous branch
(the branch without a callback calls no receive function), although the client
defines no `recv_ping`; in the standard dialect the same method mentions no
receive function. -/
theorem jquery_call_passes_recv_of_oneway :
    ping_function.oneway = true
      ∧ js_statements (jquery_generator.generate_service_client_call registry_service
            ping_function {}).out
          = [.client .blank,
              .client (.call_head_proto "Registry" "ping = function(callback)"),
              .client .if_no_callback,
              .client (.this_send "ping" ""),
              .else_,
              .client (.post_data "var " "ping" "" ""),
              .client .return_transport,
              .client (.jq_request "ping"),
              .close,
              .method_end false]
      ∧ (Js.client (.jq_request "ping")).text "      "
          = "      .jqRequest(this, postData, arguments, this.recv_ping);\n"
      ∧ (js_statements (jquery_generator.generate_service_client_function registry_service
            ping_function {}).out).any Js.is_recv = false
      ∧ js_statements (browser_generator.generate_service_client_call registry_service
            ping_function {}).out
          = [.client .blank,
              .client (.call_head_proto "Registry" "ping = function(callback)"),
              .client (.this_send_callback "ping" "" ""),
              .method_end false] := by
  refine ⟨rfl, ?_, rfl, ?_, ?_⟩
  · rw [(writes_client_call jquery_generator registry_service ping_function {}).2]
    rfl
  · rw [(writes_client_function jquery_generator registry_service ping_function {}).2]
    rfl
  · rw [(writes_client_call browser_generator registry_service ping_function {}).2]
    rfl

/-- C23: the receive function of a function decodes the message and the result
struct and then tests the fields of the throws list, one after the other in
the order of their declaration: the first whose slot is not null is raised
(thrown, or handed to the callback in the node dialects).  After these tests a
function that returns a value returns the success slot when it is not null and
raises `'<name> failed: unknown result'` otherwise; a void function returns
normally. -/
theorem recv_raises_declared_exceptions (g : t_js_generator) (tservice : t_service)
    (f : t_function) (s : GenState) :
    js_statements (g.generate_service_client_recv tservice f s).out
        = [.recv .blank, client_recv_head g tservice f,
            if g.gen_node_ then .recv (.recv_callback g.js_const_type_)
            else .recv (.recv_read_begin g.js_const_type_),
            .recv .if_mtype_exception,
            .recv (.recv_exception g.js_const_type_
              (if g.gen_node_ then "input" else "this.input") (g.render_recv_throw "x")),
            .close,
            .recv (.recv_result g.js_const_type_
              (g.js_namespace tservice.program ++ g.service_name_ ++ "_" ++ f.name ++ "_result")
              (if g.gen_node_ then "input" else "this.input")),
            .recv (.recv_message_end (if g.gen_node_ then "input" else "this.input"))]
          ++ f.xceptions.members.map (fun x =>
              .recv (.recv_if_exception x.name (g.render_recv_throw ("result." ++ x.name))))
          ++ (if f.returntype.is_void then
                [if g.gen_node_ then .recv .callback_null else .return_]
              else
                [.recv (.recv_if_success (g.render_recv_return "result.success")),
                  .recv (.recv_unknown
                    (g.render_recv_throw ("'" ++ f.name ++ " failed: unknown result'")))])
          ++ [if g.gen_es6_ then .close else .class_end]
      ∧ (∀ var, g.render_recv_throw var
          = if g.gen_node_ then "return callback(" ++ var ++ ");" else "throw " ++ var ++ ";")
      ∧ (∀ var, g.render_recv_return var
          = if g.gen_node_ then "return callback(null, " ++ var ++ ");"
            else "return " ++ var ++ ";")
      ∧ (∀ ind name throw_, (Js.recv (.recv_if_exception name throw_)).text ind
          = ind ++ "if (null !== result." ++ name ++ ") \x7b\n"
            ++ ind ++ "  " ++ throw_ ++ "\n"
            ++ ind ++ "\x7d\n")
      ∧ (∀ ind ret, (Js.recv (.recv_if_success ret)).text ind
          = ind ++ "if (null !== result.success) \x7b\n"
            ++ ind ++ "  " ++ ret ++ "\n"
            ++ ind ++ "\x7d\n")
      ∧ (∀ ind throw_, (Js.recv (.recv_unknown throw_)).text ind = ind ++ throw_ ++ "\n")
      ∧ (∀ ind, (Js.recv .callback_null).text ind = ind ++ "callback(null);\n")
      ∧ (∀ ind, Js.return_.text ind = ind ++ "return;\n") := by
  refine ⟨?_, fun _ => rfl, fun _ => rfl, fun _ _ _ => rfl, fun _ _ => rfl, fun _ _ => rfl,
    fun _ => rfl, fun _ => rfl⟩
  rw [(writes_client_recv g tservice f s).2]
  rfl

/-! ## The handler of the c_glib test client -/

/-- C33: `TestHandler::testMultiException` throws an `Xception` exactly when
`arg0` is "Xception", and its error code is then 1001; it throws an `Xception2`
exactly when `arg0` is "Xception2", and its error code is then 2002; for every
other `arg0` it returns with `result.string_thing` equal to `arg1`; no call
throws both. -/
theorem testMultiException_outcome (result : Xtruct) (arg0 arg1 : String) :
    ((∃ e, (TestHandler.testMultiException result arg0 arg1).result = .error (.xception e))
        ↔ arg0 = "Xception")
    ∧ (∀ e, (TestHandler.testMultiException result arg0 arg1).result = .error (.xception e)
        → e.errorCode = 1001)
    ∧ ((∃ e, (TestHandler.testMultiException result arg0 arg1).result = .error (.xception2 e))
        ↔ arg0 = "Xception2")
    ∧ (∀ e, (TestHandler.testMultiException result arg0 arg1).result = .error (.xception2 e)
        → e.errorCode = 2002)
    ∧ (arg0 ≠ "Xception" → arg0 ≠ "Xception2"
        → ∃ r, (TestHandler.testMultiException result arg0 arg1).result = .ok r
            ∧ r.string_thing = arg1)
    ∧ ¬ ((∃ e, (TestHandler.testMultiException result arg0 arg1).result = .error (.xception e))
        ∧ (∃ e, (TestHandler.testMultiException result arg0 arg1).result
            = .error (.xception2 e))) := by
  by_cases h1 : arg0 = "Xception"
  · subst h1
    refine ⟨⟨fun _ => rfl, fun _ => ⟨_, rfl⟩⟩, ?_, ⟨?_, ?_⟩, ?_, ?_, ?_⟩
    · intro e h
      simp only [TestHandler.testMultiException, if_true] at h
      injection h with h; injection h with h; subst h; rfl
    · rintro ⟨e, h⟩
      simp only [TestHandler.testMultiException, if_true] at h
      injection h with h; cases h
    · intro h; exact absurd h (by decide)
    · intro e h
      simp only [TestHandler.testMultiException, if_true] at h
      injection h with h; cases h
    · intro h; exact absurd rfl h
    · rintro ⟨_, e, h⟩
      simp only [TestHandler.testMultiException, if_true] at h
      injection h with h; cases h
  · by_cases h2 : arg0 = "Xception2"
    · subst h2
      refine ⟨⟨?_, ?_⟩, ?_, ⟨fun _ => rfl, fun _ => ⟨_, rfl⟩⟩, ?_, ?_, ?_⟩
      · rintro ⟨e, h⟩
        simp only [TestHandler.testMultiException, if_neg h1, if_true] at h
        injection h with h; cases h
      · intro h; exact absurd h h1
      · intro e h
        simp only [TestHandler.testMultiException, if_neg h1, if_true] at h
        injection h with h; cases h
      · intro e h
        simp only [TestHandler.testMultiException, if_neg h1, if_true] at h
        injection h with h; injection h with h; subst h; rfl
      · intro _ h; exact absurd rfl h
      · rintro ⟨⟨e, h⟩, _⟩
        simp only [TestHandler.testMultiException, if_neg h1, if_true] at h
        injection h with h; cases h
    · refine ⟨⟨?_, fun h => absurd h h1⟩, ?_, ⟨?_, fun h => absurd h h2⟩, ?_, ?_, ?_⟩
      · rintro ⟨e, h⟩
        simp only [TestHandler.testMultiException, if_neg h1, if_neg h2] at h
        cases h
      · intro e h
        simp only [TestHandler.testMultiException, if_neg h1, if_neg h2] at h
        cases h
      · rintro ⟨e, h⟩
        simp only [TestHandler.testMultiException, if_neg h1, if_neg h2] at h
        cases h
      · intro e h
        simp only [TestHandler.testMultiException, if_neg h1, if_neg h2] at h
        cases h
      · intro _ _
        refine ⟨{ result with string_thing := arg1 }, ?_, rfl⟩
        simp only [TestHandler.testMultiException, if_neg h1, if_neg h2]
      · rintro ⟨⟨e, h⟩, _⟩
        simp only [TestHandler.testMultiException, if_neg h1, if_neg h2] at h
        cases h

/-- The call of the client test with "Xception2": an `Xception2` with error
code 2002 and no `Xception`; and a call with another first argument returns
the second argument in `string_thing`. -/
theorem testMultiException_outcome_witness :
    (∃ e, (TestHandler.testMultiException {} "Xception2" "").result = .error (.xception2 e))
    ∧ (∀ e, (TestHandler.testMultiException {} "Xception2" "").result = .error (.xception2 e)
        → e.errorCode = 2002)
    ∧ ("Test" ≠ "Xception" ∧ "Test" ≠ "Xception2"
        ∧ ∃ r, (TestHandler.testMultiException {} "Test" "second").result = .ok r
            ∧ r.string_thing = "second") :=
  ⟨(testMultiException_outcome {} "Xception2" "").2.2.1.2 rfl,
   (testMultiException_outcome {} "Xception2" "").2.2.2.1,
   by decide, by decide,
   (testMultiException_outcome {} "Test" "second").2.2.2.2.1 (by decide) (by decide)⟩

/-! ## Names of the callback parameter -/

theorem make_valid_chars (name : String) :
    ∀ c ∈ (make_valid_nodeJs_identifier name).data, valid_identifier_char c = true := by
  intro c hc
  rw [make_valid_nodeJs_identifier_data] at hc
  rcases List.mem_append.mp hc with h | h
  · split at h
    · rw [List.mem_singleton.mp h]; rfl
    · cases h
  · obtain ⟨d, _, rfl⟩ := List.mem_map.mp h
    exact sanitize_char_valid d

theorem map_sanitize_valid (l : List Char) (h : ∀ c ∈ l, valid_identifier_char c = true) :
    l.map sanitize_char = l := by
  induction l with
  | nil => rfl
  | cons c rest ih =>
    rw [List.map_cons, ih (fun x hx => h x (List.mem_cons_of_mem _ hx)), sanitize_char,
      if_pos (h c (List.mem_cons_self _ _))]

theorem make_valid_underscore (name : String)
    (h : ∀ c ∈ name.data, valid_identifier_char c = true) :
    make_valid_nodeJs_identifier ("_" ++ name) = "_" ++ name := by
  apply String.ext
  rw [make_valid_nodeJs_identifier_data]
  have hd : ("_" ++ name).data = '_' :: name.data := rfl
  have hs : starts_with_digit ("_" ++ name) = false := by
    unfold starts_with_digit
    rw [hd]
    rfl
  rw [hs, hd]
  simp only [Bool.false_eq_true, if_false, List.nil_append]
  apply map_sanitize_valid
  intro c hc
  rcases List.mem_cons.mp hc with h1 | h1
  · rw [h1]; rfl
  · exact h c h1

theorem underscored_chars (k : Nat) (name : String)
    (h : ∀ c ∈ name.data, valid_identifier_char c = true) :
    ∀ c ∈ (underscored k name).data, valid_identifier_char c = true := by
  intro c hc
  have hd : (underscored k name).data = List.replicate k '_' ++ name.data := rfl
  rw [hd] at hc
  rcases List.mem_append.mp hc with h1 | h1
  · rw [(List.mem_replicate.mp h1).2]; rfl
  · exact h c h1

theorem underscored_succ (k : Nat) (name : String) :
    "_" ++ underscored k name = underscored (k + 1) name := by
  apply String.ext
  rfl

theorem underscored_length (k : Nat) (name : String) :
    (underscored k name).length = k + name.length := by
  have hd : (underscored k name).data = List.replicate k '_' ++ name.data := rfl
  rw [String.length, hd, List.length_append, List.length_replicate, String.length]

theorem find_field_iff (fields : List t_field) (name : String) :
    find_field fields name = true ↔ name ∈ fields.map (fun f => f.name) := by
  induction fields with
  | nil => simp [find_field]
  | cons f rest ih =>
    simp only [find_field, List.map_cons, List.mem_cons]
    by_cases hn : f.name = name
    · simp [hn]
    · rw [if_neg hn, ih]
      constructor
      · intro h; exact Or.inr h
      · rintro (h | h)
        · exact absurd h.symm hn
        · exact h

theorem exists_free_name (fields : List t_field) (name : String) :
    ∃ k, k ≤ fields.length ∧ find_field fields (underscored k name) = false := by
  by_contra hcon
  have hall : ∀ k, k ≤ fields.length → find_field fields (underscored k name) = true := by
    intro k hk
    by_contra hf
    exact hcon ⟨k, hk, by simpa using hf⟩
  have hnodup : ((List.range (fields.length + 1)).map (fun k => underscored k name)).Nodup := by
    apply List.Nodup.map _ (List.nodup_range _)
    intro a b hab
    have := congrArg String.length hab
    simp only [underscored_length] at this
    omega
  have hsub : (List.range (fields.length + 1)).map (fun k => underscored k name)
      ⊆ fields.map (fun f => f.name) := by
    intro x hx
    obtain ⟨k, hk, rfl⟩ := List.mem_map.mp hx
    exact (find_field_iff fields _).mp (hall k (by have := List.mem_range.mp hk; omega))
  have hle := (List.Nodup.subperm hnodup hsub).length_le
  simp only [List.length_map, List.length_range] at hle
  omega

theorem next_identifier_name_loop_step (fields : List t_field) (current_name : String) :
    next_identifier_name_loop fields current_name
      = if find_field fields current_name then
          next_identifier_name_loop fields (make_valid_nodeJs_identifier ("_" ++ current_name))
        else current_name := by
  rw [next_identifier_name_loop]

theorem next_identifier_name_loop_reaches (fields : List t_field) (name : String)
    (hv : ∀ c ∈ name.data, valid_identifier_char c = true) (k : Nat)
    (hk : find_field fields (underscored k name) = false) :
    ∀ d j, j + d = k → (∀ i, j ≤ i → i < k → find_field fields (underscored i name) = true) →
      next_identifier_name_loop fields (underscored j name) = underscored k name := by
  intro d
  induction d with
  | zero =>
    intro j hj _
    have : j = k := by omega
    subst this
    rw [next_identifier_name_loop_step, hk]
    rfl
  | succ d ih =>
    intro j hj hbelow
    rw [next_identifier_name_loop_step, hbelow j (Nat.le_refl _) (by omega), if_pos rfl,
      make_valid_underscore _ (underscored_chars j name hv), underscored_succ]
    exact ih (j + 1) (by omega) (fun i hi hik => hbelow i (by omega) hik)

/-- C31: `next_identifier_name` is a total function; for every field list and
every base name its result is the sanitised base name with `k` underscores in
front, where `k` is the least number for which that name is no field name, `k`
is at most the number of fields, and no field has the result as its name. -/
theorem next_identifier_name_fresh (fields : List t_field) (base_name : String) :
    ∃ k, k ≤ fields.length
      ∧ next_identifier_name fields base_name
          = underscored k (make_valid_nodeJs_identifier base_name)
      ∧ (∀ j, j < k →
          find_field fields (underscored j (make_valid_nodeJs_identifier base_name)) = true)
      ∧ find_field fields (next_identifier_name fields base_name) = false
      ∧ ∀ f ∈ fields, f.name ≠ next_identifier_name fields base_name := by
  have hex := exists_free_name fields (make_valid_nodeJs_identifier base_name)
  have hex2 : ∃ k, find_field fields (underscored k (make_valid_nodeJs_identifier base_name))
      = false := by
    obtain ⟨k, _, hk⟩ := hex
    exact ⟨k, hk⟩
  obtain ⟨k, hspec, hmin⟩ : ∃ k,
      find_field fields (underscored k (make_valid_nodeJs_identifier base_name)) = false
      ∧ ∀ j, j < k →
        ¬ find_field fields (underscored j (make_valid_nodeJs_identifier base_name)) = false :=
    ⟨Nat.find hex2, Nat.find_spec hex2, fun j hj => Nat.find_min hex2 hj⟩
  have hle : k ≤ fields.length := by
    obtain ⟨k1, hk1, hf⟩ := hex
    by_contra hgt
    exact hmin k1 (by omega) hf
  have hbelow : ∀ j, j < k →
      find_field fields (underscored j (make_valid_nodeJs_identifier base_name)) = true := by
    intro j hj
    have := hmin j hj
    simpa using this
  have h0 : underscored 0 (make_valid_nodeJs_identifier base_name)
      = make_valid_nodeJs_identifier base_name := by
    apply String.ext
    rfl
  have hres : next_identifier_name fields base_name
      = underscored k (make_valid_nodeJs_identifier base_name) := by
    have := next_identifier_name_loop_reaches fields _ (make_valid_chars base_name) k hspec k 0
      (by omega) (fun i _ hi => hbelow i hi)
    rw [h0] at this
    exact this
  refine ⟨k, hle, hres, hbelow, ?_, ?_⟩
  · rw [hres]; exact hspec
  · intro f hf heq
    have hm : next_identifier_name fields base_name ∈ fields.map (fun f => f.name) :=
      List.mem_map.mpr ⟨f, hf, heq⟩
    have := (find_field_iff fields _).mpr hm
    rw [hres, hspec] at this
    cases this

/-- Two arguments named like the callback parameter and its first
replacement: the callback parameter of such a function is `__callback`. -/
theorem next_identifier_name_fresh_witness :
    next_identifier_name callback_fields "callback" = "__callback" := by
  obtain ⟨k, hk, hres, _, hfree, _⟩ := next_identifier_name_fresh callback_fields "callback"
  rw [hres] at hfree
  rw [hres]
  have hk2 : k ≤ 2 := hk
  have h0 : find_field callback_fields
      (underscored 0 (make_valid_nodeJs_identifier "callback")) = true := by decide
  have h1 : find_field callback_fields
      (underscored 1 (make_valid_nodeJs_identifier "callback")) = true := by decide
  have : k = 2 := by
    rcases Nat.lt_or_ge k 2 with h | h
    · rcases Nat.lt_or_ge k 1 with h3 | h3
      · have : k = 0 := by omega
        subst this
        rw [h0] at hfree
        cases hfree
      · have : k = 1 := by omega
        subst this
        rw [h1] at hfree
        cases hfree
    · omega
  subst this
  decide

/-! ## TypeScript signatures -/

theorem ts_get_req_eq (f : t_field) :
    ts_get_req f = if is_optional_parameter f then "?" else "" := by
  unfold ts_get_req is_optional_parameter
  by_cases h1 : f.req = .T_OPTIONAL
  · simp [h1]
  · by_cases h2 : f.value.isSome = true
    · simp [h2]
    · simp [h1, h2]

theorem ts_function_signature_fields_eq (g : t_js_generator) (include_callback : Bool)
    (fields : List t_field) :
    ∀ (rest pre : List t_field) (str : String), fields = pre ++ rest →
      ts_function_signature_fields g include_callback fields.length rest str
          (pre.any is_optional_parameter)
        = str ++ String.join ((rest.enumFrom pre.length).map fun p =>
            p.2.name ++ ts_parameter_mark fields p.1 ++ ": " ++ g.ts_get_type p.2.type
              ++ (if p.1 + 1 < fields.length ∨ (include_callback = true ∧ fields.length > 0)
                  then ", " else "")) := by
  intro rest
  induction rest with
  | nil =>
    intro pre str _
    simp only [ts_function_signature_fields, List.enumFrom_nil, List.map_nil, string_join_nil]
    exact (String.append_empty str).symm
  | cons f rest ih =>
    intro pre str hf
    have hf2 : fields = (pre ++ [f]) ++ rest := by rw [hf]; simp
    have hlen : fields.length = pre.length + 1 + rest.length := by
      rw [hf]; simp only [List.length_append, List.length_cons]; omega
    have htake : fields.take (pre.length + 1) = pre ++ [f] := by
      rw [hf2]
      have : (pre ++ [f]).length = pre.length + 1 := by simp
      rw [← this, List.take_left]
    have hany : (pre ++ [f]).any is_optional_parameter
        = (pre.any is_optional_parameter || is_optional_parameter f) := by
      simp [List.any_append]
    have hmark : (if pre.any is_optional_parameter = true then "?" else ts_get_req f)
        = ts_parameter_mark fields pre.length := by
      unfold ts_parameter_mark
      rw [htake, hany, ts_get_req_eq]
      cases pre.any is_optional_parameter <;> cases is_optional_parameter f <;> rfl
    have hflag : (pre.any is_optional_parameter
          || decide ((if pre.any is_optional_parameter = true then "?" else ts_get_req f).length
              > 0))
        = (pre ++ [f]).any is_optional_parameter := by
      rw [hany, ts_get_req_eq]
      cases pre.any is_optional_parameter <;> cases is_optional_parameter f <;> rfl
    have hsep : ((!rest.isEmpty) = true ∨ (include_callback = true ∧ fields.length > 0))
        ↔ (pre.length + 1 < fields.length ∨ (include_callback = true ∧ fields.length > 0)) := by
      have : (!rest.isEmpty) = true ↔ pre.length + 1 < fields.length := by
        cases rest with
        | nil => simp [hlen]
        | cons a b => simp [hlen]
      rw [this]
    simp only [ts_function_signature_fields]
    rw [hflag, hmark]
    have hpl : (pre ++ [f]).length = pre.length + 1 := by simp
    have := ih (pre ++ [f])
      (if (!rest.isEmpty) = true ∨ (include_callback = true ∧ fields.length > 0) then
        str ++ (f.name ++ ts_parameter_mark fields pre.length ++ ": " ++ g.ts_get_type f.type)
          ++ ", "
       else str ++ (f.name ++ ts_parameter_mark fields pre.length ++ ": "
          ++ g.ts_get_type f.type)) hf2
    rw [hpl] at this
    rw [this, List.enumFrom_cons, List.map_cons, string_join_cons]
    simp only
    by_cases hs : pre.length + 1 < fields.length ∨ (include_callback = true ∧ fields.length > 0)
    · rw [if_pos (hsep.mpr hs), if_pos hs]
      simp only [String.append_assoc]
    · rw [if_neg (fun h => hs (hsep.mp h)), if_neg hs]
      simp only [String.append_assoc, String.append_empty]

theorem ts_parameter_mark_mono (fields : List t_field) (i j : Nat) (hij : i ≤ j)
    (h : ts_parameter_mark fields i = "?") : ts_parameter_mark fields j = "?" := by
  unfold ts_parameter_mark at h ⊢
  by_cases hi : (fields.take (i + 1)).any is_optional_parameter = true
  · have hj : (fields.take (j + 1)).any is_optional_parameter = true := by
      rw [List.any_eq_true] at hi ⊢
      obtain ⟨x, hx, hp⟩ := hi
      exact ⟨x, (List.take_subset_take_left fields (by omega)) hx, hp⟩
    rw [if_pos hj]
  · rw [if_neg hi] at h
    exact absurd h (by decide)

theorem ts_parameter_mark_iff (fields : List t_field) (i : Nat) :
    ts_parameter_mark fields i = "?"
      ↔ ∃ k f, k ≤ i ∧ fields[k]? = some f
          ∧ (f.req = .T_OPTIONAL ∨ f.value.isSome = true) := by
  unfold ts_parameter_mark
  constructor
  · intro h
    by_cases hi : (fields.take (i + 1)).any is_optional_parameter = true
    · rw [List.any_eq_true] at hi
      obtain ⟨x, hx, hp⟩ := hi
      obtain ⟨k, hk, hget⟩ := List.getElem_of_mem hx
      have hk2 : k < i + 1 ∧ k < fields.length := by
        rw [List.length_take] at hk; omega
      refine ⟨k, x, by omega, ?_, ?_⟩
      · rw [List.getElem_take] at hget
        rw [List.getElem?_eq_getElem hk2.2, hget]
      · simpa [is_optional_parameter] using hp
    · rw [if_neg hi] at h
      exact absurd h (by decide)
  · rintro ⟨k, f, hk, hget, hopt⟩
    have hmem : f ∈ fields.take (i + 1) := by
      have hlt : k < fields.length := by
        by_contra hge
        rw [List.getElem?_eq_none (by omega)] at hget
        cases hget
      rw [List.getElem?_eq_getElem hlt] at hget
      have hlt2 : k < (fields.take (i + 1)).length := by
        rw [List.length_take]; omega
      have : (fields.take (i + 1))[k] = f := by
        rw [List.getElem_take]
        exact Option.some.inj hget
      rw [← this]
      exact List.getElem_mem _
    have : (fields.take (i + 1)).any is_optional_parameter = true := by
      rw [List.any_eq_true]
      exact ⟨f, hmem, by simpa [is_optional_parameter] using hopt⟩
    rw [if_pos this]

/-- C32: the signature returned by `ts_function_signature` is the function
name, "(", the parameters in declaration order and a tail; the parameter at
position `i` is written as name, mark, ": ", type, where the mark is "?"
exactly when that parameter or an earlier one is optional or has a default
value, and "" otherwise; so every parameter after one marked "?" is marked "?"
too. -/
theorem ts_function_signature_optional_order (g : t_js_generator) (tfunction : t_function)
    (include_callback : Bool) :
    (∃ tail, ts_function_signature g tfunction include_callback
        = tfunction.name ++ "("
            ++ String.join (ts_parameters g include_callback tfunction.arglist.members) ++ tail)
    ∧ (ts_parameters g include_callback tfunction.arglist.members).length
        = tfunction.arglist.members.length
    ∧ (∀ i f, tfunction.arglist.members[i]? = some f →
        ∃ sep, (ts_parameters g include_callback tfunction.arglist.members)[i]?
          = some (f.name ++ ts_parameter_mark tfunction.arglist.members i ++ ": "
              ++ g.ts_get_type f.type ++ sep))
    ∧ (∀ i, ts_parameter_mark tfunction.arglist.members i = "?"
        ∨ ts_parameter_mark tfunction.arglist.members i = "")
    ∧ (∀ i, ts_parameter_mark tfunction.arglist.members i = "?"
        ↔ ∃ k f, k ≤ i ∧ tfunction.arglist.members[k]? = some f
            ∧ (f.req = .T_OPTIONAL ∨ f.value.isSome = true))
    ∧ (∀ i j, i ≤ j → ts_parameter_mark tfunction.arglist.members i = "?"
        → ts_parameter_mark tfunction.arglist.members j = "?") := by
  refine ⟨?_, ?_, ?_, ?_, ts_parameter_mark_iff _, ts_parameter_mark_mono _⟩
  · have h := ts_function_signature_fields_eq g include_callback tfunction.arglist.members
      tfunction.arglist.members [] (tfunction.name ++ "(") rfl
    simp only [List.any_nil, List.length_nil] at h
    unfold ts_function_signature
    simp only
    rw [h]
    unfold ts_parameters List.enum
    repeat' split
    all_goals first | exact ⟨_, rfl⟩ | exact ⟨_, String.append_assoc _ _ _⟩
  · simp [ts_parameters]
  · intro i f hf
    refine ⟨if i + 1 < tfunction.arglist.members.length
        ∨ (include_callback = true ∧ tfunction.arglist.members.length > 0) then ", " else "", ?_⟩
    unfold ts_parameters
    rw [List.getElem?_map, List.getElem?_enum, hf]
    rfl
  · intro i
    unfold ts_parameter_mark
    split
    · exact Or.inl rfl
    · exact Or.inr rfl

/-- In `search(limit, key)` the first argument has a default value, so it is
marked "?", and the second argument, which has none, is marked "?" as well. -/
theorem ts_function_signature_optional_order_witness :
    ts_parameter_mark search_function.arglist.members 0 = "?"
      ∧ ts_parameter_mark search_function.arglist.members 1 = "?" :=
  ⟨by decide,
   (ts_function_signature_optional_order sample_generator search_function false).2.2.2.2.2 0 1
      (by decide) (by decide)⟩

/-! ## Hexadecimal Int64 constants -/

theorem hex_digit_value_digitChar (d : Nat) (h : d < 16) :
    hex_digit_value (Nat.digitChar d) = d ∧ is_lower_hex (Nat.digitChar d) = true
      ∧ (d ≠ 0 → Nat.digitChar d ≠ '0') := by
  interval_cases d <;> decide

theorem toDigitsCore_hex_value (f : Nat) : ∀ (n : Nat) (acc : List Char), n < f →
    (Nat.toDigitsCore 16 f n acc).foldl (fun a c => 16 * a + hex_digit_value c) 0
      = acc.foldl (fun a c => 16 * a + hex_digit_value c) n := by
  induction f with
  | zero => intro n acc h; omega
  | succ f ih =>
    intro n acc h
    have hd := (hex_digit_value_digitChar (n % 16) (Nat.mod_lt _ (by decide))).1
    simp only [Nat.toDigitsCore]
    split
    · rename_i h0
      rw [List.foldl_cons, hd]
      have : 16 * 0 + n % 16 = n := by omega
      rw [this]
    · rename_i h0
      rw [ih (n / 16) _ (by omega), List.foldl_cons, hd]
      have : 16 * (n / 16) + n % 16 = n := by omega
      rw [this]

theorem toDigitsCore_hex_chars (f : Nat) : ∀ (n : Nat) (acc : List Char) (c : Char),
    c ∈ Nat.toDigitsCore 16 f n acc → c ∈ acc ∨ is_lower_hex c = true := by
  induction f with
  | zero => intro n acc c h; simp [Nat.toDigitsCore] at h; exact Or.inl h
  | succ f ih =>
    intro n acc c h
    simp only [Nat.toDigitsCore] at h
    have hd := (hex_digit_value_digitChar (n % 16) (Nat.mod_lt _ (by decide))).2.1
    split at h
    · rcases List.mem_cons.mp h with h | h
      · exact Or.inr (h ▸ hd)
      · exact Or.inl h
    · rcases ih _ _ _ h with h | h
      · rcases List.mem_cons.mp h with h | h
        · exact Or.inr (h ▸ hd)
        · exact Or.inl h
      · exact Or.inr h

theorem toDigitsCore_hex_head (f : Nat) : ∀ (n : Nat) (acc : List Char), n < f → n ≠ 0 →
    ∃ c rest, Nat.toDigitsCore 16 f n acc = c :: rest ∧ c ≠ '0' := by
  induction f with
  | zero => intro n acc h; omega
  | succ f ih =>
    intro n acc h hn
    simp only [Nat.toDigitsCore]
    split
    · rename_i h0
      refine ⟨_, _, rfl, ?_⟩
      exact (hex_digit_value_digitChar (n % 16) (Nat.mod_lt _ (by decide))).2.2 (by omega)
    · rename_i h0
      exact ih (n / 16) _ (by omega) h0

theorem read_hex_hex64 (v : Int) : (read_hex (hex64 v) : Int) = v % 2 ^ 64 := by
  unfold read_hex hex64 Nat.toDigits
  simp only
  rw [toDigitsCore_hex_value _ _ _ (Nat.lt_succ_self _), List.foldl_nil]
  exact Int.toNat_of_nonneg (Int.emod_nonneg _ (by decide))

/-- C36: for every 64-bit constant `v` outside the range from
-9007199254740991 to 9007199254740991, `render_const_value` returns
`new Int64('h')` where `h` consists of lower-case hexadecimal digits only (no
sign, no base mark), does not start with `0`, stands for `v mod 2^64`, and read
back as a 64-bit two-complement pattern gives `v`. -/
theorem render_const_value_i64_hex_numeral (g : t_js_generator) (binary : Bool) (v : Int)
    (s : GenState) (hlo : -2 ^ 63 ≤ v) (hhi : v < 2 ^ 63)
    (hout : v > 9007199254740991 ∨ v < -9007199254740991) :
    (render_const_value g (.base .TYPE_I64 binary) (.CV_INTEGER v) s).value?
        = some ("new Int64('" ++ hex64 v ++ "')")
      ∧ (∀ c ∈ (hex64 v).data, is_lower_hex c = true)
      ∧ (∀ c rest, (hex64 v).data = c :: rest → c ≠ '0')
      ∧ (read_hex (hex64 v) : Int) = v % 2 ^ 64
      ∧ twos_complement64 (read_hex (hex64 v)) = v := by
  have hval := read_hex_hex64 v
  refine ⟨?_, ?_, ?_, hval, ?_⟩
  · simp only [render_const_value, t_type.get_true_type, t_const_value.get_integer,
      max_safe_integer, min_safe_integer]
    rw [if_neg (by omega)]
    rfl
  · intro c hc
    rcases toDigitsCore_hex_chars _ _ _ _ hc with h | h
    · cases h
    · exact h
  · intro c rest hc
    have hne : (v % 2 ^ 64).toNat ≠ 0 := by
      have h1 : (0 : Int) ≤ v % 2 ^ 64 := Int.emod_nonneg _ (by decide)
      have h2 : v % 2 ^ 64 ≠ 0 := by omega
      omega
    obtain ⟨c1, rest1, h1, h2⟩ := toDigitsCore_hex_head _ _ [] (Nat.lt_succ_self _) hne
    have h3 : (hex64 v).data = c1 :: rest1 := h1
    rw [h3] at hc
    injection hc with hc _
    rw [← hc]
    exact h2
  · unfold twos_complement64
    have hnat : (read_hex (hex64 v) : Int) < 2 ^ 63 ↔ read_hex (hex64 v) < 2 ^ 63 := by
      constructor
      · intro h; exact_mod_cast h
      · intro h; exact_mod_cast h
    split
    · rename_i h
      have := hnat.mpr h
      omega
    · rename_i h
      have : ¬ (read_hex (hex64 v) : Int) < 2 ^ 63 := fun h1 => h (hnat.mp h1)
      omega

/-- The constant -9007199254740992 is written as `ffe0000000000000`, which read
back as a two-complement pattern is -9007199254740992 again. -/
theorem render_const_value_i64_hex_numeral_witness :
    (render_const_value { program_ := ⟨"p", ""⟩ } (.base .TYPE_I64 false)
        (.CV_INTEGER (-9007199254740992)) {}).value?
        = some ("new Int64('" ++ hex64 (-9007199254740992) ++ "')")
      ∧ hex64 (-9007199254740992) = "ffe0000000000000"
      ∧ twos_complement64 (read_hex (hex64 (-9007199254740992))) = -9007199254740992 :=
  ⟨(render_const_value_i64_hex_numeral { program_ := ⟨"p", ""⟩ } false (-9007199254740992) {}
      (by decide) (by decide) (Or.inr (by decide))).1,
   by rfl,
   (render_const_value_i64_hex_numeral { program_ := ⟨"p", ""⟩ } false (-9007199254740992) {}
      (by decide) (by decide) (Or.inr (by decide))).2.2.2.2⟩

/-! ## Labels of the reader -/

theorem case_label_of_field_codec (j : Js) (h : j.is_field_codec = true) :
    j.case_label = none := by
  cases j <;> first | rfl | cases h

theorem case_labels_append (a b : List Js) :
    case_labels (a ++ b) = case_labels a ++ case_labels b := by
  unfold case_labels
  rw [List.filterMap_append]

theorem case_labels_field_codec (out : List Line) (h : all_field_codec out = true) :
    case_labels (statements out) = [] := by
  unfold case_labels statements
  rw [List.filterMap_eq_nil_iff]
  intro j hj
  obtain ⟨l, hl, rfl⟩ := List.mem_map.mp hj
  simp only [all_field_codec, List.all_eq_true] at h
  exact case_label_of_field_codec _ (h l hl)

/-- The labels written by the loop of the reader: the ids of the fields. -/
theorem reader_case_labels (g : t_js_generator) :
    ∀ (fields : List t_field) (s : GenState), (∀ f ∈ fields, void_free f.type = true) →
      case_labels (statements (Gen.for_each fields (generate_js_struct_reader_case g) s).out)
        = fields.map (fun f => f.key) := by
  intro fields
  induction fields with
  | nil => intro s _; rfl
  | cons f rest ih =>
    intro s h
    have hf := h f (List.mem_cons_self _ _)
    obtain ⟨tag, htag, hok, hout⟩ := reader_case_block g f s hf
    have hcodec : all_field_codec
        (generate_deserialize_field g f "this." { s with indent_ := s.indent_ + 1 }).out
          = true := by
      obtain ⟨type, name, key, req, value⟩ := f
      exact (deserialize_calls g type name key req value "this." _ hf).2.2
    simp only [Gen.for_each, Gen.bind_ok_unit _ _ _ hok, statements_append, hout,
      case_labels_append, case_labels_field_codec _ hcodec,
      ih _ (fun f' hf' => h f' (List.mem_cons_of_mem _ hf')), List.map_cons]
    rfl

/-- The labels of the switch of the reader: the ids of the fields in
declaration order, and one more label `case 0:` when the struct has exactly
one field. -/
theorem struct_reader_case_labels (g : t_js_generator) (tstruct : t_struct) (s : GenState)
    (hne : tstruct.members ≠ []) (h : ∀ f ∈ tstruct.members, void_free f.type = true) :
    case_labels (statements (generate_js_struct_reader g tstruct s).out)
      = tstruct.members.map (fun f => f.key)
          ++ (if tstruct.members.length = 1 then [0] else []) := by
  rw [(struct_reader_statements g tstruct s hne h).2]
  simp only [case_labels_append, reader_case_labels g _ _ h]
  by_cases hlen : tstruct.members.length = 1
  · simp only [hlen, if_true]
    simp [case_labels, Js.case_label]
  · simp only [hlen, if_false]
    simp [case_labels, Js.case_label]

/-- C37 fails on the result struct of `count()`: its only field is `success`
with id 0, and the switch of its reader carries the label `case 0:` twice, the
second time as the pseudo case written for every struct with one field. -/
theorem result_struct_reader_repeats_case_zero :
    (generate_js_function_helpers_result directory_generator count_function).members.map
        (fun f => f.key) = [0]
      ∧ case_labels (statements (generate_js_struct_reader directory_generator
          (generate_js_function_helpers_result directory_generator count_function) {}).out)
        = [0, 0]
      ∧ ¬ (case_labels (statements (generate_js_struct_reader directory_generator
          (generate_js_function_helpers_result directory_generator count_function) {}).out)).Nodup
      := by
  have h := struct_reader_case_labels directory_generator
    (generate_js_function_helpers_result directory_generator count_function) {}
    (fun h0 => by cases h0) (by decide)
  refine ⟨rfl, ?_, ?_⟩
  · rw [h]; rfl
  · rw [h]; decide

/-! ## Container markers -/

theorem match_markers_codec_calls (t : t_type) :
    ∀ (rest : List Call) (open_ : List Kind),
      match_markers (codec_calls t ++ rest) open_ = match_markers rest open_ := by
  induction t with
  | base tbase binary =>
    intro rest open_
    cases tbase <;> cases binary <;> rfl
  | enum p n => intro rest open_; rfl
  | struct p n x => intro rest open_; rfl
  | typedef n t ih => intro rest open_; exact ih rest open_
  | list e ih =>
    intro rest open_
    simp only [codec_calls, List.append_eq, List.append_assoc, List.cons_append,
      List.nil_append, match_markers, ih, if_true]
  | set e ih =>
    intro rest open_
    simp only [codec_calls, List.append_eq, List.append_assoc, List.cons_append,
      List.nil_append, match_markers, ih, if_true]
  | map kt vt ihk ihv =>
    intro rest open_
    simp only [codec_calls, List.append_eq, List.append_assoc, List.cons_append,
      List.nil_append, match_markers, ihk, ihv, if_true]

theorem count_markers_codec_calls (k : Kind) (t : t_type) :
    (codec_calls t).count (.begin_ k) = kind_nodes k t
      ∧ (codec_calls t).count (.end_ k) = kind_nodes k t := by
  induction t with
  | base tbase binary => cases tbase <;> cases binary <;> exact ⟨rfl, rfl⟩
  | enum p n => exact ⟨rfl, rfl⟩
  | struct p n x => exact ⟨rfl, rfl⟩
  | typedef n t ih => exact ih
  | list e ih =>
    simp only [codec_calls, kind_nodes, List.count_append, List.count_cons, List.count_nil, ih.1,
      ih.2]
    cases k <;> (simp; try omega)
  | set e ih =>
    simp only [codec_calls, kind_nodes, List.count_append, List.count_cons, List.count_nil, ih.1,
      ih.2]
    cases k <;> (simp; try omega)
  | map kt vt ihk ihv =>
    simp only [codec_calls, kind_nodes, List.count_append, List.count_cons, List.count_nil,
      ihk.1, ihk.2, ihv.1, ihv.2]
    cases k <;> (simp; try omega)

theorem read_calls_statements (out : List Line) :
    read_calls out = (statements out).filterMap Js.read_call := by
  unfold read_calls statements
  rw [List.filterMap_map]
  rfl

theorem write_calls_statements (out : List Line) :
    write_calls out = (statements out).filterMap Js.write_call := by
  unfold write_calls statements
  rw [List.filterMap_map]
  rfl

/-- The reader of a container: the begin marker, the declared size, the
counted loop, the body, the end of the loop and the end marker. -/
theorem deserialize_container_frame (g : t_js_generator) (t : t_type) (pfx : String)
    (s : GenState) (k : Kind) (hk : container_kind t = some k) (h : void_free t = true) :
    (generate_deserialize_container g t pfx s).result = .ok ()
      ∧ ∃ (rtmp3 size i : String) (body : List Js),
          statements (generate_deserialize_container g t pfx s).out
            = [.init_container pfx k, .read_begin g.js_const_type_ rtmp3 k,
                .decl_size g.js_const_type_ size rtmp3, .for_count g.js_let_type_ i size]
              ++ body ++ [.close, .read_end k]
          ∧ body.filterMap Js.read_call = element_calls t := by
  cases t with
  | base tbase binary => cases hk
  | enum p n => cases hk
  | struct p n x => cases hk
  | typedef n t => cases hk
  | list e =>
    have hk2 : k = .list := by cases hk; rfl
    subst hk2
    have h2 : void_free e = true := h
    have ihr := fun n k r v p s => (deserialize_calls g e n k r v p s h2).1
    have iho := fun n k r v p s => (deserialize_calls g e n k r v p s h2).2.1
    rw [generate_deserialize_container]
    simp only [generate_deserialize_list_element,
      Gen.bind_def, Gen.bind_assoc, Gen.bind_emit, Gen.bind_tmp, Gen.bind_indent_up,
      Gen.bind_scope_down, Gen.bind_ok_unit _ _ _ (ihr _ _ _ _ _ _), Gen.emit]
    refine ⟨trivial, g.tmp_name "_rtmp3" (s.tmp_ + 1), g.tmp_name "_size" s.tmp_,
      g.tmp_name "_i" (s.tmp_ + 1 + 1),
      .let_null g.js_let_type_ (g.tmp_name "elem" (s.tmp_ + 1 + 1 + 1))
        :: (statements (generate_deserialize_field g
              { type := e, name := g.tmp_name "elem" (s.tmp_ + 1 + 1 + 1) } ""
              { indent_ := s.indent_ + 1, tmp_ := s.tmp_ + 1 + 1 + 1 + 1 }).out
          ++ [.push pfx (g.tmp_name "elem" (s.tmp_ + 1 + 1 + 1))]),
      ?_, ?_⟩
    · simp only [statements_cons, statements_append, statements_nil, List.cons_append,
        List.nil_append, List.append_assoc]
    · simp only [List.filterMap_cons, List.filterMap_append, List.filterMap_nil, Js.read_call,
        ← read_calls_statements, iho, element_calls, List.append_nil]
  | set e =>
    have hk2 : k = .set := by cases hk; rfl
    subst hk2
    have h2 : void_free e = true := h
    have ihr := fun n k r v p s => (deserialize_calls g e n k r v p s h2).1
    have iho := fun n k r v p s => (deserialize_calls g e n k r v p s h2).2.1
    rw [generate_deserialize_container]
    simp only [generate_deserialize_set_element,
      Gen.bind_def, Gen.bind_assoc, Gen.bind_emit, Gen.bind_tmp, Gen.bind_indent_up,
      Gen.bind_scope_down, Gen.bind_ok_unit _ _ _ (ihr _ _ _ _ _ _), Gen.emit]
    refine ⟨trivial, g.tmp_name "_rtmp3" (s.tmp_ + 1), g.tmp_name "_size" s.tmp_,
      g.tmp_name "_i" (s.tmp_ + 1 + 1),
      .let_null g.js_let_type_ (g.tmp_name "elem" (s.tmp_ + 1 + 1 + 1))
        :: (statements (generate_deserialize_field g
              { type := e, name := g.tmp_name "elem" (s.tmp_ + 1 + 1 + 1) } ""
              { indent_ := s.indent_ + 1, tmp_ := s.tmp_ + 1 + 1 + 1 + 1 }).out
          ++ [.push pfx (g.tmp_name "elem" (s.tmp_ + 1 + 1 + 1))]),
      ?_, ?_⟩
    · simp only [statements_cons, statements_append, statements_nil, List.cons_append,
        List.nil_append, List.append_assoc]
    · simp only [List.filterMap_cons, List.filterMap_append, List.filterMap_nil, Js.read_call,
        ← read_calls_statements, iho, element_calls, List.append_nil]
  | map kt vt =>
    have hk2 : k = .map := by cases hk; rfl
    subst hk2
    have hkt : void_free kt = true := by
      simp only [void_free, Bool.and_eq_true] at h
      exact h.1
    have hvt : void_free vt = true := by
      simp only [void_free, Bool.and_eq_true] at h
      exact h.2
    have ihkr := fun n k r v p s => (deserialize_calls g kt n k r v p s hkt).1
    have ihko := fun n k r v p s => (deserialize_calls g kt n k r v p s hkt).2.1
    have ihvr := fun n k r v p s => (deserialize_calls g vt n k r v p s hvt).1
    have ihvo := fun n k r v p s => (deserialize_calls g vt n k r v p s hvt).2.1
    rw [generate_deserialize_container]
    cases hn : g.gen_node_
    · simp only [Bool.not_false, Bool.not_true, if_true, Bool.false_eq_true, if_false,
        generate_deserialize_map_element,
        Gen.bind_def, Gen.pure_def, Gen.bind_pure, Gen.bind_assoc, Gen.bind_emit, Gen.bind_tmp,
        Gen.bind_indent_up, Gen.bind_scope_down, Gen.bind_ok_unit _ _ _ (ihkr _ _ _ _ _ _),
        Gen.bind_ok_unit _ _ _ (ihvr _ _ _ _ _ _), Gen.emit]
      refine ⟨trivial, g.tmp_name "_rtmp3" (s.tmp_ + 1), g.tmp_name "_size" s.tmp_,
        g.tmp_name "_i" (s.tmp_ + 1 + 1),
        .rstack_pop (g.tmp_name "_i" (s.tmp_ + 1 + 1)) ::
        .decl_field (g.declare_field
            { type := kt, name := g.tmp_name "key" (s.tmp_ + 1 + 1 + 1) } false false) ::
        .decl_field (g.declare_field
            { type := vt, name := g.tmp_name "val" (s.tmp_ + 1 + 1 + 1 + 1) } false false) ::
        (statements (generate_deserialize_field g
              { type := kt, name := g.tmp_name "key" (s.tmp_ + 1 + 1 + 1) } ""
              { indent_ := s.indent_ + 1, tmp_ := s.tmp_ + 1 + 1 + 1 + 1 + 1 }).out
          ++ (statements (generate_deserialize_field g
              { type := vt, name := g.tmp_name "val" (s.tmp_ + 1 + 1 + 1 + 1) } ""
              (generate_deserialize_field g
                { type := kt, name := g.tmp_name "key" (s.tmp_ + 1 + 1 + 1) } ""
                { indent_ := s.indent_ + 1, tmp_ := s.tmp_ + 1 + 1 + 1 + 1 + 1 }).state).out
            ++ [.map_store pfx (g.tmp_name "key" (s.tmp_ + 1 + 1 + 1))
                  (g.tmp_name "val" (s.tmp_ + 1 + 1 + 1 + 1))])),
        ?_, ?_⟩
      · simp only [statements_cons, statements_append, statements_nil, List.cons_append,
          List.nil_append, List.append_assoc]
      · simp only [List.filterMap_cons, List.filterMap_append, List.filterMap_nil, Js.read_call,
          ← read_calls_statements, ihko, ihvo, element_calls, List.append_nil]
    · simp only [Bool.not_false, Bool.not_true, if_true, Bool.false_eq_true, if_false,
        generate_deserialize_map_element,
        Gen.bind_def, Gen.pure_def, Gen.bind_pure, Gen.bind_assoc, Gen.bind_emit, Gen.bind_tmp,
        Gen.bind_indent_up, Gen.bind_scope_down, Gen.bind_ok_unit _ _ _ (ihkr _ _ _ _ _ _),
        Gen.bind_ok_unit _ _ _ (ihvr _ _ _ _ _ _), Gen.emit]
      refine ⟨trivial, g.tmp_name "_rtmp3" (s.tmp_ + 1), g.tmp_name "_size" s.tmp_,
        g.tmp_name "_i" (s.tmp_ + 1 + 1),
        .decl_field (g.declare_field
            { type := kt, name := g.tmp_name "key" (s.tmp_ + 1 + 1 + 1) } false false) ::
        .decl_field (g.declare_field
            { type := vt, name := g.tmp_name "val" (s.tmp_ + 1 + 1 + 1 + 1) } false false) ::
        (statements (generate_deserialize_field g
              { type := kt, name := g.tmp_name "key" (s.tmp_ + 1 + 1 + 1) } ""
              { indent_ := s.indent_ + 1, tmp_ := s.tmp_ + 1 + 1 + 1 + 1 + 1 }).out
          ++ (statements (generate_deserialize_field g
              { type := vt, name := g.tmp_name "val" (s.tmp_ + 1 + 1 + 1 + 1) } ""
              (generate_deserialize_field g
                { type := kt, name := g.tmp_name "key" (s.tmp_ + 1 + 1 + 1) } ""
                { indent_ := s.indent_ + 1, tmp_ := s.tmp_ + 1 + 1 + 1 + 1 + 1 }).state).out
            ++ [.map_store pfx (g.tmp_name "key" (s.tmp_ + 1 + 1 + 1))
                  (g.tmp_name "val" (s.tmp_ + 1 + 1 + 1 + 1))])),
        ?_, ?_⟩
      · simp only [statements_cons, statements_append, statements_nil, List.cons_append,
          List.nil_append, List.append_assoc]
      · simp only [List.filterMap_cons, List.filterMap_append, List.filterMap_nil, Js.read_call,
          ← read_calls_statements, ihko, ihvo, element_calls, List.append_nil]

/-- The writer of a container: the begin marker, the loop over the entries
with its guard, the body, the two closing braces and the end marker. -/
theorem serialize_container_frame (g : t_js_generator) (t : t_type) (pfx : String)
    (s : GenState) (k : Kind) (hk : container_kind t = some k) (h : void_free t = true) :
    (generate_serialize_container g t pfx s).result = .ok ()
      ∧ ∃ (tags : List String) (size iter : String) (body : List Js),
          statements (generate_serialize_container g t pfx s).out
            = [.write_begin k tags size, .for_in g.js_let_type_ iter pfx, .if_own pfx iter]
              ++ body ++ [.close, .close, .write_end k]
          ∧ body.filterMap Js.write_call = element_calls t := by
  cases t with
  | base tbase binary => cases hk
  | enum p n => cases hk
  | struct p n x => cases hk
  | typedef n t => cases hk
  | list e =>
    have hk2 : k = .list := by cases hk; rfl
    subst hk2
    have h2 : void_free e = true := h
    obtain ⟨tag, htag⟩ := type_to_enum_ok e h2
    have ihr := fun n k r v p s => (serialize_calls g e n k r v p s h2).1
    have iho := fun n k r v p s => (serialize_calls g e n k r v p s h2).2.1
    rw [generate_serialize_container]
    simp only [generate_serialize_list_element, htag, Gen.bind_lift_ok,
      Gen.bind_def, Gen.bind_assoc, Gen.bind_emit, Gen.bind_tmp, Gen.bind_indent_up,
      Gen.bind_scope_down, Gen.bind_ok_unit _ _ _ (ihr _ _ _ _ _ _), Gen.emit]
    refine ⟨trivial, [tag], pfx ++ ".length", g.tmp_name "iter" s.tmp_,
      .let_index "" (g.tmp_name "iter" s.tmp_) pfx (g.tmp_name "iter" s.tmp_)
        :: statements (generate_serialize_field g
              { type := e, name := g.tmp_name "iter" s.tmp_ } ""
              { indent_ := s.indent_ + 1 + 1, tmp_ := s.tmp_ + 1 }).out,
      ?_, ?_⟩
    · simp only [statements_cons, statements_append, statements_nil, List.cons_append,
        List.nil_append, List.append_assoc]
    · simp only [List.filterMap_cons, List.filterMap_append, List.filterMap_nil, Js.write_call,
        ← write_calls_statements, iho, element_calls, List.append_nil]
  | set e =>
    have hk2 : k = .set := by cases hk; rfl
    subst hk2
    have h2 : void_free e = true := h
    obtain ⟨tag, htag⟩ := type_to_enum_ok e h2
    have ihr := fun n k r v p s => (serialize_calls g e n k r v p s h2).1
    have iho := fun n k r v p s => (serialize_calls g e n k r v p s h2).2.1
    rw [generate_serialize_container]
    simp only [generate_serialize_set_element, htag, Gen.bind_lift_ok,
      Gen.bind_def, Gen.bind_assoc, Gen.bind_emit, Gen.bind_tmp, Gen.bind_indent_up,
      Gen.bind_scope_down, Gen.bind_ok_unit _ _ _ (ihr _ _ _ _ _ _), Gen.emit]
    refine ⟨trivial, [tag], pfx ++ ".length", g.tmp_name "iter" s.tmp_,
      .let_index "" (g.tmp_name "iter" s.tmp_) pfx (g.tmp_name "iter" s.tmp_)
        :: statements (generate_serialize_field g
              { type := e, name := g.tmp_name "iter" s.tmp_ } ""
              { indent_ := s.indent_ + 1 + 1, tmp_ := s.tmp_ + 1 }).out,
      ?_, ?_⟩
    · simp only [statements_cons, statements_append, statements_nil, List.cons_append,
        List.nil_append, List.append_assoc]
    · simp only [List.filterMap_cons, List.filterMap_append, List.filterMap_nil, Js.write_call,
        ← write_calls_statements, iho, element_calls, List.append_nil]
  | map kt vt =>
    have hk2 : k = .map := by cases hk; rfl
    subst hk2
    have hkt : void_free kt = true := by
      simp only [void_free, Bool.and_eq_true] at h
      exact h.1
    have hvt : void_free vt = true := by
      simp only [void_free, Bool.and_eq_true] at h
      exact h.2
    obtain ⟨ktag, hktag⟩ := type_to_enum_ok kt hkt
    obtain ⟨vtag, hvtag⟩ := type_to_enum_ok vt hvt
    have ihkr := fun n k r v p s => (serialize_calls g kt n k r v p s hkt).1
    have ihko := fun n k r v p s => (serialize_calls g kt n k r v p s hkt).2.1
    have ihvr := fun n k r v p s => (serialize_calls g vt n k r v p s hvt).1
    have ihvo := fun n k r v p s => (serialize_calls g vt n k r v p s hvt).2.1
    rw [generate_serialize_container]
    simp only [generate_serialize_map_element, hktag, hvtag, Gen.bind_lift_ok,
      Gen.bind_def, Gen.bind_assoc, Gen.bind_emit, Gen.bind_tmp, Gen.bind_indent_up,
      Gen.bind_scope_down, Gen.bind_ok_unit _ _ _ (ihkr _ _ _ _ _ _),
      Gen.bind_ok_unit _ _ _ (ihvr _ _ _ _ _ _), Gen.emit]
    refine ⟨trivial, [ktag, vtag], "Thrift.objectLength(" ++ pfx ++ ")",
      g.tmp_name "kiter" s.tmp_,
      .let_index g.js_let_type_ (g.tmp_name "viter" (s.tmp_ + 1)) pfx (g.tmp_name "kiter" s.tmp_)
        :: (statements (generate_serialize_field g
              { type := kt, name := g.tmp_name "kiter" s.tmp_ } ""
              { indent_ := s.indent_ + 1 + 1, tmp_ := s.tmp_ + 1 + 1 }).out
          ++ statements (generate_serialize_field g
              { type := vt, name := g.tmp_name "viter" (s.tmp_ + 1) } ""
              (generate_serialize_field g
                { type := kt, name := g.tmp_name "kiter" s.tmp_ } ""
                { indent_ := s.indent_ + 1 + 1, tmp_ := s.tmp_ + 1 + 1 }).state).out),
      ?_, ?_⟩
    · simp only [statements_cons, statements_append, statements_nil, List.cons_append,
        List.nil_append, List.append_assoc]
    · simp only [List.filterMap_cons, List.filterMap_append, List.filterMap_nil, Js.write_call,
        ← write_calls_statements, ihko, ihvo, element_calls, List.append_nil]

theorem codec_calls_container (t : t_type) (k : Kind) (hk : container_kind t = some k) :
    codec_calls t = [.begin_ k] ++ element_calls t ++ [.end_ k] := by
  cases t <;> cases hk <;> simp [codec_calls, element_calls]

/-- C34: for every container type of the data model, nested to any depth,
`generate_deserialize_container` and `generate_serialize_container` return
normally and the marker calls of their texts are those of the container frame
of the type.  In that sequence, for each kind K the number of `KEnd` calls is
the number of `KBegin` calls and the number of K containers of the type
(typedefs looked through, structs not entered), and every end marker closes
the container opened last.  The text of the reader is the begin marker stored
in a variable, the size read from that variable, a loop counting from 0 up to
that size, the element reads, the closing brace and the end marker; the text
of the writer is the begin marker, the loop over the entries with its guard,
the element writes, the closing braces and the end marker. -/
theorem container_markers_nested (g : t_js_generator) (t : t_type) (pfx : String)
    (s s' : GenState) (k : Kind) (hk : container_kind t = some k) (h : void_free t = true) :
    (generate_deserialize_container g t pfx s).result = .ok ()
      ∧ (generate_serialize_container g t pfx s').result = .ok ()
      ∧ read_calls (generate_deserialize_container g t pfx s).out = codec_calls t
      ∧ write_calls (generate_serialize_container g t pfx s').out = codec_calls t
      ∧ (∀ K, (codec_calls t).count (.end_ K) = (codec_calls t).count (.begin_ K)
          ∧ (codec_calls t).count (.begin_ K) = kind_nodes K t)
      ∧ match_markers (codec_calls t) [] = some []
      ∧ match_markers (element_calls t) [] = some []
      ∧ (∃ (rtmp3 size i : String) (body : List Js),
          statements (generate_deserialize_container g t pfx s).out
            = [.init_container pfx k, .read_begin g.js_const_type_ rtmp3 k,
                .decl_size g.js_const_type_ size rtmp3, .for_count g.js_let_type_ i size]
              ++ body ++ [.close, .read_end k]
          ∧ body.filterMap Js.read_call = element_calls t)
      ∧ (∃ (tags : List String) (size iter : String) (body : List Js),
          statements (generate_serialize_container g t pfx s').out
            = [.write_begin k tags size, .for_in g.js_let_type_ iter pfx, .if_own pfx iter]
              ++ body ++ [.close, .close, .write_end k]
          ∧ body.filterMap Js.write_call = element_calls t) := by
  obtain ⟨hr, rtmp3, size, i, body, hst, hbody⟩ := deserialize_container_frame g t pfx s k hk h
  obtain ⟨hw, tags, wsize, iter, wbody, hwst, hwbody⟩ :=
    serialize_container_frame g t pfx s' k hk h
  have hcc := codec_calls_container t k hk
  have hm := match_markers_codec_calls t [] []
  rw [List.append_nil] at hm
  have hme : match_markers (element_calls t) [] = some [] := by
    cases t with
    | base tbase binary => cases hk
    | enum p n => cases hk
    | struct p n x => cases hk
    | typedef n t => cases hk
    | list e =>
      have := match_markers_codec_calls e [] []
      rw [List.append_nil] at this
      exact this
    | set e =>
      have := match_markers_codec_calls e [] []
      rw [List.append_nil] at this
      exact this
    | map kt vt =>
      have := match_markers_codec_calls kt (codec_calls vt) []
      have h2 := match_markers_codec_calls vt [] []
      rw [List.append_nil] at h2
      rw [element_calls, this, h2]
      rfl
  refine ⟨hr, hw, ?_, ?_, ?_, hm, hme, ⟨rtmp3, size, i, body, hst, hbody⟩,
    ⟨tags, wsize, iter, wbody, hwst, hwbody⟩⟩
  · rw [read_calls_statements, hst, hcc]
    simp only [List.filterMap_append, List.filterMap_cons, List.filterMap_nil, Js.read_call,
      hbody, List.nil_append, List.cons_append]
  · rw [write_calls_statements, hwst, hcc]
    simp only [List.filterMap_append, List.filterMap_cons, List.filterMap_nil, Js.write_call,
      hwbody, List.nil_append, List.cons_append]
  · intro K
    have := count_markers_codec_calls K t
    exact ⟨this.2.trans this.1.symm, this.1⟩

/-- For `map<string, list<Point>>` the markers of the reader are
`readMapBegin`, `readListBegin`, `readListEnd`, `readMapEnd` around the reads
of the string key and the struct element; the loop head of the reader counts
from 0 up to the size variable. -/
theorem container_markers_nested_witness :
    read_calls (generate_deserialize_container sample_generator index_type "this.index" {}).out
        = [.begin_ .map, .prim .string, .begin_ .list, .struct_, .end_ .list, .end_ .map]
      ∧ write_calls (generate_serialize_container sample_generator index_type "this.index" {}).out
        = [.begin_ .map, .prim .string, .begin_ .list, .struct_, .end_ .list, .end_ .map]
      ∧ kind_nodes .list index_type = 1
      ∧ (Js.decl_size "const " "_size0" "_rtmp31").text "" = "const _size0 = _rtmp31.size || 0;\n"
      ∧ (Js.for_count "let " "_i2" "_size0").text ""
          = "for (let _i2 = 0; _i2 < _size0; ++_i2) \x7b\n" :=
  ⟨(container_markers_nested sample_generator index_type "this.index" {} {} .map rfl
      (by decide)).2.2.1,
   (container_markers_nested sample_generator index_type "this.index" {} {} .map rfl
      (by decide)).2.2.2.1,
   rfl, rfl, rfl⟩

/-! ## The codecs do not enter structs -/

theorem generate_deserialize_field_members (g : t_js_generator)
    (members : t_program → String → List t_field) (t : t_type) :
    ∀ (name : String) (key : Int) (req : e_req) (value : Option t_const_value) (pfx : String),
      generate_deserialize_field { g with get_members := members } ⟨t, name, key, req, value⟩ pfx
        = generate_deserialize_field g ⟨t, name, key, req, value⟩ pfx := by
  induction t with
  | base tbase binary =>
    intro name key req value pfx
    rw [generate_deserialize_field, generate_deserialize_field]
    simp only [t_type.get_true_type]
    try rfl
  | enum p n =>
    intro name key req value pfx
    rw [generate_deserialize_field, generate_deserialize_field]
    simp only [t_type.get_true_type]
    try rfl
  | struct p n x =>
    intro name key req value pfx
    rw [generate_deserialize_field, generate_deserialize_field]
    simp only [t_type.get_true_type]
    try rfl
  | typedef n t ih =>
    intro name key req value pfx
    rw [generate_deserialize_field_typedef, generate_deserialize_field_typedef]
    exact ih name key req value pfx
  | list e ih =>
    intro name key req value pfx
    rw [generate_deserialize_field, generate_deserialize_field]
    simp only [t_type.get_true_type, t_type.is_void, Bool.false_eq_true, if_false]
    rw [generate_deserialize_container, generate_deserialize_container]
    simp only [generate_deserialize_list_element, ih]
    rfl
  | set e ih =>
    intro name key req value pfx
    rw [generate_deserialize_field, generate_deserialize_field]
    simp only [t_type.get_true_type, t_type.is_void, Bool.false_eq_true, if_false]
    rw [generate_deserialize_container, generate_deserialize_container]
    simp only [generate_deserialize_set_element, ih]
    rfl
  | map kt vt ihk ihv =>
    intro name key req value pfx
    rw [generate_deserialize_field, generate_deserialize_field]
    simp only [t_type.get_true_type, t_type.is_void, Bool.false_eq_true, if_false]
    rw [generate_deserialize_container, generate_deserialize_container]
    simp only [generate_deserialize_map_element, ihk, ihv]
    rfl

theorem generate_serialize_field_members (g : t_js_generator)
    (members : t_program → String → List t_field) (t : t_type) :
    ∀ (name : String) (key : Int) (req : e_req) (value : Option t_const_value) (pfx : String),
      generate_serialize_field { g with get_members := members } ⟨t, name, key, req, value⟩ pfx
        = generate_serialize_field g ⟨t, name, key, req, value⟩ pfx := by
  induction t with
  | base tbase binary =>
    intro name key req value pfx
    rw [generate_serialize_field, generate_serialize_field]
    simp only [t_type.get_true_type]
    try rfl
  | enum p n =>
    intro name key req value pfx
    rw [generate_serialize_field, generate_serialize_field]
    simp only [t_type.get_true_type]
    try rfl
  | struct p n x =>
    intro name key req value pfx
    rw [generate_serialize_field, generate_serialize_field]
    simp only [t_type.get_true_type]
    try rfl
  | typedef n t ih =>
    intro name key req value pfx
    rw [generate_serialize_field_typedef, generate_serialize_field_typedef]
    exact ih name key req value pfx
  | list e ih =>
    intro name key req value pfx
    rw [generate_serialize_field, generate_serialize_field]
    simp only [t_type.get_true_type, t_type.is_void, Bool.false_eq_true, if_false]
    rw [generate_serialize_container, generate_serialize_container]
    simp only [generate_serialize_list_element, ih]
    rfl
  | set e ih =>
    intro name key req value pfx
    rw [generate_serialize_field, generate_serialize_field]
    simp only [t_type.get_true_type, t_type.is_void, Bool.false_eq_true, if_false]
    rw [generate_serialize_container, generate_serialize_container]
    simp only [generate_serialize_set_element, ih]
    rfl
  | map kt vt ihk ihv =>
    intro name key req value pfx
    rw [generate_serialize_field, generate_serialize_field]
    simp only [t_type.get_true_type, t_type.is_void, Bool.false_eq_true, if_false]
    rw [generate_serialize_container, generate_serialize_container]
    simp only [generate_serialize_map_element, ihk, ihv]
    rfl

theorem generate_deserialize_field_struct (g : t_js_generator) (t : t_type) :
    ∀ (fname : String) (key : Int) (req : e_req) (value : Option t_const_value) (pfx : String)
      (s : GenState) (program : t_program) (name : String) (x : Bool),
      t.get_true_type = .struct program name x →
      generate_deserialize_field g ⟨t, fname, key, req, value⟩ pfx s
        = ⟨[⟨s.indent_, .new_struct (pfx ++ fname) (g.js_type_namespace program ++ name)⟩,
            ⟨s.indent_, .read_struct (pfx ++ fname)⟩], s, .ok ()⟩ := by
  induction t with
  | struct p n y =>
    intro fname key req value pfx s program name x h
    simp only [t_type.get_true_type] at h
    injection h with h1 h2 h3
    subst h1 h2
    rw [generate_deserialize_field]
    simp only [t_type.get_true_type, t_type.is_void, Bool.false_eq_true, if_false,
      generate_deserialize_struct, Gen.bind_def, Gen.bind_emit, Gen.emit]
  | typedef n t ih =>
    intro fname key req value pfx s program name x h
    rw [generate_deserialize_field_typedef]
    exact ih fname key req value pfx s program name x h
  | _ =>
    intro fname key req value pfx s program name x h
    simp [t_type.get_true_type] at h

theorem generate_serialize_field_struct (g : t_js_generator) (t : t_type) :
    ∀ (fname : String) (key : Int) (req : e_req) (value : Option t_const_value) (pfx : String)
      (s : GenState) (program : t_program) (name : String) (x : Bool),
      t.get_true_type = .struct program name x →
      generate_serialize_field g ⟨t, fname, key, req, value⟩ pfx s
        = ⟨[⟨s.indent_, .write_struct (pfx ++ fname)⟩], s, .ok ()⟩ := by
  induction t with
  | struct p n y =>
    intro fname key req value pfx s program name x h
    rw [generate_serialize_field]
    simp only [t_type.get_true_type, t_type.is_void, Bool.false_eq_true, if_false,
      generate_serialize_struct, Gen.emit]
  | typedef n t ih =>
    intro fname key req value pfx s program name x h
    rw [generate_serialize_field_typedef]
    exact ih fname key req value pfx s program name x h
  | _ =>
    intro fname key req value pfx s program name x h
    simp [t_type.get_true_type] at h

/-- C35: `generate_deserialize_field` and `generate_serialize_field` are total:
their recursion is on the type expression of the field, through typedef
resolution and the element, key and value types of containers.  The member
table of the structs plays no part in them: with any other table they are the
same functions.  For a field whose resolved type is a struct or an exception
they write the allocation and the call of the reader of that struct, or the
call of its writer, and nothing else; and for every field type of the data
model they return normally. -/
theorem field_codecs_do_not_enter_structs (g : t_js_generator)
    (members : t_program → String → List t_field) (tfield : t_field) (pfx : String)
    (s : GenState) :
    generate_deserialize_field { g with get_members := members } tfield pfx
        = generate_deserialize_field g tfield pfx
      ∧ generate_serialize_field { g with get_members := members } tfield pfx
        = generate_serialize_field g tfield pfx
      ∧ (∀ program name x, tfield.type.get_true_type = .struct program name x →
          generate_deserialize_field g tfield pfx s
              = ⟨[⟨s.indent_,
                    .new_struct (pfx ++ tfield.name) (g.js_type_namespace program ++ name)⟩,
                  ⟨s.indent_, .read_struct (pfx ++ tfield.name)⟩], s, .ok ()⟩
            ∧ generate_serialize_field g tfield pfx s
              = ⟨[⟨s.indent_, .write_struct (pfx ++ tfield.name)⟩], s, .ok ()⟩)
      ∧ (void_free tfield.type = true →
          (generate_deserialize_field g tfield pfx s).result = .ok ()
            ∧ (generate_serialize_field g tfield pfx s).result = .ok ()) := by
  obtain ⟨type, name, key, req, value⟩ := tfield
  refine ⟨generate_deserialize_field_members g members type name key req value pfx,
    generate_serialize_field_members g members type name key req value pfx, ?_, ?_⟩
  · intro program sname x h
    exact ⟨generate_deserialize_field_struct g type name key req value pfx s program sname x h,
      generate_serialize_field_struct g type name key req value pfx s program sname x h⟩
  · intro h
    exact ⟨(deserialize_calls g type name key req value pfx s h).1,
      (serialize_calls g type name key req value pfx s h).1⟩

/-- The struct `Node` contains itself: its member `next` is read with the
allocation and one call of the reader of `Node`, and its member `children`, a
list of `Node`, is read and written with a result. -/
theorem field_codecs_do_not_enter_structs_witness :
    generate_deserialize_field node_generator
        { type := .struct sample_program "Node" false, name := "next", key := 1 } "this." {}
        = ⟨[⟨0, .new_struct "this.next" "Node"⟩, ⟨0, .read_struct "this.next"⟩], {}, .ok ()⟩
      ∧ (generate_deserialize_field node_generator
          { type := .list (.struct sample_program "Node" false), name := "children", key := 2 }
          "this." {}).result = .ok ()
      ∧ (generate_serialize_field node_generator
          { type := .list (.struct sample_program "Node" false), name := "children", key := 2 }
          "this." {}).result = .ok () :=
  ⟨((field_codecs_do_not_enter_structs node_generator node_generator.get_members
        { type := .struct sample_program "Node" false, name := "next", key := 1 } "this." {}).2.2.1
      sample_program "Node" false rfl).1,
   ((field_codecs_do_not_enter_structs node_generator node_generator.get_members
        { type := .list (.struct sample_program "Node" false), name := "children", key := 2 }
        "this." {}).2.2.2 (by decide)).1,
   ((field_codecs_do_not_enter_structs node_generator node_generator.get_members
        { type := .list (.struct sample_program "Node" false), name := "children", key := 2 }
        "this." {}).2.2.2 (by decide)).2⟩

/-! ## The options of the constructor -/

theorem Gen.shifts_pure {α : Type} (a : α) : Gen.shifts (Gen.pure a) 0 :=
  fun s _ => (Int.add_zero s.indent_).symm

theorem Gen.shifts_throw {α : Type} (m : String) (d : Int) :
    Gen.shifts (Gen.throw m : Gen α) d := by
  rintro s ⟨a, h⟩
  cases h

theorem Gen.shifts_lift {α : Type} (e : Except String α) : Gen.shifts (Gen.lift e) 0 :=
  fun s _ => (Int.add_zero s.indent_).symm

theorem Gen.shifts_emit (j : Js) : Gen.shifts (Gen.emit j) 0 :=
  fun s _ => (Int.add_zero s.indent_).symm

theorem Gen.shifts_indent_up : Gen.shifts Gen.indent_up 1 :=
  fun _ _ => rfl

theorem Gen.shifts_indent_down : Gen.shifts Gen.indent_down (-1) :=
  fun _ _ => rfl

theorem Gen.shifts_scope_down : Gen.shifts Gen.scope_down (-1) :=
  fun _ _ => rfl

theorem Gen.shifts_indent (g : t_js_generator) : Gen.shifts g.indent 0 :=
  fun s _ => (Int.add_zero s.indent_).symm

theorem Gen.shifts_tmp (g : t_js_generator) (name : String) : Gen.shifts (g.tmp name) 0 :=
  fun s _ => (Int.add_zero s.indent_).symm

theorem Gen.shifts_bind {α β : Type} (x : Gen α) (f : α → Gen β) (d1 d2 : Int)
    (hx : Gen.shifts x d1) (hf : ∀ a, Gen.shifts (f a) d2) :
    Gen.shifts (Gen.bind x f) (d1 + d2) := by
  rintro s ⟨b, hb⟩
  cases hr : (x s).result with
  | error e =>
    rw [Gen.bind_error x f s e hr] at hb
    cases hb
  | ok a =>
    rw [Gen.bind_ok x f s a hr] at hb ⊢
    have h1 := hx s ⟨a, hr⟩
    have h2 := hf a (x s).state ⟨b, hb⟩
    simp only at h2 ⊢
    rw [h2, h1, Int.add_assoc]

/-- The rule for a step whose successor reads the value handed on: it is
enough that the successor shifts by `d2` for the values that have the
property `P` every value of the step has. -/
theorem Gen.shifts_bind_value {α β : Type} (x : Gen α) (f : α → Gen β) (P : α → Prop)
    (d1 d2 : Int) (hx : Gen.shifts x d1) (hP : Gen.values x P)
    (hf : ∀ a, P a → Gen.shifts (f a) d2) :
    Gen.shifts (Gen.bind x f) (d1 + d2) := by
  rintro s ⟨b, hb⟩
  cases hr : (x s).result with
  | error e =>
    rw [Gen.bind_error x f s e hr] at hb
    cases hb
  | ok a =>
    rw [Gen.bind_ok x f s a hr] at hb ⊢
    have h1 := hx s ⟨a, hr⟩
    have h2 := hf a (hP s a hr) (x s).state ⟨b, hb⟩
    simp only at h2 ⊢
    rw [h2, h1, Int.add_assoc]

theorem Gen.shifts_ite {α : Type} (c : Prop) [Decidable c] (x y : Gen α) (d1 d2 : Int)
    (hx : Gen.shifts x d1) (hy : Gen.shifts y d2) :
    Gen.shifts (if c then x else y) (if c then d1 else d2) := by
  split
  · exact hx
  · exact hy

theorem Gen.shifts_congr {α : Type} (x : Gen α) (d1 d2 : Int) (hx : Gen.shifts x d1)
    (h : d1 = d2) : Gen.shifts x d2 := h ▸ hx

theorem Gen.shifts_for_each {α : Type} (body : α → Gen Unit)
    (h : ∀ a, Gen.shifts (body a) 0) : ∀ l : List α, Gen.shifts (Gen.for_each l body) 0
  | [] => Gen.shifts_pure ()
  | a :: rest =>
    Gen.shifts_congr _ _ _
      (Gen.shifts_bind _ _ 0 0 (h a) (fun _ => Gen.shifts_for_each body h rest)) rfl

theorem Gen.shifts_map_each {α β : Type} (body : α → Gen β)
    (h : ∀ a, Gen.shifts (body a) 0) : ∀ l : List α, Gen.shifts (Gen.map_each l body) 0
  | [] => Gen.shifts_pure []
  | a :: rest =>
    Gen.shifts_congr _ _ _
      (Gen.shifts_bind _ _ 0 (0 + 0) (h a) (fun _ =>
        Gen.shifts_bind _ _ 0 0 (Gen.shifts_map_each body h rest) (fun _ => Gen.shifts_pure _)))
      rfl

theorem Gen.shifts_of_lands {α : Type} (x : Gen α) (h : ∀ s, Gen.lands x s s) :
    Gen.shifts x 0 := by
  rintro s ⟨a, ha⟩
  rw [(h s).2 a ha]
  exact (Int.add_zero s.indent_).symm

theorem shifts_render_const_value (g : t_js_generator) (t : t_type) (v : t_const_value) :
    Gen.shifts (render_const_value g t v) 0 :=
  Gen.shifts_of_lands _ (render_const_value_lands g t v)

theorem shifts_ts_indent (g : t_js_generator) : Gen.shifts g.ts_indent 0 := by
  apply Gen.shifts_congr
  case hx =>
    simp only [ts_indent, Gen.bind_def, Gen.pure_def]
    (repeat' (first
      | exact Gen.shifts_indent _
      | exact Gen.shifts_pure _
      | apply Gen.shifts_bind
      | intro _))
  case h => rfl

theorem shifts_ts_print_doc (g : t_js_generator) (tdoc : Option String) :
    Gen.shifts (g.ts_print_doc tdoc) 0 := by
  cases tdoc <;>
  · apply Gen.shifts_congr
    case hx =>
      simp only [ts_print_doc, Gen.bind_def, Gen.pure_def]
      (repeat' (first
        | exact shifts_ts_indent _
        | exact Gen.shifts_pure _
        | apply Gen.shifts_bind
        | intro _))
    case h => rfl

theorem shifts_deserialize_field (g : t_js_generator) (t : t_type) :
    ∀ (name : String) (key : Int) (req : e_req) (value : Option t_const_value) (pfx : String),
      Gen.shifts (generate_deserialize_field g ⟨t, name, key, req, value⟩ pfx) 0 := by
  induction t with
  | base tbase binary =>
    intro name key req value pfx
    rw [generate_deserialize_field]
    cases tbase <;> cases binary <;>
      simp only [t_type.get_true_type, t_type.is_void, base_prim, Bool.false_eq_true, if_false,
        if_true] <;>
      first | exact Gen.shifts_throw _ 0 | exact Gen.shifts_emit _
  | enum p n =>
    intro name key req value pfx
    rw [generate_deserialize_field]
    simp only [t_type.get_true_type, t_type.is_void, Bool.false_eq_true, if_false]
    exact Gen.shifts_emit _
  | struct p n x =>
    intro name key req value pfx
    rw [generate_deserialize_field]
    simp only [t_type.get_true_type, t_type.is_void, Bool.false_eq_true, if_false]
    apply Gen.shifts_congr
    case hx =>
      simp only [generate_deserialize_struct, Gen.bind_def, Gen.pure_def]
      (repeat' (first
            | exact Gen.shifts_emit _
            | exact Gen.shifts_pure _
            | exact Gen.shifts_indent_up
            | exact Gen.shifts_indent_down
            | exact Gen.shifts_scope_down
            | exact Gen.shifts_lift _
            | exact Gen.shifts_throw _ 0
            | exact Gen.shifts_tmp _ _
            | exact Gen.shifts_indent _
            | exact shifts_ts_indent _
            | exact shifts_ts_print_doc _ _
            | exact shifts_render_const_value _ _ _
            | apply Gen.shifts_bind
            | apply Gen.shifts_ite
            | intro _))
    case h => first | rfl | omega | (split_ifs <;> omega)
  | typedef n t ih =>
    intro name key req value pfx
    rw [generate_deserialize_field_typedef]
    exact ih name key req value pfx
  | list e ih =>
    intro name key req value pfx
    rw [generate_deserialize_field]
    simp only [t_type.get_true_type, t_type.is_void, Bool.false_eq_true, if_false]
    rw [generate_deserialize_container]
    apply Gen.shifts_congr
    case hx =>
      simp only [generate_deserialize_list_element, Gen.bind_def, Gen.pure_def]
      (repeat' (first
            | exact ih _ _ _ _ _
            | exact Gen.shifts_emit _
            | exact Gen.shifts_pure _
            | exact Gen.shifts_indent_up
            | exact Gen.shifts_indent_down
            | exact Gen.shifts_scope_down
            | exact Gen.shifts_lift _
            | exact Gen.shifts_throw _ 0
            | exact Gen.shifts_tmp _ _
            | exact Gen.shifts_indent _
            | exact shifts_ts_indent _
            | exact shifts_ts_print_doc _ _
            | exact shifts_render_const_value _ _ _
            | apply Gen.shifts_bind
            | apply Gen.shifts_ite
            | intro _))
    case h => first | rfl | omega | (split_ifs <;> omega)
  | set e ih =>
    intro name key req value pfx
    rw [generate_deserialize_field]
    simp only [t_type.get_true_type, t_type.is_void, Bool.false_eq_true, if_false]
    rw [generate_deserialize_container]
    apply Gen.shifts_congr
    case hx =>
      simp only [generate_deserialize_set_element, Gen.bind_def, Gen.pure_def]
      (repeat' (first
            | exact ih _ _ _ _ _
            | exact Gen.shifts_emit _
            | exact Gen.shifts_pure _
            | exact Gen.shifts_indent_up
            | exact Gen.shifts_indent_down
            | exact Gen.shifts_scope_down
            | exact Gen.shifts_lift _
            | exact Gen.shifts_throw _ 0
            | exact Gen.shifts_tmp _ _
            | exact Gen.shifts_indent _
            | exact shifts_ts_indent _
            | exact shifts_ts_print_doc _ _
            | exact shifts_render_const_value _ _ _
            | apply Gen.shifts_bind
            | apply Gen.shifts_ite
            | intro _))
    case h => first | rfl | omega | (split_ifs <;> omega)
  | map kt vt ihk ihv =>
    intro name key req value pfx
    rw [generate_deserialize_field]
    simp only [t_type.get_true_type, t_type.is_void, Bool.false_eq_true, if_false]
    rw [generate_deserialize_container]
    apply Gen.shifts_congr
    case hx =>
      simp only [generate_deserialize_map_element, Gen.bind_def, Gen.pure_def]
      (repeat' (first
            | exact ihk _ _ _ _ _
            | exact ihv _ _ _ _ _
            | exact Gen.shifts_emit _
            | exact Gen.shifts_pure _
            | exact Gen.shifts_indent_up
            | exact Gen.shifts_indent_down
            | exact Gen.shifts_scope_down
            | exact Gen.shifts_lift _
            | exact Gen.shifts_throw _ 0
            | exact Gen.shifts_tmp _ _
            | exact Gen.shifts_indent _
            | exact shifts_ts_indent _
            | exact shifts_ts_print_doc _ _
            | exact shifts_render_const_value _ _ _
            | apply Gen.shifts_bind
            | apply Gen.shifts_ite
            | intro _))
    case h => first | rfl | omega | (split_ifs <;> omega)

theorem shifts_serialize_field (g : t_js_generator) (t : t_type) :
    ∀ (name : String) (key : Int) (req : e_req) (value : Option t_const_value) (pfx : String),
      Gen.shifts (generate_serialize_field g ⟨t, name, key, req, value⟩ pfx) 0 := by
  induction t with
  | base tbase binary =>
    intro name key req value pfx
    rw [generate_serialize_field]
    cases tbase <;> cases binary <;>
      simp only [t_type.get_true_type, t_type.is_void, base_prim, Bool.false_eq_true, if_false,
        if_true] <;>
      first | exact Gen.shifts_throw _ 0 | exact Gen.shifts_emit _
  | enum p n =>
    intro name key req value pfx
    rw [generate_serialize_field]
    simp only [t_type.get_true_type, t_type.is_void, Bool.false_eq_true, if_false]
    exact Gen.shifts_emit _
  | struct p n x =>
    intro name key req value pfx
    rw [generate_serialize_field]
    simp only [t_type.get_true_type, t_type.is_void, Bool.false_eq_true, if_false]
    apply Gen.shifts_congr
    case hx =>
      simp only [generate_serialize_struct, Gen.bind_def, Gen.pure_def]
      (repeat' (first
            | exact Gen.shifts_emit _
            | exact Gen.shifts_pure _
            | exact Gen.shifts_indent_up
            | exact Gen.shifts_indent_down
            | exact Gen.shifts_scope_down
            | exact Gen.shifts_lift _
            | exact Gen.shifts_throw _ 0
            | exact Gen.shifts_tmp _ _
            | exact Gen.shifts_indent _
            | exact shifts_ts_indent _
            | exact shifts_ts_print_doc _ _
            | exact shifts_render_const_value _ _ _
            | apply Gen.shifts_bind
            | apply Gen.shifts_ite
            | intro _))
    case h => first | rfl | omega | (split_ifs <;> omega)
  | typedef n t ih =>
    intro name key req value pfx
    rw [generate_serialize_field_typedef]
    exact ih name key req value pfx
  | list e ih =>
    intro name key req value pfx
    rw [generate_serialize_field]
    simp only [t_type.get_true_type, t_type.is_void, Bool.false_eq_true, if_false]
    rw [generate_serialize_container]
    apply Gen.shifts_congr
    case hx =>
      simp only [generate_serialize_list_element, Gen.bind_def, Gen.pure_def]
      (repeat' (first
            | exact ih _ _ _ _ _
            | exact Gen.shifts_emit _
            | exact Gen.shifts_pure _
            | exact Gen.shifts_indent_up
            | exact Gen.shifts_indent_down
            | exact Gen.shifts_scope_down
            | exact Gen.shifts_lift _
            | exact Gen.shifts_throw _ 0
            | exact Gen.shifts_tmp _ _
            | exact Gen.shifts_indent _
            | exact shifts_ts_indent _
            | exact shifts_ts_print_doc _ _
            | exact shifts_render_const_value _ _ _
            | apply Gen.shifts_bind
            | apply Gen.shifts_ite
            | intro _))
    case h => first | rfl | omega | (split_ifs <;> omega)
  | set e ih =>
    intro name key req value pfx
    rw [generate_serialize_field]
    simp only [t_type.get_true_type, t_type.is_void, Bool.false_eq_true, if_false]
    rw [generate_serialize_container]
    apply Gen.shifts_congr
    case hx =>
      simp only [generate_serialize_set_element, Gen.bind_def, Gen.pure_def]
      (repeat' (first
            | exact ih _ _ _ _ _
            | exact Gen.shifts_emit _
            | exact Gen.shifts_pure _
            | exact Gen.shifts_indent_up
            | exact Gen.shifts_indent_down
            | exact Gen.shifts_scope_down
            | exact Gen.shifts_lift _
            | exact Gen.shifts_throw _ 0
            | exact Gen.shifts_tmp _ _
            | exact Gen.shifts_indent _
            | exact shifts_ts_indent _
            | exact shifts_ts_print_doc _ _
            | exact shifts_render_const_value _ _ _
            | apply Gen.shifts_bind
            | apply Gen.shifts_ite
            | intro _))
    case h => first | rfl | omega | (split_ifs <;> omega)
  | map kt vt ihk ihv =>
    intro name key req value pfx
    rw [generate_serialize_field]
    simp only [t_type.get_true_type, t_type.is_void, Bool.false_eq_true, if_false]
    rw [generate_serialize_container]
    apply Gen.shifts_congr
    case hx =>
      simp only [generate_serialize_map_element, Gen.bind_def, Gen.pure_def]
      (repeat' (first
            | exact ihk _ _ _ _ _
            | exact ihv _ _ _ _ _
            | exact Gen.shifts_emit _
            | exact Gen.shifts_pure _
            | exact Gen.shifts_indent_up
            | exact Gen.shifts_indent_down
            | exact Gen.shifts_scope_down
            | exact Gen.shifts_lift _
            | exact Gen.shifts_throw _ 0
            | exact Gen.shifts_tmp _ _
            | exact Gen.shifts_indent _
            | exact shifts_ts_indent _
            | exact shifts_ts_print_doc _ _
            | exact shifts_render_const_value _ _ _
            | apply Gen.shifts_bind
            | apply Gen.shifts_ite
            | intro _))
    case h => first | rfl | omega | (split_ifs <;> omega)

theorem shifts_deserialize (g : t_js_generator) (f : t_field) (pfx : String) :
    Gen.shifts (generate_deserialize_field g f pfx) 0 := by
  obtain ⟨type, name, key, req, value⟩ := f
  exact shifts_deserialize_field g type name key req value pfx

theorem shifts_serialize (g : t_js_generator) (f : t_field) (pfx : String) :
    Gen.shifts (generate_serialize_field g f pfx) 0 := by
  obtain ⟨type, name, key, req, value⟩ := f
  exact shifts_serialize_field g type name key req value pfx

theorem shifts_struct_reader_case (g : t_js_generator) (f : t_field) :
    Gen.shifts (g.generate_js_struct_reader_case f) 0 := by
  apply Gen.shifts_congr
  case hx =>
    simp only [generate_js_struct_reader_case, Gen.bind_def, Gen.pure_def]
    (repeat' (first
          | exact shifts_deserialize _ _ _
          | exact Gen.shifts_emit _
          | exact Gen.shifts_pure _
          | exact Gen.shifts_indent_up
          | exact Gen.shifts_indent_down
          | exact Gen.shifts_scope_down
          | exact Gen.shifts_lift _
          | exact Gen.shifts_throw _ 0
          | exact Gen.shifts_tmp _ _
          | exact Gen.shifts_indent _
          | exact shifts_ts_indent _
          | exact shifts_ts_print_doc _ _
          | exact shifts_render_const_value _ _ _
          | apply Gen.shifts_bind
          | apply Gen.shifts_ite
          | intro _))
  case h => first | rfl | omega | (split_ifs <;> omega)

theorem shifts_struct_reader (g : t_js_generator) (tstruct : t_struct) :
    Gen.shifts (g.generate_js_struct_reader tstruct) 0 := by
  apply Gen.shifts_congr
  case hx =>
    simp only [generate_js_struct_reader, Gen.bind_def, Gen.pure_def]
    (repeat' (first
          | exact Gen.shifts_for_each _ (fun f => shifts_struct_reader_case g f) _
          | exact Gen.shifts_emit _
          | exact Gen.shifts_pure _
          | exact Gen.shifts_indent_up
          | exact Gen.shifts_indent_down
          | exact Gen.shifts_scope_down
          | exact Gen.shifts_lift _
          | exact Gen.shifts_throw _ 0
          | exact Gen.shifts_tmp _ _
          | exact Gen.shifts_indent _
          | exact shifts_ts_indent _
          | exact shifts_ts_print_doc _ _
          | exact shifts_render_const_value _ _ _
          | apply Gen.shifts_bind
          | apply Gen.shifts_ite
          | intro _))
  case h => first | rfl | omega | (split_ifs <;> omega)

theorem shifts_struct_writer_field (g : t_js_generator) (f : t_field) :
    Gen.shifts (g.generate_js_struct_writer_field f) 0 := by
  apply Gen.shifts_congr
  case hx =>
    simp only [generate_js_struct_writer_field, Gen.bind_def, Gen.pure_def]
    (repeat' (first
          | exact shifts_serialize _ _ _
          | exact Gen.shifts_emit _
          | exact Gen.shifts_pure _
          | exact Gen.shifts_indent_up
          | exact Gen.shifts_indent_down
          | exact Gen.shifts_scope_down
          | exact Gen.shifts_lift _
          | exact Gen.shifts_throw _ 0
          | exact Gen.shifts_tmp _ _
          | exact Gen.shifts_indent _
          | exact shifts_ts_indent _
          | exact shifts_ts_print_doc _ _
          | exact shifts_render_const_value _ _ _
          | apply Gen.shifts_bind
          | apply Gen.shifts_ite
          | intro _))
  case h => first | rfl | omega | (split_ifs <;> omega)

theorem shifts_struct_writer (g : t_js_generator) (tstruct : t_struct) :
    Gen.shifts (g.generate_js_struct_writer tstruct) 0 := by
  apply Gen.shifts_congr
  case hx =>
    simp only [generate_js_struct_writer, Gen.bind_def, Gen.pure_def]
    (repeat' (first
          | exact Gen.shifts_for_each _ (fun f => shifts_struct_writer_field g f) _
          | exact Gen.shifts_emit _
          | exact Gen.shifts_pure _
          | exact Gen.shifts_indent_up
          | exact Gen.shifts_indent_down
          | exact Gen.shifts_scope_down
          | exact Gen.shifts_lift _
          | exact Gen.shifts_throw _ 0
          | exact Gen.shifts_tmp _ _
          | exact Gen.shifts_indent _
          | exact shifts_ts_indent _
          | exact shifts_ts_print_doc _ _
          | exact shifts_render_const_value _ _ _
          | apply Gen.shifts_bind
          | apply Gen.shifts_ite
          | intro _))
  case h => first | rfl | omega | (split_ifs <;> omega)

theorem shifts_definition_member (g : t_js_generator) (is_exception : Bool) (m : t_field) :
    Gen.shifts (g.generate_js_struct_definition_member is_exception m) 0 := by
  simp only [generate_js_struct_definition_member, Gen.bind_def, Gen.pure_def]
  cases hv : m.value with
  | none =>
    simp only
    apply Gen.shifts_congr
    case hx =>
      (repeat' (first
            | exact Gen.shifts_emit _
            | exact Gen.shifts_pure _
            | exact Gen.shifts_indent_up
            | exact Gen.shifts_indent_down
            | exact Gen.shifts_scope_down
            | exact Gen.shifts_lift _
            | exact Gen.shifts_throw _ 0
            | exact Gen.shifts_tmp _ _
            | exact Gen.shifts_indent _
            | exact shifts_ts_indent _
            | exact shifts_ts_print_doc _ _
            | exact shifts_render_const_value _ _ _
            | apply Gen.shifts_bind
            | apply Gen.shifts_ite
            | intro _))
    case h => first | rfl | omega | (split_ifs <;> omega)
  | some value =>
    simp only
    apply Gen.shifts_congr
    case hx =>
      (repeat' (first
            | exact Gen.shifts_emit _
            | exact Gen.shifts_pure _
            | exact Gen.shifts_indent_up
            | exact Gen.shifts_indent_down
            | exact Gen.shifts_scope_down
            | exact Gen.shifts_lift _
            | exact Gen.shifts_throw _ 0
            | exact Gen.shifts_tmp _ _
            | exact Gen.shifts_indent _
            | exact shifts_ts_indent _
            | exact shifts_ts_print_doc _ _
            | exact shifts_render_const_value _ _ _
            | apply Gen.shifts_bind
            | apply Gen.shifts_ite
            | intro _))
    case h => first | rfl | omega | (split_ifs <;> omega)

theorem shifts_definition_default (g : t_js_generator) (m : t_field) :
    Gen.shifts (g.generate_js_struct_definition_default m) 0 := by
  simp only [generate_js_struct_definition_default, Gen.bind_def, Gen.pure_def]
  cases hv : m.value with
  | none => exact Gen.shifts_pure _
  | some value =>
    simp only
    apply Gen.shifts_congr
    case hx =>
      (repeat' (first
            | exact Gen.shifts_emit _
            | exact Gen.shifts_pure _
            | exact Gen.shifts_indent_up
            | exact Gen.shifts_indent_down
            | exact Gen.shifts_scope_down
            | exact Gen.shifts_lift _
            | exact Gen.shifts_throw _ 0
            | exact Gen.shifts_tmp _ _
            | exact Gen.shifts_indent _
            | exact shifts_ts_indent _
            | exact shifts_ts_print_doc _ _
            | exact shifts_render_const_value _ _ _
            | apply Gen.shifts_bind
            | apply Gen.shifts_ite
            | intro _))
    case h => first | rfl | omega | (split_ifs <;> omega)

theorem shifts_definition_guard (g : t_js_generator) (m : t_field) :
    Gen.shifts (g.generate_js_struct_definition_guard m) 0 := by
  intro s _
  rw [definition_guard_out]
  exact (Int.add_zero s.indent_).symm

theorem shifts_definition_arg (g : t_js_generator) (m : t_field) :
    Gen.shifts (g.generate_js_struct_definition_arg m) 0 := by
  apply Gen.shifts_congr
  case hx =>
    simp only [generate_js_struct_definition_arg, Gen.bind_def, Gen.pure_def]
    (repeat' (first
          | exact Gen.shifts_emit _
          | exact Gen.shifts_pure _
          | exact Gen.shifts_indent_up
          | exact Gen.shifts_indent_down
          | exact Gen.shifts_scope_down
          | exact Gen.shifts_lift _
          | exact Gen.shifts_throw _ 0
          | exact Gen.shifts_tmp _ _
          | exact Gen.shifts_indent _
          | exact shifts_ts_indent _
          | exact shifts_ts_print_doc _ _
          | exact shifts_render_const_value _ _ _
          | apply Gen.shifts_bind
          | apply Gen.shifts_ite
          | intro _))
  case h => first | rfl | omega | (split_ifs <;> omega)

theorem shifts_definition_open (g : t_js_generator) (tstruct : t_struct) (is_exception is_exported : Bool) :
    Gen.shifts (g.generate_js_struct_definition_open tstruct is_exception is_exported)
      (if g.gen_es6_ then 2 else 1) := by
  apply Gen.shifts_congr
  case hx =>
    simp only [generate_js_struct_definition_open, Gen.bind_def, Gen.pure_def]
    (repeat' (first
          | exact Gen.shifts_for_each _ (fun m => shifts_definition_member g is_exception m) _
          | exact Gen.shifts_emit _
          | exact Gen.shifts_pure _
          | exact Gen.shifts_indent_up
          | exact Gen.shifts_indent_down
          | exact Gen.shifts_scope_down
          | exact Gen.shifts_lift _
          | exact Gen.shifts_throw _ 0
          | exact Gen.shifts_tmp _ _
          | exact Gen.shifts_indent _
          | exact shifts_ts_indent _
          | exact shifts_ts_print_doc _ _
          | exact shifts_render_const_value _ _ _
          | apply Gen.shifts_bind
          | apply Gen.shifts_ite
          | intro _))
  case h => first | rfl | omega | (split_ifs <;> omega)

theorem shifts_definition_args (g : t_js_generator) (tstruct : t_struct) :
    Gen.shifts (g.generate_js_struct_definition_args tstruct) 0 := by
  apply Gen.shifts_congr
  case hx =>
    simp only [generate_js_struct_definition_args, Gen.bind_def, Gen.pure_def]
    (repeat' (first
          | exact Gen.shifts_for_each _ (fun m => shifts_definition_default g m) _
          | exact Gen.shifts_for_each _ (fun m => shifts_definition_guard g m) _
          | exact Gen.shifts_for_each _ (fun m => shifts_definition_arg g m) _
          | exact Gen.shifts_emit _
          | exact Gen.shifts_pure _
          | exact Gen.shifts_indent_up
          | exact Gen.shifts_indent_down
          | exact Gen.shifts_scope_down
          | exact Gen.shifts_lift _
          | exact Gen.shifts_throw _ 0
          | exact Gen.shifts_tmp _ _
          | exact Gen.shifts_indent _
          | exact shifts_ts_indent _
          | exact shifts_ts_print_doc _ _
          | exact shifts_render_const_value _ _ _
          | apply Gen.shifts_bind
          | apply Gen.shifts_ite
          | intro _))
  case h => first | rfl | omega | (split_ifs <;> omega)

theorem shifts_definition_close (g : t_js_generator) (tstruct : t_struct) (is_exception : Bool) :
    Gen.shifts (g.generate_js_struct_definition_close tstruct is_exception)
      (if g.gen_es6_ then -2 else -1) := by
  apply Gen.shifts_congr
  case hx =>
    simp only [generate_js_struct_definition_close, Gen.bind_def, Gen.pure_def]
    (repeat' (first
          | exact shifts_struct_reader _ _
          | exact shifts_struct_writer _ _
          | exact Gen.shifts_emit _
          | exact Gen.shifts_pure _
          | exact Gen.shifts_indent_up
          | exact Gen.shifts_indent_down
          | exact Gen.shifts_scope_down
          | exact Gen.shifts_lift _
          | exact Gen.shifts_throw _ 0
          | exact Gen.shifts_tmp _ _
          | exact Gen.shifts_indent _
          | exact shifts_ts_indent _
          | exact shifts_ts_print_doc _ _
          | exact shifts_render_const_value _ _ _
          | apply Gen.shifts_bind
          | apply Gen.shifts_ite
          | intro _))
  case h => first | rfl | omega | (split_ifs <;> omega)

theorem shifts_struct_definition (g : t_js_generator) (tstruct : t_struct) (is_exception is_exported : Bool) :
    Gen.shifts (g.generate_js_struct_definition tstruct is_exception is_exported) 0 := by
  apply Gen.shifts_congr
  case hx =>
    simp only [generate_js_struct_definition, Gen.bind_def, Gen.pure_def]
    (repeat' (first
          | exact shifts_definition_open _ _ _ _
          | exact shifts_definition_args _ _
          | exact shifts_definition_close _ _ _
          | exact Gen.shifts_emit _
          | exact Gen.shifts_pure _
          | exact Gen.shifts_indent_up
          | exact Gen.shifts_indent_down
          | exact Gen.shifts_scope_down
          | exact Gen.shifts_lift _
          | exact Gen.shifts_throw _ 0
          | exact Gen.shifts_tmp _ _
          | exact Gen.shifts_indent _
          | exact shifts_ts_indent _
          | exact shifts_ts_print_doc _ _
          | exact shifts_render_const_value _ _ _
          | apply Gen.shifts_bind
          | apply Gen.shifts_ite
          | intro _))
  case h => first | rfl | omega | (split_ifs <;> omega)

theorem shifts_function_helpers (g : t_js_generator) (tfunction : t_function) :
    Gen.shifts (g.generate_js_function_helpers tfunction)
      (0) := by
  apply Gen.shifts_congr
  case hx =>
    simp only [generate_js_function_helpers, Gen.bind_def, Gen.pure_def]
    (repeat' (first
          | exact shifts_struct_definition _ _ _ _
          | exact Gen.shifts_emit _
          | exact Gen.shifts_pure _
          | exact Gen.shifts_indent_up
          | exact Gen.shifts_indent_down
          | exact Gen.shifts_scope_down
          | exact Gen.shifts_lift _
          | exact Gen.shifts_throw _ 0
          | exact Gen.shifts_tmp _ _
          | exact Gen.shifts_indent _
          | exact shifts_ts_indent _
          | exact shifts_ts_print_doc _ _
          | exact shifts_render_const_value _ _ _
          | apply Gen.shifts_bind
          | apply Gen.shifts_ite
          | intro _))
  case h => first | rfl | omega | (split_ifs <;> omega)

theorem shifts_service_helpers_function (g : t_js_generator) (tfunction : t_function) :
    Gen.shifts (g.generate_service_helpers_function tfunction)
      (0) := by
  apply Gen.shifts_congr
  case hx =>
    simp only [generate_service_helpers_function, Gen.bind_def, Gen.pure_def]
    (repeat' (first
          | exact shifts_struct_definition _ _ _ _
          | exact shifts_function_helpers _ _
          | exact Gen.shifts_emit _
          | exact Gen.shifts_pure _
          | exact Gen.shifts_indent_up
          | exact Gen.shifts_indent_down
          | exact Gen.shifts_scope_down
          | exact Gen.shifts_lift _
          | exact Gen.shifts_throw _ 0
          | exact Gen.shifts_tmp _ _
          | exact Gen.shifts_indent _
          | exact shifts_ts_indent _
          | exact shifts_ts_print_doc _ _
          | exact shifts_render_const_value _ _ _
          | apply Gen.shifts_bind
          | apply Gen.shifts_ite
          | intro _))
  case h => first | rfl | omega | (split_ifs <;> omega)

theorem shifts_service_helpers (g : t_js_generator) (tservice : t_service) :
    Gen.shifts (g.generate_service_helpers tservice)
      (0) := by
  apply Gen.shifts_congr
  case hx =>
    simp only [generate_service_helpers, Gen.bind_def, Gen.pure_def]
    (repeat' (first
          | exact Gen.shifts_map_each _ (fun f => shifts_service_helpers_function _ f) _
          | exact Gen.shifts_emit _
          | exact Gen.shifts_pure _
          | exact Gen.shifts_indent_up
          | exact Gen.shifts_indent_down
          | exact Gen.shifts_scope_down
          | exact Gen.shifts_lift _
          | exact Gen.shifts_throw _ 0
          | exact Gen.shifts_tmp _ _
          | exact Gen.shifts_indent _
          | exact shifts_ts_indent _
          | exact shifts_ts_print_doc _ _
          | exact shifts_render_const_value _ _ _
          | apply Gen.shifts_bind
          | apply Gen.shifts_ite
          | intro _))
  case h => first | rfl | omega | (split_ifs <;> omega)

theorem shifts_generate_const (g : t_js_generator) (tconst : t_const) :
    Gen.shifts (g.generate_const tconst)
      (0) := by
  apply Gen.shifts_congr
  case hx =>
    simp only [generate_const, Gen.bind_def, Gen.pure_def]
    (repeat' (first
          | exact Gen.shifts_emit _
          | exact Gen.shifts_pure _
          | exact Gen.shifts_indent_up
          | exact Gen.shifts_indent_down
          | exact Gen.shifts_scope_down
          | exact Gen.shifts_lift _
          | exact Gen.shifts_throw _ 0
          | exact Gen.shifts_tmp _ _
          | exact Gen.shifts_indent _
          | exact shifts_ts_indent _
          | exact shifts_ts_print_doc _ _
          | exact shifts_render_const_value _ _ _
          | apply Gen.shifts_bind
          | apply Gen.shifts_ite
          | intro _))
  case h => first | rfl | omega | (split_ifs <;> omega)

theorem shifts_generate_struct (g : t_js_generator) (tstruct : t_struct) :
    Gen.shifts (g.generate_struct tstruct)
      (0) := by
  apply Gen.shifts_congr
  case hx =>
    simp only [generate_struct, generate_js_struct, Gen.bind_def, Gen.pure_def]
    (repeat' (first
          | exact shifts_struct_definition _ _ _ _
          | exact Gen.shifts_emit _
          | exact Gen.shifts_pure _
          | exact Gen.shifts_indent_up
          | exact Gen.shifts_indent_down
          | exact Gen.shifts_scope_down
          | exact Gen.shifts_lift _
          | exact Gen.shifts_throw _ 0
          | exact Gen.shifts_tmp _ _
          | exact Gen.shifts_indent _
          | exact shifts_ts_indent _
          | exact shifts_ts_print_doc _ _
          | exact shifts_render_const_value _ _ _
          | apply Gen.shifts_bind
          | apply Gen.shifts_ite
          | intro _))
  case h => first | rfl | omega | (split_ifs <;> omega)

theorem shifts_generate_xception (g : t_js_generator) (txception : t_struct) :
    Gen.shifts (g.generate_xception txception)
      (0) := by
  apply Gen.shifts_congr
  case hx =>
    simp only [generate_xception, generate_js_struct, Gen.bind_def, Gen.pure_def]
    (repeat' (first
          | exact shifts_struct_definition _ _ _ _
          | exact Gen.shifts_emit _
          | exact Gen.shifts_pure _
          | exact Gen.shifts_indent_up
          | exact Gen.shifts_indent_down
          | exact Gen.shifts_scope_down
          | exact Gen.shifts_lift _
          | exact Gen.shifts_throw _ 0
          | exact Gen.shifts_tmp _ _
          | exact Gen.shifts_indent _
          | exact shifts_ts_indent _
          | exact shifts_ts_print_doc _ _
          | exact shifts_render_const_value _ _ _
          | apply Gen.shifts_bind
          | apply Gen.shifts_ite
          | intro _))
  case h => first | rfl | omega | (split_ifs <;> omega)

theorem shifts_enum_constants (g : t_js_generator) :
    ∀ constants : List (String × Int), Gen.shifts (g.generate_enum_constants constants) 0
  | [] => Gen.shifts_pure ()
  | c :: rest => by
    have ih := shifts_enum_constants g rest
    apply Gen.shifts_congr
    case hx =>
      simp only [generate_enum_constants, Gen.bind_def, Gen.pure_def]
      (repeat' (first
            | exact ih
            | exact Gen.shifts_emit _
            | exact Gen.shifts_pure _
            | exact Gen.shifts_indent_up
            | exact Gen.shifts_indent_down
            | exact Gen.shifts_scope_down
            | exact Gen.shifts_lift _
            | exact Gen.shifts_throw _ 0
            | exact Gen.shifts_tmp _ _
            | exact Gen.shifts_indent _
            | exact shifts_ts_indent _
            | exact shifts_ts_print_doc _ _
            | exact shifts_render_const_value _ _ _
            | apply Gen.shifts_bind
            | apply Gen.shifts_ite
            | intro _))
    case h => first | rfl | omega | (split_ifs <;> omega)

theorem shifts_generate_enum (g : t_js_generator) (tenum : t_enum) :
    Gen.shifts (g.generate_enum tenum)
      (0) := by
  apply Gen.shifts_congr
  case hx =>
    simp only [generate_enum, Gen.bind_def, Gen.pure_def]
    (repeat' (first
          | exact shifts_enum_constants _ _
          | exact Gen.shifts_emit _
          | exact Gen.shifts_pure _
          | exact Gen.shifts_indent_up
          | exact Gen.shifts_indent_down
          | exact Gen.shifts_scope_down
          | exact Gen.shifts_lift _
          | exact Gen.shifts_throw _ 0
          | exact Gen.shifts_tmp _ _
          | exact Gen.shifts_indent _
          | exact shifts_ts_indent _
          | exact shifts_ts_print_doc _ _
          | exact shifts_render_const_value _ _ _
          | apply Gen.shifts_bind
          | apply Gen.shifts_ite
          | intro _))
  case h => first | rfl | omega | (split_ifs <;> omega)

theorem shifts_promise_args : ∀ fields : List t_field,
    Gen.shifts (generate_process_function_promise_args fields) 0
  | [] => Gen.shifts_pure ()
  | f :: rest =>
    Gen.shifts_congr _ _ _
      (Gen.shifts_bind _ _ 0 0 (Gen.shifts_emit _) (fun _ => shifts_promise_args rest)) rfl

theorem shifts_client_params : ∀ fields : List t_field,
    Gen.shifts (generate_service_client_params fields) 0
  | [] => Gen.shifts_pure ()
  | f :: rest =>
    Gen.shifts_congr _ _ _
      (Gen.shifts_bind _ _ 0 0 (Gen.shifts_emit _) (fun _ => shifts_client_params rest)) rfl

theorem shifts_process_function_promise (g : t_js_generator) (tfunction : t_function) :
    Gen.shifts (g.generate_process_function_promise tfunction)
      (0) := by
  apply Gen.shifts_congr
  case hx =>
    simp only [generate_process_function_promise, Gen.bind_def, Gen.pure_def]
    (repeat' (first
          | exact shifts_promise_args _
          | exact Gen.shifts_emit _
          | exact Gen.shifts_pure _
          | exact Gen.shifts_indent_up
          | exact Gen.shifts_indent_down
          | exact Gen.shifts_scope_down
          | exact Gen.shifts_lift _
          | exact Gen.shifts_throw _ 0
          | exact Gen.shifts_tmp _ _
          | exact Gen.shifts_indent _
          | exact shifts_ts_indent _
          | exact shifts_ts_print_doc _ _
          | exact shifts_render_const_value _ _ _
          | apply Gen.shifts_bind
          | apply Gen.shifts_ite
          | intro _))
  case h => first | rfl | omega | (split_ifs <;> omega)

theorem shifts_process_function_callback (g : t_js_generator) (tfunction : t_function) :
    Gen.shifts (g.generate_process_function_callback tfunction)
      (0) := by
  apply Gen.shifts_congr
  case hx =>
    simp only [generate_process_function_callback, Gen.bind_def, Gen.pure_def]
    (repeat' (first
          | exact Gen.shifts_emit _
          | exact Gen.shifts_pure _
          | exact Gen.shifts_indent_up
          | exact Gen.shifts_indent_down
          | exact Gen.shifts_scope_down
          | exact Gen.shifts_lift _
          | exact Gen.shifts_throw _ 0
          | exact Gen.shifts_tmp _ _
          | exact Gen.shifts_indent _
          | exact shifts_ts_indent _
          | exact shifts_ts_print_doc _ _
          | exact shifts_render_const_value _ _ _
          | apply Gen.shifts_bind
          | apply Gen.shifts_ite
          | intro _))
  case h => first | rfl | omega | (split_ifs <;> omega)

theorem shifts_process_function (g : t_js_generator) (tservice : t_service) (tfunction : t_function) :
    Gen.shifts (g.generate_process_function tservice tfunction)
      (0) := by
  apply Gen.shifts_congr
  case hx =>
    simp only [generate_process_function, Gen.bind_def, Gen.pure_def]
    (repeat' (first
          | exact shifts_process_function_promise _ _
          | exact shifts_process_function_callback _ _
          | exact Gen.shifts_emit _
          | exact Gen.shifts_pure _
          | exact Gen.shifts_indent_up
          | exact Gen.shifts_indent_down
          | exact Gen.shifts_scope_down
          | exact Gen.shifts_lift _
          | exact Gen.shifts_throw _ 0
          | exact Gen.shifts_tmp _ _
          | exact Gen.shifts_indent _
          | exact shifts_ts_indent _
          | exact shifts_ts_print_doc _ _
          | exact shifts_render_const_value _ _ _
          | apply Gen.shifts_bind
          | apply Gen.shifts_ite
          | intro _))
  case h => first | rfl | omega | (split_ifs <;> omega)

theorem shifts_service_processor (g : t_js_generator) (tservice : t_service) :
    Gen.shifts (g.generate_service_processor tservice)
      (0) := by
  apply Gen.shifts_congr
  case hx =>
    simp only [generate_service_processor, Gen.bind_def, Gen.pure_def]
    (repeat' (first
          | exact Gen.shifts_for_each _ (fun f => shifts_process_function g tservice f) _
          | exact Gen.shifts_emit _
          | exact Gen.shifts_pure _
          | exact Gen.shifts_indent_up
          | exact Gen.shifts_indent_down
          | exact Gen.shifts_scope_down
          | exact Gen.shifts_lift _
          | exact Gen.shifts_throw _ 0
          | exact Gen.shifts_tmp _ _
          | exact Gen.shifts_indent _
          | exact shifts_ts_indent _
          | exact shifts_ts_print_doc _ _
          | exact shifts_render_const_value _ _ _
          | apply Gen.shifts_bind
          | apply Gen.shifts_ite
          | intro _))
  case h => first | rfl | omega | (split_ifs <;> omega)

theorem shifts_client_open (g : t_js_generator) (tservice : t_service) :
    Gen.shifts (g.generate_service_client_open tservice)
      (if g.gen_es6_ then 1 else 0) := by
  apply Gen.shifts_congr
  case hx =>
    simp only [generate_service_client_open, Gen.bind_def, Gen.pure_def]
    (repeat' (first
          | exact Gen.shifts_emit _
          | exact Gen.shifts_pure _
          | exact Gen.shifts_indent_up
          | exact Gen.shifts_indent_down
          | exact Gen.shifts_scope_down
          | exact Gen.shifts_lift _
          | exact Gen.shifts_throw _ 0
          | exact Gen.shifts_tmp _ _
          | exact Gen.shifts_indent _
          | exact shifts_ts_indent _
          | exact shifts_ts_print_doc _ _
          | exact shifts_render_const_value _ _ _
          | apply Gen.shifts_bind
          | apply Gen.shifts_ite
          | intro _))
  case h => first | rfl | omega | (split_ifs <;> omega)

theorem shifts_client_call_body (g : t_js_generator) (tfunction : t_function) :
    Gen.shifts (g.generate_service_client_call_body tfunction)
      (0) := by
  apply Gen.shifts_congr
  case hx =>
    simp only [generate_service_client_call_body, Gen.bind_def, Gen.pure_def]
    (repeat' (first
          | exact Gen.shifts_emit _
          | exact Gen.shifts_pure _
          | exact Gen.shifts_indent_up
          | exact Gen.shifts_indent_down
          | exact Gen.shifts_scope_down
          | exact Gen.shifts_lift _
          | exact Gen.shifts_throw _ 0
          | exact Gen.shifts_tmp _ _
          | exact Gen.shifts_indent _
          | exact shifts_ts_indent _
          | exact shifts_ts_print_doc _ _
          | exact shifts_render_const_value _ _ _
          | apply Gen.shifts_bind
          | apply Gen.shifts_ite
          | intro _))
  case h => first | rfl | omega | (split_ifs <;> omega)

theorem shifts_client_call (g : t_js_generator) (tservice : t_service) (tfunction : t_function) :
    Gen.shifts (g.generate_service_client_call tservice tfunction)
      (0) := by
  apply Gen.shifts_congr
  case hx =>
    simp only [generate_service_client_call, Gen.bind_def, Gen.pure_def]
    (repeat' (first
          | exact shifts_client_call_body _ _
          | exact Gen.shifts_emit _
          | exact Gen.shifts_pure _
          | exact Gen.shifts_indent_up
          | exact Gen.shifts_indent_down
          | exact Gen.shifts_scope_down
          | exact Gen.shifts_lift _
          | exact Gen.shifts_throw _ 0
          | exact Gen.shifts_tmp _ _
          | exact Gen.shifts_indent _
          | exact shifts_ts_indent _
          | exact shifts_ts_print_doc _ _
          | exact shifts_render_const_value _ _ _
          | apply Gen.shifts_bind
          | apply Gen.shifts_ite
          | intro _))
  case h => first | rfl | omega | (split_ifs <;> omega)

theorem shifts_client_send_flush (g : t_js_generator) (tfunction : t_function) :
    Gen.shifts (g.generate_service_client_send_flush tfunction)
      (0) := by
  apply Gen.shifts_congr
  case hx =>
    simp only [generate_service_client_send_flush, Gen.bind_def, Gen.pure_def]
    (repeat' (first
          | exact Gen.shifts_emit _
          | exact Gen.shifts_pure _
          | exact Gen.shifts_indent_up
          | exact Gen.shifts_indent_down
          | exact Gen.shifts_scope_down
          | exact Gen.shifts_lift _
          | exact Gen.shifts_throw _ 0
          | exact Gen.shifts_tmp _ _
          | exact Gen.shifts_indent _
          | exact shifts_ts_indent _
          | exact shifts_ts_print_doc _ _
          | exact shifts_render_const_value _ _ _
          | apply Gen.shifts_bind
          | apply Gen.shifts_ite
          | intro _))
  case h => first | rfl | omega | (split_ifs <;> omega)

theorem shifts_client_send (g : t_js_generator) (tservice : t_service) (tfunction : t_function) :
    Gen.shifts (g.generate_service_client_send tservice tfunction)
      (0) := by
  apply Gen.shifts_congr
  case hx =>
    simp only [generate_service_client_send, Gen.bind_def, Gen.pure_def]
    (repeat' (first
          | exact shifts_client_params _
          | exact shifts_client_send_flush _ _
          | exact Gen.shifts_emit _
          | exact Gen.shifts_pure _
          | exact Gen.shifts_indent_up
          | exact Gen.shifts_indent_down
          | exact Gen.shifts_scope_down
          | exact Gen.shifts_lift _
          | exact Gen.shifts_throw _ 0
          | exact Gen.shifts_tmp _ _
          | exact Gen.shifts_indent _
          | exact shifts_ts_indent _
          | exact shifts_ts_print_doc _ _
          | exact shifts_render_const_value _ _ _
          | apply Gen.shifts_bind
          | apply Gen.shifts_ite
          | intro _))
  case h => first | rfl | omega | (split_ifs <;> omega)

theorem shifts_client_recv_xceptions (g : t_js_generator) (xceptions : List t_field) :
    Gen.shifts (g.generate_service_client_recv_xceptions xceptions)
      (0) := by
  apply Gen.shifts_congr
  case hx =>
    simp only [generate_service_client_recv_xceptions, Gen.bind_def, Gen.pure_def]
    (repeat' (first
          | exact Gen.shifts_for_each _ (fun _ => Gen.shifts_emit _) _
          | exact Gen.shifts_emit _
          | exact Gen.shifts_pure _
          | exact Gen.shifts_indent_up
          | exact Gen.shifts_indent_down
          | exact Gen.shifts_scope_down
          | exact Gen.shifts_lift _
          | exact Gen.shifts_throw _ 0
          | exact Gen.shifts_tmp _ _
          | exact Gen.shifts_indent _
          | exact shifts_ts_indent _
          | exact shifts_ts_print_doc _ _
          | exact shifts_render_const_value _ _ _
          | apply Gen.shifts_bind
          | apply Gen.shifts_ite
          | intro _))
  case h => first | rfl | omega | (split_ifs <;> omega)

theorem shifts_client_recv (g : t_js_generator) (tservice : t_service) (tfunction : t_function) :
    Gen.shifts (g.generate_service_client_recv tservice tfunction)
      (0) := by
  apply Gen.shifts_congr
  case hx =>
    simp only [generate_service_client_recv, Gen.bind_def, Gen.pure_def]
    (repeat' (first
          | exact shifts_client_recv_xceptions _ _
          | exact Gen.shifts_emit _
          | exact Gen.shifts_pure _
          | exact Gen.shifts_indent_up
          | exact Gen.shifts_indent_down
          | exact Gen.shifts_scope_down
          | exact Gen.shifts_lift _
          | exact Gen.shifts_throw _ 0
          | exact Gen.shifts_tmp _ _
          | exact Gen.shifts_indent _
          | exact shifts_ts_indent _
          | exact shifts_ts_print_doc _ _
          | exact shifts_render_const_value _ _ _
          | apply Gen.shifts_bind
          | apply Gen.shifts_ite
          | intro _))
  case h => first | rfl | omega | (split_ifs <;> omega)

theorem shifts_client_function (g : t_js_generator) (tservice : t_service) (tfunction : t_function) :
    Gen.shifts (g.generate_service_client_function tservice tfunction)
      (0) := by
  apply Gen.shifts_congr
  case hx =>
    simp only [generate_service_client_function, Gen.bind_def, Gen.pure_def]
    (repeat' (first
          | exact shifts_client_call _ _ _
          | exact shifts_client_send _ _ _
          | exact shifts_client_recv _ _ _
          | exact Gen.shifts_emit _
          | exact Gen.shifts_pure _
          | exact Gen.shifts_indent_up
          | exact Gen.shifts_indent_down
          | exact Gen.shifts_scope_down
          | exact Gen.shifts_lift _
          | exact Gen.shifts_throw _ 0
          | exact Gen.shifts_tmp _ _
          | exact Gen.shifts_indent _
          | exact shifts_ts_indent _
          | exact shifts_ts_print_doc _ _
          | exact shifts_render_const_value _ _ _
          | apply Gen.shifts_bind
          | apply Gen.shifts_ite
          | intro _))
  case h => first | rfl | omega | (split_ifs <;> omega)

theorem shifts_client_close (g : t_js_generator) (tservice : t_service) :
    Gen.shifts (g.generate_service_client_close tservice)
      (if g.gen_es6_ then -1 else 0) := by
  apply Gen.shifts_congr
  case hx =>
    simp only [generate_service_client_close, Gen.bind_def, Gen.pure_def]
    (repeat' (first
          | exact Gen.shifts_emit _
          | exact Gen.shifts_pure _
          | exact Gen.shifts_indent_up
          | exact Gen.shifts_indent_down
          | exact Gen.shifts_scope_down
          | exact Gen.shifts_lift _
          | exact Gen.shifts_throw _ 0
          | exact Gen.shifts_tmp _ _
          | exact Gen.shifts_indent _
          | exact shifts_ts_indent _
          | exact shifts_ts_print_doc _ _
          | exact shifts_render_const_value _ _ _
          | apply Gen.shifts_bind
          | apply Gen.shifts_ite
          | intro _))
  case h => first | rfl | omega | (split_ifs <;> omega)

theorem shifts_service_client (g : t_js_generator) (tservice : t_service) :
    Gen.shifts (g.generate_service_client tservice)
      (0) := by
  apply Gen.shifts_congr
  case hx =>
    simp only [generate_service_client, Gen.bind_def, Gen.pure_def]
    (repeat' (first
          | exact shifts_client_open _ _
          | exact Gen.shifts_for_each _ (fun f => shifts_client_function g tservice f) _
          | exact shifts_client_close _ _
          | exact Gen.shifts_emit _
          | exact Gen.shifts_pure _
          | exact Gen.shifts_indent_up
          | exact Gen.shifts_indent_down
          | exact Gen.shifts_scope_down
          | exact Gen.shifts_lift _
          | exact Gen.shifts_throw _ 0
          | exact Gen.shifts_tmp _ _
          | exact Gen.shifts_indent _
          | exact shifts_ts_indent _
          | exact shifts_ts_print_doc _ _
          | exact shifts_render_const_value _ _ _
          | apply Gen.shifts_bind
          | apply Gen.shifts_ite
          | intro _))
  case h => first | rfl | omega | (split_ifs <;> omega)

theorem Gen.values_pure {α : Type} (a : α) (P : α → Prop) (h : P a) :
    Gen.values (Gen.pure a) P := by
  intro s b hb
  cases hb
  exact h

theorem Gen.values_bind {α β : Type} (x : Gen α) (f : α → Gen β) (P : β → Prop)
    (hf : ∀ a, Gen.values (f a) P) : Gen.values (Gen.bind x f) P := by
  intro s b hb
  cases hr : (x s).result with
  | error e =>
    rw [Gen.bind_error x f s e hr] at hb
    cases hb
  | ok a =>
    rw [Gen.bind_ok x f s a hr] at hb
    exact hf a (x s).state b hb

theorem Gen.values_ite {α : Type} (c : Prop) [Decidable c] (x y : Gen α) (P : α → Prop)
    (hx : Gen.values x P) (hy : Gen.values y P) : Gen.values (if c then x else y) P := by
  split
  · exact hx
  · exact hy

theorem render_ts_includes_fold (g : t_js_generator) (files : file_settings) :
    ∀ (includes : List (t_program × Bool)) (r : String × t_js_generator),
      same_dialect (includes.foldl (fun (r : String × t_js_generator) included =>
        let include_name := make_valid_nodeJs_identifier included.1.name ++ "_ttypes"
        let table := r.2.include_2_import_name
        (r.1 ++ ("import " ++ include_name ++ " = require('"
            ++ g.get_import_path files included.1 included.2 ++ "');\n"),
          { r.2 with include_2_import_name := fun p =>
              match table p with
              | some name => some name
              | none => if p = included.1 then some include_name else none })) r).2 r.2 := by
  intro includes
  induction includes with
  | nil => intro r; exact ⟨rfl, rfl, rfl⟩
  | cons a rest ih =>
    intro r
    rw [List.foldl_cons]
    exact ih _

theorem render_ts_includes_dialect (g : t_js_generator) (files : file_settings)
    (contents : program_contents) :
    same_dialect (g.render_ts_includes files contents).2 g := by
  unfold render_ts_includes
  simp only
  split
  · exact ⟨rfl, rfl, rfl⟩
  · split
    · exact render_ts_includes_fold g files contents.includes ("", g)
    · exact render_ts_includes_fold g files contents.includes ("", g)

theorem shifts_service_ts_alias (g : t_js_generator) (name : String) :
    Gen.shifts (g.generate_service_ts_alias name)
      (0) := by
  apply Gen.shifts_congr
  case hx =>
    simp only [generate_service_ts_alias, Gen.bind_def, Gen.pure_def]
    (repeat' (first
          | exact Gen.shifts_emit _
          | exact Gen.shifts_pure _
          | exact Gen.shifts_indent_up
          | exact Gen.shifts_indent_down
          | exact Gen.shifts_scope_down
          | exact Gen.shifts_lift _
          | exact Gen.shifts_throw _ 0
          | exact Gen.shifts_tmp _ _
          | exact Gen.shifts_indent _
          | exact shifts_ts_indent _
          | exact shifts_ts_print_doc _ _
          | exact shifts_render_const_value _ _ _
          | apply Gen.shifts_bind
          | apply Gen.shifts_ite
          | intro _))
  case h => first | rfl | omega | (split_ifs <;> omega)

theorem shifts_service_ts_module_open (g : t_js_generator) :
    Gen.shifts (g.generate_service_ts_module_open)
      (ts_module_open_shift g) := by
  apply Gen.shifts_congr
  case hx =>
    simp only [generate_service_ts_module_open, Gen.bind_def, Gen.pure_def]
    (repeat' (first
          | exact Gen.shifts_emit _
          | exact Gen.shifts_pure _
          | exact Gen.shifts_indent_up
          | exact Gen.shifts_indent_down
          | exact Gen.shifts_scope_down
          | exact Gen.shifts_lift _
          | exact Gen.shifts_throw _ 0
          | exact Gen.shifts_tmp _ _
          | exact Gen.shifts_indent _
          | exact shifts_ts_indent _
          | exact shifts_ts_print_doc _ _
          | exact shifts_render_const_value _ _ _
          | apply Gen.shifts_bind
          | apply Gen.shifts_ite
          | intro _))
  case h => first | (simp only [ts_module_open_shift]; split_ifs <;> omega) | rfl | omega | (split_ifs <;> omega)

theorem shifts_service_ts_module_close (g : t_js_generator) :
    Gen.shifts (g.generate_service_ts_module_close)
      (ts_module_close_shift g) := by
  apply Gen.shifts_congr
  case hx =>
    simp only [generate_service_ts_module_close, Gen.bind_def, Gen.pure_def]
    (repeat' (first
          | exact Gen.shifts_emit _
          | exact Gen.shifts_pure _
          | exact Gen.shifts_indent_up
          | exact Gen.shifts_indent_down
          | exact Gen.shifts_scope_down
          | exact Gen.shifts_lift _
          | exact Gen.shifts_throw _ 0
          | exact Gen.shifts_tmp _ _
          | exact Gen.shifts_indent _
          | exact shifts_ts_indent _
          | exact shifts_ts_print_doc _ _
          | exact shifts_render_const_value _ _ _
          | apply Gen.shifts_bind
          | apply Gen.shifts_ite
          | intro _))
  case h => first | (simp only [ts_module_close_shift]; split_ifs <;> omega) | rfl | omega | (split_ifs <;> omega)

theorem shifts_service_requires (g : t_js_generator) (tservice : t_service) :
    Gen.shifts (g.generate_service_requires tservice) 0 := by
  cases h : tservice.extends_ <;>
  · apply Gen.shifts_congr
    case hx =>
      simp only [generate_service_requires, h, Gen.bind_def, Gen.pure_def]
      (repeat' (first
        | exact Gen.shifts_emit _
        | exact Gen.shifts_pure _
        | apply Gen.shifts_bind
        | apply Gen.shifts_ite
        | intro _))
    case h => first | rfl | omega | (split_ifs <;> omega)

theorem shifts_service_ts_head (g : t_js_generator) (files : file_settings)
    (contents : program_contents) (version : String) (tservice : t_service) :
    Gen.shifts (g.generate_service_ts_head files contents version tservice)
      (ts_module_open_shift g) := by
  have hd := render_ts_includes_dialect g files contents
  have hs : ts_module_open_shift (g.render_ts_includes files contents).2
      = ts_module_open_shift g := by
    simp only [ts_module_open_shift, hd.2.1, hd.2.2]
  cases h : tservice.extends_ <;>
  · apply Gen.shifts_congr
    case hx =>
      simp only [generate_service_ts_head, h, Gen.bind_def, Gen.pure_def]
      (repeat' (first
        | exact Gen.shifts_emit _
        | exact Gen.shifts_pure _
        | exact shifts_service_ts_module_open _
        | exact Gen.shifts_for_each _ (fun n => shifts_service_ts_alias _ n) _
        | apply Gen.shifts_bind
        | apply Gen.shifts_ite
        | intro _))
    case h =>
      rw [hs]
      first | rfl | omega | (split_ifs <;> omega)

theorem values_service_ts_head (g : t_js_generator) (files : file_settings)
    (contents : program_contents) (version : String) (tservice : t_service) :
    Gen.values (g.generate_service_ts_head files contents version tservice)
      (fun a => same_dialect a g) := by
  have hd := render_ts_includes_dialect g files contents
  simp only [generate_service_ts_head, Gen.bind_def, Gen.pure_def]
  (repeat' (first
    | exact Gen.values_pure _ _ hd
    | apply Gen.values_bind
    | intro _))

theorem values_service_helpers (g : t_js_generator) (tservice : t_service) :
    Gen.values (g.generate_service_helpers tservice) (fun a => same_dialect a.1 g) := by
  simp only [generate_service_helpers, Gen.bind_def, Gen.pure_def]
  (repeat' (first
    | exact Gen.values_pure _ _ ⟨rfl, rfl, rfl⟩
    | apply Gen.values_bind
    | intro _))

theorem shifts_generate_service (g : t_js_generator) (files : file_settings)
    (contents : program_contents) (version : String) (tservice : t_service) :
    Gen.shifts (g.generate_service files contents version tservice) (service_shift g) := by
  simp only [generate_service, generate_service_interface, Gen.bind_def, Gen.pure_def]
  refine Gen.shifts_congr _
    (0 + (0 + (0 + (0 + ((if g.gen_ts_ = true then ts_module_open_shift g else 0)
      + (0 + (0 + ts_module_close_shift g))))))) _ ?_ ?_
  · refine Gen.shifts_bind _ _ 0 _
      (Gen.shifts_congr _ _ _
        (Gen.shifts_ite _ _ _ _ _ (Gen.shifts_emit _) (Gen.shifts_pure _)) (ite_self 0))
      (fun _ => ?_)
    refine Gen.shifts_bind _ _ 0 _ (Gen.shifts_emit _) (fun _ => ?_)
    refine Gen.shifts_bind _ _ 0 _
      (Gen.shifts_congr _ _ _
        (Gen.shifts_ite _ _ _ _ _ (Gen.shifts_emit _) (Gen.shifts_pure _)) (ite_self 0))
      (fun _ => ?_)
    refine Gen.shifts_bind _ _ 0 _ (Gen.shifts_emit _) (fun _ => ?_)
    refine Gen.shifts_bind_value _ _ (fun a => same_dialect a g)
      (if g.gen_ts_ = true then ts_module_open_shift g else 0)
      (0 + (0 + ts_module_close_shift g))
      (Gen.shifts_ite _ _ _ _ _ (shifts_service_ts_head g files contents version tservice)
        (Gen.shifts_pure _))
      (Gen.values_ite _ _ _ _ (values_service_ts_head g files contents version tservice)
        (Gen.values_pure _ _ ⟨rfl, rfl, rfl⟩))
      (fun g1 hg1 => ?_)
    refine Gen.shifts_bind _ _ 0 _
      (Gen.shifts_congr _ _ _
        (Gen.shifts_ite _ _ _ _ _ (shifts_service_requires g1 tservice) (Gen.shifts_pure _))
        (ite_self 0))
      (fun _ => ?_)
    refine Gen.shifts_bind_value _ _ (fun a : t_js_generator × t_service => same_dialect a.1 g1) 0
      (ts_module_close_shift g)
      (shifts_service_helpers _ _) (values_service_helpers _ _) (fun a ha => ?_)
    have hc : ts_module_close_shift a.1 = ts_module_close_shift g := by
      simp only [ts_module_close_shift, ha.1, ha.2.1, ha.2.2, hg1.1, hg1.2.1, hg1.2.2]
    rw [← hc]
    apply Gen.shifts_congr
    case hx =>
      (repeat' (first
        | exact Gen.shifts_pure _
        | exact shifts_service_client _ _
        | exact shifts_service_processor _ _
        | exact shifts_service_ts_module_close _
        | apply Gen.shifts_bind
        | apply Gen.shifts_ite
        | intro _))
    case h => first | rfl | omega | (split_ifs <;> omega)
  · simp only [service_shift, ts_module_open_shift, ts_module_close_shift]
    cases g.gen_ts_ <;> cases g.ts_module_.isEmpty <;> cases g.gen_node_ <;> simp

theorem Gen.emits_true_of_writes {α : Type} (x : Gen α) (L : List Js) (h : Gen.writes x L) :
    Gen.emits (fun _ => true) x :=
  fun s => ⟨(h s).1, fun _ _ => rfl⟩

/-- The rule for a step whose successor reads the value handed on. -/
theorem Gen.emits_bind_value {α β : Type} (P : Js → Bool) (x : Gen α) (f : α → Gen β)
    (Q : α → Prop) (hx : Gen.emits P x) (hQ : Gen.values x Q)
    (hf : ∀ a, Q a → Gen.emits P (f a)) : Gen.emits P (Gen.bind x f) := by
  intro s
  obtain ⟨⟨a, ha⟩, hxl⟩ := hx s
  obtain ⟨⟨b, hb⟩, hfl⟩ := hf a (hQ s a ha) (x s).state
  rw [Gen.bind_ok x f s a ha]
  refine ⟨⟨b, hb⟩, fun l hl => ?_⟩
  rcases List.mem_append.mp hl with h | h
  · exact hxl l h
  · exact hfl l h

theorem returns_client_open (g : t_js_generator) (tservice : t_service) :
    Gen.emits (fun _ => true) (g.generate_service_client_open tservice) := by
  simp only [generate_service_client_open, Gen.bind_def, Gen.pure_def]
  (repeat' (first
    | exact Gen.emits_emit _ _ rfl
    | exact Gen.emits_pure _ _
    | exact Gen.emits_indent_up _
    | exact Gen.emits_indent_down _
    | exact emits_ts_indent _ _
    | exact emits_ts_print_doc _ _ _
    | apply Gen.emits_bind
    | apply Gen.emits_ite
    | intro _))

theorem returns_client_close (g : t_js_generator) (tservice : t_service) :
    Gen.emits (fun _ => true) (g.generate_service_client_close tservice) := by
  simp only [generate_service_client_close, Gen.bind_def, Gen.pure_def]
  (repeat' (first
    | exact Gen.emits_emit _ _ rfl
    | exact Gen.emits_pure _ _
    | exact Gen.emits_indent_up _
    | exact Gen.emits_indent_down _
    | exact emits_ts_indent _ _
    | exact emits_ts_print_doc _ _ _
    | apply Gen.emits_bind
    | apply Gen.emits_ite
    | intro _))

theorem returns_service_client (g : t_js_generator) (tservice : t_service) :
    Gen.emits (fun _ => true) (g.generate_service_client tservice) := by
  simp only [generate_service_client, Gen.bind_def, Gen.pure_def]
  (repeat' (first
    | exact returns_client_open _ _
    | exact returns_client_close _ _
    | exact Gen.emits_for_each _ _ _ (fun f _ => Gen.emits_true_of_writes _ _ (writes_client_function g tservice f))
    | exact Gen.emits_emit _ _ rfl
    | exact Gen.emits_pure _ _
    | exact Gen.emits_indent_up _
    | exact Gen.emits_indent_down _
    | exact emits_ts_indent _ _
    | exact emits_ts_print_doc _ _ _
    | apply Gen.emits_bind
    | apply Gen.emits_ite
    | intro _))

theorem returns_service_ts_module_open (g : t_js_generator) :
    Gen.emits (fun _ => true) (g.generate_service_ts_module_open) := by
  simp only [generate_service_ts_module_open, Gen.bind_def, Gen.pure_def]
  (repeat' (first
    | exact Gen.emits_emit _ _ rfl
    | exact Gen.emits_pure _ _
    | exact Gen.emits_indent_up _
    | exact Gen.emits_indent_down _
    | exact emits_ts_indent _ _
    | exact emits_ts_print_doc _ _ _
    | apply Gen.emits_bind
    | apply Gen.emits_ite
    | intro _))

theorem returns_service_ts_module_close (g : t_js_generator) :
    Gen.emits (fun _ => true) (g.generate_service_ts_module_close) := by
  simp only [generate_service_ts_module_close, Gen.bind_def, Gen.pure_def]
  (repeat' (first
    | exact Gen.emits_emit _ _ rfl
    | exact Gen.emits_pure _ _
    | exact Gen.emits_indent_up _
    | exact Gen.emits_indent_down _
    | exact emits_ts_indent _ _
    | exact emits_ts_print_doc _ _ _
    | apply Gen.emits_bind
    | apply Gen.emits_ite
    | intro _))

theorem returns_service_ts_head (g : t_js_generator) (files : file_settings)
    (contents : program_contents) (version : String) (tservice : t_service) :
    Gen.emits (fun _ => true) (g.generate_service_ts_head files contents version tservice) := by
  cases h : tservice.extends_ <;>
  · simp only [generate_service_ts_head, generate_service_ts_alias, h, Gen.bind_def,
      Gen.pure_def]
    (repeat' (first
      | exact Gen.emits_emit _ _ rfl
      | exact Gen.emits_pure _ _
      | exact returns_service_ts_module_open _
      | exact Gen.emits_for_each _ _ _ (fun _ _ => Gen.emits_emit _ _ rfl)
      | apply Gen.emits_bind
      | apply Gen.emits_ite
      | intro _))

theorem returns_service_requires (g : t_js_generator) (tservice : t_service) :
    Gen.emits (fun _ => true) (g.generate_service_requires tservice) := by
  cases h : tservice.extends_ <;>
  · simp only [generate_service_requires, h, Gen.bind_def, Gen.pure_def]
    (repeat' (first
      | exact Gen.emits_emit _ _ rfl
      | exact Gen.emits_pure _ _
      | apply Gen.emits_bind
      | apply Gen.emits_ite
      | intro _))

theorem returns_service_helpers (g : t_js_generator) (tservice : t_service)
    (h : ∀ f ∈ tservice.functions, function_well_formed { g with gen_ts_ := false } f) :
    Gen.emits (fun _ => true) (g.generate_service_helpers tservice) := by
  intro s
  refine ⟨?_, fun _ _ => rfl⟩
  have hm := fun s => (map_each_helpers_out { g with gen_ts_ := false } tservice.functions s h).1
  simp only [generate_service_helpers, Gen.bind_def, Gen.pure_def, Gen.bind_emit,
    Gen.bind_ok _ _ _ _ (hm _), Gen.pure]
  exact ⟨_, rfl⟩

/-- In a dialect other than node the head of the declaration file hands the
generator back as it was. -/
theorem values_service_ts_head_browser (g : t_js_generator) (files : file_settings)
    (contents : program_contents) (version : String) (tservice : t_service)
    (hn : g.gen_node_ = false) :
    Gen.values (g.generate_service_ts_head files contents version tservice)
      (fun a => a = g) := by
  have hr : (g.render_ts_includes files contents).2 = g := by
    simp only [render_ts_includes, hn, Bool.not_false, if_true]
  simp only [generate_service_ts_head, Gen.bind_def, Gen.pure_def]
  (repeat' (first
    | exact Gen.values_pure _ _ hr
    | apply Gen.values_bind
    | intro _))

/-- In a dialect other than node `generate_service` returns normally for a
service whose functions have argument lists and result structs that can be
defined. -/
theorem returns_generate_service (g : t_js_generator) (files : file_settings)
    (contents : program_contents) (version : String) (tservice : t_service)
    (hn : g.gen_node_ = false)
    (h : ∀ f ∈ tservice.functions, function_well_formed { g with gen_ts_ := false } f) :
    Gen.emits (fun _ => true) (g.generate_service files contents version tservice) := by
  simp only [generate_service, generate_service_interface, Gen.bind_def, Gen.pure_def]
  refine Gen.emits_bind _ _ _
    (Gen.emits_ite _ _ _ _ (Gen.emits_emit _ _ rfl) (Gen.emits_pure _ _)) (fun _ => ?_)
  refine Gen.emits_bind _ _ _ (Gen.emits_emit _ _ rfl) (fun _ => ?_)
  refine Gen.emits_bind _ _ _
    (Gen.emits_ite _ _ _ _ (Gen.emits_emit _ _ rfl) (Gen.emits_pure _ _)) (fun _ => ?_)
  refine Gen.emits_bind _ _ _ (Gen.emits_emit _ _ rfl) (fun _ => ?_)
  refine Gen.emits_bind_value _ _ _ (fun a => a = g)
    (Gen.emits_ite _ _ _ _ (returns_service_ts_head g files contents version tservice)
      (Gen.emits_pure _ _))
    (Gen.values_ite _ _ _ _
      (values_service_ts_head_browser g files contents version tservice hn)
      (Gen.values_pure _ _ rfl))
    (fun g1 hg1 => ?_)
  subst hg1
  refine Gen.emits_bind _ _ _
    (Gen.emits_ite _ _ _ _ (returns_service_requires _ tservice) (Gen.emits_pure _ _))
    (fun _ => ?_)
  refine Gen.emits_bind _ _ _ (returns_service_helpers _ tservice h) (fun a => ?_)
  (repeat' (first
    | exact Gen.emits_pure _ _
    | exact returns_service_client _ _
    | exact Gen.emits_true_of_writes _ _ (writes_service_processor _ _)
    | exact returns_service_ts_module_close _
    | apply Gen.emits_bind
    | apply Gen.emits_ite
    | intro _))

theorem find_function_well_formed :
    ∀ f ∈ catalog_service.functions,
      function_well_formed { declarations_generator with gen_ts_ := false } f := by
  intro f hf
  simp only [catalog_service, List.mem_singleton] at hf
  subst hf
  refine ⟨by decide, ?_, by decide, ?_⟩
  · intro m hm v hv
    simp only [find_function, List.mem_singleton] at hm
    subst hm
    cases hv
  · intro m hm v hv
    simp only [generate_js_function_helpers_result, find_function, t_struct.append,
      t_type.is_void, List.foldl_cons, List.foldl_nil, List.nil_append, List.cons_append,
      Bool.not_false, if_true, List.mem_cons, List.mem_singleton, List.not_mem_nil,
      or_false] at hm
    rcases hm with rfl | rfl <;> cases hv

/-- C38 fails for `generate_service`: with the option `ts` alone (browser
dialect with TypeScript declarations) and a program that declares a js
namespace, the generation of the service `Catalog` returns normally and leaves
the indentation one level above the level at entry, from every state; a second
service generated after it starts one level too deep. -/
theorem generate_service_leaves_indentation_up (files : file_settings)
    (contents : program_contents) (version : String) (s : GenState) :
    (declarations_generator.generate_service files contents version catalog_service s).result
        = .ok ()
      ∧ (declarations_generator.generate_service files contents version catalog_service
          s).state.indent_ = s.indent_ + 1
      ∧ (declarations_generator.generate_service files contents version catalog_service
          (declarations_generator.generate_service files contents version catalog_service
            s).state).state.indent_ = s.indent_ + 2 := by
  have hret := fun s => (returns_generate_service declarations_generator files contents version
    catalog_service rfl find_function_well_formed s).1
  have hshift := shifts_generate_service declarations_generator files contents version
    catalog_service
  have h1 := hshift s (hret s)
  have h2 := hshift (declarations_generator.generate_service files contents version
    catalog_service s).state (hret _)
  have hd : service_shift declarations_generator = 1 := by decide
  rw [hd] at h1 h2
  refine ⟨?_, h1, ?_⟩
  · obtain ⟨a, ha⟩ := hret s
    exact ha
  · rw [h2, h1]
    omega

end ThriftJs
